import Mathlib

/-!
The MessagePack-compatible serializer of ninja (`src/serialize.cc`).

A shallow embedding of `Serializer` and `Deserializer` and of the two
standard streams they are bound to.

* A `char` is modelled by its bit pattern, a natural number below 256.
* `int64_t` values are integers `v` with `-2^63 ≤ v < 2^63`; `uint64_t` and
  `size_t` values are naturals below `2^64`.
* The `ostream` a `Serializer` writes to is the list of bytes written so far.
* The `istream` a `Deserializer` reads from is `IStream`: the character
  sequence, the read position and the `eofbit`/`failbit` state flags.
-/

set_option autoImplicit false

/-! ## Tag constants (`serialize.cc`, lines 22-63) -/

def FIXARRAY : Nat := 0x90
def FIXSTR : Nat := 0xa0
def FALSE : Nat := 0xc2
def TRUE : Nat := 0xc3
def UINT8 : Nat := 0xcc
def UINT16 : Nat := 0xcd
def UINT32 : Nat := 0xce
def UINT64 : Nat := 0xcf
def INT8 : Nat := 0xd0
def INT16 : Nat := 0xd1
def INT32 : Nat := 0xd2
def INT64 : Nat := 0xd3
def STR8 : Nat := 0xd9
def STR16 : Nat := 0xda
def STR32 : Nat := 0xdb
def ARRAY16 : Nat := 0xdc
def ARRAY32 : Nat := 0xdd
def NEG_FIXINT : Nat := 0xe0

def POS_FIXINT_MAX : Int := 0x7f
def NEG_FIXINT_MIN : Int := -0x20
def FIXARRAY_MAX : Nat := 0xf
def FIXSTR_MAX : Nat := 0x1f

/-! ## Limits of `<stdint.h>` -/

def INT8_MIN : Int := -128
def INT8_MAX : Int := 127
def INT16_MIN : Int := -32768
def INT16_MAX : Int := 32767
def INT32_MIN : Int := -2147483648
def INT32_MAX : Int := 2147483647
def INT64_MIN : Int := -9223372036854775808
def INT64_MAX : Int := 9223372036854775807
def UINT8_MAX : Nat := 255
def UINT16_MAX : Nat := 65535
def UINT32_MAX : Nat := 4294967295
def UINT64_MAX : Nat := 18446744073709551615

/-- Conversion of an integer value to an unsigned type of `w` bits
(`static_cast<uintN_t>`, and `static_cast<char>` seen as a bit pattern for
`w = 8`): reduction modulo `2^w`. -/
def castU (w : Nat) (x : Int) : Nat := (x % 2 ^ w).toNat

/-- Conversion of an integer value to a signed type of `w` bits
(`static_cast<intN_t>`): the value congruent modulo `2^w` that lies in
`[-2^(w-1), 2^(w-1))`. -/
def castS (w : Nat) (x : Int) : Int :=
  if x % 2 ^ w < 2 ^ (w - 1) then x % 2 ^ w else x % 2 ^ w - 2 ^ w

/-! ## Encoder -/

/-- The expression `x & 0xff` on a signed 64-bit `x`: the low eight bits of the
two's-complement pattern, which is `x` modulo 256 (`land_0xff_eq` below shows
that this is `Int.land x 0xff`). -/
def and_0xff (x : Int) : Int := x % 256

/-- The function `outBE<int64_t>(v, n)`: `static_cast<char>((v >> (8 * n)) & 0xff)`,
with `>>` the arithmetic shift of a signed value. -/
def outBE_signed (v : Int) (n : Nat) : Nat :=
  castU 8 (and_0xff (v >>> (8 * n)))

/-- The function `outBE<uint64_t>(v, n)` (also `outBE<size_t>`):
`static_cast<char>((v >> (8 * n)) & 0xff)`. -/
def outBE (v : Nat) (n : Nat) : Nat :=
  castU 8 (((v >>> (8 * n)) &&& 0xff : Nat) : Int)

/-- The function `outBE8<int64_t>`: the tag and the eight bytes of `v`, most
significant first, appended to the stream. -/
def outBE8_signed (type : Nat) (out : List Nat) (v : Int) : List Nat :=
  out ++ [castU 8 type, outBE_signed v 7, outBE_signed v 6, outBE_signed v 5,
    outBE_signed v 4, outBE_signed v 3, outBE_signed v 2, outBE_signed v 1,
    outBE_signed v 0]

/-- The function `outBE4<int64_t>`. -/
def outBE4_signed (type : Nat) (out : List Nat) (v : Int) : List Nat :=
  out ++ [castU 8 type, outBE_signed v 3, outBE_signed v 2, outBE_signed v 1,
    outBE_signed v 0]

/-- The function `outBE2<int64_t>`. -/
def outBE2_signed (type : Nat) (out : List Nat) (v : Int) : List Nat :=
  out ++ [castU 8 type, outBE_signed v 1, outBE_signed v 0]

/-- The function `outBE1<int64_t>`. -/
def outBE1_signed (type : Nat) (out : List Nat) (v : Int) : List Nat :=
  out ++ [castU 8 type, outBE_signed v 0]

/-- The function `outBE8<uint64_t>`. -/
def outBE8 (type : Nat) (out : List Nat) (v : Nat) : List Nat :=
  out ++ [castU 8 type, outBE v 7, outBE v 6, outBE v 5, outBE v 4, outBE v 3,
    outBE v 2, outBE v 1, outBE v 0]

/-- The function `outBE4<uint64_t>` (also `outBE4<size_t>`). -/
def outBE4 (type : Nat) (out : List Nat) (v : Nat) : List Nat :=
  out ++ [castU 8 type, outBE v 3, outBE v 2, outBE v 1, outBE v 0]

/-- The function `outBE2<uint64_t>` (also `outBE2<size_t>`). -/
def outBE2 (type : Nat) (out : List Nat) (v : Nat) : List Nat :=
  out ++ [castU 8 type, outBE v 1, outBE v 0]

/-- The function `outBE1<uint64_t>` (also `outBE1<size_t>`). -/
def outBE1 (type : Nat) (out : List Nat) (v : Nat) : List Nat :=
  out ++ [castU 8 type, outBE v 0]

/-- The method `Serializer::Bool`. -/
def Serializer_Bool (out : List Nat) (v : Bool) : List Nat :=
  out ++ [castU 8 (if v then TRUE else FALSE : Nat)]

/-- The method `Serializer::Int`. -/
def Serializer_Int (out : List Nat) (v : Int) : List Nat :=
  if v ≥ NEG_FIXINT_MIN ∧ v ≤ POS_FIXINT_MAX then
    out ++ [castU 8 (and_0xff v)]
  else if v ≥ INT8_MIN ∧ v ≤ INT8_MAX then
    outBE1_signed INT8 out v
  else if v ≥ INT16_MIN ∧ v ≤ INT16_MAX then
    outBE2_signed INT16 out v
  else if v ≥ INT32_MIN ∧ v ≤ INT32_MAX then
    outBE4_signed INT32 out v
  else
    outBE8_signed INT64 out v

/-- The method `Serializer::Uint`. -/
def Serializer_Uint (out : List Nat) (v : Nat) : List Nat :=
  if v ≤ castU 64 POS_FIXINT_MAX then
    out ++ [castU 8 ((v &&& 0xff : Nat) : Int)]
  else if v ≤ UINT8_MAX then
    outBE1 UINT8 out v
  else if v ≤ UINT16_MAX then
    outBE2 UINT16 out v
  else if v ≤ UINT32_MAX then
    outBE4 UINT32 out v
  else
    outBE8 UINT64 out v

/-- The method `Serializer::String(size_t)`: the length header only. -/
def Serializer_String_len (out : List Nat) (s : Nat) : List Nat :=
  if s ≤ FIXSTR_MAX then
    out ++ [castU 8 ((FIXSTR + castU 8 s : Nat) : Int)]
  else if s ≤ UINT8_MAX then
    outBE1 STR8 out s
  else if s ≤ UINT16_MAX then
    outBE2 STR16 out s
  else
    outBE4 STR32 out s

/-- The method `Serializer::String(string)`: the header for `s.length()`, then
the bytes of `s`. -/
def Serializer_String (out : List Nat) (s : List Nat) : List Nat :=
  Serializer_String_len out s.length ++ s

/-- The method `Serializer::Array(size_t)`: the count header only. -/
def Serializer_Array_len (out : List Nat) (s : Nat) : List Nat :=
  if s ≤ FIXARRAY_MAX then
    out ++ [castU 8 ((FIXARRAY + castU 8 s : Nat) : Int)]
  else if s ≤ UINT16_MAX then
    outBE2 ARRAY16 out s
  else
    outBE4 ARRAY32 out s

/-- The method `Serializer::Array(const vector<string>&)`: the header for
`v.size()`, then the loop calling `String` on each element. -/
def Serializer_Array (out : List Nat) (v : List (List Nat)) : List Nat :=
  v.foldl Serializer_String (Serializer_Array_len out v.length)

/-! ## The input stream -/

/-- The `std::istream` a `Deserializer` is bound to (an `istringstream` in the
tests, a pipe in the frontend): the whole character sequence `buf`, the read
position `pos`, and the two state flags the decoder depends on. -/
structure IStream where
  buf : List Nat
  pos : Nat
  eofbit : Bool
  failbit : Bool

/-- The method `istream::good()`: no state flag is set. -/
def IStream.good (s : IStream) : Bool := !s.eofbit && !s.failbit

/-- The method `istream::eof()`. -/
def IStream.eof (s : IStream) : Bool := s.eofbit

/-- The method `istream::get()`: on a stream that is not good the sentry sets
`failbit` and the result is `EOF` (-1); otherwise the next character is
returned as its `unsigned char` value, or, when none is left, `eofbit` and
`failbit` are set and the result is `EOF`. -/
def IStream.get (s : IStream) : Int × IStream :=
  if s.good then
    match s.buf[s.pos]? with
    | some c => (((c % 256 : Nat) : Int), { s with pos := s.pos + 1 })
    | none => (-1, { s with eofbit := true, failbit := true })
  else
    (-1, { s with failbit := true })

/-- The method `istream::read(dst, n)`: on a stream that is not good the sentry
sets `failbit` and `dst` is left as it was; otherwise the available characters,
at most `n`, are stored at the start of `dst`, and when fewer than `n` were
available `eofbit` and `failbit` are set. The result is the new content of
`dst` (whose prior content is the argument) and the new stream state. -/
def IStream.read (s : IStream) (dst : List Nat) (n : Nat) : List Nat × IStream :=
  if s.good then
    let got := (s.buf.drop s.pos).take n
    let s1 := { s with pos := s.pos + got.length }
    (got ++ dst.drop got.length,
      if got.length = n then s1 else { s1 with eofbit := true, failbit := true })
  else
    (dst, { s with failbit := true })

/-! ## Decoder -/

/-- The function `inBE<T>(c, n)` for an unsigned `T` of `w` bits:
`static_cast<T>(static_cast<uint64_t>(static_cast<uint8_t>(c)) << (n * 8))`. -/
def inBE (w : Nat) (c : Nat) (n : Nat) : Nat :=
  castU w ((((c % 256) <<< (n * 8)) % 2 ^ 64 : Nat) : Int)

/-- The struct `Deserializer`. The field `uninit` is not a member of the
struct: it stands for the indeterminate content of the uninitialised local
arrays `char bytes[n]` of `inBE2`, `inBE4` and `inBE8` (element `i` holds
`uninit i`), which is what those functions combine when `read` stores fewer
than `n` characters. -/
structure Deserializer where
  in_ : IStream
  err_message_ : String
  err_ : Bool
  uninit : Nat → Nat

/-- The constructor `Deserializer(istream& in)` on a fresh stream over `bytes`. -/
def Deserializer.new (bytes : List Nat) (uninit : Nat → Nat) : Deserializer :=
  { in_ := { buf := bytes, pos := 0, eofbit := false, failbit := false },
    err_message_ := "", err_ := false, uninit := uninit }

/-- The function `inBE8<T>`; `cast` is `static_cast<T>` from `uint64_t`. -/
def inBE8 {α : Type} (cast : Int → α) (d : Deserializer) : α × Deserializer :=
  let r := d.in_.read ((List.range 8).map d.uninit) 8
  let bytes := r.1
  let v : Nat := castU 64 ((
      inBE 64 (bytes.getD 0 0) 7 |||
      inBE 64 (bytes.getD 1 0) 6 |||
      inBE 64 (bytes.getD 2 0) 5 |||
      inBE 64 (bytes.getD 3 0) 4 |||
      inBE 64 (bytes.getD 4 0) 3 |||
      inBE 64 (bytes.getD 5 0) 2 |||
      inBE 64 (bytes.getD 6 0) 1 |||
      inBE 64 (bytes.getD 7 0) 0 : Nat) : Int)
  (cast v, { d with in_ := r.2 })

/-- The function `inBE4<T>`; `cast` is `static_cast<T>` from `uint32_t`. -/
def inBE4 {α : Type} (cast : Int → α) (d : Deserializer) : α × Deserializer :=
  let r := d.in_.read ((List.range 4).map d.uninit) 4
  let bytes := r.1
  let v : Nat := castU 32 ((
      inBE 32 (bytes.getD 0 0) 3 |||
      inBE 32 (bytes.getD 1 0) 2 |||
      inBE 32 (bytes.getD 2 0) 1 |||
      inBE 32 (bytes.getD 3 0) 0 : Nat) : Int)
  (cast v, { d with in_ := r.2 })

/-- The function `inBE2<T>`; `cast` is `static_cast<T>` from `uint16_t`. -/
def inBE2 {α : Type} (cast : Int → α) (d : Deserializer) : α × Deserializer :=
  let r := d.in_.read ((List.range 2).map d.uninit) 2
  let bytes := r.1
  let v : Nat := castU 16 ((
      inBE 16 (bytes.getD 0 0) 1 |||
      inBE 16 (bytes.getD 1 0) 0 : Nat) : Int)
  (cast v, { d with in_ := r.2 })

/-- The function `inBE1<T>`; `cast` is `static_cast<T>` from `int`. -/
def inBE1 {α : Type} (cast : Int → α) (d : Deserializer) : α × Deserializer :=
  let r := d.in_.get
  (cast r.1, { d with in_ := r.2 })

/-- The method `Deserializer::SetErr`. -/
def Deserializer_SetErr (d : Deserializer) (err : String) : Deserializer :=
  if !d.err_ then { d with err_ := true, err_message_ := err } else d

/-- The method `Deserializer::CheckEOF`. -/
def Deserializer_CheckEOF (d : Deserializer) : Bool × Deserializer :=
  let eof := d.in_.eof
  if eof then (eof, Deserializer_SetErr d "Unexpected EOF while reading")
  else (eof, d)

/-- The method `Deserializer::Type`. -/
def Deserializer_Type (d : Deserializer) : Nat × Deserializer :=
  let r := d.in_.get
  let d1 := { d with in_ := r.2 }
  let d2 := if d1.in_.eof then Deserializer_SetErr d1 "Unexpected EOF while reading type"
    else d1
  (castU 8 r.1, d2)

/-- The method `Deserializer::Bool`. -/
def Deserializer_Bool (d : Deserializer) : Bool × Deserializer :=
  let (type, d) := Deserializer_Type d
  if type = TRUE then (true, d)
  else if type = FALSE then (false, d)
  else (false, Deserializer_SetErr d "unexpected type while reading bool")

/-- The method `Deserializer::Int`. -/
def Deserializer_Int (d : Deserializer) : Int × Deserializer :=
  let (type, d) := Deserializer_Type d
  if (type : Int) ≤ POS_FIXINT_MAX then
    ((type : Int), (Deserializer_CheckEOF d).2)
  else if type ≥ NEG_FIXINT then
    (castS 8 type, (Deserializer_CheckEOF d).2)
  else if type = INT8 then
    let (ret, d) := inBE1 (castS 8) d
    (ret, (Deserializer_CheckEOF d).2)
  else if type = INT16 then
    let (ret, d) := inBE2 (castS 16) d
    (ret, (Deserializer_CheckEOF d).2)
  else if type = INT32 then
    let (ret, d) := inBE4 (castS 32) d
    (ret, (Deserializer_CheckEOF d).2)
  else if type = INT64 then
    let (ret, d) := inBE8 (castS 64) d
    (ret, (Deserializer_CheckEOF d).2)
  else
    (0, Deserializer_SetErr d "unexpected type while reading int")

/-- The method `Deserializer::Uint`. -/
def Deserializer_Uint (d : Deserializer) : Nat × Deserializer :=
  let (type, d) := Deserializer_Type d
  if (type : Int) ≤ POS_FIXINT_MAX then
    (type, (Deserializer_CheckEOF d).2)
  else if type = UINT8 then
    let (ret, d) := inBE1 (castU 8) d
    (ret, (Deserializer_CheckEOF d).2)
  else if type = UINT16 then
    let (ret, d) := inBE2 (castU 16) d
    (ret, (Deserializer_CheckEOF d).2)
  else if type = UINT32 then
    let (ret, d) := inBE4 (castU 32) d
    (ret, (Deserializer_CheckEOF d).2)
  else if type = UINT64 then
    let (ret, d) := inBE8 (castU 64) d
    (ret, (Deserializer_CheckEOF d).2)
  else
    (0, Deserializer_SetErr d "unexpected type while reading uint")

/-- The call `s.resize(len)` on a `std::string`: the first `len` characters are
kept and the string is padded with NUL characters up to length `len`. -/
def string_resize (s : List Nat) (len : Nat) : List Nat :=
  s.take len ++ List.replicate (len - s.length) 0

/-- The tail of `Deserializer::String` once the length is known: `CheckEOF`,
then `resize` and `read`. -/
def Deserializer_String_body (d : Deserializer) (s : List Nat) (len : Nat) :
    List Nat × Deserializer :=
  let (eof, d) := Deserializer_CheckEOF d
  if eof then ([], d)
  else
    let s := string_resize s len
    if len > 0 then
      let r := d.in_.read s s.length
      (r.1, { d with in_ := r.2 })
    else (s, d)

/-- The method `Deserializer::String`; the argument `s` is the prior content of
the output parameter and the first component of the result its new content. -/
def Deserializer_String (d : Deserializer) (s : List Nat) : List Nat × Deserializer :=
  let (type, d) := Deserializer_Type d
  if type ≥ FIXSTR ∧ type ≤ FIXSTR + FIXSTR_MAX then
    Deserializer_String_body d s (type - FIXSTR)
  else if type = STR8 then
    let (len, d) := inBE1 (castU 64) d
    Deserializer_String_body d s len
  else if type = STR16 then
    let (len, d) := inBE2 (castU 64) d
    Deserializer_String_body d s len
  else if type = STR32 then
    let (len, d) := inBE4 (castU 64) d
    Deserializer_String_body d s len
  else
    (s, Deserializer_SetErr d "unexpected type while reading string")

/-- The method `Deserializer::Array`. -/
def Deserializer_Array (d : Deserializer) : Nat × Deserializer :=
  let (type, d) := Deserializer_Type d
  if type ≥ FIXARRAY ∧ type ≤ FIXARRAY + FIXARRAY_MAX then
    (type - FIXARRAY, (Deserializer_CheckEOF d).2)
  else if type = ARRAY16 then
    let (ret, d) := inBE2 (castU 64) d
    (ret, (Deserializer_CheckEOF d).2)
  else if type = ARRAY32 then
    let (ret, d) := inBE4 (castU 64) d
    (ret, (Deserializer_CheckEOF d).2)
  else
    (0, Deserializer_SetErr d "unexpected type while reading array")

/-- The method `Deserializer::Err`; the argument `err` is the prior content of
the output parameter and the second component of the result its new content. -/
def Deserializer_Err (d : Deserializer) (err : String) : Bool × String :=
  (d.err_, if d.err_ then d.err_message_ else err)

/-! ## The loops of `serialize_test.cc` -/

/-- The loop `for (...) d.Bool()`: `n` calls, results in call order. -/
def read_Bools : Nat → Deserializer → List Bool × Deserializer
  | 0, d => ([], d)
  | n + 1, d =>
    let r := Deserializer_Bool d
    let rs := read_Bools n r.2
    (r.1 :: rs.1, rs.2)

/-- The loop `for (...) d.Int()`: `n` calls, results in call order. -/
def read_Ints : Nat → Deserializer → List Int × Deserializer
  | 0, d => ([], d)
  | n + 1, d =>
    let r := Deserializer_Int d
    let rs := read_Ints n r.2
    (r.1 :: rs.1, rs.2)

/-- The loop `for (...) d.Uint()`: `n` calls, results in call order. -/
def read_Uints : Nat → Deserializer → List Nat × Deserializer
  | 0, d => ([], d)
  | n + 1, d =>
    let r := Deserializer_Uint d
    let rs := read_Uints n r.2
    (r.1 :: rs.1, rs.2)

/-- The inner loop of `TEST(Serialize, Array)`: `n` calls of `d.String(str)` on
one variable `str` whose prior content is `s`; the content of `str` after each
call, in call order. -/
def read_Strings : Nat → Deserializer → List Nat → List (List Nat) × Deserializer
  | 0, d, _ => ([], d)
  | n + 1, d, s =>
    let r := Deserializer_String d s
    let rs := read_Strings n r.2 r.1
    (r.1 :: rs.1, rs.2)


/-- The loop of `TEST(Serialize, String)`: `n` calls of `d.String(str)`, each on
a fresh empty `string str`; the content of `str` after each call, in call
order. -/
def read_Strings_fresh : Nat → Deserializer → List (List Nat) × Deserializer
  | 0, d => ([], d)
  | n + 1, d =>
    let r := Deserializer_String d []
    let rs := read_Strings_fresh n r.2
    (r.1 :: rs.1, rs.2)

/-- The loop `for (...) s.Bool(values[i])` on a fresh stream. -/
def write_Bools (vs : List Bool) : List Nat := vs.foldl Serializer_Bool []

/-- The loop `for (...) s.Int(values[i])` on a fresh stream. -/
def write_Ints (vs : List Int) : List Nat := vs.foldl Serializer_Int []

/-- The loop `for (...) s.Uint(values[i])` on a fresh stream. -/
def write_Uints (vs : List Nat) : List Nat := vs.foldl Serializer_Uint []

/-- The loop `for (...) s.String(*it)` on a fresh stream. -/
def write_Strings (vs : List (List Nat)) : List Nat := vs.foldl Serializer_String []

/-- The body of `TEST(Serialize, Int)` on the values `vs`: all values are
written, then a decoder over the bytes written makes one `Int()` call per
value. The result is the list of values read and the final decoder state. -/
def test_Int (vs : List Int) (uninit : Nat → Nat) : List Int × Deserializer :=
  read_Ints vs.length (Deserializer.new (write_Ints vs) uninit)

/-- The body of `TEST(Serialize, Uint)` on the values `vs`. -/
def test_Uint (vs : List Nat) (uninit : Nat → Nat) : List Nat × Deserializer :=
  read_Uints vs.length (Deserializer.new (write_Uints vs) uninit)

/-- The body of `TEST(Serialize, Bool)` on the values `vs`. -/
def test_Bool (vs : List Bool) (uninit : Nat → Nat) : List Bool × Deserializer :=
  read_Bools vs.length (Deserializer.new (write_Bools vs) uninit)

/-- The first block of `TEST(Serialize, String)` on the values `vs`. -/
def test_String (vs : List (List Nat)) (uninit : Nat → Nat) :
    List (List Nat) × Deserializer :=
  read_Strings_fresh vs.length (Deserializer.new (write_Strings vs) uninit)

/-- The first block of `TEST(Serialize, Array)` on one vector `v`: `Array(v)` is
written, the decoder calls `Array()` and then `String()` as many times as
`Array()` returned. The result is the count returned, the strings read and the
final decoder state. -/
def test_Array (v : List (List Nat)) (uninit : Nat → Nat) (s0 : List Nat) :
    Nat × List (List Nat) × Deserializer :=
  let r := Deserializer_Array (Deserializer.new (Serializer_Array [] v) uninit)
  let rs := read_Strings r.1 r.2 s0
  (r.1, rs.1, rs.2)

/-! ## The encodings as the specification words them -/

/-- The `k` low-order bytes of `u` in big-endian order, most significant
first. -/
def big_endian : Nat → Nat → List Nat
  | 0, _ => []
  | k + 1, u => (u / 256 ^ k) % 256 :: big_endian k u

/-- The two's-complement representation of `v` at a width of `w` bits, read as
an unsigned number. -/
def twos_complement (w : Nat) (v : Int) : Nat := (v % 2 ^ w).toNat

/-- The bytes the specification gives for a signed integer: the single byte
`v mod 256` when `-32 ≤ v ≤ 127`, otherwise the tag of the narrowest signed
range of 8, 16, 32 or 64 bits that contains `v`, then `v` in two's complement
at that width, big-endian. -/
def Int_bytes (v : Int) : List Nat :=
  if -32 ≤ v ∧ v ≤ 127 then [(v % 256).toNat]
  else if -2 ^ 7 ≤ v ∧ v < 2 ^ 7 then 0xd0 :: big_endian 1 (twos_complement 8 v)
  else if -2 ^ 15 ≤ v ∧ v < 2 ^ 15 then 0xd1 :: big_endian 2 (twos_complement 16 v)
  else if -2 ^ 31 ≤ v ∧ v < 2 ^ 31 then 0xd2 :: big_endian 4 (twos_complement 32 v)
  else 0xd3 :: big_endian 8 (twos_complement 64 v)

/-- The bytes the specification gives for an unsigned integer. -/
def Uint_bytes (v : Nat) : List Nat :=
  if v ≤ 127 then [v]
  else if v ≤ 255 then [0xcc, v]
  else if v ≤ 65535 then 0xcd :: big_endian 2 v
  else if v ≤ 2 ^ 32 - 1 then 0xce :: big_endian 4 v
  else 0xcf :: big_endian 8 v

/-- The length header the specification gives for a string of `n` bytes. -/
def String_header (n : Nat) : List Nat :=
  if n ≤ 31 then [0xa0 + n]
  else if n ≤ 255 then [0xd9, n]
  else if n ≤ 65535 then 0xda :: big_endian 2 n
  else 0xdb :: big_endian 4 n

/-- The count header the specification gives for an array of `n` elements. -/
def Array_header (n : Nat) : List Nat :=
  if n ≤ 15 then [0x90 + n]
  else if n ≤ 65535 then 0xdc :: big_endian 2 n
  else 0xdd :: big_endian 4 n

/-! ## Sequences of decoder calls and of values -/

/-- One call on a `Deserializer`; a `String` call carries the prior content of
its output argument. -/
inductive DCall where
  | bool : DCall
  | int : DCall
  | uint : DCall
  | string (s : List Nat) : DCall
  | array : DCall

/-- The decoder state after one call; the value the call returns is dropped. -/
def Deserializer_call (d : Deserializer) : DCall → Deserializer
  | .bool => (Deserializer_Bool d).2
  | .int => (Deserializer_Int d).2
  | .uint => (Deserializer_Uint d).2
  | .string s => (Deserializer_String d s).2
  | .array => (Deserializer_Array d).2

/-- The decoder state after a sequence of calls, made in order. -/
def Deserializer_calls (d : Deserializer) (cs : List DCall) : Deserializer :=
  cs.foldl Deserializer_call d

/-- The five kinds of value of the codec; `array` is an array count. -/
inductive Kind where
  | bool : Kind
  | int : Kind
  | uint : Kind
  | string : Kind
  | array : Kind
  deriving DecidableEq

/-- A value handed to the `Serializer`: a `bool`, an `int64_t`, a `uint64_t`, a
`string`, or the `size_t` count of `Array(size_t)`. -/
inductive Value where
  | bool (b : Bool) : Value
  | int (v : Int) : Value
  | uint (v : Nat) : Value
  | string (s : List Nat) : Value
  | array (n : Nat) : Value

/-- The kind of a value. -/
def Value.kind : Value → Kind
  | .bool _ => .bool
  | .int _ => .int
  | .uint _ => .uint
  | .string _ => .string
  | .array _ => .array

/-- The kind of value a decoder call reads. -/
def DCall.kind : DCall → Kind
  | .bool => .bool
  | .int => .int
  | .uint => .uint
  | .string _ => .string
  | .array => .array

/-- The value is in the range of its C++ type. -/
def Value.in_range : Value → Prop
  | .bool _ => True
  | .int v => INT64_MIN ≤ v ∧ v ≤ INT64_MAX
  | .uint v => v ≤ UINT64_MAX
  | .string s => s.length ≤ UINT64_MAX
  | .array n => n ≤ UINT64_MAX

instance (x : Value) : Decidable x.in_range := by
  cases x <;> unfold Value.in_range <;> infer_instance

/-- A string value is shorter than 2^32 bytes, the lengths that the four length
bytes of a STR32 header can carry; nothing is asked of the other kinds. -/
def Value.short : Value → Prop
  | .string s => s.length < 2 ^ 32
  | _ => True

instance (x : Value) : Decidable x.short := by
  cases x <;> unfold Value.short <;> infer_instance

/-- The `Serializer` call that writes one value. -/
def Serializer_value (out : List Nat) : Value → List Nat
  | .bool b => Serializer_Bool out b
  | .int v => Serializer_Int out v
  | .uint v => Serializer_Uint out v
  | .string s => Serializer_String out s
  | .array n => Serializer_Array_len out n

/-- The bytes written for a sequence of values on a fresh stream. -/
def write_values (vs : List Value) : List Nat := vs.foldl Serializer_value []

/-! ## The status stream (`status.cc`) -/

/-- The stream buffer `ofilebuf` of `filebuf.h` under the `ostream` of a
`Serializer(int fd)`: `size` is the size of `buffer_` (`BUFSIZ`), `pending` the
characters of the put area between `pbase()` and `pptr()`, and `written` the
characters handed to `fwrite` on the unbuffered `FILE`, that is, to the pipe. -/
structure OFileBuf where
  size : Nat
  pending : List Nat
  written : List Nat

/-- The method `ofilebuf::sync()`: `fwrite` of the put area, then `pbump(-ret)`.
The `fwrite` call is taken to write all the characters it is given. -/
def OFileBuf.sync (b : OFileBuf) : OFileBuf :=
  { b with written := b.written ++ b.pending, pending := [] }

/-- The method `streambuf::sputc(c)` on an `ofilebuf`: the put area set by
`setp(buf, buf + buffer_.size() - 1)` takes the character while it has room;
otherwise `overflow(c)` stores it in the last element of `buffer_` and calls
`sync()`. -/
def OFileBuf.sputc (b : OFileBuf) (c : Nat) : OFileBuf :=
  if b.pending.length < b.size - 1 then { b with pending := b.pending ++ [c] }
  else OFileBuf.sync { b with pending := b.pending ++ [c] }

/-- The method `streambuf::xsputn`: the characters are put one after the
other. -/
def OFileBuf.xsputn (b : OFileBuf) (cs : List Nat) : OFileBuf :=
  cs.foldl OFileBuf.sputc b

/-- One call on the `Serializer` of a `StatusSerializer`; `array` is
`Array(size_t)` and `flush` is `Flush()`. -/
inductive SerCall where
  | bool (v : Bool) : SerCall
  | int (v : Int) : SerCall
  | uint (v : Nat) : SerCall
  | string (s : List Nat) : SerCall
  | array (n : Nat) : SerCall
  | flush : SerCall

/-- The characters a `Serializer` call sends to its `ostream`. -/
def SerCall.bytes : SerCall → List Nat
  | .bool v => Serializer_Bool [] v
  | .int v => Serializer_Int [] v
  | .uint v => Serializer_Uint [] v
  | .string s => Serializer_String [] s
  | .array n => Serializer_Array_len [] n
  | .flush => []

/-- The characters a sequence of `Serializer` calls sends to its `ostream`. -/
def SerCall.all_bytes (cs : List SerCall) : List Nat :=
  (cs.map SerCall.bytes).flatten

/-- The effect of one `Serializer` call on the `ofilebuf` under its `ostream`:
`Flush()` is `out_->flush()`, which calls `sync()`; every other call puts its
characters. -/
def Serializer_call (b : OFileBuf) : SerCall → OFileBuf
  | .flush => b.sync
  | c => b.xsputn c.bytes

/-- The effect of a sequence of `Serializer` calls, made in order. -/
def Serializer_calls (b : OFileBuf) (cs : List SerCall) : OFileBuf :=
  cs.foldl Serializer_call b

/-- Modelled from the spec: the constants of `status.h`, which is not among the
sources: the magic value of the header message and the discriminants of the
event messages, each an unsigned value handed to `Serializer::Uint`. -/
structure Discriminants where
  kHeader : Nat
  kTotalEdges : Nat
  kEdgeStarted : Nat
  kEdgeFinished : Nat
  kBuildStarted : Nat
  kBuildFinished : Nat
  kNinjaInfo : Nat
  kNinjaWarning : Nat
  kNinjaError : Nat

/-- Modelled from the spec: the build edge of `graph.h`, which is not among the
sources, as `status.cc` reads it: a numeric identifier `id_`, the paths of the
nodes of `inputs_` and of `outputs_` in order, the bindings `description` and
`command`, and the flag `use_console()`. -/
structure Edge where
  id_ : Int
  inputs_ : List (List Nat)
  outputs_ : List (List Nat)
  description : List Nat
  command : List Nat
  use_console : Bool

/-- Modelled from the spec: `CommandRunner::Result`, declared outside the
sources: the exit status and the captured output. -/
structure CommandResult where
  status : Int
  output : List Nat

/-- Modelled from the spec: the values of `BuildConfig::verbosity`. -/
inductive Verbosity where
  | NORMAL : Verbosity
  | QUIET : Verbosity
  | VERBOSE : Verbosity
  deriving DecidableEq

/-- Modelled from the spec: the fields of `BuildConfig` that `status.cc` reads. -/
structure BuildConfig where
  verbosity : Verbosity
  parallelism : Int

/-- The `Serializer` calls of the constructor `StatusSerializer::StatusSerializer`. -/
def StatusSerializer_new (k : Discriminants) : List SerCall :=
  [.uint k.kHeader]

/-- The `Serializer` calls of `StatusSerializer::PlanHasTotalEdges(int total)`. -/
def StatusSerializer_PlanHasTotalEdges (k : Discriminants) (total : Int) : List SerCall :=
  [.array 2, .uint k.kTotalEdges, .uint (castU 64 total), .flush]

/-- The `Serializer` calls of `StatusSerializer::BuildEdgeStarted`. -/
def StatusSerializer_BuildEdgeStarted (k : Discriminants) (edge : Edge)
    (start_time_millis : Int) : List SerCall :=
  [.array 8, .uint k.kEdgeStarted, .uint (castU 64 edge.id_),
    .uint (castU 64 start_time_millis), .array edge.inputs_.length]
  ++ edge.inputs_.map SerCall.string
  ++ [.array edge.outputs_.length]
  ++ edge.outputs_.map SerCall.string
  ++ [.string edge.description, .string edge.command, .bool edge.use_console, .flush]

/-- The `Serializer` calls of `StatusSerializer::BuildEdgeFinished`. -/
def StatusSerializer_BuildEdgeFinished (k : Discriminants) (edge : Edge)
    (end_time_millis : Int) (result : CommandResult) : List SerCall :=
  [.array 5, .uint k.kEdgeFinished, .uint (castU 64 edge.id_),
    .uint (castU 64 end_time_millis), .int result.status, .string result.output, .flush]

/-- The `Serializer` calls of `StatusSerializer::BuildStarted`. -/
def StatusSerializer_BuildStarted (k : Discriminants) (config_ : BuildConfig) :
    List SerCall :=
  [.array 3, .uint k.kBuildStarted, .uint (castU 64 config_.parallelism),
    .bool (config_.verbosity == Verbosity.VERBOSE)]

/-- The `Serializer` calls of `StatusSerializer::BuildFinished`. -/
def StatusSerializer_BuildFinished (k : Discriminants) : List SerCall :=
  [.array 1, .uint k.kBuildFinished]

/-- The `Serializer` calls of `StatusSerializer::Message`; `text` is the output
of `vsnprintf` in `buf`, and `String(buf)` takes the characters of `buf` before
its first NUL. -/
def StatusSerializer_Message (type : Nat) (text : List Nat) : List SerCall :=
  [.array 2, .uint type, .string (text.takeWhile (fun c => c != 0)), .flush]

/-- The method `StatusSerializer::Info`. -/
def StatusSerializer_Info (k : Discriminants) (text : List Nat) : List SerCall :=
  StatusSerializer_Message k.kNinjaInfo text

/-- The method `StatusSerializer::Warning`. -/
def StatusSerializer_Warning (k : Discriminants) (text : List Nat) : List SerCall :=
  StatusSerializer_Message k.kNinjaWarning text

/-- The method `StatusSerializer::Error`. -/
def StatusSerializer_Error (k : Discriminants) (text : List Nat) : List SerCall :=
  StatusSerializer_Message k.kNinjaError text

/-! ## Framing and decoding of the event messages, as the specification words them -/

/-- The number of top-level codec values in a sequence of `Serializer` calls.
A bool, an int, a uint or a string is one value; an array header of count `n`
is one value and must be followed by exactly `n` strings, its elements, which
are not counted again; `Flush()` writes no value. The second argument is the
number of elements the array being read still lacks. -/
def count_values : List SerCall → Nat → Option Nat
  | [], 0 => some 0
  | [], _ + 1 => none
  | .string _ :: cs, p + 1 => count_values cs p
  | _ :: _, _ + 1 => none
  | .flush :: cs, 0 => count_values cs 0
  | .array n :: cs, 0 => (count_values cs n).map (fun c => c + 1)
  | _ :: cs, 0 => (count_values cs 0).map (fun c => c + 1)

/-- The frame of a message: when the calls begin with an array header of count
`n` and an unsigned discriminant `k`, and exactly `n` top-level values follow
the header, the discriminant being the first of them, the result is `(n, k)`. -/
def frame : List SerCall → Option (Nat × Nat)
  | .array n :: .uint k :: cs =>
    if count_values (.uint k :: cs) 0 = some n then some (n, k) else none
  | _ => none

/-- The fields read back from an EdgeStarted message: the array count, the
discriminant, the edge id, the start time, the inputs, the outputs, the
description, the command and the console flag. -/
structure EdgeStartedFields where
  count : Nat
  discriminant : Nat
  edge_id : Nat
  start_time_ms : Nat
  inputs : List (List Nat)
  outputs : List (List Nat)
  description : List Nat
  command : List Nat
  use_console : Bool

/-- The decoder calls that read an EdgeStarted message: Array, Uint, Uint, Uint,
Array and that many String, Array and that many String, String, String, Bool. -/
def read_EdgeStarted (d : Deserializer) : EdgeStartedFields × Deserializer :=
  let count := Deserializer_Array d
  let discriminant := Deserializer_Uint count.2
  let edge_id := Deserializer_Uint discriminant.2
  let start_time_ms := Deserializer_Uint edge_id.2
  let n_inputs := Deserializer_Array start_time_ms.2
  let inputs := read_Strings_fresh n_inputs.1 n_inputs.2
  let n_outputs := Deserializer_Array inputs.2
  let outputs := read_Strings_fresh n_outputs.1 n_outputs.2
  let description := Deserializer_String outputs.2 []
  let command := Deserializer_String description.2 []
  let use_console := Deserializer_Bool command.2
  ({ count := count.1, discriminant := discriminant.1, edge_id := edge_id.1,
     start_time_ms := start_time_ms.1, inputs := inputs.1, outputs := outputs.1,
     description := description.1, command := command.1, use_console := use_console.1 },
    use_console.2)

/-- The fields read back from an EdgeFinished message: the array count, the
discriminant, the edge id, the end time, the exit status and the captured
output. -/
structure EdgeFinishedFields where
  count : Nat
  discriminant : Nat
  edge_id : Nat
  end_time_ms : Nat
  exit_status : Int
  captured_output : List Nat

/-- The decoder calls that read an EdgeFinished message: Array, Uint, Uint,
Uint, Int, String. -/
def read_EdgeFinished (d : Deserializer) : EdgeFinishedFields × Deserializer :=
  let count := Deserializer_Array d
  let discriminant := Deserializer_Uint count.2
  let edge_id := Deserializer_Uint discriminant.2
  let end_time_ms := Deserializer_Uint edge_id.2
  let exit_status := Deserializer_Int end_time_ms.2
  let captured_output := Deserializer_String exit_status.2 []
  ({ count := count.1, discriminant := discriminant.1, edge_id := edge_id.1,
     end_time_ms := end_time_ms.1, exit_status := exit_status.1,
     captured_output := captured_output.1 },
    captured_output.2)

/-! ## The status printer (`status.cc`) -/

/-- The least value of an `int` of 32 bits (`limits.h`). -/
def INT_MIN : Int := -2147483648

/-- The greatest value of an `int` of 32 bits (`limits.h`). -/
def INT_MAX : Int := 2147483647

/-- The value of an arithmetic expression of type `int` whose exact result is
`v`: `none` when `v` is not a value of `int`, which is a signed overflow, where
the behaviour is undefined. -/
def int_value (v : Int) : Option Int :=
  if INT_MIN ≤ v ∧ v ≤ INT_MAX then some v else none

/-- The decimal digits of `n`, most significant first, as ASCII characters;
`fuel` bounds the number of digits. -/
def decimal_digits : Nat → Nat → List Nat
  | 0, _ => []
  | fuel + 1, n =>
    if n < 10 then [48 + n] else decimal_digits fuel (n / 10) ++ [48 + n % 10]

/-- The text that the conversions `%d` and `%i` of `printf` give for an `int`:
a minus sign for a negative value, then the decimal digits. -/
def printf_d (v : Int) : List Nat :=
  if v < 0 then 45 :: decimal_digits (v.natAbs + 1) v.natAbs
  else decimal_digits (v.natAbs + 1) v.natAbs

/-- The text of the format `"%3i%%"`: the text of `%i` padded with blanks on
the left to a width of 3, then a percent sign. -/
def printf_3i_percent (v : Int) : List Nat :=
  List.replicate (3 - (printf_d v).length) 32 ++ printf_d v ++ [37]

/-- The call `snprintf(buf, sizeof(buf), ...)` with `char buf[32]`: at most 31
characters of the text are stored in `buf`. -/
def snprintf_buf (text : List Nat) : List Nat := text.take 31

/-- The ways a call can end: it returns a value, it ends in `Fatal` (which
terminates the process) on the placeholder character `c`, it divides an `int`
by zero, or an `int` operation overflows (undefined behaviour). -/
inductive Outcome (α : Type) where
  | ok (a : α) : Outcome α
  | fatal (c : Nat) : Outcome α
  | division_by_zero : Outcome α
  | overflow : Outcome α

/-- The value a call returned, if it returned. -/
def Outcome.returned {α : Type} : Outcome α → Option α
  | .ok a => some a
  | _ => none

/-- The call ended in `Fatal`. -/
def Outcome.is_fatal {α : Type} : Outcome α → Bool
  | .fatal _ => true
  | _ => false

/-- Modelled from the spec: the line-rendering collaborator `LinePrinter` of
`line_printer.h`, which is not among the sources, as far as `status.cc` reads
and sets it: whether the terminal is smart (`is_smart_terminal`,
`set_smart_terminal`) and the console lock (`SetConsoleLocked`). The text
handed to `Print` and `PrintOnNewLine` is not part of the model. -/
structure LinePrinter where
  smart_terminal_ : Bool
  console_locked_ : Bool

/-- Modelled from the spec: the texts that the floating-point placeholders give
in one call of `FormatProgressStatus`: `%o` (`SnprintfRate` of the overall
rate), `%c` (`SnprintfRate` of the rate estimator) and `%e` (`"%.3f"` of the
elapsed seconds). Their computation is floating point and outside the
sources. -/
structure RateTexts where
  overall : List Nat
  current : List Nat
  elapsed : List Nat

/-- The class `StatusPrinter`. The counters are `int`: an operation on them
whose result is not a value of `int` ends the call in `Outcome.overflow`. The
string `progress_status_format_` is held as its characters before the
terminating NUL. -/
structure StatusPrinter where
  config_ : BuildConfig
  started_edges_ : Int
  finished_edges_ : Int
  total_edges_ : Int
  running_edges_ : Int
  time_millis_ : Int
  progress_status_format_ : List Nat
  printer_ : LinePrinter

/-- The constructor `StatusPrinter::StatusPrinter`; `smart_terminal` is the
state of the line printer when it is made and `NINJA_STATUS` the value of
`getenv("NINJA_STATUS")`. -/
def StatusPrinter_new (config : BuildConfig) (smart_terminal : Bool)
    (NINJA_STATUS : Option (List Nat)) : StatusPrinter :=
  { config_ := config,
    started_edges_ := 0, finished_edges_ := 0, total_edges_ := 0, running_edges_ := 0,
    time_millis_ := 0,
    progress_status_format_ :=
      match NINJA_STATUS with
      | some s => s
      | none => [91, 37, 102, 47, 37, 116, 93, 32],
    printer_ :=
      { smart_terminal_ := if config.verbosity ≠ Verbosity.NORMAL then false else smart_terminal,
        console_locked_ := false } }

/-- The method `StatusPrinter::PlanHasTotalEdges`. -/
def StatusPrinter_PlanHasTotalEdges (p : StatusPrinter) (total : Int) : StatusPrinter :=
  { p with total_edges_ := total }

/-- The loop of `StatusPrinter::FormatProgressStatus` over the characters at
`s`, with the text `out` built so far. The end of the list is the terminating
NUL of the C string. -/
def FormatProgressStatus_loop (p : StatusPrinter) (rt : RateTexts) :
    List Nat → List Nat → Outcome (List Nat)
  | [], out => .ok out
  | c :: s, out =>
    if c = 0 then .ok out
    else if c = 37 then
      match s with
      | [] => .fatal 0
      | c2 :: s2 =>
        if c2 = 37 then FormatProgressStatus_loop p rt s2 (out ++ [37])
        else if c2 = 115 then
          FormatProgressStatus_loop p rt s2 (out ++ snprintf_buf (printf_d p.started_edges_))
        else if c2 = 116 then
          FormatProgressStatus_loop p rt s2 (out ++ snprintf_buf (printf_d p.total_edges_))
        else if c2 = 114 then
          FormatProgressStatus_loop p rt s2 (out ++ snprintf_buf (printf_d p.running_edges_))
        else if c2 = 117 then
          match int_value (p.total_edges_ - p.started_edges_) with
          | none => .overflow
          | some unstarted =>
            FormatProgressStatus_loop p rt s2 (out ++ snprintf_buf (printf_d unstarted))
        else if c2 = 102 then
          FormatProgressStatus_loop p rt s2 (out ++ snprintf_buf (printf_d p.finished_edges_))
        else if c2 = 111 then FormatProgressStatus_loop p rt s2 (out ++ rt.overall)
        else if c2 = 99 then FormatProgressStatus_loop p rt s2 (out ++ rt.current)
        else if c2 = 112 then
          match int_value (100 * p.finished_edges_) with
          | none => .overflow
          | some product =>
            if p.total_edges_ = 0 then .division_by_zero
            else
              match int_value (Int.tdiv product p.total_edges_) with
              | none => .overflow
              | some percent =>
                FormatProgressStatus_loop p rt s2
                  (out ++ snprintf_buf (printf_3i_percent percent))
        else if c2 = 101 then FormatProgressStatus_loop p rt s2 (out ++ rt.elapsed)
        else .fatal c2
    else FormatProgressStatus_loop p rt s (out ++ [c])

/-- The method `StatusPrinter::FormatProgressStatus`. -/
def StatusPrinter_FormatProgressStatus (p : StatusPrinter) (rt : RateTexts)
    (progress_status_format : List Nat) (_time_millis : Int) : Outcome (List Nat) :=
  FormatProgressStatus_loop p rt progress_status_format []

/-- The method `StatusPrinter::PrintStatus`. -/
def StatusPrinter_PrintStatus (rt : StatusPrinter → RateTexts) (p : StatusPrinter)
    (_edge : Edge) (time_millis : Int) : Outcome StatusPrinter :=
  if p.config_.verbosity = Verbosity.QUIET then .ok p
  else
    match StatusPrinter_FormatProgressStatus p (rt p) p.progress_status_format_ time_millis with
    | .ok _ => .ok p
    | .fatal c => .fatal c
    | .division_by_zero => .division_by_zero
    | .overflow => .overflow

/-- The call `printer_.SetConsoleLocked(locked)`. -/
def StatusPrinter.SetConsoleLocked (p : StatusPrinter) (locked : Bool) : StatusPrinter :=
  { p with printer_ := { p.printer_ with console_locked_ := locked } }

/-- The method `StatusPrinter::BuildEdgeStarted`. -/
def StatusPrinter_BuildEdgeStarted (rt : StatusPrinter → RateTexts) (p : StatusPrinter)
    (edge : Edge) (start_time_millis : Int) : Outcome StatusPrinter :=
  match int_value (p.started_edges_ + 1) with
  | none => .overflow
  | some started =>
    let p := { p with started_edges_ := started }
    match int_value (p.running_edges_ + 1) with
    | none => .overflow
    | some running =>
      let p := { p with running_edges_ := running }
      let p := { p with time_millis_ := start_time_millis }
      let printed :=
        if edge.use_console || p.printer_.smart_terminal_ then
          StatusPrinter_PrintStatus rt p edge start_time_millis
        else .ok p
      match printed with
      | .ok p => .ok (if edge.use_console then p.SetConsoleLocked true else p)
      | .fatal c => .fatal c
      | .division_by_zero => .division_by_zero
      | .overflow => .overflow

/-- The method `StatusPrinter::BuildEdgeFinished`, up to the last change of the
state; the lines it prints afterwards are not part of the model. -/
def StatusPrinter_BuildEdgeFinished (rt : StatusPrinter → RateTexts) (p : StatusPrinter)
    (edge : Edge) (end_time_millis : Int) (_result : CommandResult) : Outcome StatusPrinter :=
  let p := { p with time_millis_ := end_time_millis }
  match int_value (p.finished_edges_ + 1) with
  | none => .overflow
  | some finished =>
    let p := { p with finished_edges_ := finished }
    let p := if edge.use_console then p.SetConsoleLocked false else p
    if p.config_.verbosity = Verbosity.QUIET then .ok p
    else
      let printed :=
        if !edge.use_console then StatusPrinter_PrintStatus rt p edge end_time_millis
        else .ok p
      match printed with
      | .ok p =>
        match int_value (p.running_edges_ - 1) with
        | none => .overflow
        | some running => .ok { p with running_edges_ := running }
      | .fatal c => .fatal c
      | .division_by_zero => .division_by_zero
      | .overflow => .overflow

/-- The method `StatusPrinter::BuildStarted`. -/
def StatusPrinter_BuildStarted (p : StatusPrinter) : StatusPrinter :=
  { p with started_edges_ := 0, finished_edges_ := 0, running_edges_ := 0 }

/-- The method `StatusPrinter::BuildFinished`. -/
def StatusPrinter_BuildFinished (p : StatusPrinter) : StatusPrinter :=
  p.SetConsoleLocked false

/-- One lifecycle call on a `StatusPrinter`. -/
inductive LifecycleCall where
  | PlanHasTotalEdges (total : Int) : LifecycleCall
  | BuildStarted : LifecycleCall
  | BuildEdgeStarted (edge : Edge) (start_time_millis : Int) : LifecycleCall
  | BuildEdgeFinished (edge : Edge) (end_time_millis : Int) (result : CommandResult) :
      LifecycleCall
  | BuildFinished : LifecycleCall

/-- The effect of one lifecycle call. -/
def StatusPrinter_call (rt : StatusPrinter → RateTexts) (p : StatusPrinter) :
    LifecycleCall → Outcome StatusPrinter
  | .PlanHasTotalEdges total => .ok (StatusPrinter_PlanHasTotalEdges p total)
  | .BuildStarted => .ok (StatusPrinter_BuildStarted p)
  | .BuildEdgeStarted edge t => StatusPrinter_BuildEdgeStarted rt p edge t
  | .BuildEdgeFinished edge t result => StatusPrinter_BuildEdgeFinished rt p edge t result
  | .BuildFinished => .ok (StatusPrinter_BuildFinished p)

/-- The effect of a sequence of lifecycle calls, made in order; a call that
does not return ends the sequence. -/
def StatusPrinter_calls (rt : StatusPrinter → RateTexts) (p : StatusPrinter) :
    List LifecycleCall → Outcome StatusPrinter
  | [] => .ok p
  | c :: cs =>
    match StatusPrinter_call rt p c with
    | .ok p => StatusPrinter_calls rt p cs
    | .fatal c => .fatal c
    | .division_by_zero => .division_by_zero
    | .overflow => .overflow

/-! ## Templates and call sequences, as the specification words them -/

/-- One piece of a progress template: a literal character or one of the
placeholders `%%`, `%s`, `%t`, `%r`, `%u`, `%f`, `%p`. -/
inductive Piece where
  | literal (c : Nat) : Piece
  | percent : Piece
  | started : Piece
  | total : Piece
  | running : Piece
  | unstarted : Piece
  | finished : Piece
  | percentage : Piece
  deriving DecidableEq

/-- The characters of a piece as the template holds them. -/
def Piece.text : Piece → List Nat
  | .literal c => [c]
  | .percent => [37, 37]
  | .started => [37, 115]
  | .total => [37, 116]
  | .running => [37, 114]
  | .unstarted => [37, 117]
  | .finished => [37, 102]
  | .percentage => [37, 112]

/-- The text the specification gives for a piece: a literal is copied, `%%` is
a single percent sign, `%s`, `%t`, `%r`, `%f` are the decimal rendering of the
started, total, running and finished counter, `%u` that of total minus
started, and `%p` is the quotient of 100 times finished by total,
right-aligned in a field of width 3 and followed by a percent sign. -/
def Piece.expansion (p : StatusPrinter) : Piece → List Nat
  | .literal c => [c]
  | .percent => [37]
  | .started => printf_d p.started_edges_
  | .total => printf_d p.total_edges_
  | .running => printf_d p.running_edges_
  | .unstarted => printf_d (p.total_edges_ - p.started_edges_)
  | .finished => printf_d p.finished_edges_
  | .percentage =>
    List.replicate (3 - (printf_d (Int.tdiv (100 * p.finished_edges_) p.total_edges_)).length) 32
      ++ printf_d (Int.tdiv (100 * p.finished_edges_) p.total_edges_) ++ [37]

/-- The characters that follow the percent signs of a template, scanning left
to right and pairing each percent sign with the character after it; a percent
sign that ends the template is paired with the terminating NUL. -/
def placeholders : List Nat → List Nat
  | [] => []
  | [c] => if c = 37 then [0] else []
  | c :: c2 :: s => if c = 37 then c2 :: placeholders s else placeholders (c2 :: s)

/-- The placeholder characters that `FormatProgressStatus` knows:
`%`, `s`, `t`, `r`, `u`, `f`, `o`, `c`, `p`, `e`. -/
def known_placeholders : List Nat := [37, 115, 116, 114, 117, 102, 111, 99, 112, 101]

/-- Every `BuildEdgeFinished` of the sequence is for an edge that was started
before and has not finished yet; `running` holds the ids of the edges that are
running when the sequence begins. -/
def finishes_started : List Int → List LifecycleCall → Bool
  | _, [] => true
  | running, .BuildEdgeStarted edge _ :: cs => finishes_started (edge.id_ :: running) cs
  | running, .BuildEdgeFinished edge _ _ :: cs =>
    running.contains edge.id_ && finishes_started (running.erase edge.id_) cs
  | running, _ :: cs => finishes_started running cs

/-- The call is `BuildStarted`. -/
def LifecycleCall.is_BuildStarted : LifecycleCall → Bool
  | .BuildStarted => true
  | _ => false

/-- The call is `BuildEdgeStarted`. -/
def LifecycleCall.is_BuildEdgeStarted : LifecycleCall → Bool
  | .BuildEdgeStarted _ _ => true
  | _ => false

/-- The call releases the console lock: `BuildFinished`, or the
`BuildEdgeFinished` of an edge marked `use_console`. -/
def LifecycleCall.releases : LifecycleCall → Bool
  | .BuildFinished => true
  | .BuildEdgeFinished edge _ _ => edge.use_console
  | _ => false

/-- The total of the last `PlanHasTotalEdges` call of a sequence, if there is
one. -/
def last_total : List LifecycleCall → Option Int
  | [] => none
  | .PlanHasTotalEdges total :: cs =>
    match last_total cs with
    | some t => some t
    | none => some total
  | _ :: cs => last_total cs

/-! ## The depfile parser (`depfile_parser.cc`) -/

/-- The table `yybm` of the generated scanner: bit 128 marks the characters of
a span of plain text. -/
def yybm : List Nat :=
  [0,   0,   0,   0,   0,   0,   0,   0,
      0,   0,   0,   0,   0,   0,   0,   0,
      0,   0,   0,   0,   0,   0,   0,   0,
      0,   0,   0,   0,   0,   0,   0,   0,
      0, 128,   0,   0,   0,   0,   0,   0,
    128, 128,   0, 128, 128, 128, 128, 128,
    128, 128, 128, 128, 128, 128, 128, 128,
    128, 128, 128,   0,   0, 128,   0,   0,
    128, 128, 128, 128, 128, 128, 128, 128,
    128, 128, 128, 128, 128, 128, 128, 128,
    128, 128, 128, 128, 128, 128, 128, 128,
    128, 128, 128,   0,   0,   0,   0, 128,
      0, 128, 128, 128, 128, 128, 128, 128,
    128, 128, 128, 128, 128, 128, 128, 128,
    128, 128, 128, 128, 128, 128, 128, 128,
    128, 128, 128, 128,   0, 128, 128,   0,
    128, 128, 128, 128, 128, 128, 128, 128,
    128, 128, 128, 128, 128, 128, 128, 128,
    128, 128, 128, 128, 128, 128, 128, 128,
    128, 128, 128, 128, 128, 128, 128, 128,
    128, 128, 128, 128, 128, 128, 128, 128,
    128, 128, 128, 128, 128, 128, 128, 128,
    128, 128, 128, 128, 128, 128, 128, 128,
    128, 128, 128, 128, 128, 128, 128, 128,
    128, 128, 128, 128, 128, 128, 128, 128,
    128, 128, 128, 128, 128, 128, 128, 128,
    128, 128, 128, 128, 128, 128, 128, 128,
    128, 128, 128, 128, 128, 128, 128, 128,
    128, 128, 128, 128, 128, 128, 128, 128,
    128, 128, 128, 128, 128, 128, 128, 128,
    128, 128, 128, 128, 128, 128, 128, 128,
    128, 128, 128, 128, 128, 128, 128, 128]

/-- Modelled from the spec: the type `StringPiece` of `string_piece.h`, which is
not among the sources: a pointer `str_`, held as an offset into the content
(`none` for the null pointer), and a length `len_`. -/
structure StringPiece where
  str_ : Option Nat
  len_ : Nat

/-- The characters a `StringPiece` points to in `content`. -/
def StringPiece.chars (content : List Nat) (s : StringPiece) : List Nat :=
  match s.str_ with
  | some ptr => (content.drop ptr).take s.len_
  | none => []

/-- Modelled from the spec: the members of the class `DepfileParser` of
`depfile_parser.h`, which is not among the sources: the output `out_` and the
inputs `ins_`. -/
structure DepfileParser where
  out_ : StringPiece
  ins_ : List StringPiece

/-- A parser on which `Parse` has not been called: no output, no inputs. -/
def DepfileParser.fresh : DepfileParser :=
  { out_ := { str_ := none, len_ := 0 }, ins_ := [] }

/-- The call `memmove(dst, src, n)` inside the characters of `content`; `none`
when a region leaves the string. -/
def memmove (content : List Nat) (dst : Int) (src : Nat) (n : Nat) : Option (List Nat) :=
  if 0 ≤ dst ∧ dst.toNat + n ≤ content.length ∧ src + n ≤ content.length then
    some (content.take dst.toNat ++ (content.drop src).take n ++ content.drop (dst.toNat + n))
  else none

/-- The store `*out = c` inside the characters of `content`; `none` when `out`
is outside the string. -/
def store (content : List Nat) (out : Int) (c : Nat) : Option (List Nat) :=
  if 0 ≤ out ∧ out.toNat < content.length then some (content.set out.toNat c) else none

/-- The result of one pass through the body of the loop `for (;;)` of `Parse`:
the content, `in`, `out`, and whether the pass ends in `continue` (otherwise in
`break`); or undefined behaviour, when `memmove` or a store leaves the
string. -/
inductive Scanned where
  | step (content : List Nat) (in_ : Nat) (out : Int) (continues : Bool) : Scanned
  | undefined : Scanned

/-- The loop at the label `yy6`: `in` advances while the next character is
plain. The first argument holds the characters after `in`; past them is the
terminating NUL, which is not plain. -/
def yy6 : List Nat → Nat → Nat
  | [], in_ => in_ + 1
  | yych :: rest, in_ => if yybm.getD yych 0 &&& 128 ≠ 0 then yy6 rest (in_ + 1) else in_ + 1

/-- The label `yy13`: a backslash before another character is let through
verbatim. -/
def yy13 (content : List Nat) (in_ : Nat) (out : Int) (yych : Nat) : Scanned :=
  match store content out 92 with
  | none => .undefined
  | some content =>
    match store content (out + 1) yych with
    | none => .undefined
    | some content => .step content (in_ + 1) (out + 2) true

/-- The labels `yy15` (with the character after the backslash) and `yy11` (with
a dollar sign): one character is stored. -/
def yy15 (content : List Nat) (in_ : Nat) (out : Int) (yych : Nat) : Scanned :=
  match store content out yych with
  | none => .undefined
  | some content => .step content (in_ + 1) (out + 1) true

/-- The label `yy10`: the character after a backslash decides. -/
def yy10 (content : List Nat) (in_ : Nat) (out : Int) : Scanned :=
  let in_ := in_ + 1
  let yych := content.getD in_ 0
  if yych ≤ 34 then
    if yych ≤ 12 then
      if yych ≤ 0 then .step content in_ out false
      else if yych = 10 then .step content in_ out false
      else yy13 content in_ out yych
    else
      if yych ≤ 13 then .step content in_ out false
      else if yych = 32 then yy15 content in_ out yych
      else yy13 content in_ out yych
  else
    if yych ≤ 90 then
      if yych ≤ 35 then yy15 content in_ out yych
      else if yych = 42 then yy15 content in_ out yych
      else yy13 content in_ out yych
    else
      if yych ≤ 92 then yy15 content in_ out yych
      else if yych = 124 then yy15 content in_ out yych
      else yy13 content in_ out yych

/-- One pass through the body of the loop `for (;;)` of `DepfileParser::Parse`,
the scanner generated by re2c. Reading `content` at its length gives the
terminating NUL. The type `int` of `len` has 32 bits. -/
def Parse_scan (content : List Nat) (in_ : Nat) (out : Int) : Scanned :=
  let start := in_
  let yych := content.getD in_ 0
  if yybm.getD yych 0 &&& 128 ≠ 0 then
    let in_ := yy6 (content.drop (in_ + 1)) in_
    let len := castS 32 ((in_ : Int) - (start : Int))
    let moved := if out < (start : Int) then memmove content out start (castU 64 len)
      else some content
    match moved with
    | none => .undefined
    | some content => .step content in_ (out + len) true
  else if yych ≤ 36 then
    if yych ≤ 0 then .step content (in_ + 1) out false
    else if yych ≤ 35 then .step content (in_ + 1) out false
    else
      let in_ := in_ + 1
      let yych := content.getD in_ 0
      if yych = 36 then yy15 content in_ out 36
      else .step content in_ out false
  else if yych = 92 then yy10 content in_ out
  else .step content (in_ + 1) out false

/-- The loop `for (;;)` of `Parse`: passes are made until one ends in `break`.
`none` when the fuel runs out. -/
def Parse_filename : Nat → List Nat → Nat → Int → Option Scanned
  | 0, _, _, _ => none
  | fuel + 1, content, in_, out =>
    match Parse_scan content in_ out with
    | .undefined => some .undefined
    | .step content in_ out true => Parse_filename fuel content in_ out
    | .step content in_ out false => some (.step content in_ out false)

/-- The ways `DepfileParser::Parse` can end: it returns `ret`, leaving the
content, the parser and `*err` as given; its behaviour is undefined; or the
fuel of the model ran out. -/
inductive Parsed where
  | returned (ret : Bool) (content : List Nat) (parser : DepfileParser) (err : String) : Parsed
  | undefined : Parsed
  | out_of_fuel : Parsed

/-- The loop `while (in < end)` of `Parse` and what follows it. -/
def Parse_loop : Nat → List Nat → Nat → Nat → Bool → DepfileParser → String → Parsed
  | 0, _, _, _, _, _, _ => .out_of_fuel
  | fuel + 1, content, in_, end_, parsing_targets, parser, err =>
    if in_ < end_ then
      let out : Int := in_
      let filename := in_
      match Parse_filename (content.length + 2) content in_ out with
      | none => .out_of_fuel
      | some .undefined => .undefined
      | some (.step content in_ out _) =>
        let len := castS 32 (out - (filename : Int))
        let is_target := parsing_targets
        let strip := decide (len > 0) && content.getD (filename + (len - 1)).toNat 0 == 58
        let len := if strip then len - 1 else len
        let parsing_targets := if strip then false else parsing_targets
        if len = 0 then Parse_loop fuel content in_ end_ parsing_targets parser err
        else if !is_target then
          Parse_loop fuel content in_ end_ parsing_targets
            { parser with
              ins_ := parser.ins_ ++ [{ str_ := some filename, len_ := castU 64 len }] } err
        else if parser.out_.str_ = none then
          Parse_loop fuel content in_ end_ parsing_targets
            { parser with out_ := { str_ := some filename, len_ := castU 64 len } } err
        else if parser.out_.chars content
            ≠ StringPiece.chars content { str_ := some filename, len_ := castU 64 len } then
          .returned false content parser "depfile has multiple output paths"
        else Parse_loop fuel content in_ end_ parsing_targets parser err
    else if parsing_targets then .returned false content parser "expected ':' in depfile"
    else .returned true content parser err

/-- The method `DepfileParser::Parse` on the string `content`, with the value
`err` of `*err` before the call. -/
def DepfileParser_Parse (parser : DepfileParser) (content : List Nat) (err : String) :
    Parsed :=
  Parse_loop (content.length + 1) content 0 content.length true parser err

/-! ## Depfiles, as lists of filenames -/

/-- The character is part of a span of plain text: bit 128 of its entry of
`yybm` is set. -/
def is_plain (c : Nat) : Bool := yybm.getD c 0 &&& 128 != 0

/-- The characters that a backslash escapes: space, `#`, `*`, `[`, backslash
and `|`. -/
def escapes : List Nat := [32, 35, 42, 91, 92, 124]

/-- The plain filename characters in words: letters, digits,
`! ( ) + , - . / = @ _ { } ~`, the colon, and the bytes from 0x80 on. -/
def plain_filename_byte (c : Nat) : Bool :=
  (65 ≤ c && c ≤ 90) || (97 ≤ c && c ≤ 122) || (48 ≤ c && c ≤ 57) ||
    [33, 40, 41, 43, 44, 45, 46, 47, 61, 64, 95, 123, 125, 126].contains c || c == 58 ||
    (128 ≤ c && c ≤ 255)

/-- The filename that starts at the head of the characters `s` (the rest of the
content, which the terminating NUL follows), de-escaped, and the number of
characters read for it, the one that ends the filename included. -/
def filename_span : List Nat → List Nat × Nat
  | [] => ([], 1)
  | c :: s =>
    if is_plain c then ((c :: (filename_span s).1), (filename_span s).2 + 1)
    else if c = 36 then
      match s with
      | [] => ([], 1)
      | c2 :: s2 =>
        if c2 = 36 then ((36 :: (filename_span s2).1), (filename_span s2).2 + 2)
        else ([], 1)
    else if c = 92 then
      match s with
      | [] => ([], 1)
      | c2 :: s2 =>
        if c2 = 0 ∨ c2 = 10 ∨ c2 = 13 then ([], 1)
        else if c2 ∈ escapes then ((c2 :: (filename_span s2).1), (filename_span s2).2 + 2)
        else ((92 :: c2 :: (filename_span s2).1), (filename_span s2).2 + 2)
    else ([], 1)

/-- The filenames of a depfile in order, as `filename_span` finds them one
after the other, empty ones included. -/
def depfile_filenames : Nat → List Nat → List (List Nat)
  | 0, _ => []
  | fuel + 1, s =>
    if s = [] then []
    else (filename_span s).1 :: depfile_filenames fuel (s.drop (filename_span s).2)

/-- What `Parse` makes of a list of filenames: a trailing colon is stripped and
ends the targets, empty names are skipped, a target becomes the output and
must equal it if there is one already, every other name is an input. The
result is the return value, the output, the inputs and the error message that
is set. -/
def Parse_filenames : List (List Nat) → Bool → Option (List Nat) → List (List Nat) →
    Bool × Option (List Nat) × List (List Nat) × Option String
  | [], parsing_targets, out, ins =>
    if parsing_targets then (false, out, ins, some "expected ':' in depfile")
    else (true, out, ins, none)
  | t :: ts, parsing_targets, out, ins =>
    let strip := t.getLast? == some 58
    let name := if strip then t.dropLast else t
    let targets := if strip then false else parsing_targets
    if name = [] then Parse_filenames ts targets out ins
    else if !parsing_targets then Parse_filenames ts targets out (ins ++ [name])
    else
      match out with
      | none => Parse_filenames ts targets (some name) ins
      | some o =>
        if o ≠ name then (false, out, ins, some "depfile has multiple output paths")
        else Parse_filenames ts targets out ins

/-- One element of a path as a depfile writes it: a plain character, an
escapable character after a backslash, two dollar signs, or a backslash before
a character that it does not escape. -/
inductive PathChar where
  | plain (c : Nat) : PathChar
  | escaped (c : Nat) : PathChar
  | dollar : PathChar
  | verbatim (c : Nat) : PathChar

/-- The characters of a path element in the depfile. -/
def PathChar.text : PathChar → List Nat
  | .plain c => [c]
  | .escaped c => [92, c]
  | .dollar => [36, 36]
  | .verbatim c => [92, c]

/-- The characters of a path element in the path. -/
def PathChar.value : PathChar → List Nat
  | .plain c => [c]
  | .escaped c => [c]
  | .dollar => [36]
  | .verbatim c => [92, c]

/-- The element is well formed: a plain character is a plain filename
character, an escaped one is escapable, and a character kept with its backslash
is neither escapable nor NUL, newline or carriage return. -/
def PathChar.valid : PathChar → Bool
  | .plain c => plain_filename_byte c
  | .escaped c => escapes.contains c
  | .dollar => true
  | .verbatim c => !escapes.contains c && c != 0 && c != 10 && c != 13

/-- The path `p` as a depfile writes it, with a backslash inserted before each
escapable character. -/
def escape_path (p : List Nat) : List Nat :=
  p.flatMap (fun c => if escapes.contains c then [92, c] else [c])

/-! ## Proof devices -/

/-- The decoder `d` with its read position moved `k` characters forward and
nothing else changed. -/
def Deserializer.advance (d : Deserializer) (k : Nat) : Deserializer :=
  { d with in_ := { d.in_ with pos := d.in_.pos + k } }

/-- The stream of `d` is good, no error is recorded, and the characters not yet
read are `rest`. -/
def Deserializer.Ready (d : Deserializer) (rest : List Nat) : Prop :=
  d.in_.eofbit = false ∧ d.in_.failbit = false ∧ d.err_ = false ∧
    d.in_.buf.drop d.in_.pos = rest

instance (d : Deserializer) (rest : List Nat) : Decidable (d.Ready rest) := by
  unfold Deserializer.Ready
  infer_instance

/-- The stream of `d` is over the characters `bs` and its read position is not
beyond their end. -/
def Deserializer.Within (d : Deserializer) (bs : List Nat) : Prop :=
  d.in_.buf = bs ∧ d.in_.pos ≤ bs.length

/-- The stream of `d` has met its end or an error is recorded: every further
call records an error, if none is recorded yet. -/
def Deserializer.Dead (d : Deserializer) : Prop :=
  d.in_.eofbit = true ∨ d.err_ = true

/-- The piece `sp` points inside the characters `P` and holds `v` there. -/
def StringPiece.holds (P : List Nat) (sp : StringPiece) (v : List Nat) : Prop :=
  ∃ ptr, sp.str_ = some ptr ∧ ptr + sp.len_ ≤ P.length ∧ (P.drop ptr).take sp.len_ = v

/-- The output and the inputs of `parser` point inside the characters `P` and
hold `out` and `ins` there; the output is null when `out` is `none`. -/
def DepfileParser.holds (P : List Nat) (parser : DepfileParser) (out : Option (List Nat))
    (ins : List (List Nat)) : Prop :=
  (match out with
    | none => parser.out_.str_ = none
    | some o => parser.out_.holds P o) ∧
  List.Forall₂ (StringPiece.holds P) parser.ins_ ins

/-! ## Arithmetic of the byte encodings -/

theorem land_0xff_eq (x : Int) : Int.land x 0xff = and_0xff x := by
  unfold and_0xff
  cases x with
  | ofNat m =>
    show ((m &&& 255 : Nat) : Int) = (m : Int) % 256
    have := Nat.and_pow_two_sub_one_eq_mod m 8
    norm_num at this
    rw [this]; norm_cast
  | negSucc m =>
    show ((Nat.ldiff 255 m : Nat) : Int) = Int.negSucc m % 256
    have h : Nat.ldiff 255 m = 255 - m % 256 := by
      apply Nat.eq_of_testBit_eq
      intro i
      have h1 := Nat.testBit_two_pow_sub_succ (Nat.mod_lt m (by norm_num : 0 < 2 ^ 8)) i
      have h2 := Nat.testBit_mod_two_pow m 8 i
      have h3 := Nat.testBit_two_pow_sub_one 8 i
      rw [Nat.testBit_ldiff]
      have e : 255 - m % 256 = 2 ^ 8 - (m % 2 ^ 8 + 1) := by norm_num; omega
      have e2 : (255 : Nat) = 2 ^ 8 - 1 := by norm_num
      rw [e, h1, h2]
      nth_rewrite 1 [e2]
      rw [h3]
      by_cases hi : i < 8 <;> simp [hi]
    rw [h, Int.negSucc_eq]
    omega

theorem castU_natCast (w x : Nat) : castU w (x : Int) = x % 2 ^ w := by
  unfold castU
  norm_cast

theorem or_eq_add (a b i : Nat) (ha : 2 ^ i ∣ a) (hb : b < 2 ^ i) : a ||| b = a + b := by
  obtain ⟨c, rfl⟩ := ha
  exact (Nat.mul_add_lt_is_or hb c).symm

theorem inBE_eq (w b n : Nat) (hb : b < 256) (hn : n * 8 + 8 ≤ w) (hw : w ≤ 64) :
    inBE w b n = b * 2 ^ (n * 8) := by
  unfold inBE
  rw [castU_natCast, Nat.shiftLeft_eq, Nat.mod_eq_of_lt hb]
  have h1 : b * 2 ^ (n * 8) < 2 ^ w := by
    calc b * 2 ^ (n * 8) < 2 ^ 8 * 2 ^ (n * 8) := by
          apply Nat.mul_lt_mul_of_pos_right (by simpa using hb) (by positivity)
      _ = 2 ^ (n * 8 + 8) := by rw [← pow_add]; congr 1; omega
      _ ≤ 2 ^ w := Nat.pow_le_pow_right (by norm_num) hn
  have h2 : (2:Nat) ^ w ≤ 2 ^ 64 := Nat.pow_le_pow_right (by norm_num) hw
  rw [Nat.mod_eq_of_lt (show b * 2 ^ (n * 8) < 2 ^ 64 by omega), Nat.mod_eq_of_lt h1]

theorem dec2 (b1 b0 : Nat) (h1 : b1 < 256) (h0 : b0 < 256) :
    castU 16 ((inBE 16 b1 1 ||| inBE 16 b0 0 : Nat) : Int) = b1 * 256 + b0 := by
  rw [inBE_eq 16 b1 1 h1 (by norm_num) (by norm_num), inBE_eq 16 b0 0 h0 (by norm_num) (by norm_num)]
  norm_num
  rw [or_eq_add (b1 * 256) b0 8 (by omega) (by omega), castU_natCast]
  omega

theorem dec4 (b3 b2 b1 b0 : Nat) (h3 : b3 < 256) (h2 : b2 < 256) (h1 : b1 < 256) (h0 : b0 < 256) :
    castU 32 ((inBE 32 b3 3 ||| inBE 32 b2 2 ||| inBE 32 b1 1 ||| inBE 32 b0 0 : Nat) : Int)
      = b3 * 16777216 + b2 * 65536 + b1 * 256 + b0 := by
  rw [inBE_eq 32 b3 3 h3 (by norm_num) (by norm_num), inBE_eq 32 b2 2 h2 (by norm_num) (by norm_num),
    inBE_eq 32 b1 1 h1 (by norm_num) (by norm_num), inBE_eq 32 b0 0 h0 (by norm_num) (by norm_num)]
  norm_num
  rw [or_eq_add (b3 * 16777216) (b2 * 65536) 24 (by omega) (by omega),
    or_eq_add (b3 * 16777216 + b2 * 65536) (b1 * 256) 16 (by omega) (by omega),
    or_eq_add (b3 * 16777216 + b2 * 65536 + b1 * 256) b0 8 (by omega) (by omega), castU_natCast]
  omega

theorem dec8 (b7 b6 b5 b4 b3 b2 b1 b0 : Nat) (h7 : b7 < 256) (h6 : b6 < 256) (h5 : b5 < 256)
    (h4 : b4 < 256) (h3 : b3 < 256) (h2 : b2 < 256) (h1 : b1 < 256) (h0 : b0 < 256) :
    castU 64 ((inBE 64 b7 7 ||| inBE 64 b6 6 ||| inBE 64 b5 5 ||| inBE 64 b4 4 |||
      inBE 64 b3 3 ||| inBE 64 b2 2 ||| inBE 64 b1 1 ||| inBE 64 b0 0 : Nat) : Int)
      = b7 * 72057594037927936 + b6 * 281474976710656 + b5 * 1099511627776 + b4 * 4294967296
        + b3 * 16777216 + b2 * 65536 + b1 * 256 + b0 := by
  rw [inBE_eq 64 b7 7 h7 (by norm_num) (by norm_num), inBE_eq 64 b6 6 h6 (by norm_num) (by norm_num),
    inBE_eq 64 b5 5 h5 (by norm_num) (by norm_num), inBE_eq 64 b4 4 h4 (by norm_num) (by norm_num),
    inBE_eq 64 b3 3 h3 (by norm_num) (by norm_num), inBE_eq 64 b2 2 h2 (by norm_num) (by norm_num),
    inBE_eq 64 b1 1 h1 (by norm_num) (by norm_num), inBE_eq 64 b0 0 h0 (by norm_num) (by norm_num)]
  norm_num
  rw [or_eq_add (b7 * 72057594037927936) (b6 * 281474976710656) 56 (by omega) (by omega),
    or_eq_add _ (b5 * 1099511627776) 48 (by omega) (by omega),
    or_eq_add _ (b4 * 4294967296) 40 (by omega) (by omega),
    or_eq_add _ (b3 * 16777216) 32 (by omega) (by omega),
    or_eq_add _ (b2 * 65536) 24 (by omega) (by omega),
    or_eq_add _ (b1 * 256) 16 (by omega) (by omega),
    or_eq_add _ b0 8 (by omega) (by omega), castU_natCast]
  omega

theorem outBE_signed_eq (v : Int) (n : Nat) : outBE_signed v n = ((v / 2 ^ (8 * n)) % 256).toNat := by
  unfold outBE_signed castU and_0xff
  rw [Int.shiftRight_eq_div_pow]
  norm_num

theorem outBE_eq (v n : Nat) : outBE v n = (v / 2 ^ (8 * n)) % 256 := by
  unfold outBE
  rw [castU_natCast, Nat.shiftRight_eq_div_pow]
  have := Nat.and_pow_two_sub_one_eq_mod (v / 2 ^ (8 * n)) 8
  norm_num at this
  rw [this]
  norm_num

theorem outBE_signed_lt (v : Int) (n : Nat) : outBE_signed v n < 256 := by
  rw [outBE_signed_eq]; omega

theorem outBE_lt (v n : Nat) : outBE v n < 256 := by
  rw [outBE_eq]; omega


theorem castS_64 (x : Int) : castS 64 x = if x % 18446744073709551616 < 9223372036854775808 then x % 18446744073709551616 else x % 18446744073709551616 - 18446744073709551616 := by
  unfold castS
  norm_num


theorem outBE_signed_cast (v : Int) (n : Nat) :
    ((outBE_signed v n : Nat) : Int) = (v / 2 ^ (8 * n)) % 256 := by
  rw [outBE_signed_eq]
  exact Int.toNat_of_nonneg (Int.emod_nonneg _ (by norm_num))

theorem rt_s64 (v : Int) (h : -9223372036854775808 ≤ v) (h2 : v ≤ 9223372036854775807) :
   castS 64 (((outBE_signed v 7 * 72057594037927936 + outBE_signed v 6 * 281474976710656 + outBE_signed v 5 * 1099511627776 + outBE_signed v 4 * 4294967296
        + outBE_signed v 3 * 16777216 + outBE_signed v 2 * 65536 + outBE_signed v 1 * 256 + outBE_signed v 0) : Nat) : Int) = v := by
  rw [castS_64]
  push_cast
  simp only [outBE_signed_cast]
  norm_num
  split_ifs <;> omega

theorem castS_32 (x : Int) : castS 32 x = if x % 4294967296 < 2147483648 then x % 4294967296 else x % 4294967296 - 4294967296 := by
  unfold castS
  norm_num

theorem rt_s32 (v : Int) (h : -2147483648 ≤ v) (h2 : v ≤ 2147483647) :
   castS 32 (((outBE_signed v 3 * 16777216 + outBE_signed v 2 * 65536 + outBE_signed v 1 * 256 + outBE_signed v 0) : Nat) : Int) = v := by
  rw [castS_32]
  push_cast
  simp only [outBE_signed_cast]
  norm_num
  split_ifs <;> omega

/-! ## The input stream while it is good -/

theorem advance_advance (d : Deserializer) (a b : Nat) :
    (d.advance a).advance b = d.advance (a + b) := by
  simp [Deserializer.advance, Nat.add_assoc]

theorem ready_new (bs : List Nat) (u : Nat → Nat) : (Deserializer.new bs u).Ready bs := by
  simp [Deserializer.Ready, Deserializer.new]

theorem ready_advance (d : Deserializer) (xs rest : List Nat) (h : d.Ready (xs ++ rest)) :
    (d.advance xs.length).Ready rest := by
  obtain ⟨h1, h2, h3, h4⟩ := h
  refine ⟨h1, h2, h3, ?_⟩
  show List.drop (d.in_.pos + xs.length) d.in_.buf = rest
  rw [← List.drop_drop, h4]
  simp

theorem ready_get (d : Deserializer) (c : Nat) (rest : List Nat) (h : d.Ready (c :: rest)) :
    d.in_.get = (((c % 256 : Nat) : Int), (d.advance 1).in_) := by
  obtain ⟨h1, h2, h3, h4⟩ := h
  have hg : d.in_.buf[d.in_.pos]? = some c := by
    have := congrArg List.head? h4
    simpa [List.head?_drop] using this
  simp [IStream.get, IStream.good, h1, h2, hg, Deserializer.advance]

theorem ready_read (d : Deserializer) (xs rest dst : List Nat) (h : d.Ready (xs ++ rest)) :
    d.in_.read dst xs.length = (xs ++ dst.drop xs.length, (d.advance xs.length).in_) := by
  obtain ⟨h1, h2, h3, h4⟩ := h
  simp [IStream.read, IStream.good, h1, h2, h4, Deserializer.advance]

theorem ready_CheckEOF (d : Deserializer) (rest : List Nat) (h : d.Ready rest) :
    Deserializer_CheckEOF d = (false, d) := by
  obtain ⟨h1, h2, h3, h4⟩ := h
  simp [Deserializer_CheckEOF, IStream.eof, h1]

theorem ready_Type (d : Deserializer) (c : Nat) (rest : List Nat) (h : d.Ready (c :: rest))
    (hc : c < 256) : Deserializer_Type d = (c, d.advance 1) := by
  have hg := ready_get d c rest h
  obtain ⟨h1, h2, h3, h4⟩ := h
  unfold Deserializer_Type
  rw [hg, Nat.mod_eq_of_lt hc]
  simp [IStream.eof, Deserializer.advance, h1, castU_natCast]
  omega

theorem ready_inBE1 {α : Type} (cast : Int → α) (d : Deserializer) (c : Nat) (rest : List Nat)
    (h : d.Ready (c :: rest)) (hc : c < 256) : inBE1 cast d = (cast (c : Int), d.advance 1) := by
  have hg := ready_get d c rest h
  unfold inBE1
  rw [hg, Nat.mod_eq_of_lt hc]
  rfl

theorem ready_inBE2 {α : Type} (cast : Int → α) (d : Deserializer) (b1 b0 : Nat)
    (rest : List Nat) (h : d.Ready (b1 :: b0 :: rest)) (h1 : b1 < 256) (h0 : b0 < 256) :
    inBE2 cast d = (cast ((b1 * 256 + b0 : Nat) : Int), d.advance 2) := by
  have hr := ready_read d [b1, b0] rest ((List.range 2).map d.uninit) h
  simp only [List.length_cons, List.length_nil] at hr
  unfold inBE2
  simp only [hr]
  simp only [List.cons_append, List.nil_append, List.getD_cons_zero, List.getD_cons_succ]
  rw [dec2 b1 b0 h1 h0]
  rfl

theorem ready_inBE4 {α : Type} (cast : Int → α) (d : Deserializer) (b3 b2 b1 b0 : Nat)
    (rest : List Nat) (h : d.Ready (b3 :: b2 :: b1 :: b0 :: rest))
    (h3 : b3 < 256) (h2 : b2 < 256) (h1 : b1 < 256) (h0 : b0 < 256) :
    inBE4 cast d =
      (cast ((b3 * 16777216 + b2 * 65536 + b1 * 256 + b0 : Nat) : Int), d.advance 4) := by
  have hr := ready_read d [b3, b2, b1, b0] rest ((List.range 4).map d.uninit) h
  simp only [List.length_cons, List.length_nil] at hr
  unfold inBE4
  simp only [hr]
  simp only [List.cons_append, List.nil_append, List.getD_cons_zero, List.getD_cons_succ]
  rw [dec4 b3 b2 b1 b0 h3 h2 h1 h0]
  rfl

theorem ready_inBE8 {α : Type} (cast : Int → α) (d : Deserializer)
    (b7 b6 b5 b4 b3 b2 b1 b0 : Nat) (rest : List Nat)
    (h : d.Ready (b7 :: b6 :: b5 :: b4 :: b3 :: b2 :: b1 :: b0 :: rest))
    (h7 : b7 < 256) (h6 : b6 < 256) (h5 : b5 < 256) (h4 : b4 < 256)
    (h3 : b3 < 256) (h2 : b2 < 256) (h1 : b1 < 256) (h0 : b0 < 256) :
    inBE8 cast d =
      (cast ((b7 * 72057594037927936 + b6 * 281474976710656 + b5 * 1099511627776
        + b4 * 4294967296 + b3 * 16777216 + b2 * 65536 + b1 * 256 + b0 : Nat) : Int),
        d.advance 8) := by
  have hr := ready_read d [b7, b6, b5, b4, b3, b2, b1, b0] rest ((List.range 8).map d.uninit) h
  simp only [List.length_cons, List.length_nil] at hr
  unfold inBE8
  simp only [hr]
  simp only [List.cons_append, List.nil_append, List.getD_cons_zero, List.getD_cons_succ]
  rw [dec8 b7 b6 b5 b4 b3 b2 b1 b0 h7 h6 h5 h4 h3 h2 h1 h0]
  rfl

/-! ## Decoding one value from its bytes -/

theorem Int_fixpos (d : Deserializer) (c : Nat) (rest : List Nat)
    (h : d.Ready (c :: rest)) (hc : c ≤ 127) :
    Deserializer_Int d = ((c : Int), d.advance 1) := by
  have hT := ready_Type d c rest h (by omega)
  have hR : (d.advance 1).Ready rest := ready_advance d [c] rest h
  have hE := ready_CheckEOF _ _ hR
  unfold Deserializer_Int
  rw [hT]
  dsimp only
  rw [if_pos (by simp only [POS_FIXINT_MAX]; omega), hE]

theorem Int_fixneg (d : Deserializer) (c : Nat) (rest : List Nat)
    (h : d.Ready (c :: rest)) (hc : 224 ≤ c) (hc2 : c < 256) :
    Deserializer_Int d = ((c : Int) - 256, d.advance 1) := by
  have hT := ready_Type d c rest h (by omega)
  have hR : (d.advance 1).Ready rest := ready_advance d [c] rest h
  have hE := ready_CheckEOF _ _ hR
  unfold Deserializer_Int
  rw [hT]
  dsimp only
  rw [if_neg (by simp only [POS_FIXINT_MAX]; omega), if_pos (by simp only [NEG_FIXINT]; omega), hE]
  have e : castS 8 (c : Int) = (c : Int) - 256 := by
    unfold castS
    norm_num
    split_ifs <;> omega
  rw [e]

theorem Int_INT8 (d : Deserializer) (b : Nat) (rest : List Nat)
    (h : d.Ready (INT8 :: b :: rest)) (hb : b < 256) :
    Deserializer_Int d = (castS 8 (b : Int), d.advance 2) := by
  have hT := ready_Type d INT8 (b :: rest) h (by decide)
  have hR : (d.advance 1).Ready (b :: rest) := ready_advance d [INT8] (b :: rest) h
  have hI := ready_inBE1 (castS 8) _ b rest hR hb
  have hR2 : ((d.advance 1).advance 1).Ready rest := ready_advance _ [b] rest hR
  rw [advance_advance] at hI hR2
  have hE := ready_CheckEOF _ _ hR2
  unfold Deserializer_Int
  rw [hT]
  dsimp only
  rw [if_neg (by decide), if_neg (by decide), if_pos rfl, hI]
  dsimp only
  rw [hE]

theorem Int_INT16 (d : Deserializer) (b1 b0 : Nat) (rest : List Nat)
    (h : d.Ready (INT16 :: b1 :: b0 :: rest)) (h1 : b1 < 256) (h0 : b0 < 256) :
    Deserializer_Int d = (castS 16 ((b1 * 256 + b0 : Nat) : Int), d.advance 3) := by
  have hT := ready_Type d INT16 _ h (by decide)
  have hR : (d.advance 1).Ready (b1 :: b0 :: rest) := ready_advance d [INT16] _ h
  have hI := ready_inBE2 (castS 16) _ b1 b0 rest hR h1 h0
  have hR2 : ((d.advance 1).advance 2).Ready rest := ready_advance _ [b1, b0] rest hR
  rw [advance_advance] at hI hR2
  have hE := ready_CheckEOF _ _ hR2
  unfold Deserializer_Int
  rw [hT]
  dsimp only
  rw [if_neg (by decide), if_neg (by decide), if_neg (by decide), if_pos rfl, hI]
  dsimp only
  rw [hE]

theorem Int_INT32 (d : Deserializer) (b3 b2 b1 b0 : Nat) (rest : List Nat)
    (h : d.Ready (INT32 :: b3 :: b2 :: b1 :: b0 :: rest))
    (h3 : b3 < 256) (h2 : b2 < 256) (h1 : b1 < 256) (h0 : b0 < 256) :
    Deserializer_Int d =
      (castS 32 ((b3 * 16777216 + b2 * 65536 + b1 * 256 + b0 : Nat) : Int), d.advance 5) := by
  have hT := ready_Type d INT32 _ h (by decide)
  have hR : (d.advance 1).Ready (b3 :: b2 :: b1 :: b0 :: rest) := ready_advance d [INT32] _ h
  have hI := ready_inBE4 (castS 32) _ b3 b2 b1 b0 rest hR h3 h2 h1 h0
  have hR2 : ((d.advance 1).advance 4).Ready rest := ready_advance _ [b3, b2, b1, b0] rest hR
  rw [advance_advance] at hI hR2
  have hE := ready_CheckEOF _ _ hR2
  unfold Deserializer_Int
  rw [hT]
  dsimp only
  rw [if_neg (by decide), if_neg (by decide), if_neg (by decide), if_neg (by decide), if_pos rfl, hI]
  dsimp only
  rw [hE]

theorem Int_INT64 (d : Deserializer) (b7 b6 b5 b4 b3 b2 b1 b0 : Nat) (rest : List Nat)
    (h : d.Ready (INT64 :: b7 :: b6 :: b5 :: b4 :: b3 :: b2 :: b1 :: b0 :: rest))
    (h7 : b7 < 256) (h6 : b6 < 256) (h5 : b5 < 256) (h4 : b4 < 256)
    (h3 : b3 < 256) (h2 : b2 < 256) (h1 : b1 < 256) (h0 : b0 < 256) :
    Deserializer_Int d =
      (castS 64 ((b7 * 72057594037927936 + b6 * 281474976710656 + b5 * 1099511627776
        + b4 * 4294967296 + b3 * 16777216 + b2 * 65536 + b1 * 256 + b0 : Nat) : Int),
        d.advance 9) := by
  have hT := ready_Type d INT64 _ h (by decide)
  have hR : (d.advance 1).Ready (b7 :: b6 :: b5 :: b4 :: b3 :: b2 :: b1 :: b0 :: rest) :=
    ready_advance d [INT64] _ h
  have hI := ready_inBE8 (castS 64) _ b7 b6 b5 b4 b3 b2 b1 b0 rest hR h7 h6 h5 h4 h3 h2 h1 h0
  have hR2 : ((d.advance 1).advance 8).Ready rest :=
    ready_advance _ [b7, b6, b5, b4, b3, b2, b1, b0] rest hR
  rw [advance_advance] at hI hR2
  have hE := ready_CheckEOF _ _ hR2
  unfold Deserializer_Int
  rw [hT]
  dsimp only
  rw [if_neg (by decide), if_neg (by decide), if_neg (by decide), if_neg (by decide), if_neg (by decide), if_pos rfl, hI]
  dsimp only
  rw [hE]

theorem Uint_fixpos (d : Deserializer) (c : Nat) (rest : List Nat)
    (h : d.Ready (c :: rest)) (hc : c ≤ 127) :
    Deserializer_Uint d = (c, d.advance 1) := by
  have hT := ready_Type d c rest h (by omega)
  have hR : (d.advance 1).Ready rest := ready_advance d [c] rest h
  have hE := ready_CheckEOF _ _ hR
  unfold Deserializer_Uint
  rw [hT]
  dsimp only
  rw [if_pos (by simp only [POS_FIXINT_MAX]; omega), hE]

theorem Uint_UINT8 (d : Deserializer) (b : Nat) (rest : List Nat)
    (h : d.Ready (UINT8 :: b :: rest)) (hb : b < 256) :
    Deserializer_Uint d = (b, d.advance 2) := by
  have hT := ready_Type d UINT8 (b :: rest) h (by decide)
  have hR : (d.advance 1).Ready (b :: rest) := ready_advance d [UINT8] (b :: rest) h
  have hI := ready_inBE1 (castU 8) _ b rest hR hb
  have hR2 : ((d.advance 1).advance 1).Ready rest := ready_advance _ [b] rest hR
  rw [advance_advance] at hI hR2
  have hE := ready_CheckEOF _ _ hR2
  unfold Deserializer_Uint
  rw [hT]
  dsimp only
  rw [if_neg (by decide), if_pos rfl, hI]
  dsimp only
  rw [hE, castU_natCast, Nat.mod_eq_of_lt (by omega)]

theorem Uint_UINT16 (d : Deserializer) (b1 b0 : Nat) (rest : List Nat)
    (h : d.Ready (UINT16 :: b1 :: b0 :: rest)) (h1 : b1 < 256) (h0 : b0 < 256) :
    Deserializer_Uint d = (b1 * 256 + b0, d.advance 3) := by
  have hT := ready_Type d UINT16 _ h (by decide)
  have hR : (d.advance 1).Ready (b1 :: b0 :: rest) := ready_advance d [UINT16] _ h
  have hI := ready_inBE2 (castU 16) _ b1 b0 rest hR h1 h0
  have hR2 : ((d.advance 1).advance 2).Ready rest := ready_advance _ [b1, b0] rest hR
  rw [advance_advance] at hI hR2
  have hE := ready_CheckEOF _ _ hR2
  unfold Deserializer_Uint
  rw [hT]
  dsimp only
  rw [if_neg (by decide), if_neg (by decide), if_pos rfl, hI]
  dsimp only
  rw [hE, castU_natCast, Nat.mod_eq_of_lt (by omega)]

theorem Uint_UINT32 (d : Deserializer) (b3 b2 b1 b0 : Nat) (rest : List Nat)
    (h : d.Ready (UINT32 :: b3 :: b2 :: b1 :: b0 :: rest))
    (h3 : b3 < 256) (h2 : b2 < 256) (h1 : b1 < 256) (h0 : b0 < 256) :
    Deserializer_Uint d =
      (b3 * 16777216 + b2 * 65536 + b1 * 256 + b0, d.advance 5) := by
  have hT := ready_Type d UINT32 _ h (by decide)
  have hR : (d.advance 1).Ready (b3 :: b2 :: b1 :: b0 :: rest) := ready_advance d [UINT32] _ h
  have hI := ready_inBE4 (castU 32) _ b3 b2 b1 b0 rest hR h3 h2 h1 h0
  have hR2 : ((d.advance 1).advance 4).Ready rest := ready_advance _ [b3, b2, b1, b0] rest hR
  rw [advance_advance] at hI hR2
  have hE := ready_CheckEOF _ _ hR2
  unfold Deserializer_Uint
  rw [hT]
  dsimp only
  rw [if_neg (by decide), if_neg (by decide), if_neg (by decide), if_pos rfl, hI]
  dsimp only
  rw [hE, castU_natCast, Nat.mod_eq_of_lt (by omega)]

theorem Uint_UINT64 (d : Deserializer) (b7 b6 b5 b4 b3 b2 b1 b0 : Nat) (rest : List Nat)
    (h : d.Ready (UINT64 :: b7 :: b6 :: b5 :: b4 :: b3 :: b2 :: b1 :: b0 :: rest))
    (h7 : b7 < 256) (h6 : b6 < 256) (h5 : b5 < 256) (h4 : b4 < 256)
    (h3 : b3 < 256) (h2 : b2 < 256) (h1 : b1 < 256) (h0 : b0 < 256) :
    Deserializer_Uint d =
      (b7 * 72057594037927936 + b6 * 281474976710656 + b5 * 1099511627776
        + b4 * 4294967296 + b3 * 16777216 + b2 * 65536 + b1 * 256 + b0, d.advance 9) := by
  have hT := ready_Type d UINT64 _ h (by decide)
  have hR : (d.advance 1).Ready (b7 :: b6 :: b5 :: b4 :: b3 :: b2 :: b1 :: b0 :: rest) :=
    ready_advance d [UINT64] _ h
  have hI := ready_inBE8 (castU 64) _ b7 b6 b5 b4 b3 b2 b1 b0 rest hR h7 h6 h5 h4 h3 h2 h1 h0
  have hR2 : ((d.advance 1).advance 8).Ready rest :=
    ready_advance _ [b7, b6, b5, b4, b3, b2, b1, b0] rest hR
  rw [advance_advance] at hI hR2
  have hE := ready_CheckEOF _ _ hR2
  unfold Deserializer_Uint
  rw [hT]
  dsimp only
  rw [if_neg (by decide), if_neg (by decide), if_neg (by decide), if_neg (by decide), if_pos rfl, hI]
  dsimp only
  rw [hE, castU_natCast, Nat.mod_eq_of_lt (by omega)]

theorem Bool_byte (d : Deserializer) (v : Bool) (rest : List Nat)
    (h : d.Ready ((if v then TRUE else FALSE) :: rest)) :
    Deserializer_Bool d = (v, d.advance 1) := by
  have hT := ready_Type d _ rest h (by cases v <;> decide)
  unfold Deserializer_Bool
  rw [hT]
  cases v
  · dsimp only
    rw [if_neg (by decide), if_pos (by decide)]
  · dsimp only
    rw [if_pos (by decide)]

theorem length_string_resize (s : List Nat) (len : Nat) : (string_resize s len).length = len := by
  simp [string_resize]
  omega

theorem ready_String_body (d : Deserializer) (s0 s rest : List Nat) (h : d.Ready (s ++ rest)) :
    Deserializer_String_body d s0 s.length = (s, d.advance s.length) := by
  have hE := ready_CheckEOF _ _ h
  unfold Deserializer_String_body
  rw [hE]
  dsimp only
  rw [if_neg (by simp)]
  by_cases hl : s.length > 0
  · rw [if_pos hl, length_string_resize, ready_read d s rest _ h]
    have : List.drop s.length (string_resize s0 s.length) = [] := by
      apply List.drop_eq_nil_of_le
      rw [length_string_resize]
    rw [this, List.append_nil]
    rfl
  · rw [if_neg hl]
    have h0 : s = [] := List.length_eq_zero.mp (by omega)
    subst h0
    have e : string_resize s0 ([] : List Nat).length = [] := by simp [string_resize]
    rw [e]
    rfl

theorem String_fixstr (d : Deserializer) (s0 s rest : List Nat) (hs : s.length ≤ 31)
    (h : d.Ready ((FIXSTR + s.length) :: (s ++ rest))) :
    Deserializer_String d s0 = (s, d.advance (1 + s.length)) := by
  have hT := ready_Type d _ _ h (by simp only [FIXSTR]; omega)
  have hR : (d.advance 1).Ready (s ++ rest) := ready_advance d [FIXSTR + s.length] _ h
  have hB := ready_String_body _ s0 s rest hR
  rw [advance_advance] at hB
  unfold Deserializer_String
  rw [hT]
  dsimp only
  rw [if_pos (by simp only [FIXSTR, FIXSTR_MAX]; omega), Nat.add_sub_cancel_left, hB]

theorem String_STR8 (d : Deserializer) (s0 s rest : List Nat) (hs : s.length < 256)
    (h : d.Ready (STR8 :: s.length :: (s ++ rest))) :
    Deserializer_String d s0 = (s, d.advance (2 + s.length)) := by
  have hT := ready_Type d _ _ h (by decide)
  have hR : (d.advance 1).Ready (s.length :: (s ++ rest)) := ready_advance d [STR8] _ h
  have hI := ready_inBE1 (castU 64) _ _ _ hR hs
  have hR2 : ((d.advance 1).advance 1).Ready (s ++ rest) := ready_advance _ [s.length] _ hR
  rw [advance_advance] at hI hR2
  have hB := ready_String_body _ s0 s rest hR2
  rw [advance_advance] at hB
  unfold Deserializer_String
  rw [hT]
  dsimp only
  rw [if_neg (by decide), if_pos rfl, hI]
  dsimp only
  rw [castU_natCast, Nat.mod_eq_of_lt (by omega), hB]

theorem String_STR16 (d : Deserializer) (s0 s rest : List Nat) (b1 b0 : Nat)
    (h1 : b1 < 256) (h0 : b0 < 256) (hs : s.length = b1 * 256 + b0)
    (h : d.Ready (STR16 :: b1 :: b0 :: (s ++ rest))) :
    Deserializer_String d s0 = (s, d.advance (3 + s.length)) := by
  have hT := ready_Type d _ _ h (by decide)
  have hR : (d.advance 1).Ready (b1 :: b0 :: (s ++ rest)) := ready_advance d [STR16] _ h
  have hI := ready_inBE2 (castU 64) _ _ _ _ hR h1 h0
  have hR2 : ((d.advance 1).advance 2).Ready (s ++ rest) := ready_advance _ [b1, b0] _ hR
  rw [advance_advance] at hI hR2
  have hB := ready_String_body _ s0 s rest hR2
  rw [advance_advance] at hB
  unfold Deserializer_String
  rw [hT]
  dsimp only
  rw [if_neg (by decide), if_neg (by decide), if_pos rfl, hI]
  dsimp only
  rw [castU_natCast, Nat.mod_eq_of_lt (by omega), ← hs, hB]

theorem String_STR32 (d : Deserializer) (s0 s rest : List Nat) (b3 b2 b1 b0 : Nat)
    (h3 : b3 < 256) (h2 : b2 < 256) (h1 : b1 < 256) (h0 : b0 < 256)
    (hs : s.length = b3 * 16777216 + b2 * 65536 + b1 * 256 + b0)
    (h : d.Ready (STR32 :: b3 :: b2 :: b1 :: b0 :: (s ++ rest))) :
    Deserializer_String d s0 = (s, d.advance (5 + s.length)) := by
  have hT := ready_Type d _ _ h (by decide)
  have hR : (d.advance 1).Ready (b3 :: b2 :: b1 :: b0 :: (s ++ rest)) :=
    ready_advance d [STR32] _ h
  have hI := ready_inBE4 (castU 64) _ _ _ _ _ _ hR h3 h2 h1 h0
  have hR2 : ((d.advance 1).advance 4).Ready (s ++ rest) :=
    ready_advance _ [b3, b2, b1, b0] _ hR
  rw [advance_advance] at hI hR2
  have hB := ready_String_body _ s0 s rest hR2
  rw [advance_advance] at hB
  unfold Deserializer_String
  rw [hT]
  dsimp only
  rw [if_neg (by decide), if_neg (by decide), if_neg (by decide), if_pos rfl, hI]
  dsimp only
  rw [castU_natCast, Nat.mod_eq_of_lt (by omega), ← hs, hB]

theorem Array_fixarray (d : Deserializer) (n : Nat) (rest : List Nat) (hn : n ≤ 15)
    (h : d.Ready ((FIXARRAY + n) :: rest)) :
    Deserializer_Array d = (n, d.advance 1) := by
  have hT := ready_Type d _ _ h (by simp only [FIXARRAY]; omega)
  have hR : (d.advance 1).Ready rest := ready_advance d [FIXARRAY + n] _ h
  have hE := ready_CheckEOF _ _ hR
  unfold Deserializer_Array
  rw [hT]
  dsimp only
  rw [if_pos (by simp only [FIXARRAY, FIXARRAY_MAX]; omega), Nat.add_sub_cancel_left, hE]

theorem Array_ARRAY16 (d : Deserializer) (b1 b0 : Nat) (rest : List Nat)
    (h : d.Ready (ARRAY16 :: b1 :: b0 :: rest)) (h1 : b1 < 256) (h0 : b0 < 256) :
    Deserializer_Array d = (b1 * 256 + b0, d.advance 3) := by
  have hT := ready_Type d ARRAY16 _ h (by decide)
  have hR : (d.advance 1).Ready (b1 :: b0 :: rest) := ready_advance d [ARRAY16] _ h
  have hI := ready_inBE2 (castU 64) _ b1 b0 rest hR h1 h0
  have hR2 : ((d.advance 1).advance 2).Ready rest := ready_advance _ [b1, b0] rest hR
  rw [advance_advance] at hI hR2
  have hE := ready_CheckEOF _ _ hR2
  unfold Deserializer_Array
  rw [hT]
  dsimp only
  rw [if_neg (by decide), if_pos rfl, hI]
  dsimp only
  rw [hE, castU_natCast, Nat.mod_eq_of_lt (by omega)]

theorem Array_ARRAY32 (d : Deserializer) (b3 b2 b1 b0 : Nat) (rest : List Nat)
    (h : d.Ready (ARRAY32 :: b3 :: b2 :: b1 :: b0 :: rest))
    (h3 : b3 < 256) (h2 : b2 < 256) (h1 : b1 < 256) (h0 : b0 < 256) :
    Deserializer_Array d =
      (b3 * 16777216 + b2 * 65536 + b1 * 256 + b0, d.advance 5) := by
  have hT := ready_Type d ARRAY32 _ h (by decide)
  have hR : (d.advance 1).Ready (b3 :: b2 :: b1 :: b0 :: rest) := ready_advance d [ARRAY32] _ h
  have hI := ready_inBE4 (castU 64) _ b3 b2 b1 b0 rest hR h3 h2 h1 h0
  have hR2 : ((d.advance 1).advance 4).Ready rest := ready_advance _ [b3, b2, b1, b0] rest hR
  rw [advance_advance] at hI hR2
  have hE := ready_CheckEOF _ _ hR2
  unfold Deserializer_Array
  rw [hT]
  dsimp only
  rw [if_neg (by decide), if_neg (by decide), if_pos rfl, hI]
  dsimp only
  rw [hE, castU_natCast, Nat.mod_eq_of_lt (by omega)]

/-! ## Round trips -/

theorem Serializer_Int_append (out : List Nat) (v : Int) :
    Serializer_Int out v = out ++ Serializer_Int [] v := by
  unfold Serializer_Int outBE1_signed outBE2_signed outBE4_signed outBE8_signed
  split_ifs <;> simp

theorem Serializer_Uint_append (out : List Nat) (v : Nat) :
    Serializer_Uint out v = out ++ Serializer_Uint [] v := by
  unfold Serializer_Uint outBE1 outBE2 outBE4 outBE8
  split_ifs <;> simp

theorem Serializer_String_len_append (out : List Nat) (n : Nat) :
    Serializer_String_len out n = out ++ Serializer_String_len [] n := by
  unfold Serializer_String_len outBE1 outBE2 outBE4
  split_ifs <;> simp

theorem Serializer_Array_len_append (out : List Nat) (n : Nat) :
    Serializer_Array_len out n = out ++ Serializer_Array_len [] n := by
  unfold Serializer_Array_len outBE2 outBE4
  split_ifs <;> simp

theorem Serializer_String_append (out s : List Nat) :
    Serializer_String out s = out ++ Serializer_String [] s := by
  unfold Serializer_String
  rw [Serializer_String_len_append, List.append_assoc]

theorem Serializer_Bool_append (out : List Nat) (v : Bool) :
    Serializer_Bool out v = out ++ Serializer_Bool [] v := by
  simp [Serializer_Bool]

theorem foldl_append_of {α : Type} (f : List Nat → α → List Nat)
    (hf : ∀ out a, f out a = out ++ f [] a) (xs : List α) (out : List Nat) :
    xs.foldl f out = out ++ xs.foldl f [] := by
  induction xs generalizing out with
  | nil => simp
  | cons x xs ih =>
    simp only [List.foldl_cons]
    rw [ih (f out x), ih (f [] x), hf out x, List.append_assoc]

theorem foldl_cons_of {α : Type} (f : List Nat → α → List Nat)
    (hf : ∀ out a, f out a = out ++ f [] a) (x : α) (xs : List α) :
    (x :: xs).foldl f [] = f [] x ++ xs.foldl f [] := by
  simp only [List.foldl_cons]
  rw [foldl_append_of f hf xs (f [] x)]

theorem castS_8 (x : Int) :
    castS 8 x = if x % 256 < 128 then x % 256 else x % 256 - 256 := by
  unfold castS
  norm_num

theorem castS_16 (x : Int) :
    castS 16 x = if x % 65536 < 32768 then x % 65536 else x % 65536 - 65536 := by
  unfold castS
  norm_num

theorem rt_s8 (v : Int) (h : -128 ≤ v) (h2 : v ≤ 127) :
    castS 8 ((outBE_signed v 0 : Nat) : Int) = v := by
  rw [castS_8]
  simp only [outBE_signed_cast]
  norm_num
  split_ifs <;> omega

theorem rt_s16 (v : Int) (h : -32768 ≤ v) (h2 : v ≤ 32767) :
    castS 16 ((outBE_signed v 1 * 256 + outBE_signed v 0 : Nat) : Int) = v := by
  rw [castS_16]
  push_cast
  simp only [outBE_signed_cast]
  norm_num
  split_ifs <;> omega

theorem castU_8_tag (t : Nat) (ht : t < 256) : castU 8 (t : Int) = t := by
  rw [castU_natCast]; omega

theorem Int_roundtrip_one (d : Deserializer) (v : Int) (rest : List Nat)
    (hv : INT64_MIN ≤ v ∧ v ≤ INT64_MAX) (h : d.Ready (Serializer_Int [] v ++ rest)) :
    Deserializer_Int d = (v, d.advance (Serializer_Int [] v).length) := by
  simp only [INT64_MIN, INT64_MAX] at hv
  unfold Serializer_Int at h ⊢
  simp only [NEG_FIXINT_MIN, POS_FIXINT_MAX, INT8_MIN, INT8_MAX, INT16_MIN, INT16_MAX,
    INT32_MIN, INT32_MAX, outBE1_signed, outBE2_signed, outBE4_signed, outBE8_signed,
    List.nil_append] at h ⊢
  by_cases c0 : v ≥ -32 ∧ v ≤ 127
  · rw [if_pos c0] at h ⊢
    have hb : castU 8 (and_0xff v) = (v % 256).toNat := by
      unfold castU and_0xff; norm_num
    rw [hb] at h
    by_cases hn : 0 ≤ v
    · rw [Int_fixpos d _ rest h (by omega)]
      congr 1
      omega
    · rw [Int_fixneg d _ rest h (by omega) (by omega)]
      congr 1
      omega
  · rw [if_neg c0] at h ⊢
    by_cases c1 : v ≥ -128 ∧ v ≤ 127
    · rw [if_pos c1] at h ⊢
      rw [castU_8_tag INT8 (by decide)] at h
      rw [Int_INT8 d _ rest h (outBE_signed_lt _ _), rt_s8 v c1.1 c1.2]
      rfl
    · rw [if_neg c1] at h ⊢
      by_cases c2 : v ≥ -32768 ∧ v ≤ 32767
      · rw [if_pos c2] at h ⊢
        rw [castU_8_tag INT16 (by decide)] at h
        rw [Int_INT16 d _ _ rest h (outBE_signed_lt _ _) (outBE_signed_lt _ _),
          rt_s16 v c2.1 c2.2]
        rfl
      · rw [if_neg c2] at h ⊢
        by_cases c3 : v ≥ -2147483648 ∧ v ≤ 2147483647
        · rw [if_pos c3] at h ⊢
          rw [castU_8_tag INT32 (by decide)] at h
          rw [Int_INT32 d _ _ _ _ rest h (outBE_signed_lt _ _) (outBE_signed_lt _ _)
            (outBE_signed_lt _ _) (outBE_signed_lt _ _), rt_s32 v c3.1 c3.2]
          rfl
        · rw [if_neg c3] at h ⊢
          rw [castU_8_tag INT64 (by decide)] at h
          rw [Int_INT64 d _ _ _ _ _ _ _ _ rest h (outBE_signed_lt _ _) (outBE_signed_lt _ _)
            (outBE_signed_lt _ _) (outBE_signed_lt _ _) (outBE_signed_lt _ _)
            (outBE_signed_lt _ _) (outBE_signed_lt _ _) (outBE_signed_lt _ _),
            rt_s64 v hv.1 hv.2]
          rfl

theorem read_Ints_roundtrip (vs : List Int) (hv : ∀ v ∈ vs, INT64_MIN ≤ v ∧ v ≤ INT64_MAX)
    (d : Deserializer) (rest : List Nat) (h : d.Ready (vs.foldl Serializer_Int [] ++ rest)) :
    read_Ints vs.length d = (vs, d.advance (vs.foldl Serializer_Int []).length) := by
  induction vs generalizing d with
  | nil => rfl
  | cons v vs ih =>
    rw [foldl_cons_of Serializer_Int Serializer_Int_append] at h ⊢
    rw [List.append_assoc] at h
    have h1 := Int_roundtrip_one d v _ (hv v (List.mem_cons_self _ _)) h
    have hR := ready_advance d _ _ h
    have h2 := ih (fun w hw => hv w (List.mem_cons_of_mem _ hw)) _ hR
    simp only [List.length_cons, read_Ints]
    rw [h1]
    dsimp only
    rw [h2, advance_advance, List.length_append]

theorem and_0xff_nat (v : Nat) : v &&& 0xff = v % 256 := by
  have := Nat.and_pow_two_sub_one_eq_mod v 8
  norm_num at this
  exact this

theorem rt_u8 (v : Nat) (h : v < 256) : outBE v 0 = v := by
  rw [outBE_eq]; norm_num; omega

theorem rt_u16 (v : Nat) (h : v < 65536) : outBE v 1 * 256 + outBE v 0 = v := by
  simp only [outBE_eq]; norm_num; omega

theorem rt_u32 (v : Nat) (h : v < 4294967296) :
    outBE v 3 * 16777216 + outBE v 2 * 65536 + outBE v 1 * 256 + outBE v 0 = v := by
  simp only [outBE_eq]; norm_num; omega

theorem rt_u64_sum (v : Nat) (h : v < 18446744073709551616) :
    outBE v 7 * 72057594037927936 + outBE v 6 * 281474976710656 + outBE v 5 * 1099511627776
      + outBE v 4 * 4294967296 + outBE v 3 * 16777216 + outBE v 2 * 65536 + outBE v 1 * 256
      + outBE v 0 = v := by
  simp only [outBE_eq]; norm_num; omega

theorem Uint_roundtrip_one (d : Deserializer) (v : Nat) (rest : List Nat)
    (hv : v ≤ UINT64_MAX) (h : d.Ready (Serializer_Uint [] v ++ rest)) :
    Deserializer_Uint d = (v, d.advance (Serializer_Uint [] v).length) := by
  simp only [UINT64_MAX] at hv
  unfold Serializer_Uint at h ⊢
  have e127 : castU 64 POS_FIXINT_MAX = 127 := by decide
  simp only [e127, UINT8_MAX, UINT16_MAX, UINT32_MAX, outBE1, outBE2, outBE4, outBE8,
    List.nil_append] at h ⊢
  by_cases c0 : v ≤ 127
  · rw [if_pos c0] at h ⊢
    have hb : castU 8 ((v &&& 0xff : Nat) : Int) = v := by
      rw [and_0xff_nat, castU_natCast]; omega
    rw [hb] at h
    rw [Uint_fixpos d _ rest h c0]
    rfl
  · rw [if_neg c0] at h ⊢
    by_cases c1 : v ≤ 255
    · rw [if_pos c1] at h ⊢
      rw [castU_8_tag UINT8 (by decide)] at h
      rw [Uint_UINT8 d _ rest h (outBE_lt _ _), rt_u8 v (by omega)]
      rfl
    · rw [if_neg c1] at h ⊢
      by_cases c2 : v ≤ 65535
      · rw [if_pos c2] at h ⊢
        rw [castU_8_tag UINT16 (by decide)] at h
        rw [Uint_UINT16 d _ _ rest h (outBE_lt _ _) (outBE_lt _ _), rt_u16 v (by omega)]
        rfl
      · rw [if_neg c2] at h ⊢
        by_cases c3 : v ≤ 4294967295
        · rw [if_pos c3] at h ⊢
          rw [castU_8_tag UINT32 (by decide)] at h
          rw [Uint_UINT32 d _ _ _ _ rest h (outBE_lt _ _) (outBE_lt _ _)
            (outBE_lt _ _) (outBE_lt _ _), rt_u32 v (by omega)]
          rfl
        · rw [if_neg c3] at h ⊢
          rw [castU_8_tag UINT64 (by decide)] at h
          rw [Uint_UINT64 d _ _ _ _ _ _ _ _ rest h (outBE_lt _ _) (outBE_lt _ _)
            (outBE_lt _ _) (outBE_lt _ _) (outBE_lt _ _)
            (outBE_lt _ _) (outBE_lt _ _) (outBE_lt _ _),
            rt_u64_sum v (by omega)]
          rfl

theorem read_Uints_roundtrip (vs : List Nat) (hv : ∀ v ∈ vs, v ≤ UINT64_MAX)
    (d : Deserializer) (rest : List Nat) (h : d.Ready (vs.foldl Serializer_Uint [] ++ rest)) :
    read_Uints vs.length d = (vs, d.advance (vs.foldl Serializer_Uint []).length) := by
  induction vs generalizing d with
  | nil => rfl
  | cons v vs ih =>
    rw [foldl_cons_of Serializer_Uint Serializer_Uint_append] at h ⊢
    rw [List.append_assoc] at h
    have h1 := Uint_roundtrip_one d v _ (hv v (List.mem_cons_self _ _)) h
    have hR := ready_advance d _ _ h
    have h2 := ih (fun w hw => hv w (List.mem_cons_of_mem _ hw)) _ hR
    simp only [List.length_cons, read_Uints]
    rw [h1]
    dsimp only
    rw [h2, advance_advance, List.length_append]

theorem Bool_roundtrip_one (d : Deserializer) (v : Bool) (rest : List Nat)
    (h : d.Ready (Serializer_Bool [] v ++ rest)) :
    Deserializer_Bool d = (v, d.advance (Serializer_Bool [] v).length) := by
  have e : Serializer_Bool [] v = [if v then TRUE else FALSE] := by
    cases v <;> decide
  rw [e] at h ⊢
  exact Bool_byte d v rest h

theorem read_Bools_roundtrip (vs : List Bool)
    (d : Deserializer) (rest : List Nat) (h : d.Ready (vs.foldl Serializer_Bool [] ++ rest)) :
    read_Bools vs.length d = (vs, d.advance (vs.foldl Serializer_Bool []).length) := by
  induction vs generalizing d with
  | nil => rfl
  | cons v vs ih =>
    rw [foldl_cons_of Serializer_Bool Serializer_Bool_append] at h ⊢
    rw [List.append_assoc] at h
    have h1 := Bool_roundtrip_one d v _ h
    have hR := ready_advance d _ _ h
    have h2 := ih _ hR
    simp only [List.length_cons, read_Bools]
    rw [h1]
    dsimp only
    rw [h2, advance_advance, List.length_append]

theorem String_roundtrip_one (d : Deserializer) (s0 s rest : List Nat)
    (hs : s.length < 4294967296) (h : d.Ready (Serializer_String [] s ++ rest)) :
    Deserializer_String d s0 = (s, d.advance (Serializer_String [] s).length) := by
  unfold Serializer_String Serializer_String_len at h ⊢
  simp only [FIXSTR_MAX, UINT8_MAX, UINT16_MAX, outBE1, outBE2, outBE4,
    List.nil_append] at h ⊢
  by_cases c0 : s.length ≤ 31
  · rw [if_pos c0] at h ⊢
    have hb : castU 8 ((FIXSTR + castU 8 (s.length : Int) : Nat) : Int) = FIXSTR + s.length := by
      rw [castU_natCast, castU_natCast]; simp only [FIXSTR]; omega
    rw [hb, List.append_assoc] at h
    rw [String_fixstr d s0 s rest c0 h, List.length_append]
    rfl
  · rw [if_neg c0] at h ⊢
    by_cases c1 : s.length ≤ 255
    · rw [if_pos c1] at h ⊢
      rw [castU_8_tag STR8 (by decide), rt_u8 _ (by omega), List.append_assoc] at h
      rw [String_STR8 d s0 s rest (by omega) h, List.length_append]
      rfl
    · rw [if_neg c1] at h ⊢
      by_cases c2 : s.length ≤ 65535
      · rw [if_pos c2] at h ⊢
        rw [castU_8_tag STR16 (by decide), List.append_assoc] at h
        rw [String_STR16 d s0 s rest _ _ (outBE_lt _ _) (outBE_lt _ _)
          (rt_u16 _ (by omega)).symm h, List.length_append]
        rfl
      · rw [if_neg c2] at h ⊢
        rw [castU_8_tag STR32 (by decide), List.append_assoc] at h
        rw [String_STR32 d s0 s rest _ _ _ _ (outBE_lt _ _) (outBE_lt _ _) (outBE_lt _ _)
          (outBE_lt _ _) (rt_u32 _ (by omega)).symm h, List.length_append]
        rfl

theorem read_Strings_roundtrip (vs : List (List Nat)) (hv : ∀ s ∈ vs, s.length < 4294967296)
    (d : Deserializer) (s0 rest : List Nat)
    (h : d.Ready (vs.foldl Serializer_String [] ++ rest)) :
    read_Strings vs.length d s0 = (vs, d.advance (vs.foldl Serializer_String []).length) := by
  induction vs generalizing d s0 with
  | nil => rfl
  | cons v vs ih =>
    rw [foldl_cons_of Serializer_String Serializer_String_append] at h ⊢
    rw [List.append_assoc] at h
    have h1 := String_roundtrip_one d s0 v _ (hv v (List.mem_cons_self _ _)) h
    have hR := ready_advance d _ _ h
    have h2 := ih (fun w hw => hv w (List.mem_cons_of_mem _ hw)) _ v hR
    simp only [List.length_cons, read_Strings]
    rw [h1]
    dsimp only
    rw [h2, advance_advance, List.length_append]

theorem read_Strings_fresh_roundtrip (vs : List (List Nat))
    (hv : ∀ s ∈ vs, s.length < 4294967296) (d : Deserializer) (rest : List Nat)
    (h : d.Ready (vs.foldl Serializer_String [] ++ rest)) :
    read_Strings_fresh vs.length d
      = (vs, d.advance (vs.foldl Serializer_String []).length) := by
  induction vs generalizing d with
  | nil => rfl
  | cons v vs ih =>
    rw [foldl_cons_of Serializer_String Serializer_String_append] at h ⊢
    rw [List.append_assoc] at h
    have h1 := String_roundtrip_one d [] v _ (hv v (List.mem_cons_self _ _)) h
    have hR := ready_advance d _ _ h
    have h2 := ih (fun w hw => hv w (List.mem_cons_of_mem _ hw)) _ hR
    simp only [List.length_cons, read_Strings_fresh]
    rw [h1]
    dsimp only
    rw [h2, advance_advance, List.length_append]

theorem Array_roundtrip_one (d : Deserializer) (n : Nat) (rest : List Nat)
    (hn : n < 4294967296) (h : d.Ready (Serializer_Array_len [] n ++ rest)) :
    Deserializer_Array d = (n, d.advance (Serializer_Array_len [] n).length) := by
  unfold Serializer_Array_len at h ⊢
  simp only [FIXARRAY_MAX, UINT16_MAX, outBE2, outBE4, List.nil_append] at h ⊢
  by_cases c0 : n ≤ 15
  · rw [if_pos c0] at h ⊢
    have hb : castU 8 ((FIXARRAY + castU 8 (n : Int) : Nat) : Int) = FIXARRAY + n := by
      rw [castU_natCast, castU_natCast]; simp only [FIXARRAY]; omega
    rw [hb] at h
    rw [Array_fixarray d n rest c0 h]
    rfl
  · rw [if_neg c0] at h ⊢
    by_cases c2 : n ≤ 65535
    · rw [if_pos c2] at h ⊢
      rw [castU_8_tag ARRAY16 (by decide)] at h
      rw [Array_ARRAY16 d _ _ rest h (outBE_lt _ _) (outBE_lt _ _), rt_u16 _ (by omega)]
      rfl
    · rw [if_neg c2] at h ⊢
      rw [castU_8_tag ARRAY32 (by decide)] at h
      rw [Array_ARRAY32 d _ _ _ _ rest h (outBE_lt _ _) (outBE_lt _ _) (outBE_lt _ _)
        (outBE_lt _ _), rt_u32 _ (by omega)]
      rfl

theorem Serializer_Array_eq (v : List (List Nat)) :
    Serializer_Array [] v = Serializer_Array_len [] v.length ++ write_Strings v := by
  unfold Serializer_Array write_Strings
  rw [foldl_append_of Serializer_String Serializer_String_append]

/-! ## The round-trip claims -/

/-- C1: for every list `vs` of signed 64-bit integers, writing each with
`Serializer::Int` in order and then calling `Deserializer::Int` that many times
on the bytes written returns `vs` in order, leaves the error flag unset (so
`Err` returns false and leaves its argument alone) and leaves the read position
exactly at the end of the bytes written, with the stream still good. -/
theorem C1_Int_roundtrip (vs : List Int) (hv : ∀ v ∈ vs, INT64_MIN ≤ v ∧ v ≤ INT64_MAX)
    (uninit : Nat → Nat) (e : String) :
    (test_Int vs uninit).1 = vs ∧
    (test_Int vs uninit).2.err_ = false ∧
    Deserializer_Err (test_Int vs uninit).2 e = (false, e) ∧
    (test_Int vs uninit).2.in_.pos = (write_Ints vs).length ∧
    (test_Int vs uninit).2.in_.good = true := by
  have h := read_Ints_roundtrip vs hv (Deserializer.new (write_Ints vs) uninit) []
    (by rw [List.append_nil]; exact ready_new _ _)
  rw [show vs.foldl Serializer_Int [] = write_Ints vs from rfl] at h
  unfold test_Int
  rw [h]
  simp [Deserializer.advance, Deserializer.new, Deserializer_Err, IStream.good]

/-- Witness of C1 at the tag boundaries -33 and -32, 127 and 128, INT8_MIN, the INT16
and INT32 limits, INT64_MIN and INT64_MAX. -/
theorem C1_Int_roundtrip_witness :
    (∀ v ∈ [(-33 : Int), -32, 127, 128, INT8_MIN, INT16_MIN, INT16_MAX, INT32_MIN, INT32_MAX,
      INT64_MIN, INT64_MAX], INT64_MIN ≤ v ∧ v ≤ INT64_MAX) ∧
    ((test_Int [(-33 : Int), -32, 127, 128, INT8_MIN, INT16_MIN, INT16_MAX, INT32_MIN, INT32_MAX,
      INT64_MIN, INT64_MAX] (fun _ => 0)).1
      = [(-33 : Int), -32, 127, 128, INT8_MIN, INT16_MIN, INT16_MAX, INT32_MIN, INT32_MAX,
      INT64_MIN, INT64_MAX] ∧
    (test_Int [(-33 : Int), -32, 127, 128, INT8_MIN, INT16_MIN, INT16_MAX, INT32_MIN, INT32_MAX,
      INT64_MIN, INT64_MAX] (fun _ => 0)).2.err_ = false ∧
    Deserializer_Err (test_Int [(-33 : Int), -32, 127, 128, INT8_MIN, INT16_MIN, INT16_MAX, INT32_MIN, INT32_MAX,
      INT64_MIN, INT64_MAX] (fun _ => 0)).2 "" = (false, "") ∧
    (test_Int [(-33 : Int), -32, 127, 128, INT8_MIN, INT16_MIN, INT16_MAX, INT32_MIN, INT32_MAX,
      INT64_MIN, INT64_MAX] (fun _ => 0)).2.in_.pos
      = (write_Ints [(-33 : Int), -32, 127, 128, INT8_MIN, INT16_MIN, INT16_MAX, INT32_MIN, INT32_MAX,
      INT64_MIN, INT64_MAX]).length ∧
    (test_Int [(-33 : Int), -32, 127, 128, INT8_MIN, INT16_MIN, INT16_MAX, INT32_MIN, INT32_MAX,
      INT64_MIN, INT64_MAX] (fun _ => 0)).2.in_.good = true) :=
  ⟨by decide, C1_Int_roundtrip [(-33 : Int), -32, 127, 128, INT8_MIN, INT16_MIN, INT16_MAX, INT32_MIN, INT32_MAX,
      INT64_MIN, INT64_MAX] (by decide) (fun _ => 0) ""⟩

/-- C2: for every list `vs` of unsigned 64-bit integers, writing each with
`Serializer::Uint` in order and then calling `Deserializer::Uint` that many
times on the bytes written returns `vs` in order, leaves the error flag unset
and leaves the read position exactly at the end of the bytes written, with the
stream still good. -/
theorem C2_Uint_roundtrip (vs : List Nat) (hv : ∀ v ∈ vs, v ≤ UINT64_MAX)
    (uninit : Nat → Nat) (e : String) :
    (test_Uint vs uninit).1 = vs ∧
    (test_Uint vs uninit).2.err_ = false ∧
    Deserializer_Err (test_Uint vs uninit).2 e = (false, e) ∧
    (test_Uint vs uninit).2.in_.pos = (write_Uints vs).length ∧
    (test_Uint vs uninit).2.in_.good = true := by
  have h := read_Uints_roundtrip vs hv (Deserializer.new (write_Uints vs) uninit) []
    (by rw [List.append_nil]; exact ready_new _ _)
  rw [show vs.foldl Serializer_Uint [] = write_Uints vs from rfl] at h
  unfold test_Uint
  rw [h]
  simp [Deserializer.advance, Deserializer.new, Deserializer_Err, IStream.good]

/-- Witness of C2 at the tag boundaries 127/128, 255/256, 65535/65536,
2^32-1/2^32 and UINT64_MAX. -/
theorem C2_Uint_roundtrip_witness :
    (∀ v ∈ [127, 128, 255, 256, 65535, 65536, 4294967295, 4294967296, UINT64_MAX], v ≤ UINT64_MAX) ∧
    ((test_Uint [127, 128, 255, 256, 65535, 65536, 4294967295, 4294967296, UINT64_MAX] (fun _ => 0)).1
      = [127, 128, 255, 256, 65535, 65536, 4294967295, 4294967296, UINT64_MAX] ∧
    (test_Uint [127, 128, 255, 256, 65535, 65536, 4294967295, 4294967296, UINT64_MAX] (fun _ => 0)).2.err_ = false ∧
    Deserializer_Err (test_Uint [127, 128, 255, 256, 65535, 65536, 4294967295, 4294967296, UINT64_MAX] (fun _ => 0)).2 "" = (false, "") ∧
    (test_Uint [127, 128, 255, 256, 65535, 65536, 4294967295, 4294967296, UINT64_MAX] (fun _ => 0)).2.in_.pos
      = (write_Uints [127, 128, 255, 256, 65535, 65536, 4294967295, 4294967296, UINT64_MAX]).length ∧
    (test_Uint [127, 128, 255, 256, 65535, 65536, 4294967295, 4294967296, UINT64_MAX] (fun _ => 0)).2.in_.good = true) :=
  ⟨by decide, C2_Uint_roundtrip [127, 128, 255, 256, 65535, 65536, 4294967295, 4294967296, UINT64_MAX] (by decide) (fun _ => 0) ""⟩

/-- C3: for every list `vs` of byte strings, each shorter than 2^32 bytes and of
arbitrary content, writing each with `Serializer::String(string)` in order and
then calling `Deserializer::String` that many times returns each string
unchanged in order, leaves the error flag unset, and leaves the read position
at the end of the bytes written. This holds when every call is made on a fresh
string, as in the test, and when all calls are made on one variable, whatever
it held before the first call. -/
theorem C3_String_roundtrip (vs : List (List Nat)) (hv : ∀ s ∈ vs, s.length < 2 ^ 32)
    (uninit : Nat → Nat) (s0 : List Nat) (e : String) :
    ((test_String vs uninit).1 = vs ∧
      (test_String vs uninit).2.err_ = false ∧
      Deserializer_Err (test_String vs uninit).2 e = (false, e) ∧
      (test_String vs uninit).2.in_.pos = (write_Strings vs).length) ∧
    ((read_Strings vs.length (Deserializer.new (write_Strings vs) uninit) s0).1 = vs ∧
      (read_Strings vs.length (Deserializer.new (write_Strings vs) uninit) s0).2.err_
        = false) := by
  have hv2 : ∀ s ∈ vs, s.length < 4294967296 := fun s hs => by
    have := hv s hs; norm_num at this; exact this
  have h := read_Strings_fresh_roundtrip vs hv2
    (Deserializer.new (write_Strings vs) uninit) []
    (by rw [List.append_nil]; exact ready_new _ _)
  have h2 := read_Strings_roundtrip vs hv2
    (Deserializer.new (write_Strings vs) uninit) s0 []
    (by rw [List.append_nil]; exact ready_new _ _)
  rw [show vs.foldl Serializer_String [] = write_Strings vs from rfl] at h h2
  unfold test_String
  rw [h, h2]
  simp [Deserializer.advance, Deserializer.new, Deserializer_Err]

/-- Witness of C3: the empty string, a string with a NUL byte, a string of
bytes that look like tags, and strings of 31 and 32 bytes. -/
theorem C3_String_roundtrip_witness :
    (∀ s ∈ [[], [0], [0xd9, 0xa0, 0xc3, 0xdb], List.replicate 31 97, List.replicate 32 97], s.length < 2 ^ 32) ∧
    (((test_String [[], [0], [0xd9, 0xa0, 0xc3, 0xdb], List.replicate 31 97, List.replicate 32 97] (fun _ => 0)).1
        = [[], [0], [0xd9, 0xa0, 0xc3, 0xdb], List.replicate 31 97, List.replicate 32 97] ∧
      (test_String [[], [0], [0xd9, 0xa0, 0xc3, 0xdb], List.replicate 31 97, List.replicate 32 97] (fun _ => 0)).2.err_ = false ∧
      Deserializer_Err (test_String [[], [0], [0xd9, 0xa0, 0xc3, 0xdb], List.replicate 31 97, List.replicate 32 97] (fun _ => 0)).2 "" = (false, "") ∧
      (test_String [[], [0], [0xd9, 0xa0, 0xc3, 0xdb], List.replicate 31 97, List.replicate 32 97] (fun _ => 0)).2.in_.pos
        = (write_Strings [[], [0], [0xd9, 0xa0, 0xc3, 0xdb], List.replicate 31 97, List.replicate 32 97]).length) ∧
    ((read_Strings ([[], [0], [0xd9, 0xa0, 0xc3, 0xdb], List.replicate 31 97, List.replicate 32 97]).length
        (Deserializer.new (write_Strings [[], [0], [0xd9, 0xa0, 0xc3, 0xdb], List.replicate 31 97, List.replicate 32 97]) (fun _ => 0)) [1, 2, 3]).1
        = [[], [0], [0xd9, 0xa0, 0xc3, 0xdb], List.replicate 31 97, List.replicate 32 97] ∧
      (read_Strings ([[], [0], [0xd9, 0xa0, 0xc3, 0xdb], List.replicate 31 97, List.replicate 32 97]).length
        (Deserializer.new (write_Strings [[], [0], [0xd9, 0xa0, 0xc3, 0xdb], List.replicate 31 97, List.replicate 32 97]) (fun _ => 0)) [1, 2, 3]).2.err_
        = false)) :=
  ⟨by decide, C3_String_roundtrip [[], [0], [0xd9, 0xa0, 0xc3, 0xdb], List.replicate 31 97, List.replicate 32 97] (by decide) (fun _ => 0) [1, 2, 3] ""⟩

/-- C4: for every vector `v` of fewer than 2^32 strings, each shorter than 2^32
bytes, after `Serializer::Array(v)` the decoder's `Array()` returns `v.size()`,
the following that-many `String()` calls return the elements of `v` in order,
the error flag stays unset and the whole stream is consumed; and the stream is
the one produced by `Array(v.size())` followed by one `String` call per
element. -/
theorem C4_Array_roundtrip (v : List (List Nat)) (hn : v.length < 2 ^ 32)
    (hv : ∀ s ∈ v, s.length < 2 ^ 32) (uninit : Nat → Nat) (s0 : List Nat) (e : String) :
    (test_Array v uninit s0).1 = v.length ∧
    (test_Array v uninit s0).2.1 = v ∧
    (test_Array v uninit s0).2.2.err_ = false ∧
    Deserializer_Err (test_Array v uninit s0).2.2 e = (false, e) ∧
    (test_Array v uninit s0).2.2.in_.pos = (Serializer_Array [] v).length ∧
    Serializer_Array [] v = v.foldl Serializer_String (Serializer_Array_len [] v.length) := by
  have hR := ready_new (Serializer_Array [] v) uninit
  unfold test_Array
  rw [Serializer_Array_eq] at hR ⊢
  have hA := Array_roundtrip_one _ v.length _ (by norm_num at hn; exact hn) hR
  have hR2 := ready_advance _ _ _ hR
  have hS := read_Strings_roundtrip v
    (fun s hs => by have := hv s hs; norm_num at this; exact this) _ s0 []
    (by rw [List.append_nil]; exact hR2)
  rw [show v.foldl Serializer_String [] = write_Strings v from rfl] at hS
  rw [hA]
  dsimp only
  rw [hS]
  refine ⟨rfl, rfl, rfl, ?_, ?_, ?_⟩
  · simp [Deserializer.advance, Deserializer.new, Deserializer_Err]
  · simp [Deserializer.advance, Deserializer.new]
  · rw [← Serializer_Array_eq]; rfl

/-- Witness of C4: the array of sixteen empty strings. -/
theorem C4_Array_roundtrip_witness :
    ((List.replicate 16 []) : List (List Nat)).length < 2 ^ 32 ∧
    (∀ s ∈ ((List.replicate 16 []) : List (List Nat)), s.length < 2 ^ 32) ∧
    ((test_Array (List.replicate 16 []) (fun _ => 0) []).1 = ((List.replicate 16 []) : List (List Nat)).length ∧
    (test_Array (List.replicate 16 []) (fun _ => 0) []).2.1 = (List.replicate 16 []) ∧
    (test_Array (List.replicate 16 []) (fun _ => 0) []).2.2.err_ = false ∧
    Deserializer_Err (test_Array (List.replicate 16 []) (fun _ => 0) []).2.2 "" = (false, "") ∧
    (test_Array (List.replicate 16 []) (fun _ => 0) []).2.2.in_.pos
      = (Serializer_Array [] (List.replicate 16 [])).length ∧
    Serializer_Array [] (List.replicate 16 [])
      = ((List.replicate 16 []) : List (List Nat)).foldl Serializer_String
          (Serializer_Array_len [] ((List.replicate 16 []) : List (List Nat)).length)) :=
  ⟨by decide, by decide, C4_Array_roundtrip (List.replicate 16 []) (by decide) (by decide) (fun _ => 0) [] ""⟩

theorem write_Bools_eq (vs : List Bool) :
    write_Bools vs = vs.map (fun v => if v then 0xc3 else 0xc2) := by
  unfold write_Bools
  induction vs with
  | nil => rfl
  | cons v vs ih =>
    rw [foldl_cons_of Serializer_Bool Serializer_Bool_append, ih]
    cases v <;> rfl

/-- C5: for every list `vs` of booleans, `Serializer::Bool` writes exactly one
byte per value, 0xc3 for true and 0xc2 for false, and calling
`Deserializer::Bool` that many times on those bytes returns `vs` with the error
flag unset; `Bool(true)`, `Bool(false)` writes the bytes 0xc3, 0xc2. -/
theorem C5_Bool_roundtrip (vs : List Bool) (uninit : Nat → Nat) (e : String) :
    write_Bools vs = vs.map (fun v => if v then 0xc3 else 0xc2) ∧
    (test_Bool vs uninit).1 = vs ∧
    (test_Bool vs uninit).2.err_ = false ∧
    Deserializer_Err (test_Bool vs uninit).2 e = (false, e) ∧
    Serializer_Bool (Serializer_Bool [] true) false = [0xc3, 0xc2] := by
  have h := read_Bools_roundtrip vs (Deserializer.new (write_Bools vs) uninit) []
    (by rw [List.append_nil]; exact ready_new _ _)
  rw [show vs.foldl Serializer_Bool [] = write_Bools vs from rfl] at h
  unfold test_Bool
  rw [h]
  refine ⟨?_, rfl, rfl, ?_, by decide⟩
  · exact write_Bools_eq vs
  · simp [Deserializer.advance, Deserializer.new, Deserializer_Err]

/-! ## The format claims -/

theorem Serializer_Int_eq_bytes (v : Int) (hv : INT64_MIN ≤ v ∧ v ≤ INT64_MAX) :
    Serializer_Int [] v = Int_bytes v := by
  simp only [INT64_MIN, INT64_MAX] at hv
  have t8 := castU_8_tag INT8 (by decide)
  have t16 := castU_8_tag INT16 (by decide)
  have t32 := castU_8_tag INT32 (by decide)
  have t64 := castU_8_tag INT64 (by decide)
  unfold Serializer_Int Int_bytes
  simp only [NEG_FIXINT_MIN, POS_FIXINT_MAX, INT8_MIN, INT8_MAX, INT16_MIN, INT16_MAX,
    INT32_MIN, INT32_MAX, outBE1_signed, outBE2_signed, outBE4_signed, outBE8_signed,
    List.nil_append, big_endian, twos_complement, outBE_signed_eq, t8, t16, t32, t64]
  simp only [INT8, INT16, INT32, INT64]
  have e0 : castU 8 (and_0xff v) = (v % 256).toNat := by
    unfold castU and_0xff; norm_num
  rw [e0]
  split_ifs <;> first
    | rfl
    | (exfalso; omega)
    | (simp only [List.cons.injEq, and_true, true_and]; norm_num; omega)

theorem Serializer_Uint_eq_bytes (v : Nat) (hv : v ≤ UINT64_MAX) :
    Serializer_Uint [] v = Uint_bytes v := by
  simp only [UINT64_MAX] at hv
  have t8 := castU_8_tag UINT8 (by decide)
  have t16 := castU_8_tag UINT16 (by decide)
  have t32 := castU_8_tag UINT32 (by decide)
  have t64 := castU_8_tag UINT64 (by decide)
  have e127 : castU 64 POS_FIXINT_MAX = 127 := by decide
  unfold Serializer_Uint Uint_bytes
  simp only [e127, UINT8_MAX, UINT16_MAX, UINT32_MAX, outBE1, outBE2, outBE4, outBE8,
    List.nil_append, big_endian, outBE_eq, t8, t16, t32, t64, and_0xff_nat, castU_natCast]
  simp only [UINT8, UINT16, UINT32, UINT64]
  norm_num
  split_ifs <;> first
    | rfl
    | (simp only [List.cons.injEq, and_true, true_and]; omega)

theorem Serializer_String_len_eq_header (n : Nat) (hn : n < 2 ^ 32) :
    Serializer_String_len [] n = String_header n := by
  norm_num at hn
  have t8 := castU_8_tag STR8 (by decide)
  have t16 := castU_8_tag STR16 (by decide)
  have t32 := castU_8_tag STR32 (by decide)
  unfold Serializer_String_len String_header
  simp only [FIXSTR_MAX, UINT8_MAX, UINT16_MAX, outBE1, outBE2, outBE4,
    List.nil_append, big_endian, outBE_eq, t8, t16, t32, castU_natCast]
  simp only [STR8, STR16, STR32, FIXSTR]
  norm_num
  split_ifs <;> first
    | rfl
    | (simp only [List.cons.injEq, and_true, true_and]; omega)

theorem Serializer_Array_len_eq_header (n : Nat) (hn : n < 2 ^ 32) :
    Serializer_Array_len [] n = Array_header n := by
  norm_num at hn
  have t16 := castU_8_tag ARRAY16 (by decide)
  have t32 := castU_8_tag ARRAY32 (by decide)
  unfold Serializer_Array_len Array_header
  simp only [FIXARRAY_MAX, UINT16_MAX, outBE2, outBE4,
    List.nil_append, big_endian, outBE_eq, t16, t32, castU_natCast]
  simp only [ARRAY16, ARRAY32, FIXARRAY]
  norm_num
  split_ifs <;> first
    | rfl
    | (simp only [List.cons.injEq, and_true, true_and]; omega)

theorem write_Strings_eq_join (v : List (List Nat)) :
    write_Strings v = (v.map (Serializer_String [])).flatten := by
  unfold write_Strings
  induction v with
  | nil => rfl
  | cons s v ih =>
    rw [foldl_cons_of Serializer_String Serializer_String_append, ih]
    rfl

/-- C6: for every signed 64-bit `v`, `Serializer::Int(v)` appends to the stream
exactly the bytes `Int_bytes v`: the single byte `v mod 256` when
`-32 ≤ v ≤ 127`, otherwise the tag 0xd0, 0xd1, 0xd2 or 0xd3 of the narrowest
signed range of 8, 16, 32 or 64 bits containing `v`, followed by the 1, 2, 4 or
8 bytes of the two's-complement representation of `v` at that width in
big-endian order; and `Int(-33)` writes 0xd0, 0xdf. -/
theorem C6_Int_format (v : Int) (hv : INT64_MIN ≤ v ∧ v ≤ INT64_MAX) (out : List Nat) :
    Serializer_Int out v = out ++ Int_bytes v ∧ Serializer_Int [] (-33) = [0xd0, 0xdf] := by
  rw [Serializer_Int_append, Serializer_Int_eq_bytes v hv]
  exact ⟨rfl, by decide⟩

/-- Witness of C6 at INT64_MIN, whose encoding is the tag 0xd3 and the eight
bytes 0x80, 0, 0, 0, 0, 0, 0, 0. -/
theorem C6_Int_format_witness :
    (INT64_MIN ≤ INT64_MIN ∧ INT64_MIN ≤ INT64_MAX) ∧
    (Serializer_Int [0xc3] INT64_MIN = [0xc3] ++ Int_bytes INT64_MIN ∧
      Serializer_Int [] (-33) = [0xd0, 0xdf]) ∧
    Int_bytes INT64_MIN = [0xd3, 0x80, 0, 0, 0, 0, 0, 0, 0] :=
  ⟨by decide, C6_Int_format INT64_MIN (by decide) [0xc3], by decide⟩

/-- C7: for every unsigned 64-bit `v`, `Serializer::Uint(v)` appends to the
stream exactly the bytes `Uint_bytes v`: the single byte `v` when `v ≤ 127`;
0xcc, `v` when `128 ≤ v ≤ 255`; 0xcd and `v` as 2 big-endian bytes when
`256 ≤ v ≤ 65535`; 0xce and `v` as 4 big-endian bytes when
`65536 ≤ v ≤ 2^32-1`; 0xcf and `v` as 8 big-endian bytes otherwise. -/
theorem C7_Uint_format (v : Nat) (hv : v ≤ UINT64_MAX) (out : List Nat) :
    Serializer_Uint out v = out ++ Uint_bytes v := by
  rw [Serializer_Uint_append, Serializer_Uint_eq_bytes v hv]

/-- Witness of C7 at 2^32, the first value written with the tag 0xcf. -/
theorem C7_Uint_format_witness :
    4294967296 ≤ UINT64_MAX ∧
    Serializer_Uint [0xc3] 4294967296 = [0xc3] ++ Uint_bytes 4294967296 ∧
    Uint_bytes 4294967296 = [0xcf, 0, 0, 0, 1, 0, 0, 0, 0] :=
  ⟨by decide, C7_Uint_format 4294967296 (by decide) [0xc3], by decide⟩

/-- C8: for every byte string `s` of length `n < 2^32`, `Serializer::String(s)`
appends the length header `String_header n` followed by the bytes of `s`
verbatim, where the header is the single byte 0xa0+n when `n ≤ 31`; 0xd9, `n`
when `32 ≤ n ≤ 255`; 0xda and `n` as 2 big-endian bytes when
`256 ≤ n ≤ 65535`; 0xdb and `n` as 4 big-endian bytes otherwise. The header is
exactly what the length-only variant `String(n)` writes, and `String("")`
writes the single byte 0xa0. -/
theorem C8_String_format (s : List Nat) (hs : s.length < 2 ^ 32) (out : List Nat) :
    Serializer_String out s = out ++ String_header s.length ++ s ∧
    Serializer_String_len out s.length = out ++ String_header s.length ∧
    Serializer_String out s = Serializer_String_len out s.length ++ s ∧
    Serializer_String [] [] = [0xa0] := by
  have h := Serializer_String_len_eq_header s.length hs
  refine ⟨?_, ?_, rfl, by decide⟩
  · unfold Serializer_String
    rw [Serializer_String_len_append, h]
  · rw [Serializer_String_len_append, h]

/-- Witness of C8 on a string of 32 bytes, the first length written with the
tag 0xd9. -/
theorem C8_String_format_witness :
    (List.replicate 32 7).length < 2 ^ 32 ∧
    (Serializer_String [0xc3] (List.replicate 32 7)
        = [0xc3] ++ String_header (List.replicate 32 7).length ++ List.replicate 32 7 ∧
      Serializer_String_len [0xc3] (List.replicate 32 7).length
        = [0xc3] ++ String_header (List.replicate 32 7).length ∧
      Serializer_String [0xc3] (List.replicate 32 7)
        = Serializer_String_len [0xc3] (List.replicate 32 7).length ++ List.replicate 32 7 ∧
      Serializer_String [] [] = [0xa0]) ∧
    String_header 32 = [0xd9, 32] :=
  ⟨by decide, C8_String_format (List.replicate 32 7) (by decide) [0xc3], by decide⟩

/-- C9: for every count `n < 2^32`, `Serializer::Array(n)` appends the header
`Array_header n`: the single byte 0x90+n when `n ≤ 15`; 0xdc and `n` as 2
big-endian bytes when `16 ≤ n ≤ 65535`; 0xdd and `n` as 4 big-endian bytes
otherwise. For every vector `v` of fewer than 2^32 strings,
`Array(v)` appends that header for `v.size()` followed by the `String` encoding
of each element in order; an array of 16 empty strings is written as 0xdc,
0x00, 0x10 and sixteen bytes 0xa0. -/
theorem C9_Array_format (n : Nat) (hn : n < 2 ^ 32) (v : List (List Nat))
    (hv : v.length < 2 ^ 32) (out : List Nat) :
    Serializer_Array_len out n = out ++ Array_header n ∧
    Serializer_Array out v
      = out ++ Array_header v.length ++ (v.map (Serializer_String [])).flatten ∧
    Serializer_Array [] (List.replicate 16 [])
      = [0xdc, 0x00, 0x10] ++ List.replicate 16 0xa0 := by
  refine ⟨?_, ?_, by decide⟩
  · rw [Serializer_Array_len_append, Serializer_Array_len_eq_header n hn]
  · unfold Serializer_Array
    rw [foldl_append_of Serializer_String Serializer_String_append,
      Serializer_Array_len_append, Serializer_Array_len_eq_header _ hv]
    rw [show v.foldl Serializer_String [] = write_Strings v from rfl, write_Strings_eq_join]

/-- Witness of C9 at the count 65536, the first written with the tag 0xdd, and
on a vector of two strings. -/
theorem C9_Array_format_witness :
    65536 < 2 ^ 32 ∧ ([[1, 2], []] : List (List Nat)).length < 2 ^ 32 ∧
    (Serializer_Array_len [0xc3] 65536 = [0xc3] ++ Array_header 65536 ∧
      Serializer_Array [0xc3] [[1, 2], []]
        = [0xc3] ++ Array_header ([[1, 2], []] : List (List Nat)).length
          ++ (([[1, 2], []] : List (List Nat)).map (Serializer_String [])).flatten ∧
      Serializer_Array [] (List.replicate 16 [])
        = [0xdc, 0x00, 0x10] ++ List.replicate 16 0xa0) ∧
    Array_header 65536 = [0xdd, 0, 1, 0, 0] ∧
    Serializer_Array [0xc3] [[1, 2], []] = [0xc3, 0x92, 0xa2, 1, 2, 0xa0] :=
  ⟨by decide, by decide, C9_Array_format 65536 (by decide) [[1, 2], []] (by decide) [0xc3],
    by decide, by decide⟩

/-! ## End of stream and errors -/

theorem SetErr_err (d : Deserializer) (m : String) : (Deserializer_SetErr d m).err_ = true := by
  unfold Deserializer_SetErr
  cases h : d.err_ <;> simp [h]

theorem CheckEOF_err_of_eof (d : Deserializer) (h : d.in_.eofbit = true) :
    (Deserializer_CheckEOF d).2.err_ = true := by
  unfold Deserializer_CheckEOF
  simp only [IStream.eof, h, if_true]
  exact SetErr_err _ _

theorem CheckEOF_err_of_err (d : Deserializer) (h : d.err_ = true) :
    (Deserializer_CheckEOF d).2.err_ = true := by
  unfold Deserializer_CheckEOF
  dsimp only
  split_ifs
  · exact SetErr_err _ _
  · exact h

theorem get_eof_of_ready_nil (d : Deserializer) (h : d.Ready []) :
    d.in_.get = (-1, { d.in_ with eofbit := true, failbit := true }) := by
  obtain ⟨h1, h2, h3, h4⟩ := h
  have hg : d.in_.buf[d.in_.pos]? = none := by
    have := congrArg List.head? h4
    simpa [List.head?_drop] using this
  simp [IStream.get, IStream.good, h1, h2, hg]

theorem read_short (d : Deserializer) (rest dst : List Nat) (n : Nat) (h : d.Ready rest)
    (hn : rest.length < n) : (d.in_.read dst n).2.eofbit = true := by
  obtain ⟨h1, h2, h3, h4⟩ := h
  have hl : ((d.in_.buf.drop d.in_.pos).take n).length ≠ n := by
    rw [h4, List.length_take]; omega
  unfold IStream.read
  simp only [IStream.good, h1, h2, Bool.not_false, Bool.and_self, if_true]
  rw [if_neg hl]

theorem Type_eof (d : Deserializer) (h : d.Ready []) :
    (Deserializer_Type d).1 = 255 ∧ (Deserializer_Type d).2.err_ = true := by
  unfold Deserializer_Type
  rw [get_eof_of_ready_nil d h]
  simp only [IStream.eof, if_true]
  exact ⟨by decide, SetErr_err _ _⟩

theorem Int_err_of_nil (d : Deserializer) (h : d.Ready []) :
    (Deserializer_Int d).2.err_ = true := by
  obtain ⟨ht, he⟩ := Type_eof d h
  unfold Deserializer_Int
  generalize Deserializer_Type d = r at ht he
  obtain ⟨t, d1⟩ := r
  simp only at ht he
  subst ht
  dsimp only
  rw [if_neg (by decide), if_pos (by decide)]
  exact CheckEOF_err_of_err _ he

theorem Uint_err_of_nil (d : Deserializer) (h : d.Ready []) :
    (Deserializer_Uint d).2.err_ = true := by
  obtain ⟨ht, he⟩ := Type_eof d h
  unfold Deserializer_Uint
  generalize Deserializer_Type d = r at ht he
  obtain ⟨t, d1⟩ := r
  simp only at ht he
  subst ht
  dsimp only
  rw [if_neg (by decide), if_neg (by decide), if_neg (by decide), if_neg (by decide),
    if_neg (by decide)]
  exact SetErr_err _ _

theorem inBE1_eof (α : Type) (cast : Int → α) (d : Deserializer) (h : d.Ready []) :
    (inBE1 cast d).2.in_.eofbit = true := by
  unfold inBE1
  rw [get_eof_of_ready_nil d h]

theorem inBE2_eof (α : Type) (cast : Int → α) (d : Deserializer) (rest : List Nat)
    (h : d.Ready rest) (hn : rest.length < 2) : (inBE2 cast d).2.in_.eofbit = true := by
  unfold inBE2
  exact read_short d rest _ 2 h hn

theorem inBE4_eof (α : Type) (cast : Int → α) (d : Deserializer) (rest : List Nat)
    (h : d.Ready rest) (hn : rest.length < 4) : (inBE4 cast d).2.in_.eofbit = true := by
  unfold inBE4
  exact read_short d rest _ 4 h hn

theorem inBE8_eof (α : Type) (cast : Int → α) (d : Deserializer) (rest : List Nat)
    (h : d.Ready rest) (hn : rest.length < 8) : (inBE8 cast d).2.in_.eofbit = true := by
  unfold inBE8
  exact read_short d rest _ 8 h hn

theorem castS_8_range (x : Int) : -128 ≤ castS 8 x ∧ castS 8 x ≤ 127 := by
  rw [castS_8]; split_ifs <;> omega

theorem castS_16_range (x : Int) : -32768 ≤ castS 16 x ∧ castS 16 x ≤ 32767 := by
  rw [castS_16]; split_ifs <;> omega

theorem castS_32_range (x : Int) : -2147483648 ≤ castS 32 x ∧ castS 32 x ≤ 2147483647 := by
  rw [castS_32]; split_ifs <;> omega

theorem Serializer_Int_length (v : Int) :
    (Serializer_Int [] v).length =
      if -32 ≤ v ∧ v ≤ 127 then 1 else if -128 ≤ v ∧ v ≤ 127 then 2
      else if -32768 ≤ v ∧ v ≤ 32767 then 3
      else if -2147483648 ≤ v ∧ v ≤ 2147483647 then 5 else 9 := by
  unfold Serializer_Int
  simp only [NEG_FIXINT_MIN, POS_FIXINT_MAX, INT8_MIN, INT8_MAX, INT16_MIN, INT16_MAX,
    INT32_MIN, INT32_MAX, outBE1_signed, outBE2_signed, outBE4_signed, outBE8_signed,
    List.nil_append, ge_iff_le]
  split_ifs <;> rfl

theorem Serializer_Uint_length (v : Nat) :
    (Serializer_Uint [] v).length =
      if v ≤ 127 then 1 else if v ≤ 255 then 2 else if v ≤ 65535 then 3
      else if v ≤ 4294967295 then 5 else 9 := by
  have e127 : castU 64 POS_FIXINT_MAX = 127 := by decide
  unfold Serializer_Uint
  simp only [e127, UINT8_MAX, UINT16_MAX, UINT32_MAX, outBE1, outBE2, outBE4, outBE8,
    List.nil_append]
  split_ifs <;> rfl

theorem Int_INT8_short (d : Deserializer) (h : d.Ready [INT8]) :
    (Deserializer_Int d).2.err_ = true := by
  have hT := ready_Type d INT8 [] h (by decide)
  have hR : (d.advance 1).Ready [] := ready_advance d [INT8] [] h
  unfold Deserializer_Int
  rw [hT]
  dsimp only
  rw [if_neg (by decide), if_neg (by decide), if_pos rfl]
  exact CheckEOF_err_of_eof _ (inBE1_eof _ _ _ hR)

theorem Int_INT16_short (d : Deserializer) (rest : List Nat) (h : d.Ready (INT16 :: rest))
    (hn : rest.length < 2) : (Deserializer_Int d).2.err_ = true := by
  have hT := ready_Type d INT16 rest h (by decide)
  have hR : (d.advance 1).Ready rest := ready_advance d [INT16] rest h
  unfold Deserializer_Int
  rw [hT]
  dsimp only
  rw [if_neg (by decide), if_neg (by decide), if_neg (by decide), if_pos rfl]
  exact CheckEOF_err_of_eof _ (inBE2_eof _ _ _ rest hR hn)

theorem Int_INT32_short (d : Deserializer) (rest : List Nat) (h : d.Ready (INT32 :: rest))
    (hn : rest.length < 4) : (Deserializer_Int d).2.err_ = true := by
  have hT := ready_Type d INT32 rest h (by decide)
  have hR : (d.advance 1).Ready rest := ready_advance d [INT32] rest h
  unfold Deserializer_Int
  rw [hT]
  dsimp only
  rw [if_neg (by decide), if_neg (by decide), if_neg (by decide), if_neg (by decide),
    if_pos rfl]
  exact CheckEOF_err_of_eof _ (inBE4_eof _ _ _ rest hR hn)

theorem Int_INT64_short (d : Deserializer) (rest : List Nat) (h : d.Ready (INT64 :: rest))
    (hn : rest.length < 8) : (Deserializer_Int d).2.err_ = true := by
  have hT := ready_Type d INT64 rest h (by decide)
  have hR : (d.advance 1).Ready rest := ready_advance d [INT64] rest h
  unfold Deserializer_Int
  rw [hT]
  dsimp only
  rw [if_neg (by decide), if_neg (by decide), if_neg (by decide), if_neg (by decide),
    if_neg (by decide), if_pos rfl]
  exact CheckEOF_err_of_eof _ (inBE8_eof _ _ _ rest hR hn)

theorem Int_bad_tag (d : Deserializer) (t : Nat) (rest : List Nat) (h : d.Ready (t :: rest))
    (h1 : 127 < t) (h2 : t < 224) (h3 : t ≠ 208) (h4 : t ≠ 209) (h5 : t ≠ 210)
    (h6 : t ≠ 211) : (Deserializer_Int d).2.err_ = true := by
  have hT := ready_Type d t rest h (by omega)
  unfold Deserializer_Int
  rw [hT]
  dsimp only
  rw [if_neg (by simp only [POS_FIXINT_MAX]; omega), if_neg (by simp only [NEG_FIXINT]; omega),
    if_neg (by simp only [INT8]; omega), if_neg (by simp only [INT16]; omega),
    if_neg (by simp only [INT32]; omega), if_neg (by simp only [INT64]; omega)]
  exact SetErr_err _ _

theorem Uint_UINT8_short (d : Deserializer) (h : d.Ready [UINT8]) :
    (Deserializer_Uint d).2.err_ = true := by
  have hT := ready_Type d UINT8 [] h (by decide)
  have hR : (d.advance 1).Ready [] := ready_advance d [UINT8] [] h
  unfold Deserializer_Uint
  rw [hT]
  dsimp only
  rw [if_neg (by decide), if_pos rfl]
  exact CheckEOF_err_of_eof _ (inBE1_eof _ _ _ hR)

theorem Uint_UINT16_short (d : Deserializer) (rest : List Nat) (h : d.Ready (UINT16 :: rest))
    (hn : rest.length < 2) : (Deserializer_Uint d).2.err_ = true := by
  have hT := ready_Type d UINT16 rest h (by decide)
  have hR : (d.advance 1).Ready rest := ready_advance d [UINT16] rest h
  unfold Deserializer_Uint
  rw [hT]
  dsimp only
  rw [if_neg (by decide), if_neg (by decide), if_pos rfl]
  exact CheckEOF_err_of_eof _ (inBE2_eof _ _ _ rest hR hn)

theorem Uint_UINT32_short (d : Deserializer) (rest : List Nat) (h : d.Ready (UINT32 :: rest))
    (hn : rest.length < 4) : (Deserializer_Uint d).2.err_ = true := by
  have hT := ready_Type d UINT32 rest h (by decide)
  have hR : (d.advance 1).Ready rest := ready_advance d [UINT32] rest h
  unfold Deserializer_Uint
  rw [hT]
  dsimp only
  rw [if_neg (by decide), if_neg (by decide), if_neg (by decide), if_pos rfl]
  exact CheckEOF_err_of_eof _ (inBE4_eof _ _ _ rest hR hn)

theorem Uint_UINT64_short (d : Deserializer) (rest : List Nat) (h : d.Ready (UINT64 :: rest))
    (hn : rest.length < 8) : (Deserializer_Uint d).2.err_ = true := by
  have hT := ready_Type d UINT64 rest h (by decide)
  have hR : (d.advance 1).Ready rest := ready_advance d [UINT64] rest h
  unfold Deserializer_Uint
  rw [hT]
  dsimp only
  rw [if_neg (by decide), if_neg (by decide), if_neg (by decide), if_neg (by decide),
    if_pos rfl]
  exact CheckEOF_err_of_eof _ (inBE8_eof _ _ _ rest hR hn)

theorem Uint_bad_tag (d : Deserializer) (t : Nat) (rest : List Nat) (h : d.Ready (t :: rest))
    (h1 : 127 < t) (h2 : t < 256) (h3 : t ≠ 204) (h4 : t ≠ 205) (h5 : t ≠ 206)
    (h6 : t ≠ 207) : (Deserializer_Uint d).2.err_ = true := by
  have hT := ready_Type d t rest h (by omega)
  unfold Deserializer_Uint
  rw [hT]
  dsimp only
  rw [if_neg (by simp only [POS_FIXINT_MAX]; omega),
    if_neg (by simp only [UINT8]; omega), if_neg (by simp only [UINT16]; omega),
    if_neg (by simp only [UINT32]; omega), if_neg (by simp only [UINT64]; omega)]
  exact SetErr_err _ _

theorem Int_canonical (d : Deserializer) (bs : List Nat) (h : d.Ready bs)
    (hb : ∀ b ∈ bs, b < 256) (herr : (Deserializer_Int d).2.err_ = false) :
    d.in_.pos + (Serializer_Int [] (Deserializer_Int d).1).length
      ≤ (Deserializer_Int d).2.in_.pos := by
  have adv : ∀ k, (d.advance k).in_.pos = d.in_.pos + k := fun _ => rfl
  match bs, h, hb with
  | [], h, _ =>
    rw [Int_err_of_nil d h] at herr
    exact absurd herr (by decide)
  | t :: rest, h, hb =>
    have ht : t < 256 := hb t (List.mem_cons_self _ _)
    by_cases c0 : t ≤ 127
    · rw [Int_fixpos d t rest h c0]
      dsimp only
      rw [adv, Serializer_Int_length, if_pos (by omega)]
    by_cases c1 : 224 ≤ t
    · rw [Int_fixneg d t rest h c1 ht]
      dsimp only
      rw [adv, Serializer_Int_length, if_pos (by omega)]
    by_cases c8 : t = 208
    · subst c8
      match rest, h, hb with
      | [], h, _ =>
        rw [Int_INT8_short d h] at herr
        exact absurd herr (by decide)
      | b :: rest, h, hb =>
        have hb0 : b < 256 := hb b (by simp)
        rw [Int_INT8 d b rest h hb0]
        dsimp only
        have hr := castS_8_range (b : Int)
        rw [adv, Serializer_Int_length]
        split_ifs <;> omega
    by_cases c16 : t = 209
    · subst c16
      match rest, h, hb with
      | [], h, _ =>
        rw [Int_INT16_short d _ h (by simp)] at herr
        exact absurd herr (by decide)
      | [_], h, _ =>
        rw [Int_INT16_short d _ h (by simp)] at herr
        exact absurd herr (by decide)
      | b1 :: b0 :: rest, h, hb =>
        rw [Int_INT16 d b1 b0 rest h (hb b1 (by simp)) (hb b0 (by simp))]
        dsimp only
        have hr := castS_16_range ((b1 * 256 + b0 : Nat) : Int)
        rw [adv, Serializer_Int_length]
        split_ifs <;> omega
    by_cases c32 : t = 210
    · subst c32
      by_cases hl : rest.length < 4
      · rw [Int_INT32_short d _ h hl] at herr
        exact absurd herr (by decide)
      · match rest, h, hb, hl with
        | b3 :: b2 :: b1 :: b0 :: rest, h, hb, _ =>
          rw [Int_INT32 d b3 b2 b1 b0 rest h (hb b3 (by simp)) (hb b2 (by simp))
            (hb b1 (by simp)) (hb b0 (by simp))]
          dsimp only
          have hr := castS_32_range
            ((b3 * 16777216 + b2 * 65536 + b1 * 256 + b0 : Nat) : Int)
          rw [adv, Serializer_Int_length]
          split_ifs <;> omega
        | [], _, _, hl => exact absurd (by simp) hl
        | [_], _, _, hl => exact absurd (by simp) hl
        | [_, _], _, _, hl => exact absurd (by simp) hl
        | [_, _, _], _, _, hl => exact absurd (by simp) hl
    by_cases c64 : t = 211
    · subst c64
      by_cases hl : rest.length < 8
      · rw [Int_INT64_short d _ h hl] at herr
        exact absurd herr (by decide)
      · match rest, h, hb, hl with
        | b7 :: b6 :: b5 :: b4 :: b3 :: b2 :: b1 :: b0 :: rest, h, hb, _ =>
          rw [Int_INT64 d b7 b6 b5 b4 b3 b2 b1 b0 rest h (hb b7 (by simp)) (hb b6 (by simp))
            (hb b5 (by simp)) (hb b4 (by simp)) (hb b3 (by simp)) (hb b2 (by simp))
            (hb b1 (by simp)) (hb b0 (by simp))]
          dsimp only
          rw [adv, Serializer_Int_length]
          split_ifs <;> omega
        | [], _, _, hl => exact absurd (by simp) hl
        | [_], _, _, hl => exact absurd (by simp) hl
        | [_, _], _, _, hl => exact absurd (by simp) hl
        | [_, _, _], _, _, hl => exact absurd (by simp) hl
        | [_, _, _, _], _, _, hl => exact absurd (by simp) hl
        | [_, _, _, _, _], _, _, hl => exact absurd (by simp) hl
        | [_, _, _, _, _, _], _, _, hl => exact absurd (by simp) hl
        | [_, _, _, _, _, _, _], _, _, hl => exact absurd (by simp) hl
    rw [Int_bad_tag d t rest h (by omega) (by omega) c8 c16 c32 c64] at herr
    exact absurd herr (by decide)

theorem Uint_canonical (d : Deserializer) (bs : List Nat) (h : d.Ready bs)
    (hb : ∀ b ∈ bs, b < 256) (herr : (Deserializer_Uint d).2.err_ = false) :
    d.in_.pos + (Serializer_Uint [] (Deserializer_Uint d).1).length
      ≤ (Deserializer_Uint d).2.in_.pos := by
  have adv : ∀ k, (d.advance k).in_.pos = d.in_.pos + k := fun _ => rfl
  match bs, h, hb with
  | [], h, _ =>
    rw [Uint_err_of_nil d h] at herr
    exact absurd herr (by decide)
  | t :: rest, h, hb =>
    have ht : t < 256 := hb t (List.mem_cons_self _ _)
    by_cases c0 : t ≤ 127
    · rw [Uint_fixpos d t rest h c0]
      dsimp only
      rw [adv, Serializer_Uint_length, if_pos (by omega)]
    by_cases c8 : t = 204
    · subst c8
      match rest, h, hb with
      | [], h, _ =>
        rw [Uint_UINT8_short d h] at herr
        exact absurd herr (by decide)
      | b :: rest, h, hb =>
        have hb0 : b < 256 := hb b (by simp)
        rw [Uint_UINT8 d b rest h hb0]
        dsimp only
        rw [adv, Serializer_Uint_length]
        split_ifs <;> omega
    by_cases c16 : t = 205
    · subst c16
      match rest, h, hb with
      | [], h, _ =>
        rw [Uint_UINT16_short d _ h (by simp)] at herr
        exact absurd herr (by decide)
      | [_], h, _ =>
        rw [Uint_UINT16_short d _ h (by simp)] at herr
        exact absurd herr (by decide)
      | b1 :: b0 :: rest, h, hb =>
        have h1 := hb b1 (by simp)
        have h0 := hb b0 (by simp)
        rw [Uint_UINT16 d b1 b0 rest h h1 h0]
        dsimp only
        rw [adv, Serializer_Uint_length]
        split_ifs <;> omega
    by_cases c32 : t = 206
    · subst c32
      by_cases hl : rest.length < 4
      · rw [Uint_UINT32_short d _ h hl] at herr
        exact absurd herr (by decide)
      · match rest, h, hb, hl with
        | b3 :: b2 :: b1 :: b0 :: rest, h, hb, _ =>
          have h3 := hb b3 (by simp)
          have h2 := hb b2 (by simp)
          have h1 := hb b1 (by simp)
          have h0 := hb b0 (by simp)
          rw [Uint_UINT32 d b3 b2 b1 b0 rest h h3 h2 h1 h0]
          dsimp only
          rw [adv, Serializer_Uint_length]
          split_ifs <;> omega
        | [], _, _, hl => exact absurd (by simp) hl
        | [_], _, _, hl => exact absurd (by simp) hl
        | [_, _], _, _, hl => exact absurd (by simp) hl
        | [_, _, _], _, _, hl => exact absurd (by simp) hl
    by_cases c64 : t = 207
    · subst c64
      by_cases hl : rest.length < 8
      · rw [Uint_UINT64_short d _ h hl] at herr
        exact absurd herr (by decide)
      · match rest, h, hb, hl with
        | b7 :: b6 :: b5 :: b4 :: b3 :: b2 :: b1 :: b0 :: rest, h, hb, _ =>
          rw [Uint_UINT64 d b7 b6 b5 b4 b3 b2 b1 b0 rest h (hb b7 (by simp)) (hb b6 (by simp))
            (hb b5 (by simp)) (hb b4 (by simp)) (hb b3 (by simp)) (hb b2 (by simp))
            (hb b1 (by simp)) (hb b0 (by simp))]
          dsimp only
          rw [adv, Serializer_Uint_length]
          split_ifs <;> omega
        | [], _, _, hl => exact absurd (by simp) hl
        | [_], _, _, hl => exact absurd (by simp) hl
        | [_, _], _, _, hl => exact absurd (by simp) hl
        | [_, _, _], _, _, hl => exact absurd (by simp) hl
        | [_, _, _, _], _, _, hl => exact absurd (by simp) hl
        | [_, _, _, _, _], _, _, hl => exact absurd (by simp) hl
        | [_, _, _, _, _, _], _, _, hl => exact absurd (by simp) hl
        | [_, _, _, _, _, _, _], _, _, hl => exact absurd (by simp) hl
    rw [Uint_bad_tag d t rest h (by omega) (by omega) c8 c16 c32 c64] at herr
    exact absurd herr (by decide)

/-! ## The canonical-encoding claim -/

/-- C10: the integer encoders are canonical. For every signed 64-bit `v` and
every byte sequence `bsI` that `Deserializer::Int` decodes to `v` without error
while consuming all of `bsI`, the output of `Serializer::Int(v)` is no longer
than `bsI`; and for every unsigned 64-bit `u` and every byte sequence `bsU`
that `Deserializer::Uint` decodes to `u` without error while consuming all of
`bsU`, the output of `Serializer::Uint(u)` is no longer than `bsU`. -/
theorem C10_canonical (bsI bsU : List Nat) (v : Int) (u : Nat) (uninit : Nat → Nat)
    (hbI : ∀ b ∈ bsI, b < 256) (hbU : ∀ b ∈ bsU, b < 256)
    (hv : (Deserializer_Int (Deserializer.new bsI uninit)).1 = v)
    (hvErr : (Deserializer_Int (Deserializer.new bsI uninit)).2.err_ = false)
    (hvAll : (Deserializer_Int (Deserializer.new bsI uninit)).2.in_.pos = bsI.length)
    (hu : (Deserializer_Uint (Deserializer.new bsU uninit)).1 = u)
    (huErr : (Deserializer_Uint (Deserializer.new bsU uninit)).2.err_ = false)
    (huAll : (Deserializer_Uint (Deserializer.new bsU uninit)).2.in_.pos = bsU.length) :
    (Serializer_Int [] v).length ≤ bsI.length ∧
    (Serializer_Uint [] u).length ≤ bsU.length := by
  have h1 := Int_canonical _ bsI (ready_new bsI uninit) hbI hvErr
  have h2 := Uint_canonical _ bsU (ready_new bsU uninit) hbU huErr
  rw [hv, hvAll] at h1
  rw [hu, huAll] at h2
  have z : (Deserializer.new bsI uninit).in_.pos = 0 := rfl
  have z2 : (Deserializer.new bsU uninit).in_.pos = 0 := rfl
  omega

/-- Witness of C10: 5 written under the tag INT16 and 200 written under the tag
UINT32, both wider than the encoder would choose. -/
theorem C10_canonical_witness :
    (∀ b ∈ [0xd1, 0x00, 0x05], b < 256) ∧ (∀ b ∈ [0xce, 0, 0, 0, 200], b < 256) ∧
    (Deserializer_Int (Deserializer.new [0xd1, 0x00, 0x05] (fun _ => 0))).1 = 5 ∧
    (Deserializer_Int (Deserializer.new [0xd1, 0x00, 0x05] (fun _ => 0))).2.err_ = false ∧
    (Deserializer_Int (Deserializer.new [0xd1, 0x00, 0x05] (fun _ => 0))).2.in_.pos
      = [0xd1, 0x00, 0x05].length ∧
    (Deserializer_Uint (Deserializer.new [0xce, 0, 0, 0, 200] (fun _ => 0))).1 = 200 ∧
    (Deserializer_Uint (Deserializer.new [0xce, 0, 0, 0, 200] (fun _ => 0))).2.err_ = false ∧
    (Deserializer_Uint (Deserializer.new [0xce, 0, 0, 0, 200] (fun _ => 0))).2.in_.pos
      = [0xce, 0, 0, 0, 200].length ∧
    ((Serializer_Int [] 5).length ≤ [0xd1, 0x00, 0x05].length ∧
      (Serializer_Uint [] 200).length ≤ [0xce, 0, 0, 0, 200].length) :=
  ⟨by decide, by decide, by decide, by decide, by decide, by decide, by decide, by decide,
    C10_canonical [0xd1, 0x00, 0x05] [0xce, 0, 0, 0, 200] 5 200 (fun _ => 0)
      (by decide) (by decide) (by decide) (by decide) (by decide) (by decide) (by decide)
      (by decide)⟩

/-! ## Non-canonical encodings within a tag family -/

theorem big_endian_1 (t : Nat) : big_endian 1 t = [t % 256] := by
  simp [big_endian]

theorem big_endian_2 (t : Nat) : big_endian 2 t = [t / 256 % 256, t % 256] := by
  simp [big_endian]

theorem big_endian_4 (t : Nat) :
    big_endian 4 t = [t / 16777216 % 256, t / 65536 % 256, t / 256 % 256, t % 256] := by
  simp [big_endian]

theorem big_endian_8 (t : Nat) :
    big_endian 8 t = [t / 72057594037927936 % 256, t / 281474976710656 % 256,
      t / 1099511627776 % 256, t / 4294967296 % 256, t / 16777216 % 256, t / 65536 % 256,
      t / 256 % 256, t % 256] := by
  simp [big_endian]

theorem twos_complement_cast (w : Nat) (v : Int) :
    ((twos_complement w v : Nat) : Int) = v % 2 ^ w := by
  unfold twos_complement
  exact Int.toNat_of_nonneg (Int.emod_nonneg _ (by positivity))

theorem twos_complement_lt (w : Nat) (v : Int) : twos_complement w v < 2 ^ w := by
  have h := twos_complement_cast w v
  have h2 : v % 2 ^ w < 2 ^ w := Int.emod_lt_of_pos _ (by positivity)
  have : ((twos_complement w v : Nat) : Int) < ((2 ^ w : Nat) : Int) := by
    rw [h]; push_cast; exact h2
  exact_mod_cast this

theorem castS_twos_8 (v : Int) (h : -128 ≤ v ∧ v < 128) :
    castS 8 ((twos_complement 8 v : Nat) : Int) = v := by
  rw [twos_complement_cast, castS_8]; norm_num; split_ifs <;> omega

theorem castS_twos_16 (v : Int) (h : -32768 ≤ v ∧ v < 32768) :
    castS 16 ((twos_complement 16 v : Nat) : Int) = v := by
  rw [twos_complement_cast, castS_16]; norm_num; split_ifs <;> omega

theorem castS_twos_32 (v : Int) (h : -2147483648 ≤ v ∧ v < 2147483648) :
    castS 32 ((twos_complement 32 v : Nat) : Int) = v := by
  rw [twos_complement_cast, castS_32]; norm_num; split_ifs <;> omega

theorem castS_twos_64 (v : Int) (h : -9223372036854775808 ≤ v ∧ v < 9223372036854775808) :
    castS 64 ((twos_complement 64 v : Nat) : Int) = v := by
  rw [twos_complement_cast, castS_64]; norm_num; split_ifs <;> omega

theorem be_sum_1 (t : Nat) (h : t < 256) : t % 256 = t := by omega

theorem be_sum_2 (t : Nat) (h : t < 65536) : t / 256 % 256 * 256 + t % 256 = t := by omega

theorem be_sum_4 (t : Nat) (h : t < 4294967296) :
    t / 16777216 % 256 * 16777216 + t / 65536 % 256 * 65536 + t / 256 % 256 * 256 + t % 256
      = t := by omega

theorem be_sum_8 (t : Nat) (h : t < 18446744073709551616) :
    t / 72057594037927936 % 256 * 72057594037927936 + t / 281474976710656 % 256 * 281474976710656
      + t / 1099511627776 % 256 * 1099511627776 + t / 4294967296 % 256 * 4294967296
      + t / 16777216 % 256 * 16777216 + t / 65536 % 256 * 65536 + t / 256 % 256 * 256 + t % 256
      = t := by omega

theorem mod_256_lt (t : Nat) : t % 256 < 256 := Nat.mod_lt _ (by norm_num)

theorem Int_tagged_8 (d : Deserializer) (t : Nat) (rest : List Nat) (ht : t < 256)
    (h : d.Ready (INT8 :: big_endian 1 t ++ rest)) :
    Deserializer_Int d = (castS 8 (t : Int), d.advance 2) := by
  rw [big_endian_1] at h
  rw [Int_INT8 d _ rest h (mod_256_lt _), be_sum_1 t ht]

theorem Int_tagged_16 (d : Deserializer) (t : Nat) (rest : List Nat) (ht : t < 65536)
    (h : d.Ready (INT16 :: big_endian 2 t ++ rest)) :
    Deserializer_Int d = (castS 16 (t : Int), d.advance 3) := by
  rw [big_endian_2] at h
  rw [Int_INT16 d _ _ rest h (mod_256_lt _) (mod_256_lt _), be_sum_2 t ht]

theorem Int_tagged_32 (d : Deserializer) (t : Nat) (rest : List Nat) (ht : t < 4294967296)
    (h : d.Ready (INT32 :: big_endian 4 t ++ rest)) :
    Deserializer_Int d = (castS 32 (t : Int), d.advance 5) := by
  rw [big_endian_4] at h
  rw [Int_INT32 d _ _ _ _ rest h (mod_256_lt _) (mod_256_lt _) (mod_256_lt _) (mod_256_lt _),
    be_sum_4 t ht]

theorem Int_tagged_64 (d : Deserializer) (t : Nat) (rest : List Nat)
    (ht : t < 18446744073709551616) (h : d.Ready (INT64 :: big_endian 8 t ++ rest)) :
    Deserializer_Int d = (castS 64 (t : Int), d.advance 9) := by
  rw [big_endian_8] at h
  rw [Int_INT64 d _ _ _ _ _ _ _ _ rest h (mod_256_lt _) (mod_256_lt _) (mod_256_lt _)
    (mod_256_lt _) (mod_256_lt _) (mod_256_lt _) (mod_256_lt _) (mod_256_lt _), be_sum_8 t ht]

theorem Uint_tagged_8 (d : Deserializer) (t : Nat) (rest : List Nat) (ht : t < 256)
    (h : d.Ready (UINT8 :: big_endian 1 t ++ rest)) :
    Deserializer_Uint d = (t, d.advance 2) := by
  rw [big_endian_1] at h
  rw [Uint_UINT8 d _ rest h (mod_256_lt _), be_sum_1 t ht]

theorem Uint_tagged_16 (d : Deserializer) (t : Nat) (rest : List Nat) (ht : t < 65536)
    (h : d.Ready (UINT16 :: big_endian 2 t ++ rest)) :
    Deserializer_Uint d = (t, d.advance 3) := by
  rw [big_endian_2] at h
  rw [Uint_UINT16 d _ _ rest h (mod_256_lt _) (mod_256_lt _), be_sum_2 t ht]

theorem Uint_tagged_32 (d : Deserializer) (t : Nat) (rest : List Nat) (ht : t < 4294967296)
    (h : d.Ready (UINT32 :: big_endian 4 t ++ rest)) :
    Deserializer_Uint d = (t, d.advance 5) := by
  rw [big_endian_4] at h
  rw [Uint_UINT32 d _ _ _ _ rest h (mod_256_lt _) (mod_256_lt _) (mod_256_lt _) (mod_256_lt _),
    be_sum_4 t ht]

theorem Uint_tagged_64 (d : Deserializer) (t : Nat) (rest : List Nat)
    (ht : t < 18446744073709551616) (h : d.Ready (UINT64 :: big_endian 8 t ++ rest)) :
    Deserializer_Uint d = (t, d.advance 9) := by
  rw [big_endian_8] at h
  rw [Uint_UINT64 d _ _ _ _ _ _ _ _ rest h (mod_256_lt _) (mod_256_lt _) (mod_256_lt _)
    (mod_256_lt _) (mod_256_lt _) (mod_256_lt _) (mod_256_lt _) (mod_256_lt _), be_sum_8 t ht]

theorem String_tagged_8 (d : Deserializer) (s0 s rest : List Nat) (hs : s.length < 256)
    (h : d.Ready (STR8 :: big_endian 1 s.length ++ s ++ rest)) :
    Deserializer_String d s0 = (s, d.advance (2 + s.length)) := by
  rw [big_endian_1, be_sum_1 _ hs] at h
  simp only [List.cons_append, List.nil_append, List.append_assoc] at h
  exact String_STR8 d s0 s rest hs h

theorem String_tagged_16 (d : Deserializer) (s0 s rest : List Nat) (hs : s.length < 65536)
    (h : d.Ready (STR16 :: big_endian 2 s.length ++ s ++ rest)) :
    Deserializer_String d s0 = (s, d.advance (3 + s.length)) := by
  rw [big_endian_2] at h
  simp only [List.cons_append, List.nil_append, List.append_assoc] at h
  exact String_STR16 d s0 s rest _ _ (mod_256_lt _) (mod_256_lt _) (be_sum_2 _ hs).symm h

theorem String_tagged_32 (d : Deserializer) (s0 s rest : List Nat) (hs : s.length < 4294967296)
    (h : d.Ready (STR32 :: big_endian 4 s.length ++ s ++ rest)) :
    Deserializer_String d s0 = (s, d.advance (5 + s.length)) := by
  rw [big_endian_4] at h
  simp only [List.cons_append, List.nil_append, List.append_assoc] at h
  exact String_STR32 d s0 s rest _ _ _ _ (mod_256_lt _) (mod_256_lt _) (mod_256_lt _)
    (mod_256_lt _) (be_sum_4 _ hs).symm h

theorem Array_tagged_16 (d : Deserializer) (n : Nat) (rest : List Nat) (hn : n < 65536)
    (h : d.Ready (ARRAY16 :: big_endian 2 n ++ rest)) :
    Deserializer_Array d = (n, d.advance 3) := by
  rw [big_endian_2] at h
  rw [Array_ARRAY16 d _ _ rest h (mod_256_lt _) (mod_256_lt _), be_sum_2 n hn]

theorem Array_tagged_32 (d : Deserializer) (n : Nat) (rest : List Nat) (hn : n < 4294967296)
    (h : d.Ready (ARRAY32 :: big_endian 4 n ++ rest)) :
    Deserializer_Array d = (n, d.advance 5) := by
  rw [big_endian_4] at h
  rw [Array_ARRAY32 d _ _ _ _ rest h (mod_256_lt _) (mod_256_lt _) (mod_256_lt _)
    (mod_256_lt _), be_sum_4 n hn]

/-- C11: the decoder accepts non-canonical encodings within a value's own tag
family. For every signed `v` and every tag among INT8, INT16, INT32, INT64
whose signed range contains `v`, `Int()` on that tag followed by the big-endian
two's-complement payload of `v` at that width returns `v` with no error; for
every unsigned `u` and every tag among UINT8, UINT16, UINT32, UINT64 whose
range contains `u`, `Uint()` returns `u` with no error; for every string `s`
and every tag among STR8, STR16, STR32 whose length field can hold the length
of `s`, `String()` returns `s` with no error; and for every count `n` and every
tag among ARRAY16, ARRAY32 that can hold `n`, `Array()` returns `n` with no
error. Whatever follows the encoding in the stream (`rest`) is left unread. -/
theorem C11_tag_permissive (v : Int) (u : Nat) (s : List Nat) (n : Nat) (rest : List Nat)
    (uninit : Nat → Nat) (s0 : List Nat) :
    (-2 ^ 7 ≤ v ∧ v < 2 ^ 7 →
      ((Deserializer_Int (Deserializer.new (INT8 :: big_endian 1 (twos_complement 8 v) ++ rest) uninit)).1 = v ∧
        (Deserializer_Int (Deserializer.new (INT8 :: big_endian 1 (twos_complement 8 v) ++ rest) uninit)).2.err_ = false)) ∧
    (-2 ^ 15 ≤ v ∧ v < 2 ^ 15 →
      ((Deserializer_Int (Deserializer.new (INT16 :: big_endian 2 (twos_complement 16 v) ++ rest) uninit)).1 = v ∧
        (Deserializer_Int (Deserializer.new (INT16 :: big_endian 2 (twos_complement 16 v) ++ rest) uninit)).2.err_ = false)) ∧
    (-2 ^ 31 ≤ v ∧ v < 2 ^ 31 →
      ((Deserializer_Int (Deserializer.new (INT32 :: big_endian 4 (twos_complement 32 v) ++ rest) uninit)).1 = v ∧
        (Deserializer_Int (Deserializer.new (INT32 :: big_endian 4 (twos_complement 32 v) ++ rest) uninit)).2.err_ = false)) ∧
    (-2 ^ 63 ≤ v ∧ v < 2 ^ 63 →
      ((Deserializer_Int (Deserializer.new (INT64 :: big_endian 8 (twos_complement 64 v) ++ rest) uninit)).1 = v ∧
        (Deserializer_Int (Deserializer.new (INT64 :: big_endian 8 (twos_complement 64 v) ++ rest) uninit)).2.err_ = false)) ∧
    (u < 2 ^ 8 →
      ((Deserializer_Uint (Deserializer.new (UINT8 :: big_endian 1 u ++ rest) uninit)).1 = u ∧
        (Deserializer_Uint (Deserializer.new (UINT8 :: big_endian 1 u ++ rest) uninit)).2.err_ = false)) ∧
    (u < 2 ^ 16 →
      ((Deserializer_Uint (Deserializer.new (UINT16 :: big_endian 2 u ++ rest) uninit)).1 = u ∧
        (Deserializer_Uint (Deserializer.new (UINT16 :: big_endian 2 u ++ rest) uninit)).2.err_ = false)) ∧
    (u < 2 ^ 32 →
      ((Deserializer_Uint (Deserializer.new (UINT32 :: big_endian 4 u ++ rest) uninit)).1 = u ∧
        (Deserializer_Uint (Deserializer.new (UINT32 :: big_endian 4 u ++ rest) uninit)).2.err_ = false)) ∧
    (u < 2 ^ 64 →
      ((Deserializer_Uint (Deserializer.new (UINT64 :: big_endian 8 u ++ rest) uninit)).1 = u ∧
        (Deserializer_Uint (Deserializer.new (UINT64 :: big_endian 8 u ++ rest) uninit)).2.err_ = false)) ∧
    (s.length < 2 ^ 8 →
      ((Deserializer_String (Deserializer.new (STR8 :: big_endian 1 s.length ++ s ++ rest) uninit) s0).1 = s ∧
        (Deserializer_String (Deserializer.new (STR8 :: big_endian 1 s.length ++ s ++ rest) uninit) s0).2.err_ = false)) ∧
    (s.length < 2 ^ 16 →
      ((Deserializer_String (Deserializer.new (STR16 :: big_endian 2 s.length ++ s ++ rest) uninit) s0).1 = s ∧
        (Deserializer_String (Deserializer.new (STR16 :: big_endian 2 s.length ++ s ++ rest) uninit) s0).2.err_ = false)) ∧
    (s.length < 2 ^ 32 →
      ((Deserializer_String (Deserializer.new (STR32 :: big_endian 4 s.length ++ s ++ rest) uninit) s0).1 = s ∧
        (Deserializer_String (Deserializer.new (STR32 :: big_endian 4 s.length ++ s ++ rest) uninit) s0).2.err_ = false)) ∧
    (n < 2 ^ 16 →
      ((Deserializer_Array (Deserializer.new (ARRAY16 :: big_endian 2 n ++ rest) uninit)).1 = n ∧
        (Deserializer_Array (Deserializer.new (ARRAY16 :: big_endian 2 n ++ rest) uninit)).2.err_ = false)) ∧
    (n < 2 ^ 32 →
      ((Deserializer_Array (Deserializer.new (ARRAY32 :: big_endian 4 n ++ rest) uninit)).1 = n ∧
        (Deserializer_Array (Deserializer.new (ARRAY32 :: big_endian 4 n ++ rest) uninit)).2.err_ = false)) := by
  refine ⟨?_, ?_, ?_, ?_, ?_, ?_, ?_, ?_, ?_, ?_, ?_, ?_, ?_⟩
  · intro h
    rw [Int_tagged_8 _ _ rest (twos_complement_lt 8 v) (ready_new _ _),
      castS_twos_8 v (by norm_num at h; exact h)]
    exact ⟨rfl, rfl⟩
  · intro h
    rw [Int_tagged_16 _ _ rest (twos_complement_lt 16 v) (ready_new _ _),
      castS_twos_16 v (by norm_num at h; exact h)]
    exact ⟨rfl, rfl⟩
  · intro h
    rw [Int_tagged_32 _ _ rest (twos_complement_lt 32 v) (ready_new _ _),
      castS_twos_32 v (by norm_num at h; exact h)]
    exact ⟨rfl, rfl⟩
  · intro h
    rw [Int_tagged_64 _ _ rest (twos_complement_lt 64 v) (ready_new _ _),
      castS_twos_64 v (by norm_num at h; exact h)]
    exact ⟨rfl, rfl⟩
  · intro h
    rw [Uint_tagged_8 _ _ rest (by norm_num at h; exact h) (ready_new _ _)]
    exact ⟨rfl, rfl⟩
  · intro h
    rw [Uint_tagged_16 _ _ rest (by norm_num at h; exact h) (ready_new _ _)]
    exact ⟨rfl, rfl⟩
  · intro h
    rw [Uint_tagged_32 _ _ rest (by norm_num at h; exact h) (ready_new _ _)]
    exact ⟨rfl, rfl⟩
  · intro h
    rw [Uint_tagged_64 _ _ rest (by norm_num at h; exact h) (ready_new _ _)]
    exact ⟨rfl, rfl⟩
  · intro h
    rw [String_tagged_8 _ s0 s rest (by norm_num at h; exact h) (ready_new _ _)]
    exact ⟨rfl, rfl⟩
  · intro h
    rw [String_tagged_16 _ s0 s rest (by norm_num at h; exact h) (ready_new _ _)]
    exact ⟨rfl, rfl⟩
  · intro h
    rw [String_tagged_32 _ s0 s rest (by norm_num at h; exact h) (ready_new _ _)]
    exact ⟨rfl, rfl⟩
  · intro h
    rw [Array_tagged_16 _ _ rest (by norm_num at h; exact h) (ready_new _ _)]
    exact ⟨rfl, rfl⟩
  · intro h
    rw [Array_tagged_32 _ _ rest (by norm_num at h; exact h) (ready_new _ _)]
    exact ⟨rfl, rfl⟩

/-- Witness of C11: the values 5 and 3 and a string of three bytes, which every
tag of their family can hold, followed by one more byte. -/
theorem C11_tag_permissive_witness :
    (-2 ^ 7 ≤ (5 : Int) ∧ (5 : Int) < 2 ^ 7) ∧
    (-2 ^ 15 ≤ (5 : Int) ∧ (5 : Int) < 2 ^ 15) ∧
    (-2 ^ 31 ≤ (5 : Int) ∧ (5 : Int) < 2 ^ 31) ∧
    (-2 ^ 63 ≤ (5 : Int) ∧ (5 : Int) < 2 ^ 63) ∧
    ((5 : Nat) < 2 ^ 8) ∧
    ((5 : Nat) < 2 ^ 16) ∧
    ((5 : Nat) < 2 ^ 32) ∧
    ((5 : Nat) < 2 ^ 64) ∧
    (([1, 2, 3] : List Nat).length < 2 ^ 8) ∧
    (([1, 2, 3] : List Nat).length < 2 ^ 16) ∧
    (([1, 2, 3] : List Nat).length < 2 ^ 32) ∧
    ((3 : Nat) < 2 ^ 16) ∧
    ((3 : Nat) < 2 ^ 32) ∧
    ((Deserializer_Int (Deserializer.new (INT8 :: big_endian 1 (twos_complement 8 5) ++ [0xc3]) (fun _ => 0))).1 = 5 ∧
        (Deserializer_Int (Deserializer.new (INT8 :: big_endian 1 (twos_complement 8 5) ++ [0xc3]) (fun _ => 0))).2.err_ = false) ∧
    ((Deserializer_Int (Deserializer.new (INT16 :: big_endian 2 (twos_complement 16 5) ++ [0xc3]) (fun _ => 0))).1 = 5 ∧
        (Deserializer_Int (Deserializer.new (INT16 :: big_endian 2 (twos_complement 16 5) ++ [0xc3]) (fun _ => 0))).2.err_ = false) ∧
    ((Deserializer_Int (Deserializer.new (INT32 :: big_endian 4 (twos_complement 32 5) ++ [0xc3]) (fun _ => 0))).1 = 5 ∧
        (Deserializer_Int (Deserializer.new (INT32 :: big_endian 4 (twos_complement 32 5) ++ [0xc3]) (fun _ => 0))).2.err_ = false) ∧
    ((Deserializer_Int (Deserializer.new (INT64 :: big_endian 8 (twos_complement 64 5) ++ [0xc3]) (fun _ => 0))).1 = 5 ∧
        (Deserializer_Int (Deserializer.new (INT64 :: big_endian 8 (twos_complement 64 5) ++ [0xc3]) (fun _ => 0))).2.err_ = false) ∧
    ((Deserializer_Uint (Deserializer.new (UINT8 :: big_endian 1 5 ++ [0xc3]) (fun _ => 0))).1 = 5 ∧
        (Deserializer_Uint (Deserializer.new (UINT8 :: big_endian 1 5 ++ [0xc3]) (fun _ => 0))).2.err_ = false) ∧
    ((Deserializer_Uint (Deserializer.new (UINT16 :: big_endian 2 5 ++ [0xc3]) (fun _ => 0))).1 = 5 ∧
        (Deserializer_Uint (Deserializer.new (UINT16 :: big_endian 2 5 ++ [0xc3]) (fun _ => 0))).2.err_ = false) ∧
    ((Deserializer_Uint (Deserializer.new (UINT32 :: big_endian 4 5 ++ [0xc3]) (fun _ => 0))).1 = 5 ∧
        (Deserializer_Uint (Deserializer.new (UINT32 :: big_endian 4 5 ++ [0xc3]) (fun _ => 0))).2.err_ = false) ∧
    ((Deserializer_Uint (Deserializer.new (UINT64 :: big_endian 8 5 ++ [0xc3]) (fun _ => 0))).1 = 5 ∧
        (Deserializer_Uint (Deserializer.new (UINT64 :: big_endian 8 5 ++ [0xc3]) (fun _ => 0))).2.err_ = false) ∧
    ((Deserializer_String (Deserializer.new (STR8 :: big_endian 1 [1, 2, 3].length ++ [1, 2, 3] ++ [0xc3]) (fun _ => 0)) [9]).1 = [1, 2, 3] ∧
        (Deserializer_String (Deserializer.new (STR8 :: big_endian 1 [1, 2, 3].length ++ [1, 2, 3] ++ [0xc3]) (fun _ => 0)) [9]).2.err_ = false) ∧
    ((Deserializer_String (Deserializer.new (STR16 :: big_endian 2 [1, 2, 3].length ++ [1, 2, 3] ++ [0xc3]) (fun _ => 0)) [9]).1 = [1, 2, 3] ∧
        (Deserializer_String (Deserializer.new (STR16 :: big_endian 2 [1, 2, 3].length ++ [1, 2, 3] ++ [0xc3]) (fun _ => 0)) [9]).2.err_ = false) ∧
    ((Deserializer_String (Deserializer.new (STR32 :: big_endian 4 [1, 2, 3].length ++ [1, 2, 3] ++ [0xc3]) (fun _ => 0)) [9]).1 = [1, 2, 3] ∧
        (Deserializer_String (Deserializer.new (STR32 :: big_endian 4 [1, 2, 3].length ++ [1, 2, 3] ++ [0xc3]) (fun _ => 0)) [9]).2.err_ = false) ∧
    ((Deserializer_Array (Deserializer.new (ARRAY16 :: big_endian 2 3 ++ [0xc3]) (fun _ => 0))).1 = 3 ∧
        (Deserializer_Array (Deserializer.new (ARRAY16 :: big_endian 2 3 ++ [0xc3]) (fun _ => 0))).2.err_ = false) ∧
    ((Deserializer_Array (Deserializer.new (ARRAY32 :: big_endian 4 3 ++ [0xc3]) (fun _ => 0))).1 = 3 ∧
        (Deserializer_Array (Deserializer.new (ARRAY32 :: big_endian 4 3 ++ [0xc3]) (fun _ => 0))).2.err_ = false) :=
  ⟨by decide,
    by decide,
    by decide,
    by decide,
    by decide,
    by decide,
    by decide,
    by decide,
    by decide,
    by decide,
    by decide,
    by decide,
    by decide,
    (C11_tag_permissive 5 5 [1, 2, 3] 3 [0xc3] (fun _ => 0) [9]).1 (by decide),
    (C11_tag_permissive 5 5 [1, 2, 3] 3 [0xc3] (fun _ => 0) [9]).2.1 (by decide),
    (C11_tag_permissive 5 5 [1, 2, 3] 3 [0xc3] (fun _ => 0) [9]).2.2.1 (by decide),
    (C11_tag_permissive 5 5 [1, 2, 3] 3 [0xc3] (fun _ => 0) [9]).2.2.2.1 (by decide),
    (C11_tag_permissive 5 5 [1, 2, 3] 3 [0xc3] (fun _ => 0) [9]).2.2.2.2.1 (by decide),
    (C11_tag_permissive 5 5 [1, 2, 3] 3 [0xc3] (fun _ => 0) [9]).2.2.2.2.2.1 (by decide),
    (C11_tag_permissive 5 5 [1, 2, 3] 3 [0xc3] (fun _ => 0) [9]).2.2.2.2.2.2.1 (by decide),
    (C11_tag_permissive 5 5 [1, 2, 3] 3 [0xc3] (fun _ => 0) [9]).2.2.2.2.2.2.2.1 (by decide),
    (C11_tag_permissive 5 5 [1, 2, 3] 3 [0xc3] (fun _ => 0) [9]).2.2.2.2.2.2.2.2.1 (by decide),
    (C11_tag_permissive 5 5 [1, 2, 3] 3 [0xc3] (fun _ => 0) [9]).2.2.2.2.2.2.2.2.2.1 (by decide),
    (C11_tag_permissive 5 5 [1, 2, 3] 3 [0xc3] (fun _ => 0) [9]).2.2.2.2.2.2.2.2.2.2.1 (by decide),
    (C11_tag_permissive 5 5 [1, 2, 3] 3 [0xc3] (fun _ => 0) [9]).2.2.2.2.2.2.2.2.2.2.2.1 (by decide),
    (C11_tag_permissive 5 5 [1, 2, 3] 3 [0xc3] (fun _ => 0) [9]).2.2.2.2.2.2.2.2.2.2.2.2 (by decide)⟩

/-! ## A missing payload -/

/-- C12 as stated fails: on the one-byte stream 0xcc, `Uint()` does set the
error with a message beginning "Unexpected EOF", but it does not return 0. -/
theorem C12_Uint_missing_payload_counterexample :
    ¬ ((Deserializer_Uint (Deserializer.new [0xcc] (fun _ => 0))).2.err_ = true ∧
      "Unexpected EOF".data <+:
        (Deserializer_Uint (Deserializer.new [0xcc] (fun _ => 0))).2.err_message_.data ∧
      (Deserializer_Uint (Deserializer.new [0xcc] (fun _ => 0))).1 = 0) := by
  decide

/-- C12, amended: on the one-byte stream 0xcc (a UINT8 tag whose payload byte is
missing), `Deserializer::Uint()` sets the error flag with the message
"Unexpected EOF while reading", which begins with "Unexpected EOF", and returns
255, the end-of-file value of `get()` converted to `uint8_t`. -/
theorem C12_Uint_missing_payload (uninit : Nat → Nat) (e : String) :
    (Deserializer_Uint (Deserializer.new [0xcc] uninit)).2.err_ = true ∧
    (Deserializer_Uint (Deserializer.new [0xcc] uninit)).2.err_message_
      = "Unexpected EOF while reading" ∧
    "Unexpected EOF".data <+:
      (Deserializer_Uint (Deserializer.new [0xcc] uninit)).2.err_message_.data ∧
    Deserializer_Err (Deserializer_Uint (Deserializer.new [0xcc] uninit)).2 e
      = (true, "Unexpected EOF while reading") ∧
    (Deserializer_Uint (Deserializer.new [0xcc] uninit)).1 = 255 ∧
    castU 8 (-1) = 255 := by
  refine ⟨rfl, rfl, ?_, rfl, rfl, by decide⟩
  rw [show (Deserializer_Uint (Deserializer.new [0xcc] uninit)).2.err_message_
    = "Unexpected EOF while reading" from rfl]
  decide

/-! ## A truncated string payload -/

/-- C15 fails on the code: on the stream 0xa3, 0x61 (a FIXSTR header declaring
three bytes, one byte of payload available) `Deserializer::String` leaves the
error flag unset, so that `Err` returns false, and hands back the available
byte padded with NUL characters; the stream itself has met its end. -/
theorem C15_String_truncated_payload_no_error :
    (Deserializer_String (Deserializer.new [0xa3, 0x61] (fun _ => 0)) []).2.err_ = false ∧
    Deserializer_Err (Deserializer_String (Deserializer.new [0xa3, 0x61] (fun _ => 0)) []).2 ""
      = (false, "") ∧
    (Deserializer_String (Deserializer.new [0xa3, 0x61] (fun _ => 0)) []).1 = [0x61, 0, 0] ∧
    (Deserializer_String (Deserializer.new [0xa3, 0x61] (fun _ => 0)) []).2.in_.eofbit
      = true := by
  decide

/-! ## Unexpected tags -/

theorem Bool_bad_tag_eq (d : Deserializer) (t : Nat) (rest : List Nat)
    (h : d.Ready (t :: rest)) (ht : t < 256) (h1 : t ≠ 0xc2) (h2 : t ≠ 0xc3) :
    Deserializer_Bool d
      = (false, Deserializer_SetErr (d.advance 1) "unexpected type while reading bool") := by
  have hT := ready_Type d t rest h ht
  unfold Deserializer_Bool
  rw [hT]
  dsimp only
  rw [if_neg (by simp only [TRUE]; omega), if_neg (by simp only [FALSE]; omega)]

theorem Int_bad_tag_eq (d : Deserializer) (t : Nat) (rest : List Nat) (h : d.Ready (t :: rest))
    (h1 : 127 < t) (h2 : t < 224) (h3 : ¬ (208 ≤ t ∧ t ≤ 211)) :
    Deserializer_Int d
      = (0, Deserializer_SetErr (d.advance 1) "unexpected type while reading int") := by
  have hT := ready_Type d t rest h (by omega)
  unfold Deserializer_Int
  rw [hT]
  dsimp only
  rw [if_neg (by simp only [POS_FIXINT_MAX]; omega), if_neg (by simp only [NEG_FIXINT]; omega),
    if_neg (by simp only [INT8]; omega), if_neg (by simp only [INT16]; omega),
    if_neg (by simp only [INT32]; omega), if_neg (by simp only [INT64]; omega)]

theorem Uint_bad_tag_eq (d : Deserializer) (t : Nat) (rest : List Nat)
    (h : d.Ready (t :: rest)) (h1 : 127 < t) (h2 : t < 256) (h3 : ¬ (204 ≤ t ∧ t ≤ 207)) :
    Deserializer_Uint d
      = (0, Deserializer_SetErr (d.advance 1) "unexpected type while reading uint") := by
  have hT := ready_Type d t rest h (by omega)
  unfold Deserializer_Uint
  rw [hT]
  dsimp only
  rw [if_neg (by simp only [POS_FIXINT_MAX]; omega),
    if_neg (by simp only [UINT8]; omega), if_neg (by simp only [UINT16]; omega),
    if_neg (by simp only [UINT32]; omega), if_neg (by simp only [UINT64]; omega)]

theorem Array_bad_tag_eq (d : Deserializer) (t : Nat) (rest : List Nat)
    (h : d.Ready (t :: rest)) (ht : t < 256) (h1 : ¬ (144 ≤ t ∧ t ≤ 159)) (h2 : t ≠ 220)
    (h3 : t ≠ 221) :
    Deserializer_Array d
      = (0, Deserializer_SetErr (d.advance 1) "unexpected type while reading array") := by
  have hT := ready_Type d t rest h ht
  unfold Deserializer_Array
  rw [hT]
  dsimp only
  rw [if_neg (by simp only [FIXARRAY, FIXARRAY_MAX]; omega),
    if_neg (by simp only [ARRAY16]; omega), if_neg (by simp only [ARRAY32]; omega)]

theorem String_bad_tag_eq (d : Deserializer) (t : Nat) (rest s0 : List Nat)
    (h : d.Ready (t :: rest)) (ht : t < 256) (h1 : ¬ (160 ≤ t ∧ t ≤ 191))
    (h2 : ¬ (217 ≤ t ∧ t ≤ 219)) :
    Deserializer_String d s0
      = (s0, Deserializer_SetErr (d.advance 1) "unexpected type while reading string") := by
  have hT := ready_Type d t rest h ht
  unfold Deserializer_String
  rw [hT]
  dsimp only
  rw [if_neg (by simp only [FIXSTR, FIXSTR_MAX]; omega),
    if_neg (by simp only [STR8]; omega), if_neg (by simp only [STR16]; omega),
    if_neg (by simp only [STR32]; omega)]

/-- C16: for every first byte `b` outside the set an operation accepts (Bool:
0xc2, 0xc3; Int: 0x00-0x7f, 0xd0-0xd3, 0xe0-0xff; Uint: 0x00-0x7f, 0xcc-0xcf;
Array: 0x90-0x9f, 0xdc, 0xdd; String: 0xa0-0xbf, 0xd9-0xdb), the operation on a
fresh decoder whose input starts with `b` consumes exactly that one byte, sets
the error with the message "unexpected type while reading" followed by bool,
int, uint, array or string respectively, and returns false for Bool, 0 for
Int, Uint and Array, and leaves the output argument of String unchanged. -/
theorem C16_unexpected_type (b : Nat) (hb : b < 256) (rest : List Nat) (uninit : Nat → Nat)
    (s0 : List Nat) :
    (b ≠ 0xc2 ∧ b ≠ 0xc3 →
      (Deserializer_Bool (Deserializer.new (b :: rest) uninit)).1 = false ∧
      (Deserializer_Bool (Deserializer.new (b :: rest) uninit)).2.in_.pos = 1 ∧
      (Deserializer_Bool (Deserializer.new (b :: rest) uninit)).2.err_ = true ∧
      (Deserializer_Bool (Deserializer.new (b :: rest) uninit)).2.err_message_
        = "unexpected type while reading bool") ∧
    (¬ b ≤ 0x7f ∧ ¬ (0xd0 ≤ b ∧ b ≤ 0xd3) ∧ ¬ (0xe0 ≤ b ∧ b ≤ 0xff) →
      (Deserializer_Int (Deserializer.new (b :: rest) uninit)).1 = 0 ∧
      (Deserializer_Int (Deserializer.new (b :: rest) uninit)).2.in_.pos = 1 ∧
      (Deserializer_Int (Deserializer.new (b :: rest) uninit)).2.err_ = true ∧
      (Deserializer_Int (Deserializer.new (b :: rest) uninit)).2.err_message_
        = "unexpected type while reading int") ∧
    (¬ b ≤ 0x7f ∧ ¬ (0xcc ≤ b ∧ b ≤ 0xcf) →
      (Deserializer_Uint (Deserializer.new (b :: rest) uninit)).1 = 0 ∧
      (Deserializer_Uint (Deserializer.new (b :: rest) uninit)).2.in_.pos = 1 ∧
      (Deserializer_Uint (Deserializer.new (b :: rest) uninit)).2.err_ = true ∧
      (Deserializer_Uint (Deserializer.new (b :: rest) uninit)).2.err_message_
        = "unexpected type while reading uint") ∧
    (¬ (0x90 ≤ b ∧ b ≤ 0x9f) ∧ b ≠ 0xdc ∧ b ≠ 0xdd →
      (Deserializer_Array (Deserializer.new (b :: rest) uninit)).1 = 0 ∧
      (Deserializer_Array (Deserializer.new (b :: rest) uninit)).2.in_.pos = 1 ∧
      (Deserializer_Array (Deserializer.new (b :: rest) uninit)).2.err_ = true ∧
      (Deserializer_Array (Deserializer.new (b :: rest) uninit)).2.err_message_
        = "unexpected type while reading array") ∧
    (¬ (0xa0 ≤ b ∧ b ≤ 0xbf) ∧ ¬ (0xd9 ≤ b ∧ b ≤ 0xdb) →
      (Deserializer_String (Deserializer.new (b :: rest) uninit) s0).1 = s0 ∧
      (Deserializer_String (Deserializer.new (b :: rest) uninit) s0).2.in_.pos = 1 ∧
      (Deserializer_String (Deserializer.new (b :: rest) uninit) s0).2.err_ = true ∧
      (Deserializer_String (Deserializer.new (b :: rest) uninit) s0).2.err_message_
        = "unexpected type while reading string") := by
  have hR := ready_new (b :: rest) uninit
  refine ⟨?_, ?_, ?_, ?_, ?_⟩
  · rintro ⟨h1, h2⟩
    rw [Bool_bad_tag_eq _ b rest hR hb h1 h2]
    exact ⟨rfl, rfl, rfl, rfl⟩
  · rintro ⟨h1, h2, h3⟩
    rw [Int_bad_tag_eq _ b rest hR (by omega) (by omega) (by omega)]
    exact ⟨rfl, rfl, rfl, rfl⟩
  · rintro ⟨h1, h2⟩
    rw [Uint_bad_tag_eq _ b rest hR (by omega) hb (by omega)]
    exact ⟨rfl, rfl, rfl, rfl⟩
  · rintro ⟨h1, h2, h3⟩
    rw [Array_bad_tag_eq _ b rest hR hb (by omega) h2 h3]
    exact ⟨rfl, rfl, rfl, rfl⟩
  · rintro ⟨h1, h2⟩
    rw [String_bad_tag_eq _ b rest s0 hR hb (by omega) (by omega)]
    exact ⟨rfl, rfl, rfl, rfl⟩

/-- Witness of C16: the byte 0xc0 (the MessagePack nil tag), which no operation
accepts, followed by two more bytes. -/
theorem C16_unexpected_type_witness :
    (0xc0 : Nat) < 256 ∧
    ((0xc0 : Nat) ≠ 0xc2 ∧ (0xc0 : Nat) ≠ 0xc3) ∧
    (¬ (0xc0 : Nat) ≤ 0x7f ∧ ¬ (0xd0 ≤ (0xc0 : Nat) ∧ (0xc0 : Nat) ≤ 0xd3) ∧
      ¬ (0xe0 ≤ (0xc0 : Nat) ∧ (0xc0 : Nat) ≤ 0xff)) ∧
    (¬ (0xc0 : Nat) ≤ 0x7f ∧ ¬ (0xcc ≤ (0xc0 : Nat) ∧ (0xc0 : Nat) ≤ 0xcf)) ∧
    (¬ (0x90 ≤ (0xc0 : Nat) ∧ (0xc0 : Nat) ≤ 0x9f) ∧ (0xc0 : Nat) ≠ 0xdc ∧
      (0xc0 : Nat) ≠ 0xdd) ∧
    (¬ (0xa0 ≤ (0xc0 : Nat) ∧ (0xc0 : Nat) ≤ 0xbf) ∧
      ¬ (0xd9 ≤ (0xc0 : Nat) ∧ (0xc0 : Nat) ≤ 0xdb)) ∧
    ((Deserializer_Bool (Deserializer.new (0xc0 :: [1, 2]) (fun _ => 0))).1 = false ∧
      (Deserializer_Bool (Deserializer.new (0xc0 :: [1, 2]) (fun _ => 0))).2.in_.pos = 1 ∧
      (Deserializer_Bool (Deserializer.new (0xc0 :: [1, 2]) (fun _ => 0))).2.err_ = true ∧
      (Deserializer_Bool (Deserializer.new (0xc0 :: [1, 2]) (fun _ => 0))).2.err_message_
        = "unexpected type while reading bool") ∧
    ((Deserializer_Int (Deserializer.new (0xc0 :: [1, 2]) (fun _ => 0))).1 = 0 ∧
      (Deserializer_Int (Deserializer.new (0xc0 :: [1, 2]) (fun _ => 0))).2.in_.pos = 1 ∧
      (Deserializer_Int (Deserializer.new (0xc0 :: [1, 2]) (fun _ => 0))).2.err_ = true ∧
      (Deserializer_Int (Deserializer.new (0xc0 :: [1, 2]) (fun _ => 0))).2.err_message_
        = "unexpected type while reading int") ∧
    ((Deserializer_Uint (Deserializer.new (0xc0 :: [1, 2]) (fun _ => 0))).1 = 0 ∧
      (Deserializer_Uint (Deserializer.new (0xc0 :: [1, 2]) (fun _ => 0))).2.in_.pos = 1 ∧
      (Deserializer_Uint (Deserializer.new (0xc0 :: [1, 2]) (fun _ => 0))).2.err_ = true ∧
      (Deserializer_Uint (Deserializer.new (0xc0 :: [1, 2]) (fun _ => 0))).2.err_message_
        = "unexpected type while reading uint") ∧
    ((Deserializer_Array (Deserializer.new (0xc0 :: [1, 2]) (fun _ => 0))).1 = 0 ∧
      (Deserializer_Array (Deserializer.new (0xc0 :: [1, 2]) (fun _ => 0))).2.in_.pos = 1 ∧
      (Deserializer_Array (Deserializer.new (0xc0 :: [1, 2]) (fun _ => 0))).2.err_ = true ∧
      (Deserializer_Array (Deserializer.new (0xc0 :: [1, 2]) (fun _ => 0))).2.err_message_
        = "unexpected type while reading array") ∧
    ((Deserializer_String (Deserializer.new (0xc0 :: [1, 2]) (fun _ => 0)) [7]).1 = [7] ∧
      (Deserializer_String (Deserializer.new (0xc0 :: [1, 2]) (fun _ => 0)) [7]).2.in_.pos
        = 1 ∧
      (Deserializer_String (Deserializer.new (0xc0 :: [1, 2]) (fun _ => 0)) [7]).2.err_
        = true ∧
      (Deserializer_String (Deserializer.new (0xc0 :: [1, 2]) (fun _ => 0)) [7]).2.err_message_
        = "unexpected type while reading string") :=
  ⟨by decide, by decide, by decide, by decide, by decide, by decide,
    (C16_unexpected_type 0xc0 (by decide) [1, 2] (fun _ => 0) [7]).1 (by decide),
    (C16_unexpected_type 0xc0 (by decide) [1, 2] (fun _ => 0) [7]).2.1 (by decide),
    (C16_unexpected_type 0xc0 (by decide) [1, 2] (fun _ => 0) [7]).2.2.1 (by decide),
    (C16_unexpected_type 0xc0 (by decide) [1, 2] (fun _ => 0) [7]).2.2.2.1 (by decide),
    (C16_unexpected_type 0xc0 (by decide) [1, 2] (fun _ => 0) [7]).2.2.2.2 (by decide)⟩

/-! ## A truncated string length -/

theorem String_body_eof (d : Deserializer) (s : List Nat) (len : Nat)
    (h : d.in_.eofbit = true) :
    (Deserializer_String_body d s len).1 = [] ∧
      (Deserializer_String_body d s len).2.err_ = true := by
  unfold Deserializer_String_body Deserializer_CheckEOF
  simp only [IStream.eof, h, if_true]
  exact ⟨trivial, SetErr_err _ _⟩

theorem String_STR8_short (d : Deserializer) (s0 : List Nat) (h : d.Ready [STR8]) :
    (Deserializer_String d s0).1 = [] ∧ (Deserializer_String d s0).2.err_ = true := by
  have hT := ready_Type d STR8 [] h (by decide)
  have hR : (d.advance 1).Ready [] := ready_advance d [STR8] [] h
  unfold Deserializer_String
  rw [hT]
  dsimp only
  rw [if_neg (by decide), if_pos rfl]
  exact String_body_eof _ _ _ (inBE1_eof _ _ _ hR)

theorem String_STR16_short (d : Deserializer) (s0 rest : List Nat)
    (h : d.Ready (STR16 :: rest)) (hn : rest.length < 2) :
    (Deserializer_String d s0).1 = [] ∧ (Deserializer_String d s0).2.err_ = true := by
  have hT := ready_Type d STR16 rest h (by decide)
  have hR : (d.advance 1).Ready rest := ready_advance d [STR16] rest h
  unfold Deserializer_String
  rw [hT]
  dsimp only
  rw [if_neg (by decide), if_neg (by decide), if_pos rfl]
  exact String_body_eof _ _ _ (inBE2_eof _ _ _ rest hR hn)

theorem String_STR32_short (d : Deserializer) (s0 rest : List Nat)
    (h : d.Ready (STR32 :: rest)) (hn : rest.length < 4) :
    (Deserializer_String d s0).1 = [] ∧ (Deserializer_String d s0).2.err_ = true := by
  have hT := ready_Type d STR32 rest h (by decide)
  have hR : (d.advance 1).Ready rest := ready_advance d [STR32] rest h
  unfold Deserializer_String
  rw [hT]
  dsimp only
  rw [if_neg (by decide), if_neg (by decide), if_neg (by decide), if_pos rfl]
  exact String_body_eof _ _ _ (inBE4_eof _ _ _ rest hR hn)

/-- C17: for every stream that consists of a STR8, STR16 or STR32 tag followed
by fewer length bytes than the tag requires (1, 2 or 4), and for every prior
content `s0` of the output argument, `Deserializer::String` sets the error flag
and leaves the output equal to the empty string. -/
theorem C17_String_short_length (lb : List Nat) (uninit : Nat → Nat) (s0 : List Nat) :
    (lb.length < 1 →
      (Deserializer_String (Deserializer.new (STR8 :: lb) uninit) s0).1 = [] ∧
      (Deserializer_String (Deserializer.new (STR8 :: lb) uninit) s0).2.err_ = true) ∧
    (lb.length < 2 →
      (Deserializer_String (Deserializer.new (STR16 :: lb) uninit) s0).1 = [] ∧
      (Deserializer_String (Deserializer.new (STR16 :: lb) uninit) s0).2.err_ = true) ∧
    (lb.length < 4 →
      (Deserializer_String (Deserializer.new (STR32 :: lb) uninit) s0).1 = [] ∧
      (Deserializer_String (Deserializer.new (STR32 :: lb) uninit) s0).2.err_ = true) := by
  refine ⟨?_, ?_, ?_⟩
  · intro h
    have e : lb = [] := List.length_eq_zero.mp (by omega)
    subst e
    exact String_STR8_short _ s0 (ready_new _ _)
  · intro h
    exact String_STR16_short _ s0 lb (ready_new _ _) h
  · intro h
    exact String_STR32_short _ s0 lb (ready_new _ _) h

/-- Witness of C17: no length byte after STR8, one after STR16, three after
STR32, with an output argument that held three bytes. -/
theorem C17_String_short_length_witness :
    ([] : List Nat).length < 1 ∧ ([1] : List Nat).length < 2 ∧
    ([0, 0, 1] : List Nat).length < 4 ∧
    ((Deserializer_String (Deserializer.new (STR8 :: []) (fun _ => 7)) [1, 2, 3]).1 = [] ∧
      (Deserializer_String (Deserializer.new (STR8 :: []) (fun _ => 7)) [1, 2, 3]).2.err_
        = true) ∧
    ((Deserializer_String (Deserializer.new (STR16 :: [1]) (fun _ => 7)) [1, 2, 3]).1 = [] ∧
      (Deserializer_String (Deserializer.new (STR16 :: [1]) (fun _ => 7)) [1, 2, 3]).2.err_
        = true) ∧
    ((Deserializer_String (Deserializer.new (STR32 :: [0, 0, 1]) (fun _ => 7)) [1, 2, 3]).1
        = [] ∧
      (Deserializer_String (Deserializer.new (STR32 :: [0, 0, 1]) (fun _ => 7)) [1, 2, 3]).2.err_
        = true) :=
  ⟨by decide, by decide, by decide,
    (C17_String_short_length [] (fun _ => 7) [1, 2, 3]).1 (by decide),
    (C17_String_short_length [1] (fun _ => 7) [1, 2, 3]).2.1 (by decide),
    (C17_String_short_length [0, 0, 1] (fun _ => 7) [1, 2, 3]).2.2 (by decide)⟩

/-! ## The sticky error -/

theorem SetErr_of_err (d : Deserializer) (msg : String) (h : d.err_ = true) :
    Deserializer_SetErr d msg = d := by
  unfold Deserializer_SetErr
  simp [h]

theorem CheckEOF_of_err (d : Deserializer) (h : d.err_ = true) :
    (Deserializer_CheckEOF d).2 = d := by
  unfold Deserializer_CheckEOF
  dsimp only
  split_ifs
  · exact SetErr_of_err d _ h
  · rfl

theorem Type_keeps_err (d : Deserializer) (m : String) (h : d.err_ = true)
    (hm : d.err_message_ = m) :
    (Deserializer_Type d).2.err_ = true ∧ (Deserializer_Type d).2.err_message_ = m := by
  unfold Deserializer_Type
  dsimp only
  split_ifs
  · rw [SetErr_of_err _ _ (show ({ d with in_ := d.in_.get.2 } : Deserializer).err_ = true from h)]
    exact ⟨h, hm⟩
  · exact ⟨h, hm⟩

theorem String_body_keeps_err (d : Deserializer) (s : List Nat) (len : Nat) (m : String)
    (h : d.err_ = true) (hm : d.err_message_ = m) :
    (Deserializer_String_body d s len).2.err_ = true ∧
      (Deserializer_String_body d s len).2.err_message_ = m := by
  have hc := CheckEOF_of_err d h
  unfold Deserializer_String_body
  generalize Deserializer_CheckEOF d = r at hc
  obtain ⟨eof, d1⟩ := r
  simp only at hc
  subst hc
  dsimp only
  split_ifs <;> exact ⟨h, hm⟩

theorem Bool_keeps_err (d : Deserializer) (m : String) (h : d.err_ = true)
    (hm : d.err_message_ = m) :
    (Deserializer_Bool d).2.err_ = true ∧ (Deserializer_Bool d).2.err_message_ = m := by
  have hT := Type_keeps_err d m h hm
  unfold Deserializer_Bool
  generalize Deserializer_Type d = r at hT
  obtain ⟨t, d1⟩ := r
  dsimp only at hT ⊢
  split_ifs
  · exact hT
  · exact hT
  · rw [SetErr_of_err _ _ hT.1]; exact hT

theorem Int_keeps_err (d : Deserializer) (m : String) (h : d.err_ = true)
    (hm : d.err_message_ = m) :
    (Deserializer_Int d).2.err_ = true ∧ (Deserializer_Int d).2.err_message_ = m := by
  have hT := Type_keeps_err d m h hm
  unfold Deserializer_Int
  generalize Deserializer_Type d = r at hT
  obtain ⟨t, d1⟩ := r
  dsimp only at hT ⊢
  split_ifs
  · rw [CheckEOF_of_err _ hT.1]; exact hT
  · rw [CheckEOF_of_err _ hT.1]; exact hT
  · rw [CheckEOF_of_err _ (show (inBE1 (castS 8) d1).2.err_ = true from hT.1)]; exact hT
  · rw [CheckEOF_of_err _ (show (inBE2 (castS 16) d1).2.err_ = true from hT.1)]; exact hT
  · rw [CheckEOF_of_err _ (show (inBE4 (castS 32) d1).2.err_ = true from hT.1)]; exact hT
  · rw [CheckEOF_of_err _ (show (inBE8 (castS 64) d1).2.err_ = true from hT.1)]; exact hT
  · rw [SetErr_of_err _ _ hT.1]; exact hT

theorem Uint_keeps_err (d : Deserializer) (m : String) (h : d.err_ = true)
    (hm : d.err_message_ = m) :
    (Deserializer_Uint d).2.err_ = true ∧ (Deserializer_Uint d).2.err_message_ = m := by
  have hT := Type_keeps_err d m h hm
  unfold Deserializer_Uint
  generalize Deserializer_Type d = r at hT
  obtain ⟨t, d1⟩ := r
  dsimp only at hT ⊢
  split_ifs
  · rw [CheckEOF_of_err _ hT.1]; exact hT
  · rw [CheckEOF_of_err _ (show (inBE1 (castU 8) d1).2.err_ = true from hT.1)]; exact hT
  · rw [CheckEOF_of_err _ (show (inBE2 (castU 16) d1).2.err_ = true from hT.1)]; exact hT
  · rw [CheckEOF_of_err _ (show (inBE4 (castU 32) d1).2.err_ = true from hT.1)]; exact hT
  · rw [CheckEOF_of_err _ (show (inBE8 (castU 64) d1).2.err_ = true from hT.1)]; exact hT
  · rw [SetErr_of_err _ _ hT.1]; exact hT

theorem Array_keeps_err (d : Deserializer) (m : String) (h : d.err_ = true)
    (hm : d.err_message_ = m) :
    (Deserializer_Array d).2.err_ = true ∧ (Deserializer_Array d).2.err_message_ = m := by
  have hT := Type_keeps_err d m h hm
  unfold Deserializer_Array
  generalize Deserializer_Type d = r at hT
  obtain ⟨t, d1⟩ := r
  dsimp only at hT ⊢
  split_ifs
  · rw [CheckEOF_of_err _ hT.1]; exact hT
  · rw [CheckEOF_of_err _ (show (inBE2 (castU 64) d1).2.err_ = true from hT.1)]; exact hT
  · rw [CheckEOF_of_err _ (show (inBE4 (castU 64) d1).2.err_ = true from hT.1)]; exact hT
  · rw [SetErr_of_err _ _ hT.1]; exact hT

theorem String_keeps_err (d : Deserializer) (s : List Nat) (m : String) (h : d.err_ = true)
    (hm : d.err_message_ = m) :
    (Deserializer_String d s).2.err_ = true ∧ (Deserializer_String d s).2.err_message_ = m := by
  have hT := Type_keeps_err d m h hm
  unfold Deserializer_String
  generalize Deserializer_Type d = r at hT
  obtain ⟨t, d1⟩ := r
  dsimp only at hT ⊢
  split_ifs
  · exact String_body_keeps_err _ _ _ m hT.1 hT.2
  · exact String_body_keeps_err (inBE1 (castU 64) d1).2 _ _ m hT.1 hT.2
  · exact String_body_keeps_err (inBE2 (castU 64) d1).2 _ _ m hT.1 hT.2
  · exact String_body_keeps_err (inBE4 (castU 64) d1).2 _ _ m hT.1 hT.2
  · rw [SetErr_of_err _ _ hT.1]; exact hT

theorem call_keeps_err (d : Deserializer) (c : DCall) (m : String) (h : d.err_ = true)
    (hm : d.err_message_ = m) :
    (Deserializer_call d c).err_ = true ∧ (Deserializer_call d c).err_message_ = m := by
  cases c with
  | bool => exact Bool_keeps_err d m h hm
  | int => exact Int_keeps_err d m h hm
  | uint => exact Uint_keeps_err d m h hm
  | string s => exact String_keeps_err d s m h hm
  | array => exact Array_keeps_err d m h hm

theorem calls_keep_err (cs : List DCall) (d : Deserializer) (m : String) (h : d.err_ = true)
    (hm : d.err_message_ = m) :
    (Deserializer_calls d cs).err_ = true ∧ (Deserializer_calls d cs).err_message_ = m := by
  induction cs generalizing d with
  | nil => exact ⟨h, hm⟩
  | cons c cs ih =>
    have hc := call_keeps_err d c m h hm
    exact ih _ hc.1 hc.2

/-- C13: the error of the decoder is sticky and first-error-wins. A freshly
constructed `Deserializer` reports no error: `Err` returns false and leaves its
argument unchanged. For every input `bs` and every sequence `cs1` of Bool, Int,
Uint, String and Array calls, once `Err` returns true with message `m` it
returns true with the same `m` after every further sequence `cs2` of calls. And
`Uint()` on an empty stream meets two error conditions in one call, the end of
the stream while reading the tag and then the tag value 0xff that `Uint` does
not accept, and `Err` reports the first, the end-of-stream message of `Type()`. -/
theorem C13_sticky_error (bs : List Nat) (uninit : Nat → Nat) (cs1 cs2 : List DCall)
    (e e2 m : String) :
    Deserializer_Err (Deserializer.new bs uninit) e = (false, e) ∧
    (Deserializer_Err (Deserializer_calls (Deserializer.new bs uninit) cs1) e = (true, m) →
      Deserializer_Err
        (Deserializer_calls (Deserializer_calls (Deserializer.new bs uninit) cs1) cs2) e2
        = (true, m)) ∧
    ((Deserializer_Type (Deserializer.new [] uninit)).2.err_message_
        = "Unexpected EOF while reading type" ∧
      Deserializer_Uint (Deserializer.new [] uninit)
        = (0, Deserializer_SetErr (Deserializer_Type (Deserializer.new [] uninit)).2
            "unexpected type while reading uint") ∧
      Deserializer_Err (Deserializer_Uint (Deserializer.new [] uninit)).2 e
        = (true, "Unexpected EOF while reading type")) := by
  refine ⟨rfl, ?_, rfl, rfl, rfl⟩
  intro h
  unfold Deserializer_Err at h ⊢
  generalize Deserializer_calls (Deserializer.new bs uninit) cs1 = d at h ⊢
  have h1 : d.err_ = true := (Prod.mk.inj h).1
  have h2 : d.err_message_ = m := by
    have := (Prod.mk.inj h).2
    rw [h1] at this
    simpa using this
  obtain ⟨k1, k2⟩ := calls_keep_err cs2 d m h1 h2
  rw [k1, k2]
  rfl

/-- Witness of C13: on the stream 0xcc a `Uint()` call records the end of the
stream, and three further failing calls leave that message in place. -/
theorem C13_sticky_error_witness :
    Deserializer_Err (Deserializer_calls (Deserializer.new [0xcc] (fun _ => 0)) [DCall.uint]) ""
      = (true, "Unexpected EOF while reading") ∧
    (Deserializer_Err (Deserializer.new [0xcc] (fun _ => 0)) "" = (false, "") ∧
    (Deserializer_Err (Deserializer_calls (Deserializer.new [0xcc] (fun _ => 0)) [DCall.uint]) ""
        = (true, "Unexpected EOF while reading") →
      Deserializer_Err
        (Deserializer_calls (Deserializer_calls (Deserializer.new [0xcc] (fun _ => 0))
          [DCall.uint]) [DCall.bool, DCall.string [], DCall.array, DCall.int]) "x"
        = (true, "Unexpected EOF while reading")) ∧
    ((Deserializer_Type (Deserializer.new [] (fun _ => 0))).2.err_message_
        = "Unexpected EOF while reading type" ∧
      Deserializer_Uint (Deserializer.new [] (fun _ => 0))
        = (0, Deserializer_SetErr (Deserializer_Type (Deserializer.new [] (fun _ => 0))).2
            "unexpected type while reading uint") ∧
      Deserializer_Err (Deserializer_Uint (Deserializer.new [] (fun _ => 0))).2 ""
        = (true, "Unexpected EOF while reading type"))) :=
  ⟨by decide,
    C13_sticky_error [0xcc] (fun _ => 0) [DCall.uint]
      [DCall.bool, DCall.string [], DCall.array, DCall.int] "" "x"
      "Unexpected EOF while reading"⟩

/-! ## The read position stays within the input -/

theorem get_buf (s : IStream) : s.get.2.buf = s.buf := by
  unfold IStream.get
  split_ifs
  · split <;> rfl
  · rfl

theorem get_pos_le (s : IStream) (h : s.pos ≤ s.buf.length) : s.get.2.pos ≤ s.buf.length := by
  unfold IStream.get
  split_ifs
  · split
    · rename_i c hc
      have := (List.getElem?_eq_some_iff.mp hc).1
      show s.pos + 1 ≤ s.buf.length
      omega
    · exact h
  · exact h

theorem read_buf (s : IStream) (dst : List Nat) (n : Nat) : (s.read dst n).2.buf = s.buf := by
  unfold IStream.read
  dsimp only
  split_ifs <;> rfl

theorem read_pos_le (s : IStream) (dst : List Nat) (n : Nat) (h : s.pos ≤ s.buf.length) :
    (s.read dst n).2.pos ≤ s.buf.length := by
  have hl : ((s.buf.drop s.pos).take n).length ≤ s.buf.length - s.pos := by
    rw [List.length_take, List.length_drop]; omega
  unfold IStream.read
  dsimp only
  split_ifs
  · show s.pos + _ ≤ _
    omega
  · show s.pos + _ ≤ _
    omega
  · exact h

theorem Within_SetErr (d : Deserializer) (bs : List Nat) (m : String) (h : d.Within bs) :
    (Deserializer_SetErr d m).Within bs := by
  unfold Deserializer_SetErr
  split_ifs
  · exact h
  · exact h

theorem Within_CheckEOF (d : Deserializer) (bs : List Nat) (h : d.Within bs) :
    (Deserializer_CheckEOF d).2.Within bs := by
  unfold Deserializer_CheckEOF
  dsimp only
  split_ifs
  · exact Within_SetErr d bs _ h
  · exact h

theorem Within_get (d : Deserializer) (bs : List Nat) (h : d.Within bs) :
    ({ d with in_ := d.in_.get.2 } : Deserializer).Within bs := by
  obtain ⟨h1, h2⟩ := h
  refine ⟨?_, ?_⟩
  · show d.in_.get.2.buf = bs
    rw [get_buf, h1]
  · show d.in_.get.2.pos ≤ bs.length
    rw [← h1] at h2 ⊢
    exact get_pos_le _ h2

theorem Within_read (d : Deserializer) (bs dst : List Nat) (n : Nat) (h : d.Within bs) :
    ({ d with in_ := (d.in_.read dst n).2 } : Deserializer).Within bs := by
  obtain ⟨h1, h2⟩ := h
  refine ⟨?_, ?_⟩
  · show (d.in_.read dst n).2.buf = bs
    rw [read_buf, h1]
  · show (d.in_.read dst n).2.pos ≤ bs.length
    rw [← h1] at h2 ⊢
    exact read_pos_le _ _ _ h2

theorem Within_Type (d : Deserializer) (bs : List Nat) (h : d.Within bs) :
    (Deserializer_Type d).2.Within bs := by
  unfold Deserializer_Type
  dsimp only
  split_ifs
  · exact Within_SetErr _ bs _ (Within_get d bs h)
  · exact Within_get d bs h

theorem Within_inBE1 {α : Type} (cast : Int → α) (d : Deserializer) (bs : List Nat)
    (h : d.Within bs) : (inBE1 cast d).2.Within bs :=
  Within_get d bs h

theorem Within_inBE2 {α : Type} (cast : Int → α) (d : Deserializer) (bs : List Nat)
    (h : d.Within bs) : (inBE2 cast d).2.Within bs :=
  Within_read d bs _ 2 h

theorem Within_inBE4 {α : Type} (cast : Int → α) (d : Deserializer) (bs : List Nat)
    (h : d.Within bs) : (inBE4 cast d).2.Within bs :=
  Within_read d bs _ 4 h

theorem Within_inBE8 {α : Type} (cast : Int → α) (d : Deserializer) (bs : List Nat)
    (h : d.Within bs) : (inBE8 cast d).2.Within bs :=
  Within_read d bs _ 8 h

theorem Within_String_body (d : Deserializer) (bs s : List Nat) (len : Nat)
    (h : d.Within bs) : (Deserializer_String_body d s len).2.Within bs := by
  have hc := Within_CheckEOF d bs h
  unfold Deserializer_String_body
  generalize Deserializer_CheckEOF d = r at hc
  obtain ⟨eof, d1⟩ := r
  dsimp only at hc ⊢
  split_ifs
  · exact hc
  · exact Within_read d1 bs _ _ hc
  · exact hc

theorem Within_Bool (d : Deserializer) (bs : List Nat) (h : d.Within bs) :
    (Deserializer_Bool d).2.Within bs := by
  have hT := Within_Type d bs h
  unfold Deserializer_Bool
  generalize Deserializer_Type d = r at hT
  obtain ⟨t, d1⟩ := r
  dsimp only at hT ⊢
  split_ifs
  · exact hT
  · exact hT
  · exact Within_SetErr _ bs _ hT

theorem Within_Int (d : Deserializer) (bs : List Nat) (h : d.Within bs) :
    (Deserializer_Int d).2.Within bs := by
  have hT := Within_Type d bs h
  unfold Deserializer_Int
  generalize Deserializer_Type d = r at hT
  obtain ⟨t, d1⟩ := r
  dsimp only at hT ⊢
  split_ifs
  · exact Within_CheckEOF _ bs hT
  · exact Within_CheckEOF _ bs hT
  · exact Within_CheckEOF _ bs (Within_inBE1 _ _ bs hT)
  · exact Within_CheckEOF _ bs (Within_inBE2 _ _ bs hT)
  · exact Within_CheckEOF _ bs (Within_inBE4 _ _ bs hT)
  · exact Within_CheckEOF _ bs (Within_inBE8 _ _ bs hT)
  · exact Within_SetErr _ bs _ hT

theorem Within_Uint (d : Deserializer) (bs : List Nat) (h : d.Within bs) :
    (Deserializer_Uint d).2.Within bs := by
  have hT := Within_Type d bs h
  unfold Deserializer_Uint
  generalize Deserializer_Type d = r at hT
  obtain ⟨t, d1⟩ := r
  dsimp only at hT ⊢
  split_ifs
  · exact Within_CheckEOF _ bs hT
  · exact Within_CheckEOF _ bs (Within_inBE1 _ _ bs hT)
  · exact Within_CheckEOF _ bs (Within_inBE2 _ _ bs hT)
  · exact Within_CheckEOF _ bs (Within_inBE4 _ _ bs hT)
  · exact Within_CheckEOF _ bs (Within_inBE8 _ _ bs hT)
  · exact Within_SetErr _ bs _ hT

theorem Within_Array (d : Deserializer) (bs : List Nat) (h : d.Within bs) :
    (Deserializer_Array d).2.Within bs := by
  have hT := Within_Type d bs h
  unfold Deserializer_Array
  generalize Deserializer_Type d = r at hT
  obtain ⟨t, d1⟩ := r
  dsimp only at hT ⊢
  split_ifs
  · exact Within_CheckEOF _ bs hT
  · exact Within_CheckEOF _ bs (Within_inBE2 _ _ bs hT)
  · exact Within_CheckEOF _ bs (Within_inBE4 _ _ bs hT)
  · exact Within_SetErr _ bs _ hT

theorem Within_String (d : Deserializer) (bs s : List Nat) (h : d.Within bs) :
    (Deserializer_String d s).2.Within bs := by
  have hT := Within_Type d bs h
  unfold Deserializer_String
  generalize Deserializer_Type d = r at hT
  obtain ⟨t, d1⟩ := r
  dsimp only at hT ⊢
  split_ifs
  · exact Within_String_body _ bs _ _ hT
  · exact Within_String_body _ bs _ _ (Within_inBE1 _ _ bs hT)
  · exact Within_String_body _ bs _ _ (Within_inBE2 _ _ bs hT)
  · exact Within_String_body _ bs _ _ (Within_inBE4 _ _ bs hT)
  · exact Within_SetErr _ bs _ hT

theorem Within_call (d : Deserializer) (bs : List Nat) (c : DCall) (h : d.Within bs) :
    (Deserializer_call d c).Within bs := by
  cases c with
  | bool => exact Within_Bool d bs h
  | int => exact Within_Int d bs h
  | uint => exact Within_Uint d bs h
  | string s => exact Within_String d bs s h
  | array => exact Within_Array d bs h

theorem Within_calls (cs : List DCall) (d : Deserializer) (bs : List Nat) (h : d.Within bs) :
    (Deserializer_calls d cs).Within bs := by
  induction cs generalizing d with
  | nil => exact h
  | cons c cs ih => exact ih _ (Within_call d bs c h)

theorem Within_new (bs : List Nat) (uninit : Nat → Nat) :
    (Deserializer.new bs uninit).Within bs :=
  ⟨rfl, Nat.zero_le _⟩

/-! ## After the end of the stream -/

theorem Type_err_of_eofbit (d : Deserializer) (h : d.in_.eofbit = true) :
    (Deserializer_Type d).2.err_ = true := by
  have hg : d.in_.get = (-1, { d.in_ with failbit := true }) := by
    simp [IStream.get, IStream.good, h]
  unfold Deserializer_Type
  rw [hg]
  simp only [IStream.eof, h, if_true]
  exact SetErr_err _ _

theorem Bool_err_of_Type_err (d : Deserializer) (hT : (Deserializer_Type d).2.err_ = true) :
    (Deserializer_Bool d).2.err_ = true := by
  unfold Deserializer_Bool
  generalize Deserializer_Type d = r at hT
  obtain ⟨t, d1⟩ := r
  dsimp only at hT ⊢
  split_ifs
  · exact hT
  · exact hT
  · exact SetErr_err _ _

theorem Int_err_of_Type_err (d : Deserializer) (hT : (Deserializer_Type d).2.err_ = true) :
    (Deserializer_Int d).2.err_ = true := by
  unfold Deserializer_Int
  generalize Deserializer_Type d = r at hT
  obtain ⟨t, d1⟩ := r
  dsimp only at hT ⊢
  split_ifs
  · exact CheckEOF_err_of_err _ hT
  · exact CheckEOF_err_of_err _ hT
  · exact CheckEOF_err_of_err (inBE1 (castS 8) d1).2 hT
  · exact CheckEOF_err_of_err (inBE2 (castS 16) d1).2 hT
  · exact CheckEOF_err_of_err (inBE4 (castS 32) d1).2 hT
  · exact CheckEOF_err_of_err (inBE8 (castS 64) d1).2 hT
  · exact SetErr_err _ _

theorem Uint_err_of_Type_err (d : Deserializer) (hT : (Deserializer_Type d).2.err_ = true) :
    (Deserializer_Uint d).2.err_ = true := by
  unfold Deserializer_Uint
  generalize Deserializer_Type d = r at hT
  obtain ⟨t, d1⟩ := r
  dsimp only at hT ⊢
  split_ifs
  · exact CheckEOF_err_of_err _ hT
  · exact CheckEOF_err_of_err (inBE1 (castU 8) d1).2 hT
  · exact CheckEOF_err_of_err (inBE2 (castU 16) d1).2 hT
  · exact CheckEOF_err_of_err (inBE4 (castU 32) d1).2 hT
  · exact CheckEOF_err_of_err (inBE8 (castU 64) d1).2 hT
  · exact SetErr_err _ _

theorem Array_err_of_Type_err (d : Deserializer) (hT : (Deserializer_Type d).2.err_ = true) :
    (Deserializer_Array d).2.err_ = true := by
  unfold Deserializer_Array
  generalize Deserializer_Type d = r at hT
  obtain ⟨t, d1⟩ := r
  dsimp only at hT ⊢
  split_ifs
  · exact CheckEOF_err_of_err _ hT
  · exact CheckEOF_err_of_err (inBE2 (castU 64) d1).2 hT
  · exact CheckEOF_err_of_err (inBE4 (castU 64) d1).2 hT
  · exact SetErr_err _ _

theorem String_err_of_Type_err (d : Deserializer) (s : List Nat)
    (hT : (Deserializer_Type d).2.err_ = true) :
    (Deserializer_String d s).2.err_ = true := by
  unfold Deserializer_String
  generalize Deserializer_Type d = r at hT
  obtain ⟨t, d1⟩ := r
  dsimp only at hT ⊢
  split_ifs
  · exact (String_body_keeps_err _ _ _ _ hT rfl).1
  · exact (String_body_keeps_err (inBE1 (castU 64) d1).2 _ _ _ hT rfl).1
  · exact (String_body_keeps_err (inBE2 (castU 64) d1).2 _ _ _ hT rfl).1
  · exact (String_body_keeps_err (inBE4 (castU 64) d1).2 _ _ _ hT rfl).1
  · exact SetErr_err _ _

theorem call_err_of_Type_err (d : Deserializer) (c : DCall)
    (hT : (Deserializer_Type d).2.err_ = true) : (Deserializer_call d c).err_ = true := by
  cases c with
  | bool => exact Bool_err_of_Type_err d hT
  | int => exact Int_err_of_Type_err d hT
  | uint => exact Uint_err_of_Type_err d hT
  | string s => exact String_err_of_Type_err d s hT
  | array => exact Array_err_of_Type_err d hT

theorem call_err_of_dead (d : Deserializer) (c : DCall) (h : d.Dead) :
    (Deserializer_call d c).err_ = true := by
  rcases h with h | h
  · exact call_err_of_Type_err d c (Type_err_of_eofbit d h)
  · exact (call_keeps_err d c _ h rfl).1

theorem call_err_of_ready_nil (d : Deserializer) (c : DCall) (h : d.Ready []) :
    (Deserializer_call d c).err_ = true :=
  call_err_of_Type_err d c (Type_eof d h).2

theorem calls_err_of_dead (cs : List DCall) (d : Deserializer) (h : d.Dead) (hne : cs ≠ []) :
    (Deserializer_calls d cs).err_ = true := by
  match cs, hne with
  | c :: cs, _ =>
    have h1 := call_err_of_dead d c h
    exact (calls_keep_err cs _ _ h1 rfl).1

theorem take_cons_cases (t : Nat) (pl : List Nat) (j : Nat) (hj : j < (t :: pl).length) :
    (t :: pl).take j = [] ∨ ∃ r, (t :: pl).take j = t :: r ∧ r.length < pl.length := by
  cases j with
  | zero => exact Or.inl rfl
  | succ j =>
    refine Or.inr ⟨pl.take j, rfl, ?_⟩
    rw [List.length_take]
    simp only [List.length_cons] at hj
    omega

theorem take_append_cases (a b : List Nat) (j : Nat) (hj : j < (a ++ b).length) :
    (j < a.length ∧ (a ++ b).take j = a.take j) ∨
      ∃ av, (a ++ b).take j = a ++ av ∧ av.length < b.length := by
  rw [List.length_append] at hj
  by_cases h : j < a.length
  · refine Or.inl ⟨h, ?_⟩
    rw [List.take_append_of_le_length (by omega)]
  · refine Or.inr ⟨b.take (j - a.length), ?_, ?_⟩
    · rw [List.take_append_eq_append_take, List.take_of_length_le (by omega)]
    · rw [List.length_take]; omega

theorem String_body_short (d : Deserializer) (s0 av : List Nat) (len : Nat)
    (h : d.Ready av) (hl : av.length < len) :
    (Deserializer_String_body d s0 len).2.in_.eofbit = true := by
  have hE := ready_CheckEOF _ _ h
  unfold Deserializer_String_body
  rw [hE]
  dsimp only
  rw [if_neg (by simp), if_pos (by omega), length_string_resize]
  exact read_short d av _ len h hl

theorem String_fixstr_short (d : Deserializer) (s0 av : List Nat) (n : Nat) (hn : n ≤ 31)
    (h : d.Ready ((FIXSTR + n) :: av)) (hl : av.length < n) :
    (Deserializer_String d s0).2.in_.eofbit = true := by
  have hT := ready_Type d _ _ h (by simp only [FIXSTR]; omega)
  have hR : (d.advance 1).Ready av := ready_advance d [FIXSTR + n] _ h
  unfold Deserializer_String
  rw [hT]
  dsimp only
  rw [if_pos (by simp only [FIXSTR, FIXSTR_MAX]; omega), Nat.add_sub_cancel_left]
  exact String_body_short _ s0 av n hR hl

theorem String_STR8_payload_short (d : Deserializer) (s0 av : List Nat) (n : Nat)
    (hn : n < 256) (h : d.Ready (STR8 :: n :: av)) (hl : av.length < n) :
    (Deserializer_String d s0).2.in_.eofbit = true := by
  have hT := ready_Type d _ _ h (by decide)
  have hR : (d.advance 1).Ready (n :: av) := ready_advance d [STR8] _ h
  have hI := ready_inBE1 (castU 64) _ _ _ hR hn
  have hR2 : ((d.advance 1).advance 1).Ready av := ready_advance _ [n] _ hR
  unfold Deserializer_String
  rw [hT]
  dsimp only
  rw [if_neg (by decide), if_pos rfl, hI]
  dsimp only
  rw [castU_natCast, Nat.mod_eq_of_lt (by omega)]
  exact String_body_short _ s0 av n hR2 hl

theorem String_STR16_payload_short (d : Deserializer) (s0 av : List Nat) (b1 b0 : Nat)
    (h1 : b1 < 256) (h0 : b0 < 256) (h : d.Ready (STR16 :: b1 :: b0 :: av))
    (hl : av.length < b1 * 256 + b0) :
    (Deserializer_String d s0).2.in_.eofbit = true := by
  have hT := ready_Type d _ _ h (by decide)
  have hR : (d.advance 1).Ready (b1 :: b0 :: av) := ready_advance d [STR16] _ h
  have hI := ready_inBE2 (castU 64) _ _ _ _ hR h1 h0
  have hR2 : ((d.advance 1).advance 2).Ready av := ready_advance _ [b1, b0] _ hR
  unfold Deserializer_String
  rw [hT]
  dsimp only
  rw [if_neg (by decide), if_neg (by decide), if_pos rfl, hI]
  dsimp only
  rw [castU_natCast, Nat.mod_eq_of_lt (by omega)]
  exact String_body_short _ s0 av _ hR2 hl

theorem String_STR32_payload_short (d : Deserializer) (s0 av : List Nat) (b3 b2 b1 b0 : Nat)
    (h3 : b3 < 256) (h2 : b2 < 256) (h1 : b1 < 256) (h0 : b0 < 256)
    (h : d.Ready (STR32 :: b3 :: b2 :: b1 :: b0 :: av))
    (hl : av.length < b3 * 16777216 + b2 * 65536 + b1 * 256 + b0) :
    (Deserializer_String d s0).2.in_.eofbit = true := by
  have hT := ready_Type d _ _ h (by decide)
  have hR : (d.advance 1).Ready (b3 :: b2 :: b1 :: b0 :: av) := ready_advance d [STR32] _ h
  have hI := ready_inBE4 (castU 64) _ _ _ _ _ _ hR h3 h2 h1 h0
  have hR2 : ((d.advance 1).advance 4).Ready av := ready_advance _ [b3, b2, b1, b0] _ hR
  unfold Deserializer_String
  rw [hT]
  dsimp only
  rw [if_neg (by decide), if_neg (by decide), if_neg (by decide), if_pos rfl, hI]
  dsimp only
  rw [castU_natCast, Nat.mod_eq_of_lt (by omega)]
  exact String_body_short _ s0 av _ hR2 hl

theorem Array_ARRAY16_short (d : Deserializer) (rest : List Nat)
    (h : d.Ready (ARRAY16 :: rest)) (hn : rest.length < 2) :
    (Deserializer_Array d).2.err_ = true := by
  have hT := ready_Type d ARRAY16 rest h (by decide)
  have hR : (d.advance 1).Ready rest := ready_advance d [ARRAY16] rest h
  unfold Deserializer_Array
  rw [hT]
  dsimp only
  rw [if_neg (by decide), if_pos rfl]
  exact CheckEOF_err_of_eof _ (inBE2_eof _ _ _ rest hR hn)

theorem Array_ARRAY32_short (d : Deserializer) (rest : List Nat)
    (h : d.Ready (ARRAY32 :: rest)) (hn : rest.length < 4) :
    (Deserializer_Array d).2.err_ = true := by
  have hT := ready_Type d ARRAY32 rest h (by decide)
  have hR : (d.advance 1).Ready rest := ready_advance d [ARRAY32] rest h
  unfold Deserializer_Array
  rw [hT]
  dsimp only
  rw [if_neg (by decide), if_neg (by decide), if_pos rfl]
  exact CheckEOF_err_of_eof _ (inBE4_eof _ _ _ rest hR hn)

/-! ## Truncated encodings -/

theorem Bool_truncated (d : Deserializer) (b : Bool) (j : Nat)
    (hj : j < (Serializer_Bool [] b).length) (h : d.Ready ((Serializer_Bool [] b).take j)) :
    (Deserializer_Bool d).2.err_ = true := by
  have e : (Serializer_Bool [] b).length = 1 := by cases b <;> rfl
  have hj0 : j = 0 := by omega
  subst hj0
  exact Bool_err_of_Type_err d (Type_eof d h).2

theorem Int_truncated (d : Deserializer) (v : Int) (j : Nat)
    (hj : j < (Serializer_Int [] v).length) (h : d.Ready ((Serializer_Int [] v).take j)) :
    (Deserializer_Int d).2.err_ = true := by
  unfold Serializer_Int at h hj
  simp only [outBE1_signed, outBE2_signed, outBE4_signed, outBE8_signed, List.nil_append,
    castU_8_tag INT8 (by decide), castU_8_tag INT16 (by decide),
    castU_8_tag INT32 (by decide), castU_8_tag INT64 (by decide)] at h hj
  split_ifs at h hj
  all_goals
    rcases take_cons_cases _ _ j hj with e | ⟨r, e, hr⟩
    · rw [e] at h
      exact Int_err_of_Type_err d (Type_eof d h).2
    · rw [e] at h
      simp only [List.length_cons, List.length_nil] at hr
      first
        | omega
        | exact Int_INT8_short d (by
            have : r = [] := List.length_eq_zero.mp (by omega)
            rw [this] at h; exact h)
        | exact Int_INT16_short d r h (by omega)
        | exact Int_INT32_short d r h (by omega)
        | exact Int_INT64_short d r h (by omega)

theorem Uint_truncated (d : Deserializer) (v : Nat) (j : Nat)
    (hj : j < (Serializer_Uint [] v).length) (h : d.Ready ((Serializer_Uint [] v).take j)) :
    (Deserializer_Uint d).2.err_ = true := by
  unfold Serializer_Uint at h hj
  simp only [outBE1, outBE2, outBE4, outBE8, List.nil_append,
    castU_8_tag UINT8 (by decide), castU_8_tag UINT16 (by decide),
    castU_8_tag UINT32 (by decide), castU_8_tag UINT64 (by decide)] at h hj
  split_ifs at h hj
  all_goals
    rcases take_cons_cases _ _ j hj with e | ⟨r, e, hr⟩
    · rw [e] at h
      exact Uint_err_of_Type_err d (Type_eof d h).2
    · rw [e] at h
      simp only [List.length_cons, List.length_nil] at hr
      first
        | omega
        | exact Uint_UINT8_short d (by
            have : r = [] := List.length_eq_zero.mp (by omega)
            rw [this] at h; exact h)
        | exact Uint_UINT16_short d r h (by omega)
        | exact Uint_UINT32_short d r h (by omega)
        | exact Uint_UINT64_short d r h (by omega)

theorem Array_truncated (d : Deserializer) (n : Nat) (j : Nat)
    (hj : j < (Serializer_Array_len [] n).length)
    (h : d.Ready ((Serializer_Array_len [] n).take j)) :
    (Deserializer_Array d).2.err_ = true := by
  unfold Serializer_Array_len at h hj
  simp only [outBE2, outBE4, List.nil_append,
    castU_8_tag ARRAY16 (by decide), castU_8_tag ARRAY32 (by decide)] at h hj
  split_ifs at h hj
  all_goals
    rcases take_cons_cases _ _ j hj with e | ⟨r, e, hr⟩
    · rw [e] at h
      exact Array_err_of_Type_err d (Type_eof d h).2
    · rw [e] at h
      simp only [List.length_cons, List.length_nil] at hr
      first
        | omega
        | exact Array_ARRAY16_short d r h (by omega)
        | exact Array_ARRAY32_short d r h (by omega)

theorem String_truncated (d : Deserializer) (s s0 : List Nat) (hs : s.length < 4294967296)
    (j : Nat) (hj : j < (Serializer_String [] s).length)
    (h : d.Ready ((Serializer_String [] s).take j)) :
    (Deserializer_String d s0).2.Dead := by
  unfold Serializer_String Serializer_String_len at h hj
  simp only [FIXSTR_MAX, UINT8_MAX, UINT16_MAX, outBE1, outBE2, outBE4, List.nil_append,
    castU_8_tag STR8 (by decide), castU_8_tag STR16 (by decide),
    castU_8_tag STR32 (by decide)] at h hj
  by_cases c0 : s.length ≤ 31
  · rw [if_pos c0] at h hj
    have hb : castU 8 ((FIXSTR + castU 8 (s.length : Int) : Nat) : Int) = FIXSTR + s.length := by
      rw [castU_natCast, castU_natCast]; simp only [FIXSTR]; omega
    rw [hb] at h hj
    rcases take_append_cases _ _ j hj with ⟨hlt, e⟩ | ⟨av, e, hav⟩
    · rw [e] at h
      rcases take_cons_cases _ _ j hlt with e2 | ⟨r, e2, hr⟩
      · rw [e2] at h
        exact Or.inr (String_err_of_Type_err d s0 (Type_eof d h).2)
      · simp only [List.length_nil] at hr
        omega
    · rw [e] at h
      exact Or.inl (String_fixstr_short d s0 av s.length c0 h hav)
  · rw [if_neg c0] at h hj
    by_cases c1 : s.length ≤ 255
    · rw [if_pos c1] at h hj
      rw [rt_u8 _ (by omega)] at h hj
      rcases take_append_cases _ _ j hj with ⟨hlt, e⟩ | ⟨av, e, hav⟩
      · rw [e] at h
        rcases take_cons_cases _ _ j hlt with e2 | ⟨r, e2, hr⟩
        · rw [e2] at h
          exact Or.inr (String_err_of_Type_err d s0 (Type_eof d h).2)
        · rw [e2] at h
          simp only [List.length_cons, List.length_nil] at hr
          have hr0 : r = [] := List.length_eq_zero.mp (by omega)
          rw [hr0] at h
          exact Or.inr (String_STR8_short d s0 h).2
      · rw [e] at h
        exact Or.inl (String_STR8_payload_short d s0 av s.length (by omega) h hav)
    · rw [if_neg c1] at h hj
      by_cases c2 : s.length ≤ 65535
      · rw [if_pos c2] at h hj
        rcases take_append_cases _ _ j hj with ⟨hlt, e⟩ | ⟨av, e, hav⟩
        · rw [e] at h
          rcases take_cons_cases _ _ j hlt with e2 | ⟨r, e2, hr⟩
          · rw [e2] at h
            exact Or.inr (String_err_of_Type_err d s0 (Type_eof d h).2)
          · rw [e2] at h
            simp only [List.length_cons, List.length_nil] at hr
            exact Or.inr (String_STR16_short d s0 r h (by omega)).2
        · rw [e] at h
          exact Or.inl (String_STR16_payload_short d s0 av _ _ (outBE_lt _ _) (outBE_lt _ _) h
            (by rw [rt_u16 _ (by omega)]; exact hav))
      · rw [if_neg c2] at h hj
        rcases take_append_cases _ _ j hj with ⟨hlt, e⟩ | ⟨av, e, hav⟩
        · rw [e] at h
          rcases take_cons_cases _ _ j hlt with e2 | ⟨r, e2, hr⟩
          · rw [e2] at h
            exact Or.inr (String_err_of_Type_err d s0 (Type_eof d h).2)
          · rw [e2] at h
            simp only [List.length_cons, List.length_nil] at hr
            exact Or.inr (String_STR32_short d s0 r h (by omega)).2
        · rw [e] at h
          exact Or.inl (String_STR32_payload_short d s0 av _ _ _ _ (outBE_lt _ _)
            (outBE_lt _ _) (outBE_lt _ _) (outBE_lt _ _) h
            (by rw [rt_u32 _ (by omega)]; exact hav))

theorem Array_step (d : Deserializer) (n : Nat) (rest : List Nat)
    (h : d.Ready (Serializer_Array_len [] n ++ rest)) :
    (Deserializer_Array d).2 = d.advance (Serializer_Array_len [] n).length := by
  unfold Serializer_Array_len at h ⊢
  simp only [FIXARRAY_MAX, UINT16_MAX, outBE2, outBE4, List.nil_append] at h ⊢
  by_cases c0 : n ≤ 15
  · rw [if_pos c0] at h ⊢
    have hb : castU 8 ((FIXARRAY + castU 8 (n : Int) : Nat) : Int) = FIXARRAY + n := by
      rw [castU_natCast, castU_natCast]; simp only [FIXARRAY]; omega
    rw [hb] at h
    rw [Array_fixarray d n rest c0 h]
    rfl
  · rw [if_neg c0] at h ⊢
    by_cases c2 : n ≤ 65535
    · rw [if_pos c2] at h ⊢
      rw [castU_8_tag ARRAY16 (by decide)] at h
      rw [Array_ARRAY16 d _ _ rest h (outBE_lt _ _) (outBE_lt _ _)]
      rfl
    · rw [if_neg c2] at h ⊢
      rw [castU_8_tag ARRAY32 (by decide)] at h
      rw [Array_ARRAY32 d _ _ _ _ rest h (outBE_lt _ _) (outBE_lt _ _) (outBE_lt _ _)
        (outBE_lt _ _)]
      rfl

theorem Serializer_value_append (out : List Nat) (x : Value) :
    Serializer_value out x = out ++ Serializer_value [] x := by
  cases x with
  | bool b => exact Serializer_Bool_append out b
  | int v => exact Serializer_Int_append out v
  | uint v => exact Serializer_Uint_append out v
  | string s => exact Serializer_String_append out s
  | array n => exact Serializer_Array_len_append out n

theorem value_step (d : Deserializer) (x : Value) (c : DCall) (rest : List Nat)
    (hk : c.kind = x.kind) (hr : x.in_range)
    (hs : ∀ s, x = Value.string s → s.length < 4294967296)
    (h : d.Ready (Serializer_value [] x ++ rest)) :
    (Deserializer_call d c).Ready rest := by
  cases x with
  | bool b =>
    cases c <;> simp [DCall.kind, Value.kind] at hk
    show (Deserializer_Bool d).2.Ready rest
    rw [Bool_roundtrip_one d b rest h]
    exact ready_advance d _ _ h
  | int v =>
    cases c <;> simp [DCall.kind, Value.kind] at hk
    show (Deserializer_Int d).2.Ready rest
    rw [Int_roundtrip_one d v rest hr h]
    exact ready_advance d _ _ h
  | uint v =>
    cases c <;> simp [DCall.kind, Value.kind] at hk
    show (Deserializer_Uint d).2.Ready rest
    rw [Uint_roundtrip_one d v rest hr h]
    exact ready_advance d _ _ h
  | string s =>
    cases c <;> simp [DCall.kind, Value.kind] at hk
    rename_i s0
    show (Deserializer_String d s0).2.Ready rest
    rw [String_roundtrip_one d s0 s rest (hs s rfl) h]
    exact ready_advance d _ _ h
  | array n =>
    cases c <;> simp [DCall.kind, Value.kind] at hk
    show (Deserializer_Array d).2.Ready rest
    rw [Array_step d n rest h]
    exact ready_advance d _ _ h

theorem value_truncated (d : Deserializer) (x : Value) (c : DCall) (j : Nat)
    (hk : c.kind = x.kind) (hs : ∀ s, x = Value.string s → s.length < 4294967296)
    (hj : j < (Serializer_value [] x).length)
    (h : d.Ready ((Serializer_value [] x).take j)) :
    (Deserializer_call d c).Dead := by
  cases x with
  | bool b =>
    cases c <;> simp [DCall.kind, Value.kind] at hk
    exact Or.inr (Bool_truncated d b j hj h)
  | int v =>
    cases c <;> simp [DCall.kind, Value.kind] at hk
    exact Or.inr (Int_truncated d v j hj h)
  | uint v =>
    cases c <;> simp [DCall.kind, Value.kind] at hk
    exact Or.inr (Uint_truncated d v j hj h)
  | string s =>
    cases c <;> simp [DCall.kind, Value.kind] at hk
    rename_i s0
    exact String_truncated d s s0 (hs s rfl) j hj h
  | array n =>
    cases c <;> simp [DCall.kind, Value.kind] at hk
    exact Or.inr (Array_truncated d n j hj h)

theorem write_values_cons (x : Value) (vs : List Value) :
    write_values (x :: vs) = Serializer_value [] x ++ write_values vs :=
  foldl_cons_of Serializer_value Serializer_value_append x vs

theorem write_values_append (vs ws : List Value) :
    write_values (vs ++ ws) = write_values vs ++ write_values ws := by
  induction vs with
  | nil => rfl
  | cons x vs ih =>
    rw [List.cons_append, write_values_cons, write_values_cons, ih, List.append_assoc]

theorem Serializer_value_string (s : List Nat) :
    Serializer_value [] (Value.string s) = Serializer_String [] s := rfl

theorem calls_cons (d : Deserializer) (c : DCall) (cs : List DCall) :
    Deserializer_calls d (c :: cs) = Deserializer_calls (Deserializer_call d c) cs := rfl

theorem truncated_calls_err (vs : List Value) (cs : List DCall) (c : DCall)
    (d : Deserializer) (k : Nat)
    (hk : cs.map DCall.kind = vs.map Value.kind)
    (hr : ∀ x ∈ vs, x.in_range)
    (hs : ∀ s, Value.string s ∈ vs → s.length < 4294967296)
    (hle : k ≤ (write_values vs).length)
    (h : d.Ready ((write_values vs).take k)) :
    (Deserializer_calls d (cs ++ [c])).err_ = true := by
  induction vs generalizing d k cs with
  | nil =>
    have hcs : cs = [] := by simpa using hk
    subst hcs
    have hk0 : k = 0 := by
      have : (write_values []).length = 0 := rfl
      omega
    subst hk0
    exact call_err_of_ready_nil d c h
  | cons x vs ih =>
    match cs, hk with
    | c1 :: cs, hk =>
      simp only [List.map_cons, List.cons.injEq] at hk
      rw [write_values_cons] at h hle
      rw [List.cons_append, calls_cons]
      by_cases hlt : k < (Serializer_value [] x).length
      · rw [List.take_append_of_le_length (by omega)] at h
        have hd := value_truncated d x c1 k hk.1
          (fun s e => hs s (by rw [e]; exact List.mem_cons_self _ _)) hlt h
        exact calls_err_of_dead _ _ hd (by simp)
      · rw [List.take_append_eq_append_take, List.take_of_length_le (by omega)] at h
        have hstep := value_step d x c1 _ hk.1 (hr x (List.mem_cons_self _ _))
          (fun s e => hs s (by rw [e]; exact List.mem_cons_self _ _)) h
        rw [List.length_append] at hle
        exact ih cs _ (k - (Serializer_value [] x).length) hk.2
          (fun y hy => hr y (List.mem_cons_of_mem _ hy))
          (fun s hy => hs s (List.mem_cons_of_mem _ hy)) (by omega) hstep

theorem count_values_strings (strs : List (List Nat)) (cs : List SerCall) :
    count_values (strs.map SerCall.string ++ cs) strs.length = count_values cs 0 := by
  induction strs with
  | nil => rfl
  | cons s strs ih =>
    simp only [List.map_cons, List.cons_append, List.length_cons, count_values]
    exact ih

theorem frame_BuildEdgeStarted (k : Discriminants) (edge : Edge) (t : Int) :
    frame (StatusSerializer_BuildEdgeStarted k edge t) = some (8, k.kEdgeStarted) := by
  unfold StatusSerializer_BuildEdgeStarted
  simp only [List.cons_append, List.nil_append, List.append_assoc, frame, count_values,
    count_values_strings]
  rfl

/-- C18: every event message written by `StatusSerializer` is correctly framed.
For each of PlanHasTotalEdges, BuildEdgeStarted, BuildEdgeFinished,
BuildStarted, BuildFinished and Info, Warning, Error, the calls of the message
begin with an array header whose count (2, 8, 5, 3, 1 and 2 respectively)
equals the number of top-level codec values that follow, the first of which is
the unsigned event discriminant; in BuildEdgeStarted the nested inputs and
outputs arrays each count as one value and are each followed by exactly their
declared number of strings. Each count is written as the single byte
0x90 + count that opens the message. -/
theorem C18_framing (k : Discriminants) (total : Int) (edge : Edge) (time : Int)
    (result : CommandResult) (config_ : BuildConfig) (text : List Nat) :
    frame (StatusSerializer_PlanHasTotalEdges k total) = some (2, k.kTotalEdges) ∧
    frame (StatusSerializer_BuildEdgeStarted k edge time) = some (8, k.kEdgeStarted) ∧
    frame (StatusSerializer_BuildEdgeFinished k edge time result)
      = some (5, k.kEdgeFinished) ∧
    frame (StatusSerializer_BuildStarted k config_) = some (3, k.kBuildStarted) ∧
    frame (StatusSerializer_BuildFinished k) = some (1, k.kBuildFinished) ∧
    frame (StatusSerializer_Info k text) = some (2, k.kNinjaInfo) ∧
    frame (StatusSerializer_Warning k text) = some (2, k.kNinjaWarning) ∧
    frame (StatusSerializer_Error k text) = some (2, k.kNinjaError) ∧
    (SerCall.all_bytes (StatusSerializer_PlanHasTotalEdges k total)).head? = some 0x92 ∧
    (SerCall.all_bytes (StatusSerializer_BuildEdgeStarted k edge time)).head? = some 0x98 ∧
    (SerCall.all_bytes (StatusSerializer_BuildEdgeFinished k edge time result)).head?
      = some 0x95 ∧
    (SerCall.all_bytes (StatusSerializer_BuildStarted k config_)).head? = some 0x93 ∧
    (SerCall.all_bytes (StatusSerializer_BuildFinished k)).head? = some 0x91 ∧
    (SerCall.all_bytes (StatusSerializer_Info k text)).head? = some 0x92 ∧
    (SerCall.all_bytes (StatusSerializer_Warning k text)).head? = some 0x92 ∧
    (SerCall.all_bytes (StatusSerializer_Error k text)).head? = some 0x92 ∧
    (StatusSerializer_BuildEdgeStarted k edge time).take 5
      = [.array 8, .uint k.kEdgeStarted, .uint (castU 64 edge.id_), .uint (castU 64 time),
          .array edge.inputs_.length] ∧
    (StatusSerializer_BuildEdgeStarted k edge time).drop 5
      = edge.inputs_.map SerCall.string
        ++ (.array edge.outputs_.length :: (edge.outputs_.map SerCall.string
        ++ [.string edge.description, .string edge.command, .bool edge.use_console,
          .flush])) := by
  refine ⟨rfl, frame_BuildEdgeStarted k edge time, rfl, rfl, rfl, rfl, rfl, rfl,
    rfl, rfl, rfl, rfl, rfl, rfl, rfl, rfl, rfl, ?_⟩
  unfold StatusSerializer_BuildEdgeStarted
  simp

/-! ## Flushing of the status stream -/

theorem sputc_stream (b : OFileBuf) (c : Nat) :
    (b.sputc c).written ++ (b.sputc c).pending = b.written ++ b.pending ++ [c] ∧
      (b.sputc c).size = b.size := by
  unfold OFileBuf.sputc OFileBuf.sync
  split_ifs
  · exact ⟨by simp, rfl⟩
  · exact ⟨by simp, rfl⟩

theorem xsputn_stream (cs : List Nat) (b : OFileBuf) :
    (b.xsputn cs).written ++ (b.xsputn cs).pending = b.written ++ b.pending ++ cs ∧
      (b.xsputn cs).size = b.size := by
  induction cs generalizing b with
  | nil => exact ⟨by simp [OFileBuf.xsputn], rfl⟩
  | cons c cs ih =>
    have h1 := sputc_stream b c
    have h2 := ih (b.sputc c)
    unfold OFileBuf.xsputn at h2 ⊢
    rw [List.foldl_cons]
    refine ⟨?_, h2.2.trans h1.2⟩
    rw [h2.1, h1.1]
    simp

theorem Serializer_call_stream (b : OFileBuf) (c : SerCall) :
    (Serializer_call b c).written ++ (Serializer_call b c).pending
      = b.written ++ b.pending ++ c.bytes := by
  cases c with
  | flush => simp [Serializer_call, OFileBuf.sync, SerCall.bytes]
  | bool v => exact (xsputn_stream _ b).1
  | int v => exact (xsputn_stream _ b).1
  | uint v => exact (xsputn_stream _ b).1
  | string s => exact (xsputn_stream _ b).1
  | array n => exact (xsputn_stream _ b).1

theorem Serializer_calls_stream (cs : List SerCall) (b : OFileBuf) :
    (Serializer_calls b cs).written ++ (Serializer_calls b cs).pending
      = b.written ++ b.pending ++ SerCall.all_bytes cs := by
  induction cs generalizing b with
  | nil => simp [Serializer_calls, SerCall.all_bytes]
  | cons c cs ih =>
    have h1 := Serializer_call_stream b c
    have h2 := ih (Serializer_call b c)
    unfold Serializer_calls at h2 ⊢
    rw [List.foldl_cons, h2, h1]
    simp [SerCall.all_bytes]

theorem Serializer_calls_flush (cs : List SerCall) (b : OFileBuf) :
    (Serializer_calls b (cs ++ [SerCall.flush])).pending = [] ∧
    (Serializer_calls b (cs ++ [SerCall.flush])).written
      = b.written ++ b.pending ++ SerCall.all_bytes (cs ++ [SerCall.flush]) := by
  have h := Serializer_calls_stream (cs ++ [SerCall.flush]) b
  have hp : (Serializer_calls b (cs ++ [SerCall.flush])).pending = [] := by
    unfold Serializer_calls
    rw [List.foldl_append]
    rfl
  rw [hp, List.append_nil] at h
  exact ⟨hp, h⟩

theorem xsputn_room (cs : List Nat) (b : OFileBuf)
    (h : b.pending.length + cs.length < b.size) :
    b.xsputn cs = { b with pending := b.pending ++ cs } := by
  induction cs generalizing b with
  | nil => simp [OFileBuf.xsputn]
  | cons c cs ih =>
    simp only [List.length_cons] at h
    have e : b.sputc c = { b with pending := b.pending ++ [c] } := by
      unfold OFileBuf.sputc
      rw [if_pos (by omega)]
    unfold OFileBuf.xsputn at ih ⊢
    rw [List.foldl_cons, e, ih]
    · simp
    · simp only [List.length_append, List.length_cons, List.length_nil]
      omega

theorem Serializer_Uint_length_le (v : Nat) : (Serializer_Uint [] v).length ≤ 9 := by
  rw [Serializer_Uint_length]
  split_ifs <;> omega

/-- C19 fails on the code for BuildStarted and BuildFinished. The methods that
end with `Flush()` (PlanHasTotalEdges, BuildEdgeStarted, BuildEdgeFinished and
Info, Warning, Error) leave the pending buffer empty with all the bytes of the
message handed to the pipe, whatever the buffer held; `BuildStarted` and
`BuildFinished` make no `Flush()` call, and on a serializer with an empty
buffer of `BUFSIZ` = 8192 characters they leave the whole message pending and
hand nothing to the pipe. -/
theorem C19_flush_missing (k : Discriminants) (b : OFileBuf) (total : Int) (edge : Edge)
    (time : Int) (result : CommandResult) (config_ : BuildConfig) (text w : List Nat) :
    ((Serializer_calls b (StatusSerializer_PlanHasTotalEdges k total)).pending = [] ∧
      (Serializer_calls b (StatusSerializer_PlanHasTotalEdges k total)).written
        = b.written ++ b.pending
          ++ SerCall.all_bytes (StatusSerializer_PlanHasTotalEdges k total)) ∧
    ((Serializer_calls b (StatusSerializer_BuildEdgeStarted k edge time)).pending = [] ∧
      (Serializer_calls b (StatusSerializer_BuildEdgeStarted k edge time)).written
        = b.written ++ b.pending
          ++ SerCall.all_bytes (StatusSerializer_BuildEdgeStarted k edge time)) ∧
    ((Serializer_calls b (StatusSerializer_BuildEdgeFinished k edge time result)).pending
        = [] ∧
      (Serializer_calls b (StatusSerializer_BuildEdgeFinished k edge time result)).written
        = b.written ++ b.pending
          ++ SerCall.all_bytes (StatusSerializer_BuildEdgeFinished k edge time result)) ∧
    ((Serializer_calls b (StatusSerializer_Info k text)).pending = [] ∧
      (Serializer_calls b (StatusSerializer_Warning k text)).pending = [] ∧
      (Serializer_calls b (StatusSerializer_Error k text)).pending = []) ∧
    ((Serializer_calls { size := 8192, pending := [], written := w }
        (StatusSerializer_BuildFinished k)).pending
        = 0x91 :: Serializer_Uint [] k.kBuildFinished ∧
      (Serializer_calls { size := 8192, pending := [], written := w }
        (StatusSerializer_BuildFinished k)).written = w) ∧
    ((Serializer_calls { size := 8192, pending := [], written := w }
        (StatusSerializer_BuildStarted k config_)).pending
        = SerCall.all_bytes (StatusSerializer_BuildStarted k config_) ∧
      (SerCall.all_bytes (StatusSerializer_BuildStarted k config_)).head? = some 0x93 ∧
      (Serializer_calls { size := 8192, pending := [], written := w }
        (StatusSerializer_BuildStarted k config_)).written = w) := by
  refine ⟨?_, ?_, ?_, ?_, ?_, ?_⟩
  · exact Serializer_calls_flush [.array 2, .uint k.kTotalEdges, .uint (castU 64 total)] b
  · have e : StatusSerializer_BuildEdgeStarted k edge time
        = ([.array 8, .uint k.kEdgeStarted, .uint (castU 64 edge.id_),
            .uint (castU 64 time), .array edge.inputs_.length]
          ++ edge.inputs_.map SerCall.string ++ [.array edge.outputs_.length]
          ++ edge.outputs_.map SerCall.string
          ++ [.string edge.description, .string edge.command, .bool edge.use_console])
          ++ [SerCall.flush] := by
      unfold StatusSerializer_BuildEdgeStarted
      simp
    rw [e]
    exact Serializer_calls_flush _ b
  · exact Serializer_calls_flush [.array 5, .uint k.kEdgeFinished, .uint (castU 64 edge.id_),
      .uint (castU 64 time), .int result.status, .string result.output] b
  · exact ⟨(Serializer_calls_flush [.array 2, .uint k.kNinjaInfo, .string _] b).1,
      (Serializer_calls_flush [.array 2, .uint k.kNinjaWarning, .string _] b).1,
      (Serializer_calls_flush [.array 2, .uint k.kNinjaError, .string _] b).1⟩
  · have hl := Serializer_Uint_length_le k.kBuildFinished
    have e : Serializer_calls { size := 8192, pending := [], written := w }
        (StatusSerializer_BuildFinished k)
        = OFileBuf.xsputn { size := 8192, pending := [0x91], written := w }
            (Serializer_Uint [] k.kBuildFinished) := rfl
    rw [e, xsputn_room _ _ (by simp only [List.length_cons, List.length_nil]; omega)]
    exact ⟨rfl, rfl⟩
  · have hl := Serializer_Uint_length_le k.kBuildStarted
    have hl2 := Serializer_Uint_length_le (castU 64 config_.parallelism)
    have hb : (Serializer_Bool [] (config_.verbosity == Verbosity.VERBOSE)).length = 1 := by
      cases (config_.verbosity == Verbosity.VERBOSE) <;> rfl
    have e : Serializer_calls { size := 8192, pending := [], written := w }
        (StatusSerializer_BuildStarted k config_)
        = OFileBuf.xsputn (OFileBuf.xsputn (OFileBuf.xsputn
            { size := 8192, pending := [0x93], written := w }
            (Serializer_Uint [] k.kBuildStarted))
            (Serializer_Uint [] (castU 64 config_.parallelism)))
            (Serializer_Bool [] (config_.verbosity == Verbosity.VERBOSE)) := rfl
    have s1 : OFileBuf.xsputn { size := 8192, pending := [0x93], written := w }
        (Serializer_Uint [] k.kBuildStarted)
        = { size := 8192, pending := [0x93] ++ Serializer_Uint [] k.kBuildStarted,
            written := w } :=
      xsputn_room _ _ (by simp only [List.length_cons, List.length_nil]; omega)
    have s2 : OFileBuf.xsputn
        { size := 8192, pending := [0x93] ++ Serializer_Uint [] k.kBuildStarted, written := w }
        (Serializer_Uint [] (castU 64 config_.parallelism))
        = { size := 8192, pending := [0x93] ++ Serializer_Uint [] k.kBuildStarted
              ++ Serializer_Uint [] (castU 64 config_.parallelism), written := w } :=
      xsputn_room _ _ (by
        simp only [List.length_append, List.length_cons, List.length_nil]; omega)
    have s3 : OFileBuf.xsputn
        { size := 8192, pending := [0x93] ++ Serializer_Uint [] k.kBuildStarted
              ++ Serializer_Uint [] (castU 64 config_.parallelism), written := w }
        (Serializer_Bool [] (config_.verbosity == Verbosity.VERBOSE))
        = { size := 8192, pending := [0x93] ++ Serializer_Uint [] k.kBuildStarted
              ++ Serializer_Uint [] (castU 64 config_.parallelism)
              ++ Serializer_Bool [] (config_.verbosity == Verbosity.VERBOSE),
            written := w } :=
      xsputn_room _ _ (by
        simp only [List.length_append, List.length_cons, List.length_nil]; omega)
    rw [e, s1, s2, s3]
    refine ⟨?_, rfl, rfl⟩
    simp [SerCall.all_bytes, StatusSerializer_BuildStarted, SerCall.bytes]
    rfl

/-! ## Decoding the edge messages -/

theorem all_bytes_cons (c : SerCall) (cs : List SerCall) :
    SerCall.all_bytes (c :: cs) = c.bytes ++ SerCall.all_bytes cs := rfl

theorem all_bytes_nil : SerCall.all_bytes [] = [] := rfl

theorem all_bytes_append (as bs : List SerCall) :
    SerCall.all_bytes (as ++ bs) = SerCall.all_bytes as ++ SerCall.all_bytes bs := by
  induction as with
  | nil => rfl
  | cons a as ih => rw [List.cons_append, all_bytes_cons, all_bytes_cons, ih, List.append_assoc]

theorem all_bytes_strings (strs : List (List Nat)) :
    SerCall.all_bytes (strs.map SerCall.string) = write_Strings strs := by
  induction strs with
  | nil => rfl
  | cons s strs ih =>
    rw [List.map_cons, all_bytes_cons, ih]
    unfold write_Strings
    rw [foldl_cons_of Serializer_String Serializer_String_append]
    rfl

theorem bytes_array (n : Nat) : (SerCall.array n).bytes = Serializer_Array_len [] n := rfl
theorem bytes_uint (v : Nat) : (SerCall.uint v).bytes = Serializer_Uint [] v := rfl
theorem bytes_int (v : Int) : (SerCall.int v).bytes = Serializer_Int [] v := rfl
theorem bytes_string (s : List Nat) : (SerCall.string s).bytes = Serializer_String [] s := rfl
theorem bytes_bool (v : Bool) : (SerCall.bool v).bytes = Serializer_Bool [] v := rfl
theorem bytes_flush : SerCall.flush.bytes = [] := rfl

theorem all_bytes_BuildEdgeStarted (k : Discriminants) (edge : Edge) (t : Int) :
    SerCall.all_bytes (StatusSerializer_BuildEdgeStarted k edge t)
      = Serializer_Array_len [] 8 ++ (Serializer_Uint [] k.kEdgeStarted
        ++ (Serializer_Uint [] (castU 64 edge.id_) ++ (Serializer_Uint [] (castU 64 t)
        ++ (Serializer_Array_len [] edge.inputs_.length ++ (write_Strings edge.inputs_
        ++ (Serializer_Array_len [] edge.outputs_.length ++ (write_Strings edge.outputs_
        ++ (Serializer_String [] edge.description ++ (Serializer_String [] edge.command
        ++ (Serializer_Bool [] edge.use_console ++ [])))))))))) := by
  unfold StatusSerializer_BuildEdgeStarted
  simp only [all_bytes_append, all_bytes_cons, all_bytes_nil, all_bytes_strings,
    List.append_assoc, bytes_array, bytes_uint, bytes_string, bytes_bool, bytes_flush,
    List.append_nil]

theorem read_EdgeStarted_ready (d : Deserializer) (kd id t : Nat)
    (ins outs : List (List Nat)) (desc cmd : List Nat) (c : Bool) (rest : List Nat)
    (hkd : kd ≤ UINT64_MAX) (hid : id ≤ UINT64_MAX) (ht : t ≤ UINT64_MAX)
    (hins : ins.length < 4294967296) (hin : ∀ s ∈ ins, s.length < 4294967296)
    (houts : outs.length < 4294967296) (hout : ∀ s ∈ outs, s.length < 4294967296)
    (hdesc : desc.length < 4294967296) (hcmd : cmd.length < 4294967296)
    (h : d.Ready (Serializer_Array_len [] 8 ++ (Serializer_Uint [] kd
        ++ (Serializer_Uint [] id ++ (Serializer_Uint [] t
        ++ (Serializer_Array_len [] ins.length ++ (write_Strings ins
        ++ (Serializer_Array_len [] outs.length ++ (write_Strings outs
        ++ (Serializer_String [] desc ++ (Serializer_String [] cmd
        ++ (Serializer_Bool [] c ++ rest)))))))))))) :
    (read_EdgeStarted d).1
      = { count := 8, discriminant := kd, edge_id := id, start_time_ms := t, inputs := ins,
          outputs := outs, description := desc, command := cmd, use_console := c } ∧
    (read_EdgeStarted d).2.Ready rest ∧
    (read_EdgeStarted d).2.in_.pos = d.in_.pos
      + (Serializer_Array_len [] 8 ++ (Serializer_Uint [] kd
        ++ (Serializer_Uint [] id ++ (Serializer_Uint [] t
        ++ (Serializer_Array_len [] ins.length ++ (write_Strings ins
        ++ (Serializer_Array_len [] outs.length ++ (write_Strings outs
        ++ (Serializer_String [] desc ++ (Serializer_String [] cmd
        ++ (Serializer_Bool [] c ++ []))))))))))).length := by
  have a1 := Array_roundtrip_one d 8 _ (by norm_num) h
  have r1 := ready_advance d _ _ h
  have a2 := Uint_roundtrip_one _ kd _ hkd r1
  have r2 := ready_advance _ _ _ r1
  have a3 := Uint_roundtrip_one _ id _ hid r2
  have r3 := ready_advance _ _ _ r2
  have a4 := Uint_roundtrip_one _ t _ ht r3
  have r4 := ready_advance _ _ _ r3
  have a5 := Array_roundtrip_one _ ins.length _ hins r4
  have r5 := ready_advance _ _ _ r4
  have a6 := read_Strings_fresh_roundtrip ins hin _ _ r5
  have r6 := ready_advance _ _ _ r5
  have a7 := Array_roundtrip_one _ outs.length _ houts r6
  have r7 := ready_advance _ _ _ r6
  have a8 := read_Strings_fresh_roundtrip outs hout _ _ r7
  have r8 := ready_advance _ _ _ r7
  have a9 := String_roundtrip_one _ [] desc _ hdesc r8
  have r9 := ready_advance _ _ _ r8
  have a10 := String_roundtrip_one _ [] cmd _ hcmd r9
  have r10 := ready_advance _ _ _ r9
  have a11 := Bool_roundtrip_one _ c _ r10
  have r11 := ready_advance _ _ _ r10
  unfold read_EdgeStarted
  dsimp only
  rw [a1]
  dsimp only
  rw [a2]
  dsimp only
  rw [a3]
  dsimp only
  rw [a4]
  dsimp only
  rw [a5]
  dsimp only
  rw [show ins.foldl Serializer_String [] = write_Strings ins from rfl] at a6
  rw [a6]
  dsimp only
  rw [a7]
  dsimp only
  rw [show outs.foldl Serializer_String [] = write_Strings outs from rfl] at a8
  rw [a8]
  dsimp only
  rw [a9]
  dsimp only
  rw [a10]
  dsimp only
  rw [a11]
  refine ⟨rfl, r11, ?_⟩
  simp only [Deserializer.advance, List.length_append, List.length_nil]
  omega

theorem all_bytes_BuildEdgeFinished (k : Discriminants) (edge : Edge) (t : Int)
    (result : CommandResult) :
    SerCall.all_bytes (StatusSerializer_BuildEdgeFinished k edge t result)
      = Serializer_Array_len [] 5 ++ (Serializer_Uint [] k.kEdgeFinished
        ++ (Serializer_Uint [] (castU 64 edge.id_) ++ (Serializer_Uint [] (castU 64 t)
        ++ (Serializer_Int [] result.status
        ++ (Serializer_String [] result.output ++ []))))) := by
  unfold StatusSerializer_BuildEdgeFinished
  simp only [all_bytes_cons, all_bytes_nil, bytes_array, bytes_uint, bytes_int, bytes_string,
    bytes_flush, List.append_nil]

theorem read_EdgeFinished_ready (d : Deserializer) (kd id t : Nat) (st : Int)
    (out rest : List Nat)
    (hkd : kd ≤ UINT64_MAX) (hid : id ≤ UINT64_MAX) (ht : t ≤ UINT64_MAX)
    (hst : INT64_MIN ≤ st ∧ st ≤ INT64_MAX) (hout : out.length < 4294967296)
    (h : d.Ready (Serializer_Array_len [] 5 ++ (Serializer_Uint [] kd
        ++ (Serializer_Uint [] id ++ (Serializer_Uint [] t
        ++ (Serializer_Int [] st ++ (Serializer_String [] out ++ rest))))))) :
    (read_EdgeFinished d).1
      = { count := 5, discriminant := kd, edge_id := id, end_time_ms := t, exit_status := st,
          captured_output := out } ∧
    (read_EdgeFinished d).2.Ready rest ∧
    (read_EdgeFinished d).2.in_.pos = d.in_.pos
      + (Serializer_Array_len [] 5 ++ (Serializer_Uint [] kd
        ++ (Serializer_Uint [] id ++ (Serializer_Uint [] t
        ++ (Serializer_Int [] st ++ (Serializer_String [] out ++ [])))))).length := by
  have a1 := Array_roundtrip_one d 5 _ (by norm_num) h
  have r1 := ready_advance d _ _ h
  have a2 := Uint_roundtrip_one _ kd _ hkd r1
  have r2 := ready_advance _ _ _ r1
  have a3 := Uint_roundtrip_one _ id _ hid r2
  have r3 := ready_advance _ _ _ r2
  have a4 := Uint_roundtrip_one _ t _ ht r3
  have r4 := ready_advance _ _ _ r3
  have a5 := Int_roundtrip_one _ st _ hst r4
  have r5 := ready_advance _ _ _ r4
  have a6 := String_roundtrip_one _ [] out _ hout r5
  have r6 := ready_advance _ _ _ r5
  unfold read_EdgeFinished
  dsimp only
  rw [a1]
  dsimp only
  rw [a2]
  dsimp only
  rw [a3]
  dsimp only
  rw [a4]
  dsimp only
  rw [a5]
  dsimp only
  rw [a6]
  refine ⟨rfl, r6, ?_⟩
  simp only [Deserializer.advance, List.length_append, List.length_nil]
  omega

theorem castU_64_of_nonneg (x : Int) (h0 : 0 ≤ x) (h1 : x ≤ 18446744073709551615) :
    castU 64 x = x.toNat := by
  unfold castU
  congr 1
  norm_num
  omega

theorem ready_err (d : Deserializer) (rest : List Nat) (h : d.Ready rest) : d.err_ = false :=
  h.2.2.1

/-- C20, amended: each event message decodes back to its fields by the schema
when every string is shorter than 2^32 bytes. For every edge with non-negative
id and start time, any list of input paths and of output paths (fewer than 2^32
each, each path shorter than 2^32 bytes), any description and command strings
shorter than 2^32 bytes and any `use_console` flag, the bytes written by
`StatusSerializer::BuildEdgeStarted`, read with the decoder calls Array, Uint,
Uint, Uint, Array and that many String, Array and that many String, String,
String, Bool, yield 8, the EdgeStarted discriminant, the id, the start time,
the inputs in order, the outputs in order, the description, the command and
the flag, with no error and no bytes left over. The analogous statement holds
for `BuildEdgeFinished` (Array, Uint, Uint, Uint, Int, String) for every exit
status, negative ones included, and every captured output shorter than 2^32
bytes. -/
theorem C20_event_roundtrip (k : Discriminants) (edge : Edge) (time : Int)
    (result : CommandResult) (uninit : Nat → Nat)
    (hks : k.kEdgeStarted ≤ UINT64_MAX) (hkf : k.kEdgeFinished ≤ UINT64_MAX)
    (hid : 0 ≤ edge.id_ ∧ edge.id_ ≤ INT64_MAX) (ht : 0 ≤ time ∧ time ≤ INT64_MAX)
    (hins : edge.inputs_.length < 2 ^ 32) (hin : ∀ s ∈ edge.inputs_, s.length < 2 ^ 32)
    (houts : edge.outputs_.length < 2 ^ 32) (hout : ∀ s ∈ edge.outputs_, s.length < 2 ^ 32)
    (hdesc : edge.description.length < 2 ^ 32) (hcmd : edge.command.length < 2 ^ 32)
    (hst : INT64_MIN ≤ result.status ∧ result.status ≤ INT64_MAX)
    (hres : result.output.length < 2 ^ 32) :
    ((read_EdgeStarted (Deserializer.new
        (SerCall.all_bytes (StatusSerializer_BuildEdgeStarted k edge time)) uninit)).1
      = { count := 8, discriminant := k.kEdgeStarted, edge_id := edge.id_.toNat,
          start_time_ms := time.toNat, inputs := edge.inputs_, outputs := edge.outputs_,
          description := edge.description, command := edge.command,
          use_console := edge.use_console } ∧
      (read_EdgeStarted (Deserializer.new
        (SerCall.all_bytes (StatusSerializer_BuildEdgeStarted k edge time)) uninit)).2.err_
        = false ∧
      (read_EdgeStarted (Deserializer.new
        (SerCall.all_bytes (StatusSerializer_BuildEdgeStarted k edge time)) uninit)).2.in_.pos
        = (SerCall.all_bytes (StatusSerializer_BuildEdgeStarted k edge time)).length) ∧
    ((read_EdgeFinished (Deserializer.new
        (SerCall.all_bytes (StatusSerializer_BuildEdgeFinished k edge time result)) uninit)).1
      = { count := 5, discriminant := k.kEdgeFinished, edge_id := edge.id_.toNat,
          end_time_ms := time.toNat, exit_status := result.status,
          captured_output := result.output } ∧
      (read_EdgeFinished (Deserializer.new
        (SerCall.all_bytes (StatusSerializer_BuildEdgeFinished k edge time result))
        uninit)).2.err_ = false ∧
      (read_EdgeFinished (Deserializer.new
        (SerCall.all_bytes (StatusSerializer_BuildEdgeFinished k edge time result))
        uninit)).2.in_.pos
        = (SerCall.all_bytes (StatusSerializer_BuildEdgeFinished k edge time result)).length)
      := by
  simp only [INT64_MAX] at hid ht
  have eid : castU 64 edge.id_ = edge.id_.toNat := castU_64_of_nonneg _ hid.1 (by omega)
  have et : castU 64 time = time.toNat := castU_64_of_nonneg _ ht.1 (by omega)
  have hidn : edge.id_.toNat ≤ UINT64_MAX := by simp only [UINT64_MAX]; omega
  have htn : time.toNat ≤ UINT64_MAX := by simp only [UINT64_MAX]; omega
  have n32 : (2 : Nat) ^ 32 = 4294967296 := by norm_num
  rw [n32] at hins hin houts hout hdesc hcmd hres
  constructor
  · have hR := ready_new (SerCall.all_bytes (StatusSerializer_BuildEdgeStarted k edge time))
      uninit
    rw [all_bytes_BuildEdgeStarted, eid, et] at hR ⊢
    obtain ⟨h1, h2, h3⟩ := read_EdgeStarted_ready _ k.kEdgeStarted edge.id_.toNat time.toNat
      edge.inputs_ edge.outputs_ edge.description edge.command edge.use_console []
      hks hidn htn hins hin houts hout hdesc hcmd hR
    refine ⟨h1, ready_err _ _ h2, ?_⟩
    rw [h3]
    exact Nat.zero_add _
  · have hR := ready_new
      (SerCall.all_bytes (StatusSerializer_BuildEdgeFinished k edge time result)) uninit
    rw [all_bytes_BuildEdgeFinished, eid, et] at hR ⊢
    obtain ⟨h1, h2, h3⟩ := read_EdgeFinished_ready _ k.kEdgeFinished edge.id_.toNat
      time.toNat result.status result.output [] hkf hidn htn hst hres hR
    refine ⟨h1, ready_err _ _ h2, ?_⟩
    rw [h3]
    exact Nat.zero_add _

theorem read_EdgeStarted_description_wraps (d : Deserializer) (kd id t : Nat)
    (ins outs : List (List Nat)) (desc rest : List Nat)
    (hkd : kd ≤ UINT64_MAX) (hid : id ≤ UINT64_MAX) (ht : t ≤ UINT64_MAX)
    (hins : ins.length < 4294967296) (hin : ∀ s ∈ ins, s.length < 4294967296)
    (houts : outs.length < 4294967296) (hout : ∀ s ∈ outs, s.length < 4294967296)
    (hdesc : desc.length = 4294967296)
    (h : d.Ready (Serializer_Array_len [] 8 ++ (Serializer_Uint [] kd
        ++ (Serializer_Uint [] id ++ (Serializer_Uint [] t
        ++ (Serializer_Array_len [] ins.length ++ (write_Strings ins
        ++ (Serializer_Array_len [] outs.length ++ (write_Strings outs
        ++ (Serializer_String [] desc ++ rest)))))))))) :
    (read_EdgeStarted d).1.description = [] := by
  have hhdr : Serializer_String_len [] 4294967296 = [STR32, 0, 0, 0, 0] := by decide
  have hS : Serializer_String [] desc ++ rest
      = STR32 :: 0 :: 0 :: 0 :: 0 :: ([] ++ (desc ++ rest)) := by
    unfold Serializer_String
    rw [hdesc, hhdr]
    rfl
  rw [hS] at h
  have a1 := Array_roundtrip_one d 8 _ (by norm_num) h
  have r1 := ready_advance d _ _ h
  have a2 := Uint_roundtrip_one _ kd _ hkd r1
  have r2 := ready_advance _ _ _ r1
  have a3 := Uint_roundtrip_one _ id _ hid r2
  have r3 := ready_advance _ _ _ r2
  have a4 := Uint_roundtrip_one _ t _ ht r3
  have r4 := ready_advance _ _ _ r3
  have a5 := Array_roundtrip_one _ ins.length _ hins r4
  have r5 := ready_advance _ _ _ r4
  have a6 := read_Strings_fresh_roundtrip ins hin _ _ r5
  have r6 := ready_advance _ _ _ r5
  have a7 := Array_roundtrip_one _ outs.length _ houts r6
  have r7 := ready_advance _ _ _ r6
  have a8 := read_Strings_fresh_roundtrip outs hout _ _ r7
  have r8 := ready_advance _ _ _ r7
  have a9 := String_STR32 _ [] [] (desc ++ rest) 0 0 0 0 (by decide) (by decide) (by decide)
    (by decide) rfl r8
  unfold read_EdgeStarted
  dsimp only
  rw [a1]
  dsimp only
  rw [a2]
  dsimp only
  rw [a3]
  dsimp only
  rw [a4]
  dsimp only
  rw [a5]
  dsimp only
  rw [show ins.foldl Serializer_String [] = write_Strings ins from rfl] at a6
  rw [a6]
  dsimp only
  rw [a7]
  dsimp only
  rw [show outs.foldl Serializer_String [] = write_Strings outs from rfl] at a8
  rw [a8]
  dsimp only
  rw [a9]

/-- C20 as stated fails: the edge has id 0, no inputs, no outputs, a description
of 2^32 NUL bytes and an empty command, and starts at time 0. The description
is written with the header 0xdb, 0, 0, 0, 0, its length modulo 2^32, so the
decoder call `String()` for the description returns the empty string, not the
description. -/
theorem C20_event_roundtrip_counterexample :
    ((0 : Int) ≤ 0 ∧ ([] : List (List Nat)).length < 2 ^ 32 ∧
      ∀ s ∈ ([] : List (List Nat)), s.length < 2 ^ 32) ∧
    (read_EdgeStarted (Deserializer.new
        (SerCall.all_bytes (StatusSerializer_BuildEdgeStarted
          { kHeader := 0, kTotalEdges := 1, kEdgeStarted := 2, kEdgeFinished := 3,
            kBuildStarted := 4, kBuildFinished := 5, kNinjaInfo := 6, kNinjaWarning := 7,
            kNinjaError := 8 }
          { id_ := 0, inputs_ := [], outputs_ := [],
            description := List.replicate 4294967296 0, command := [],
            use_console := false } 0))
        (fun _ => 0))).1.description = [] ∧
    ([] : List Nat) ≠ List.replicate 4294967296 0 := by
  refine ⟨⟨le_refl _, by decide, by decide⟩, ?_, ?_⟩
  · have hR := ready_new (SerCall.all_bytes (StatusSerializer_BuildEdgeStarted
          { kHeader := 0, kTotalEdges := 1, kEdgeStarted := 2, kEdgeFinished := 3,
            kBuildStarted := 4, kBuildFinished := 5, kNinjaInfo := 6, kNinjaWarning := 7,
            kNinjaError := 8 }
          { id_ := 0, inputs_ := [], outputs_ := [],
            description := List.replicate 4294967296 0, command := [],
            use_console := false } 0)) (fun _ => 0)
    rw [all_bytes_BuildEdgeStarted] at hR ⊢
    have e0 : castU 64 0 = 0 := by decide
    exact read_EdgeStarted_description_wraps _ 2 (castU 64 0) (castU 64 0) [] []
      (List.replicate 4294967296 0) _ (by decide) (by rw [e0]; decide) (by rw [e0]; decide)
      (by decide) (by decide) (by decide) (by decide) (List.length_replicate _ _) hR
  · intro h
    have hl := congrArg List.length h
    rw [List.length_replicate] at hl
    exact absurd hl (by decide)

/-- Witness of C20: an edge with id 3, two inputs, one output, a description, a
command and the console flag set, started at time 1500 and finished with the
exit status -1 and two bytes of output. -/
theorem C20_event_roundtrip_witness :
    ((read_EdgeStarted (Deserializer.new
        (SerCall.all_bytes (StatusSerializer_BuildEdgeStarted
          { kHeader := 0, kTotalEdges := 1, kEdgeStarted := 2, kEdgeFinished := 3,
            kBuildStarted := 4, kBuildFinished := 5, kNinjaInfo := 6, kNinjaWarning := 7,
            kNinjaError := 8 }
          { id_ := 3, inputs_ := [[97], [98, 99]], outputs_ := [[111]],
            description := [67, 67], command := [99, 99, 32, 97], use_console := true }
          1500)) (fun _ => 0))).1
      = { count := 8, discriminant := 2, edge_id := 3, start_time_ms := 1500,
          inputs := [[97], [98, 99]], outputs := [[111]], description := [67, 67],
          command := [99, 99, 32, 97], use_console := true }) ∧
    ((read_EdgeFinished (Deserializer.new
        (SerCall.all_bytes (StatusSerializer_BuildEdgeFinished
          { kHeader := 0, kTotalEdges := 1, kEdgeStarted := 2, kEdgeFinished := 3,
            kBuildStarted := 4, kBuildFinished := 5, kNinjaInfo := 6, kNinjaWarning := 7,
            kNinjaError := 8 }
          { id_ := 3, inputs_ := [[97], [98, 99]], outputs_ := [[111]],
            description := [67, 67], command := [99, 99, 32, 97], use_console := true }
          1500 { status := -1, output := [33, 10] })) (fun _ => 0))).1
      = { count := 5, discriminant := 3, edge_id := 3, end_time_ms := 1500,
          exit_status := -1, captured_output := [33, 10] }) :=
  have h := C20_event_roundtrip
    { kHeader := 0, kTotalEdges := 1, kEdgeStarted := 2, kEdgeFinished := 3,
      kBuildStarted := 4, kBuildFinished := 5, kNinjaInfo := 6, kNinjaWarning := 7,
      kNinjaError := 8 }
    { id_ := 3, inputs_ := [[97], [98, 99]], outputs_ := [[111]],
      description := [67, 67], command := [99, 99, 32, 97], use_console := true }
    1500 { status := -1, output := [33, 10] } (fun _ => 0)
    (by decide) (by decide) (by decide) (by decide) (by decide) (by decide) (by decide)
    (by decide) (by decide) (by decide) (by decide) (by decide)
  ⟨h.1.1, h.2.1⟩

/-! ## Integer tags across families -/

/-- C24 as stated fails: on the bytes 0xcc, 0xc8, the UINT8 encoding of 200,
`Int()` does not return 200 without error. -/
theorem C24_cross_family_counterexample :
    ¬ ((Deserializer_Int (Deserializer.new [0xcc, 0xc8] (fun _ => 0))).1 = 200 ∧
      (Deserializer_Int (Deserializer.new [0xcc, 0xc8] (fun _ => 0))).2.err_ = false) := by
  decide

/-- C24, amended: the decoder accepts integer tags only within the family of
the operation. For every stream that starts with a UINT8, UINT16, UINT32 or
UINT64 tag, whatever the payload, `Deserializer::Int()` returns 0 and sets the
error with the message "unexpected type while reading int"; for every stream
that starts with an INT8, INT16, INT32 or INT64 tag, `Deserializer::Uint()`
returns 0 and sets the error with the message "unexpected type while reading
uint". Only the tag byte is consumed. -/
theorem C24_cross_family (t : Nat) (rest : List Nat) (uninit : Nat → Nat) :
    (t = 0xcc ∨ t = 0xcd ∨ t = 0xce ∨ t = 0xcf →
      (Deserializer_Int (Deserializer.new (t :: rest) uninit)).1 = 0 ∧
      (Deserializer_Int (Deserializer.new (t :: rest) uninit)).2.err_ = true ∧
      (Deserializer_Int (Deserializer.new (t :: rest) uninit)).2.err_message_
        = "unexpected type while reading int" ∧
      (Deserializer_Int (Deserializer.new (t :: rest) uninit)).2.in_.pos = 1) ∧
    (t = 0xd0 ∨ t = 0xd1 ∨ t = 0xd2 ∨ t = 0xd3 →
      (Deserializer_Uint (Deserializer.new (t :: rest) uninit)).1 = 0 ∧
      (Deserializer_Uint (Deserializer.new (t :: rest) uninit)).2.err_ = true ∧
      (Deserializer_Uint (Deserializer.new (t :: rest) uninit)).2.err_message_
        = "unexpected type while reading uint" ∧
      (Deserializer_Uint (Deserializer.new (t :: rest) uninit)).2.in_.pos = 1) := by
  constructor
  · intro ht
    rw [Int_bad_tag_eq _ t rest (ready_new _ uninit) (by omega) (by omega) (by omega)]
    exact ⟨rfl, rfl, rfl, rfl⟩
  · intro ht
    rw [Uint_bad_tag_eq _ t rest (ready_new _ uninit) (by omega) (by omega) (by omega)]
    exact ⟨rfl, rfl, rfl, rfl⟩

/-- Witness of C24: the UINT8 encoding of 200 read with `Int()` and the INT8
encoding of 5 read with `Uint()`. -/
theorem C24_cross_family_witness :
    ((Deserializer_Int (Deserializer.new (0xcc :: [0xc8]) (fun _ => 0))).1 = 0 ∧
      (Deserializer_Int (Deserializer.new (0xcc :: [0xc8]) (fun _ => 0))).2.err_ = true ∧
      (Deserializer_Int (Deserializer.new (0xcc :: [0xc8]) (fun _ => 0))).2.err_message_
        = "unexpected type while reading int" ∧
      (Deserializer_Int (Deserializer.new (0xcc :: [0xc8]) (fun _ => 0))).2.in_.pos = 1) ∧
    ((Deserializer_Uint (Deserializer.new (0xd0 :: [5]) (fun _ => 0))).1 = 0 ∧
      (Deserializer_Uint (Deserializer.new (0xd0 :: [5]) (fun _ => 0))).2.err_ = true ∧
      (Deserializer_Uint (Deserializer.new (0xd0 :: [5]) (fun _ => 0))).2.err_message_
        = "unexpected type while reading uint" ∧
      (Deserializer_Uint (Deserializer.new (0xd0 :: [5]) (fun _ => 0))).2.in_.pos = 1) :=
  ⟨(C24_cross_family 0xcc [0xc8] (fun _ => 0)).1 (by decide),
    (C24_cross_family 0xd0 [5] (fun _ => 0)).2 (by decide)⟩

/-! ## Lengths of 2^32 and more -/

theorem Serializer_String_len_wide (n : Nat) (hn : 4294967296 ≤ n) :
    Serializer_String_len [] n = STR32 :: big_endian 4 (n % 4294967296) := by
  have t32 := castU_8_tag STR32 (by decide)
  unfold Serializer_String_len
  rw [if_neg (by simp only [FIXSTR_MAX]; omega), if_neg (by simp only [UINT8_MAX]; omega),
    if_neg (by simp only [UINT16_MAX]; omega)]
  simp only [outBE4, List.nil_append, outBE_eq, t32, big_endian_4, List.cons.injEq, true_and,
    and_true]
  norm_num
  omega

theorem Serializer_Array_len_wide (n : Nat) (hn : 4294967296 ≤ n) :
    Serializer_Array_len [] n = ARRAY32 :: big_endian 4 (n % 4294967296) := by
  have t32 := castU_8_tag ARRAY32 (by decide)
  unfold Serializer_Array_len
  rw [if_neg (by simp only [FIXARRAY_MAX]; omega), if_neg (by simp only [UINT16_MAX]; omega)]
  simp only [outBE4, List.nil_append, outBE_eq, t32, big_endian_4, List.cons.injEq, true_and,
    and_true]
  norm_num
  omega

theorem Array_wide (n : Nat) (rest : List Nat) (uninit : Nat → Nat) (hn : 4294967296 ≤ n) :
    Deserializer_Array (Deserializer.new (Serializer_Array_len [] n ++ rest) uninit)
      = (n % 4294967296,
          (Deserializer.new (Serializer_Array_len [] n ++ rest) uninit).advance 5) := by
  have hR := ready_new (Serializer_Array_len [] n ++ rest) uninit
  rw [Serializer_Array_len_wide n hn, big_endian_4] at hR ⊢
  have h := Array_ARRAY32 _ _ _ _ _ rest hR (Nat.mod_lt _ (by norm_num))
    (Nat.mod_lt _ (by norm_num)) (Nat.mod_lt _ (by norm_num)) (Nat.mod_lt _ (by norm_num))
  rw [be_sum_4 _ (Nat.mod_lt _ (by norm_num))] at h
  exact h

theorem String_wide (s rest s0 : List Nat) (uninit : Nat → Nat)
    (hn : 4294967296 ≤ s.length) :
    Deserializer_String (Deserializer.new (Serializer_String [] s ++ rest) uninit) s0
      = (s.take (s.length % 4294967296),
          (Deserializer.new (Serializer_String [] s ++ rest) uninit).advance
            (5 + s.length % 4294967296)) := by
  have hm : s.length % 4294967296 < 4294967296 := Nat.mod_lt _ (by norm_num)
  have hR := ready_new (Serializer_String [] s ++ rest) uninit
  have e : Serializer_String [] s ++ rest
      = STR32 :: (s.length % 4294967296 / 16777216 % 256)
        :: (s.length % 4294967296 / 65536 % 256) :: (s.length % 4294967296 / 256 % 256)
        :: (s.length % 4294967296 % 256)
        :: (s.take (s.length % 4294967296) ++ (s.drop (s.length % 4294967296) ++ rest)) := by
    unfold Serializer_String
    rw [Serializer_String_len_wide _ hn, big_endian_4, ← List.append_assoc (s.take _),
      List.take_append_drop]
    rfl
  rw [e] at hR ⊢
  have hl : (s.take (s.length % 4294967296)).length = s.length % 4294967296 := by
    rw [List.length_take]
    omega
  have h := String_STR32 _ s0 (s.take (s.length % 4294967296)) _ _ _ _ _
    (Nat.mod_lt _ (by norm_num)) (Nat.mod_lt _ (by norm_num)) (Nat.mod_lt _ (by norm_num))
    (Nat.mod_lt _ (by norm_num)) (by rw [hl, be_sum_4 _ hm]) hR
  rw [hl] at h
  exact h

/-- C27: the STR32 and ARRAY32 headers carry only the low 32 bits of the
length. For every length `n` of at least 2^32, `Serializer::String(n)` writes
0xdb followed by `n mod 2^32` as 4 big-endian bytes and `Serializer::Array(n)`
writes 0xdd followed by `n mod 2^32`; the decoder `Array()` returns
`n mod 2^32` on that header, and `String()` on the encoding of a string of at
least 2^32 bytes returns its first `length mod 2^32` bytes, both without
error. The round trip of a count and of a string holds exactly when the length
is below 2^32. -/
theorem C27_length_low_32_bits (n : Nat) (s rest s0 : List Nat) (uninit : Nat → Nat) :
    (2 ^ 32 ≤ n →
      Serializer_String_len [] n = 0xdb :: big_endian 4 (n % 2 ^ 32) ∧
      Serializer_Array_len [] n = 0xdd :: big_endian 4 (n % 2 ^ 32) ∧
      (Deserializer_Array (Deserializer.new (Serializer_Array_len [] n ++ rest) uninit)).1
        = n % 2 ^ 32 ∧
      (Deserializer_Array (Deserializer.new (Serializer_Array_len [] n ++ rest) uninit)).2.err_
        = false) ∧
    (2 ^ 32 ≤ s.length →
      (Deserializer_String (Deserializer.new (Serializer_String [] s ++ rest) uninit) s0).1
        = s.take (s.length % 2 ^ 32) ∧
      (Deserializer_String
        (Deserializer.new (Serializer_String [] s ++ rest) uninit) s0).2.err_ = false) ∧
    ((Deserializer_Array (Deserializer.new (Serializer_Array_len [] n ++ rest) uninit)).1 = n
      ↔ n < 2 ^ 32) ∧
    ((Deserializer_String (Deserializer.new (Serializer_String [] s ++ rest) uninit) s0).1 = s
      ↔ s.length < 2 ^ 32) := by
  have n32 : (2 : Nat) ^ 32 = 4294967296 := by norm_num
  rw [n32]
  refine ⟨?_, ?_, ?_, ?_⟩
  · intro hn
    refine ⟨Serializer_String_len_wide n hn, Serializer_Array_len_wide n hn, ?_, ?_⟩
    · rw [Array_wide n rest uninit hn]
    · rw [Array_wide n rest uninit hn]
      rfl
  · intro hs
    rw [String_wide s rest s0 uninit hs]
    exact ⟨rfl, rfl⟩
  · constructor
    · intro h
      by_contra hc
      rw [Array_wide n rest uninit (by omega)] at h
      have : n % 4294967296 < 4294967296 := Nat.mod_lt _ (by norm_num)
      dsimp only at h
      omega
    · intro hn
      rw [Array_roundtrip_one _ n rest hn (ready_new _ uninit)]
  · constructor
    · intro h
      by_contra hc
      rw [String_wide s rest s0 uninit (by omega)] at h
      have hl := congrArg List.length h
      have : s.length % 4294967296 < 4294967296 := Nat.mod_lt _ (by norm_num)
      dsimp only at hl
      rw [List.length_take] at hl
      omega
    · intro hs
      rw [String_roundtrip_one _ s0 s rest hs (ready_new _ uninit)]

/-- Witness of C27: the length 2^32 + 5 and a string of 2^32 NUL bytes. -/
theorem C27_length_low_32_bits_witness :
    (Serializer_String_len [] 4294967301 = 0xdb :: big_endian 4 (4294967301 % 2 ^ 32) ∧
      Serializer_Array_len [] 4294967301 = 0xdd :: big_endian 4 (4294967301 % 2 ^ 32) ∧
      (Deserializer_Array
        (Deserializer.new (Serializer_Array_len [] 4294967301 ++ [7]) (fun _ => 0))).1
        = 4294967301 % 2 ^ 32 ∧
      (Deserializer_Array
        (Deserializer.new (Serializer_Array_len [] 4294967301 ++ [7]) (fun _ => 0))).2.err_
        = false) ∧
    ((Deserializer_String (Deserializer.new
        (Serializer_String [] (List.replicate 4294967296 0) ++ [7]) (fun _ => 0)) []).1
        = (List.replicate 4294967296 0).take
            ((List.replicate 4294967296 0 : List Nat).length % 2 ^ 32) ∧
      (Deserializer_String (Deserializer.new
        (Serializer_String [] (List.replicate 4294967296 0) ++ [7]) (fun _ => 0)) []).2.err_
        = false) :=
  ⟨(C27_length_low_32_bits 4294967301 (List.replicate 4294967296 0) [7] [] (fun _ => 0)).1
      (by decide),
    (C27_length_low_32_bits 4294967301 (List.replicate 4294967296 0) [7] [] (fun _ => 0)).2.1
      (by rw [List.length_replicate]; decide)⟩

/-! ## The placeholders of the progress template -/

theorem decimal_digits_length (fuel : Nat) : ∀ (n k : Nat), 0 < k → n < 10 ^ k →
    (decimal_digits fuel n).length ≤ k := by
  induction fuel with
  | zero => intro n k _ _; exact Nat.zero_le _
  | succ fuel ih =>
    intro n k hk hn
    unfold decimal_digits
    by_cases h : n < 10
    · rw [if_pos h]
      exact hk
    · rw [if_neg h, List.length_append]
      obtain ⟨j, rfl⟩ : ∃ j, k = j + 1 := ⟨k - 1, by omega⟩
      have hj : 0 < j := by
        rcases Nat.eq_zero_or_pos j with e | e
        · subst e
          norm_num at hn
          omega
        · exact e
      have hdiv : n / 10 < 10 ^ j := by
        rw [Nat.div_lt_iff_lt_mul (by norm_num)]
        rw [pow_succ] at hn
        exact hn
      have := ih (n / 10) j hj hdiv
      simp only [List.length_singleton]
      omega

theorem printf_d_length (v : Int) (k : Nat) (hk : 0 < k) (hv : v.natAbs < 10 ^ k) :
    (printf_d v).length ≤ k + 1 := by
  have := decimal_digits_length (v.natAbs + 1) v.natAbs k hk hv
  unfold printf_d
  split_ifs
  · rw [List.length_cons]
    omega
  · omega

theorem snprintf_buf_short (text : List Nat) (h : text.length ≤ 31) :
    snprintf_buf text = text :=
  List.take_of_length_le h

theorem snprintf_buf_printf_d (v : Int) (h : v.natAbs < 10 ^ 30) :
    snprintf_buf (printf_d v) = printf_d v :=
  snprintf_buf_short _ (printf_d_length v 30 (by norm_num) h)

theorem snprintf_buf_percent (v : Int) (h : v.natAbs < 10 ^ 26) :
    snprintf_buf (printf_3i_percent v) = printf_3i_percent v := by
  apply snprintf_buf_short
  have := printf_d_length v 26 (by norm_num) h
  unfold printf_3i_percent
  simp only [List.length_append, List.length_replicate, List.length_singleton]
  omega

theorem natAbs_lt_of_int_range (v : Int) (h : INT_MIN ≤ v ∧ v ≤ INT_MAX) :
    v.natAbs < 10 ^ 10 := by
  simp only [INT_MIN, INT_MAX] at h
  norm_num
  omega

theorem natAbs_tdiv_lt (a b : Int) (k : Nat) (h : a.natAbs < k) : (a.tdiv b).natAbs < k := by
  rw [Int.natAbs_tdiv]
  exact lt_of_le_of_lt (Nat.div_le_self _ _) h

theorem int_value_of_range (v : Int) (h : INT_MIN ≤ v ∧ v ≤ INT_MAX) :
    int_value v = some v :=
  if_pos h

theorem int_value_some (v w : Int) (h : int_value v = some w) :
    w = v ∧ INT_MIN ≤ v ∧ v ≤ INT_MAX := by
  unfold int_value at h
  split_ifs at h with hr
  exact ⟨(Option.some.inj h).symm, hr⟩

theorem int_value_none (v : Int) (h : ¬ (INT_MIN ≤ v ∧ v ≤ INT_MAX)) : int_value v = none :=
  if_neg h

theorem tdiv_int_range (a b : Int) (h : INT_MIN ≤ 100 * a ∧ 100 * a ≤ INT_MAX) :
    INT_MIN ≤ Int.tdiv (100 * a) b ∧ Int.tdiv (100 * a) b ≤ INT_MAX := by
  have h1 : (Int.tdiv (100 * a) b).natAbs ≤ (100 * a).natAbs := by
    rw [Int.natAbs_tdiv]
    exact Nat.div_le_self _ _
  simp only [INT_MIN, INT_MAX] at h ⊢
  omega

theorem loop_literal (p : StatusPrinter) (rt : RateTexts) (c : Nat) (s out : List Nat)
    (h0 : c ≠ 0) (h37 : c ≠ 37) :
    FormatProgressStatus_loop p rt (c :: s) out
      = FormatProgressStatus_loop p rt s (out ++ [c]) := by
  cases s <;> simp only [FormatProgressStatus_loop, if_neg h0, if_neg h37]

theorem loop_percent (p : StatusPrinter) (rt : RateTexts) (s out : List Nat) :
    FormatProgressStatus_loop p rt (37 :: 37 :: s) out
      = FormatProgressStatus_loop p rt s (out ++ [37]) := rfl

theorem loop_started (p : StatusPrinter) (rt : RateTexts) (s out : List Nat) :
    FormatProgressStatus_loop p rt (37 :: 115 :: s) out
      = FormatProgressStatus_loop p rt s (out ++ snprintf_buf (printf_d p.started_edges_)) :=
  rfl

theorem loop_total (p : StatusPrinter) (rt : RateTexts) (s out : List Nat) :
    FormatProgressStatus_loop p rt (37 :: 116 :: s) out
      = FormatProgressStatus_loop p rt s (out ++ snprintf_buf (printf_d p.total_edges_)) :=
  rfl

theorem loop_running (p : StatusPrinter) (rt : RateTexts) (s out : List Nat) :
    FormatProgressStatus_loop p rt (37 :: 114 :: s) out
      = FormatProgressStatus_loop p rt s (out ++ snprintf_buf (printf_d p.running_edges_)) :=
  rfl

theorem loop_unstarted (p : StatusPrinter) (rt : RateTexts) (s out : List Nat)
    (hu : INT_MIN ≤ p.total_edges_ - p.started_edges_ ∧
      p.total_edges_ - p.started_edges_ ≤ INT_MAX) :
    FormatProgressStatus_loop p rt (37 :: 117 :: s) out
      = FormatProgressStatus_loop p rt s
          (out ++ snprintf_buf (printf_d (p.total_edges_ - p.started_edges_))) := by
  have e : FormatProgressStatus_loop p rt (37 :: 117 :: s) out
      = match int_value (p.total_edges_ - p.started_edges_) with
        | none => .overflow
        | some unstarted =>
          FormatProgressStatus_loop p rt s (out ++ snprintf_buf (printf_d unstarted)) := rfl
  rw [e, int_value_of_range _ hu]

theorem loop_unstarted_overflow (p : StatusPrinter) (rt : RateTexts) (s out : List Nat)
    (hu : ¬ (INT_MIN ≤ p.total_edges_ - p.started_edges_ ∧
      p.total_edges_ - p.started_edges_ ≤ INT_MAX)) :
    FormatProgressStatus_loop p rt (37 :: 117 :: s) out = .overflow := by
  have e : FormatProgressStatus_loop p rt (37 :: 117 :: s) out
      = match int_value (p.total_edges_ - p.started_edges_) with
        | none => .overflow
        | some unstarted =>
          FormatProgressStatus_loop p rt s (out ++ snprintf_buf (printf_d unstarted)) := rfl
  rw [e, int_value_none _ hu]

theorem loop_finished (p : StatusPrinter) (rt : RateTexts) (s out : List Nat) :
    FormatProgressStatus_loop p rt (37 :: 102 :: s) out
      = FormatProgressStatus_loop p rt s (out ++ snprintf_buf (printf_d p.finished_edges_)) :=
  rfl

theorem loop_percentage_eq (p : StatusPrinter) (rt : RateTexts) (s out : List Nat) :
    FormatProgressStatus_loop p rt (37 :: 112 :: s) out
      = match int_value (100 * p.finished_edges_) with
        | none => .overflow
        | some product =>
          if p.total_edges_ = 0 then .division_by_zero
          else
            match int_value (Int.tdiv product p.total_edges_) with
            | none => .overflow
            | some percent =>
              FormatProgressStatus_loop p rt s
                (out ++ snprintf_buf (printf_3i_percent percent)) := rfl

theorem loop_percentage (p : StatusPrinter) (rt : RateTexts) (s out : List Nat)
    (h : p.total_edges_ ≠ 0)
    (hp : INT_MIN ≤ 100 * p.finished_edges_ ∧ 100 * p.finished_edges_ ≤ INT_MAX) :
    FormatProgressStatus_loop p rt (37 :: 112 :: s) out
      = FormatProgressStatus_loop p rt s
          (out ++ snprintf_buf
            (printf_3i_percent (Int.tdiv (100 * p.finished_edges_) p.total_edges_))) := by
  rw [loop_percentage_eq, int_value_of_range _ hp]
  dsimp only
  rw [if_neg h, int_value_of_range _ (tdiv_int_range _ _ hp)]

theorem loop_percentage_zero (p : StatusPrinter) (rt : RateTexts) (s out : List Nat)
    (h : p.total_edges_ = 0)
    (hp : INT_MIN ≤ 100 * p.finished_edges_ ∧ 100 * p.finished_edges_ ≤ INT_MAX) :
    FormatProgressStatus_loop p rt (37 :: 112 :: s) out = .division_by_zero := by
  rw [loop_percentage_eq, int_value_of_range _ hp]
  dsimp only
  rw [if_pos h]

theorem loop_percentage_overflow (p : StatusPrinter) (rt : RateTexts) (s out : List Nat)
    (hp : ¬ (INT_MIN ≤ 100 * p.finished_edges_ ∧ 100 * p.finished_edges_ ≤ INT_MAX)) :
    FormatProgressStatus_loop p rt (37 :: 112 :: s) out = .overflow := by
  rw [loop_percentage_eq, int_value_none _ hp]

theorem loop_pieces (p : StatusPrinter) (rt : RateTexts)
    (hs : INT_MIN ≤ p.started_edges_ ∧ p.started_edges_ ≤ INT_MAX)
    (hf : INT_MIN ≤ p.finished_edges_ ∧ p.finished_edges_ ≤ INT_MAX)
    (ht : INT_MIN ≤ p.total_edges_ ∧ p.total_edges_ ≤ INT_MAX)
    (hr : INT_MIN ≤ p.running_edges_ ∧ p.running_edges_ ≤ INT_MAX) :
    ∀ (pieces : List Piece) (out : List Nat),
      (∀ x ∈ pieces, x ≠ Piece.literal 37 ∧ x ≠ Piece.literal 0) →
      (Piece.unstarted ∈ pieces →
        INT_MIN ≤ p.total_edges_ - p.started_edges_ ∧
          p.total_edges_ - p.started_edges_ ≤ INT_MAX) →
      (Piece.percentage ∈ pieces →
        p.total_edges_ ≠ 0 ∧ INT_MIN ≤ 100 * p.finished_edges_ ∧
          100 * p.finished_edges_ ≤ INT_MAX) →
      FormatProgressStatus_loop p rt (pieces.flatMap Piece.text) out
        = .ok (out ++ pieces.flatMap (Piece.expansion p)) := by
  have bs := natAbs_lt_of_int_range _ hs
  have bf := natAbs_lt_of_int_range _ hf
  have bt := natAbs_lt_of_int_range _ ht
  have br := natAbs_lt_of_int_range _ hr
  have bu : (p.total_edges_ - p.started_edges_).natAbs < 10 ^ 30 := by
    simp only [INT_MIN, INT_MAX] at hs ht
    norm_num
    omega
  have bp : (Int.tdiv (100 * p.finished_edges_) p.total_edges_).natAbs < 10 ^ 26 := by
    apply natAbs_tdiv_lt
    simp only [INT_MIN, INT_MAX] at hf
    norm_num
    omega
  have es := snprintf_buf_printf_d p.started_edges_ (lt_trans bs (by norm_num))
  have ef := snprintf_buf_printf_d p.finished_edges_ (lt_trans bf (by norm_num))
  have et := snprintf_buf_printf_d p.total_edges_ (lt_trans bt (by norm_num))
  have er := snprintf_buf_printf_d p.running_edges_ (lt_trans br (by norm_num))
  have eu := snprintf_buf_printf_d _ bu
  have ep := snprintf_buf_percent _ bp
  intro pieces
  induction pieces with
  | nil =>
    intro out _ _ _
    simp [FormatProgressStatus_loop]
  | cons x pieces ih =>
    intro out hl hu hp
    have hl2 : ∀ x ∈ pieces, x ≠ Piece.literal 37 ∧ x ≠ Piece.literal 0 :=
      fun c hc => hl c (List.mem_cons_of_mem _ hc)
    have hu2 : Piece.unstarted ∈ pieces →
        INT_MIN ≤ p.total_edges_ - p.started_edges_ ∧
          p.total_edges_ - p.started_edges_ ≤ INT_MAX :=
      fun hc => hu (List.mem_cons_of_mem _ hc)
    have hp2 : Piece.percentage ∈ pieces →
        p.total_edges_ ≠ 0 ∧ INT_MIN ≤ 100 * p.finished_edges_ ∧
          100 * p.finished_edges_ ≤ INT_MAX :=
      fun hc => hp (List.mem_cons_of_mem _ hc)
    rw [List.flatMap_cons, List.flatMap_cons]
    cases x with
    | literal c =>
      have := hl _ (List.mem_cons_self _ _)
      simp only [Piece.text, Piece.expansion, List.singleton_append]
      rw [loop_literal p rt c _ out (fun e => this.2 (by rw [e])) (fun e => this.1 (by rw [e])),
        ih _ hl2 hu2 hp2]
      simp
    | percent =>
      simp only [Piece.text, Piece.expansion, List.cons_append, List.nil_append]
      rw [loop_percent, ih _ hl2 hu2 hp2]
      simp
    | started =>
      simp only [Piece.text, Piece.expansion, List.cons_append, List.nil_append]
      rw [loop_started, es, ih _ hl2 hu2 hp2, List.append_assoc]
    | total =>
      simp only [Piece.text, Piece.expansion, List.cons_append, List.nil_append]
      rw [loop_total, et, ih _ hl2 hu2 hp2, List.append_assoc]
    | running =>
      simp only [Piece.text, Piece.expansion, List.cons_append, List.nil_append]
      rw [loop_running, er, ih _ hl2 hu2 hp2, List.append_assoc]
    | unstarted =>
      simp only [Piece.text, Piece.expansion, List.cons_append, List.nil_append]
      rw [loop_unstarted _ _ _ _ (hu (List.mem_cons_self _ _)), eu, ih _ hl2 hu2 hp2,
        List.append_assoc]
    | finished =>
      simp only [Piece.text, Piece.expansion, List.cons_append, List.nil_append]
      rw [loop_finished, ef, ih _ hl2 hu2 hp2, List.append_assoc]
    | percentage =>
      have h0 := hp (List.mem_cons_self _ _)
      simp only [Piece.text, List.cons_append, List.nil_append]
      rw [loop_percentage _ _ _ _ h0.1 h0.2, ep, ih _ hl2 hu2 hp2, List.append_assoc]
      rfl

theorem flatMap_literal_text (t : List Nat) :
    (t.map Piece.literal).flatMap Piece.text = t := by
  induction t with
  | nil => rfl
  | cons c t ih =>
    rw [List.map_cons, List.flatMap_cons, ih]
    rfl

theorem flatMap_literal_expansion (p : StatusPrinter) (t : List Nat) :
    (t.map Piece.literal).flatMap (Piece.expansion p) = t := by
  induction t with
  | nil => rfl
  | cons c t ih =>
    rw [List.map_cons, List.flatMap_cons, ih]
    rfl

/-- C21 as stated fails: the counters are `int`. With 30000000 edges finished
of 40000000, the claim gives " 75%" for the template "%p", but 100 times
finished is not a value of `int`: the multiplication overflows. With total
-2147483648 and 1 edge started, total minus started is not a value of `int`
either, and "%u" overflows. -/
theorem C21_FormatProgressStatus_counterexample :
    [Piece.percentage].flatMap (Piece.expansion
        { config_ := { verbosity := Verbosity.NORMAL, parallelism := 4 },
          started_edges_ := 30000000, finished_edges_ := 30000000,
          total_edges_ := 40000000, running_edges_ := 0,
          time_millis_ := 0, progress_status_format_ := [],
          printer_ := { smart_terminal_ := true, console_locked_ := false } })
      = [32, 55, 53, 37] ∧
    StatusPrinter_FormatProgressStatus
        { config_ := { verbosity := Verbosity.NORMAL, parallelism := 4 },
          started_edges_ := 30000000, finished_edges_ := 30000000,
          total_edges_ := 40000000, running_edges_ := 0,
          time_millis_ := 0, progress_status_format_ := [],
          printer_ := { smart_terminal_ := true, console_locked_ := false } }
        { overall := [], current := [], elapsed := [] }
        ([Piece.percentage].flatMap Piece.text) 0
      = .overflow ∧
    StatusPrinter_FormatProgressStatus
        { config_ := { verbosity := Verbosity.NORMAL, parallelism := 4 },
          started_edges_ := 1, finished_edges_ := 0,
          total_edges_ := -2147483648, running_edges_ := 1,
          time_millis_ := 0, progress_status_format_ := [],
          printer_ := { smart_terminal_ := true, console_locked_ := false } }
        { overall := [], current := [], elapsed := [] }
        ([Piece.unstarted].flatMap Piece.text) 0
      = .overflow := by
  refine ⟨by decide, ?_, ?_⟩
  · exact loop_percentage_overflow _ _ _ _ (by decide)
  · exact loop_unstarted_overflow _ _ _ _ (by decide)

/-- C21, amended: for every state of the counters of a `StatusPrinter` (each an
`int`) and every template built only from literal characters other than the
percent sign and the placeholders `%%`, `%s`, `%t`, `%r`, `%f`, `%u` (when
total minus started is a value of `int`) and `%p` (when total is non-zero and
100 times finished is a value of `int`), `FormatProgressStatus` returns the
template with each literal copied unchanged, `%%` replaced by a single percent
sign, `%s`, `%t`, `%r`, `%f` replaced by the decimal rendering of the started,
total, running and finished counter, `%u` by the decimal rendering of total
minus started, and `%p` by the quotient of 100 times finished by total,
right-aligned in a field of width 3 and followed by a percent sign. In
particular the default template "[%f/%t] " yields "[", finished, "/", total,
"] ", and a template with no percent sign is returned unchanged. -/
theorem C21_FormatProgressStatus (p : StatusPrinter) (rt : RateTexts) (pieces : List Piece)
    (t : List Nat) (time : Int)
    (hs : INT_MIN ≤ p.started_edges_ ∧ p.started_edges_ ≤ INT_MAX)
    (hf : INT_MIN ≤ p.finished_edges_ ∧ p.finished_edges_ ≤ INT_MAX)
    (ht : INT_MIN ≤ p.total_edges_ ∧ p.total_edges_ ≤ INT_MAX)
    (hr : INT_MIN ≤ p.running_edges_ ∧ p.running_edges_ ≤ INT_MAX)
    (hl : ∀ x ∈ pieces, x ≠ Piece.literal 37 ∧ x ≠ Piece.literal 0)
    (hu : Piece.unstarted ∈ pieces →
      INT_MIN ≤ p.total_edges_ - p.started_edges_ ∧
        p.total_edges_ - p.started_edges_ ≤ INT_MAX)
    (hp : Piece.percentage ∈ pieces →
      p.total_edges_ ≠ 0 ∧ INT_MIN ≤ 100 * p.finished_edges_ ∧
        100 * p.finished_edges_ ≤ INT_MAX)
    (h37 : ∀ c ∈ t, c ≠ 37 ∧ c ≠ 0) :
    StatusPrinter_FormatProgressStatus p rt (pieces.flatMap Piece.text) time
      = .ok (pieces.flatMap (Piece.expansion p)) ∧
    StatusPrinter_FormatProgressStatus p rt [91, 37, 102, 47, 37, 116, 93, 32] time
      = .ok ([91] ++ printf_d p.finished_edges_ ++ [47] ++ printf_d p.total_edges_
          ++ [93, 32]) ∧
    StatusPrinter_FormatProgressStatus p rt t time = .ok t := by
  have key := loop_pieces p rt hs hf ht hr
  refine ⟨?_, ?_, ?_⟩
  · unfold StatusPrinter_FormatProgressStatus
    rw [key pieces [] hl hu hp]
    rfl
  · have h := key [.literal 91, .finished, .literal 47, .total, .literal 93, .literal 32] []
      (by decide) (fun hc => absurd hc (by decide)) (fun hc => absurd hc (by decide))
    unfold StatusPrinter_FormatProgressStatus
    simp only [List.flatMap_cons, List.flatMap_nil, Piece.text, Piece.expansion,
      List.cons_append, List.nil_append, List.append_nil, List.singleton_append] at h
    rw [h]
    simp
  · have h := key (t.map Piece.literal) []
      (by
        intro x hx
        rw [List.mem_map] at hx
        obtain ⟨c1, hc1, e⟩ := hx
        subst e
        have := h37 c1 hc1
        exact ⟨fun e => this.1 (Piece.literal.inj e), fun e => this.2 (Piece.literal.inj e)⟩)
      (by intro hc; simp at hc) (by intro hc; simp at hc)
    have e1 := flatMap_literal_text t
    have e2 := flatMap_literal_expansion p t
    rw [e1, e2] at h
    unfold StatusPrinter_FormatProgressStatus
    rw [h]
    rfl

/-- Witness of C21: 3 edges started, 2 finished, 1 running of 10, with the
template "[%f/%t] %p%%%u%s%r", which gives "[2/10]  20%%731", and the
template "ninja" without a percent sign. -/
theorem C21_FormatProgressStatus_witness :
    StatusPrinter_FormatProgressStatus
        { config_ := { verbosity := Verbosity.NORMAL, parallelism := 4 },
          started_edges_ := 3, finished_edges_ := 2, total_edges_ := 10, running_edges_ := 1,
          time_millis_ := 0, progress_status_format_ := [],
          printer_ := { smart_terminal_ := true, console_locked_ := false } }
        { overall := [], current := [], elapsed := [] }
        [91, 37, 102, 47, 37, 116, 93, 32, 37, 112, 37, 37, 37, 117, 37, 115, 37, 114] 0
      = .ok [91, 50, 47, 49, 48, 93, 32, 32, 50, 48, 37, 37, 55, 51, 49] ∧
    StatusPrinter_FormatProgressStatus
        { config_ := { verbosity := Verbosity.NORMAL, parallelism := 4 },
          started_edges_ := 3, finished_edges_ := 2, total_edges_ := 10, running_edges_ := 1,
          time_millis_ := 0, progress_status_format_ := [],
          printer_ := { smart_terminal_ := true, console_locked_ := false } }
        { overall := [], current := [], elapsed := [] }
        [91, 37, 102, 47, 37, 116, 93, 32] 0
      = .ok [91, 50, 47, 49, 48, 93, 32] ∧
    StatusPrinter_FormatProgressStatus
        { config_ := { verbosity := Verbosity.NORMAL, parallelism := 4 },
          started_edges_ := 3, finished_edges_ := 2, total_edges_ := 10, running_edges_ := 1,
          time_millis_ := 0, progress_status_format_ := [],
          printer_ := { smart_terminal_ := true, console_locked_ := false } }
        { overall := [], current := [], elapsed := [] }
        [110, 105, 110, 106, 97] 0
      = .ok [110, 105, 110, 106, 97] :=
  C21_FormatProgressStatus
    { config_ := { verbosity := Verbosity.NORMAL, parallelism := 4 },
      started_edges_ := 3, finished_edges_ := 2, total_edges_ := 10, running_edges_ := 1,
      time_millis_ := 0, progress_status_format_ := [],
      printer_ := { smart_terminal_ := true, console_locked_ := false } }
    { overall := [], current := [], elapsed := [] }
    [.literal 91, .finished, .literal 47, .total, .literal 93, .literal 32, .percentage,
      .percent, .unstarted, .started, .running]
    [110, 105, 110, 106, 97] 0
    (by decide) (by decide) (by decide) (by decide) (by decide) (by decide) (by decide)
    (by decide)

/-! ## Unknown placeholders -/

theorem loop_overall (p : StatusPrinter) (rt : RateTexts) (s out : List Nat) :
    FormatProgressStatus_loop p rt (37 :: 111 :: s) out
      = FormatProgressStatus_loop p rt s (out ++ rt.overall) := rfl

theorem loop_current (p : StatusPrinter) (rt : RateTexts) (s out : List Nat) :
    FormatProgressStatus_loop p rt (37 :: 99 :: s) out
      = FormatProgressStatus_loop p rt s (out ++ rt.current) := rfl

theorem loop_elapsed (p : StatusPrinter) (rt : RateTexts) (s out : List Nat) :
    FormatProgressStatus_loop p rt (37 :: 101 :: s) out
      = FormatProgressStatus_loop p rt s (out ++ rt.elapsed) := rfl

theorem loop_unknown (p : StatusPrinter) (rt : RateTexts) (c2 : Nat) (s out : List Nat)
    (h : c2 ∉ known_placeholders) :
    FormatProgressStatus_loop p rt (37 :: c2 :: s) out = .fatal c2 := by
  simp only [known_placeholders, List.mem_cons, List.mem_singleton, List.not_mem_nil,
    or_false, not_or] at h
  obtain ⟨h1, h2, h3, h4, h5, h6, h7, h8, h9, h10⟩ := h
  simp only [FormatProgressStatus_loop, if_neg h1, if_neg h2, if_neg h3, if_neg h4, if_neg h5,
    if_neg h6, if_neg h7, if_neg h8, if_neg h9, if_neg h10]
  rfl

theorem loop_known (p : StatusPrinter) (rt : RateTexts) (c2 : Nat) (s out : List Nat)
    (h : c2 ∈ known_placeholders)
    (hu : c2 = 117 → INT_MIN ≤ p.total_edges_ - p.started_edges_ ∧
      p.total_edges_ - p.started_edges_ ≤ INT_MAX)
    (hp : c2 = 112 → p.total_edges_ ≠ 0 ∧ INT_MIN ≤ 100 * p.finished_edges_ ∧
      100 * p.finished_edges_ ≤ INT_MAX) :
    ∃ out2, FormatProgressStatus_loop p rt (37 :: c2 :: s) out
      = FormatProgressStatus_loop p rt s out2 := by
  simp only [known_placeholders, List.mem_cons, List.mem_singleton, List.not_mem_nil,
    or_false] at h
  rcases h with e | e | e | e | e | e | e | e | e | e <;> subst e
  · exact ⟨_, loop_percent p rt s out⟩
  · exact ⟨_, loop_started p rt s out⟩
  · exact ⟨_, loop_total p rt s out⟩
  · exact ⟨_, loop_running p rt s out⟩
  · exact ⟨_, loop_unstarted p rt s out (hu rfl)⟩
  · exact ⟨_, loop_finished p rt s out⟩
  · exact ⟨_, loop_overall p rt s out⟩
  · exact ⟨_, loop_current p rt s out⟩
  · exact ⟨_, loop_percentage p rt s out (hp rfl).1 (hp rfl).2⟩
  · exact ⟨_, loop_elapsed p rt s out⟩

theorem loop_known_or_overflow (p : StatusPrinter) (rt : RateTexts) (c2 : Nat)
    (s out : List Nat) (h : c2 ∈ known_placeholders) (hz : p.total_edges_ ≠ 0) :
    (∃ out2, FormatProgressStatus_loop p rt (37 :: c2 :: s) out
      = FormatProgressStatus_loop p rt s out2) ∨
    FormatProgressStatus_loop p rt (37 :: c2 :: s) out = .overflow := by
  by_cases hu : c2 = 117 ∧ ¬ (INT_MIN ≤ p.total_edges_ - p.started_edges_ ∧
      p.total_edges_ - p.started_edges_ ≤ INT_MAX)
  · right
    rw [hu.1]
    exact loop_unstarted_overflow p rt s out hu.2
  · by_cases hp : c2 = 112 ∧ ¬ (INT_MIN ≤ 100 * p.finished_edges_ ∧
        100 * p.finished_edges_ ≤ INT_MAX)
    · right
      rw [hp.1]
      exact loop_percentage_overflow p rt s out hp.2
    · left
      refine loop_known p rt c2 s out h (fun e => ?_) (fun e => ⟨hz, ?_⟩)
      · by_contra hc
        exact hu ⟨e, hc⟩
      · by_contra hc
        exact hp ⟨e, hc⟩

theorem loop_fatal_iff (p : StatusPrinter) (rt : RateTexts) (t : List Nat) :
    ∀ out : List Nat, (∀ c ∈ t, c ≠ 0) →
      (p.total_edges_ ≠ 0 ∨ 112 ∉ placeholders t) →
      (117 ∈ placeholders t → INT_MIN ≤ p.total_edges_ - p.started_edges_ ∧
        p.total_edges_ - p.started_edges_ ≤ INT_MAX) →
      (112 ∈ placeholders t → INT_MIN ≤ 100 * p.finished_edges_ ∧
        100 * p.finished_edges_ ≤ INT_MAX) →
      ((FormatProgressStatus_loop p rt t out).is_fatal = true
          ↔ ∃ c ∈ placeholders t, c ∉ known_placeholders) ∧
      ((∀ c ∈ placeholders t, c ∈ known_placeholders) →
        ∃ out2, FormatProgressStatus_loop p rt t out = .ok out2) := by
  induction t using placeholders.induct with
  | case1 =>
    intro out _ _ _ _
    simp [FormatProgressStatus_loop, placeholders, Outcome.is_fatal]
  | case2 =>
    intro out _ _ _ _
    simp [FormatProgressStatus_loop, placeholders, Outcome.is_fatal, known_placeholders]
  | case3 c hc =>
    intro out h0 _ _ _
    have hc0 := h0 c (List.mem_singleton_self c)
    rw [loop_literal p rt c [] out hc0 hc]
    simp [FormatProgressStatus_loop, placeholders, Outcome.is_fatal, hc]
  | case4 c2 s ih =>
    intro out h0 hp hu hm
    have h0s : ∀ c ∈ s, c ≠ 0 :=
      fun c hc => h0 c (List.mem_cons_of_mem _ (List.mem_cons_of_mem _ hc))
    have eq : placeholders (37 :: c2 :: s) = c2 :: placeholders s := by
      simp [placeholders]
    rw [eq] at hp hu hm ⊢
    by_cases hk : c2 ∈ known_placeholders
    · have hp1 : c2 = 112 → p.total_edges_ ≠ 0 ∧ INT_MIN ≤ 100 * p.finished_edges_ ∧
          100 * p.finished_edges_ ≤ INT_MAX := by
        intro e
        have hin : 112 ∈ c2 :: placeholders s := by
          rw [e]
          exact List.mem_cons_self _ _
        refine ⟨?_, hm hin⟩
        rcases hp with h | h
        · exact h
        · exact absurd hin h
      have hu1 : c2 = 117 → INT_MIN ≤ p.total_edges_ - p.started_edges_ ∧
          p.total_edges_ - p.started_edges_ ≤ INT_MAX := by
        intro e
        exact hu (by rw [e]; exact List.mem_cons_self _ _)
      have hp2 : p.total_edges_ ≠ 0 ∨ 112 ∉ placeholders s := by
        rcases hp with h | h
        · exact Or.inl h
        · exact Or.inr (fun hm => h (List.mem_cons_of_mem _ hm))
      obtain ⟨out2, e⟩ := loop_known p rt c2 s out hk hu1 hp1
      rw [e]
      obtain ⟨i1, i2⟩ := ih out2 h0s hp2 (fun hc => hu (List.mem_cons_of_mem _ hc))
        (fun hc => hm (List.mem_cons_of_mem _ hc))
      constructor
      · rw [i1]
        constructor
        · rintro ⟨c, hc, hb⟩
          exact ⟨c, List.mem_cons_of_mem _ hc, hb⟩
        · rintro ⟨c, hc, hb⟩
          rcases List.mem_cons.mp hc with e1 | e1
          · rw [e1] at hb
            exact absurd hk hb
          · exact ⟨c, e1, hb⟩
      · intro hall
        exact i2 (fun c hc => hall c (List.mem_cons_of_mem _ hc))
    · rw [loop_unknown p rt c2 s out hk]
      constructor
      · simp only [Outcome.is_fatal, true_iff]
        exact ⟨c2, List.mem_cons_self _ _, hk⟩
      · intro hall
        exact absurd (hall c2 (List.mem_cons_self _ _)) hk
  | case5 c c2 s hc ih =>
    intro out h0 hp hu hm
    have hc0 := h0 c (List.mem_cons_self _ _)
    have eq : placeholders (c :: c2 :: s) = placeholders (c2 :: s) := by
      simp [placeholders, hc]
    rw [eq] at hp hu hm ⊢
    rw [loop_literal p rt c _ out hc0 hc]
    exact ih _ (fun x hx => h0 x (List.mem_cons_of_mem _ hx)) hp hu hm

theorem loop_literals (p : StatusPrinter) (rt : RateTexts) (s rest : List Nat) :
    ∀ out : List Nat, (∀ c ∈ s, c ≠ 37 ∧ c ≠ 0) →
      FormatProgressStatus_loop p rt (s ++ rest) out
        = FormatProgressStatus_loop p rt rest (out ++ s) := by
  induction s with
  | nil => intro out _; simp
  | cons c s ih =>
    intro out h
    have hc := h c (List.mem_cons_self _ _)
    rw [List.cons_append, loop_literal p rt c _ out hc.2 hc.1,
      ih _ (fun x hx => h x (List.mem_cons_of_mem _ hx))]
    simp

theorem loop_reaches_percentage (p : StatusPrinter) (rt : RateTexts) (rest : List Nat)
    (hz : p.total_edges_ = 0)
    (hm : INT_MIN ≤ 100 * p.finished_edges_ ∧ 100 * p.finished_edges_ ≤ INT_MAX)
    (pre : List Nat) :
    ∀ out : List Nat, (∀ c ∈ pre, c ≠ 0) →
      (∀ c ∈ placeholders pre, c ∈ known_placeholders) →
      (117 ∈ placeholders pre → INT_MIN ≤ p.total_edges_ - p.started_edges_ ∧
        p.total_edges_ - p.started_edges_ ≤ INT_MAX) →
      FormatProgressStatus_loop p rt (pre ++ 37 :: 112 :: rest) out = .division_by_zero := by
  induction pre using placeholders.induct with
  | case1 =>
    intro out _ _ _
    exact loop_percentage_zero p rt rest out hz hm
  | case2 =>
    intro out _ hk _
    exact absurd (hk 0 (by simp [placeholders])) (by decide)
  | case3 c hc =>
    intro out h0 _ _
    have hc0 := h0 c (List.mem_singleton_self c)
    rw [List.singleton_append, loop_literal p rt c _ out hc0 hc]
    exact loop_percentage_zero p rt rest _ hz hm
  | case4 c2 s ih =>
    intro out h0 hk hu
    have h0s : ∀ c ∈ s, c ≠ 0 :=
      fun c hc => h0 c (List.mem_cons_of_mem _ (List.mem_cons_of_mem _ hc))
    have eq : placeholders (37 :: c2 :: s) = c2 :: placeholders s := by
      simp [placeholders]
    rw [eq] at hk hu
    rw [List.cons_append, List.cons_append]
    by_cases h112 : c2 = 112
    · rw [h112]
      exact loop_percentage_zero p rt _ out hz hm
    · obtain ⟨out2, e⟩ := loop_known p rt c2 (s ++ 37 :: 112 :: rest) out
        (hk c2 (List.mem_cons_self _ _))
        (fun e => hu (by rw [e]; exact List.mem_cons_self _ _))
        (fun e => absurd e h112)
      rw [e]
      exact ih out2 h0s (fun c hc => hk c (List.mem_cons_of_mem _ hc))
        (fun hc => hu (List.mem_cons_of_mem _ hc))
  | case5 c c2 s hc ih =>
    intro out h0 hk hu
    have hc0 := h0 c (List.mem_cons_self _ _)
    have eq : placeholders (c :: c2 :: s) = placeholders (c2 :: s) := by
      simp [placeholders, hc]
    rw [eq] at hk hu
    rw [List.cons_append, loop_literal p rt c _ out hc0 hc]
    exact ih _ (fun x hx => h0 x (List.mem_cons_of_mem _ hx)) hk hu

/-- C22 as stated fails: in the state of a new `StatusPrinter`, where
`total_edges_` is 0, the template "%p" has only a known placeholder, yet
`FormatProgressStatus` does not return: it divides by zero. And with 30000000
edges finished of 40000000 it does not return either: 100 times finished
overflows `int`. -/
theorem C22_fatal_placeholder_counterexample :
    (∀ c ∈ placeholders [37, 112], c ∈ known_placeholders) ∧
    (StatusPrinter_FormatProgressStatus
      (StatusPrinter_new { verbosity := Verbosity.NORMAL, parallelism := 1 } true none)
      { overall := [], current := [], elapsed := [] } [37, 112] 0).returned = none ∧
    (StatusPrinter_FormatProgressStatus
      (StatusPrinter_new { verbosity := Verbosity.NORMAL, parallelism := 1 } true none)
      { overall := [], current := [], elapsed := [] } [37, 112] 0).is_fatal = false ∧
    (StatusPrinter_FormatProgressStatus
      { config_ := { verbosity := Verbosity.NORMAL, parallelism := 1 },
        started_edges_ := 30000000, finished_edges_ := 30000000,
        total_edges_ := 40000000, running_edges_ := 0,
        time_millis_ := 0, progress_status_format_ := [],
        printer_ := { smart_terminal_ := true, console_locked_ := false } }
      { overall := [], current := [], elapsed := [] } [37, 112] 0).returned = none ∧
    (StatusPrinter_FormatProgressStatus
      { config_ := { verbosity := Verbosity.NORMAL, parallelism := 1 },
        started_edges_ := 30000000, finished_edges_ := 30000000,
        total_edges_ := 40000000, running_edges_ := 0,
        time_millis_ := 0, progress_status_format_ := [],
        printer_ := { smart_terminal_ := true, console_locked_ := false } }
      { overall := [], current := [], elapsed := [] } [37, 112] 0).is_fatal = false := by
  decide

/-- C22, amended: in a state where `total_edges_` is non-zero, or on a template
without `%p`, and where the `int` arithmetic of the placeholders of the
template does not overflow (total minus started is a value of `int` if the
template has `%u`, 100 times finished is one if it has `%p`),
`FormatProgressStatus` ends in the fatal path if and only if, scanning the
template left to right and pairing each percent sign with the character that
follows it, some percent sign is followed by a character that is not one of
`%`, `s`, `t`, `r`, `u`, `f`, `o`, `c`, `p`, `e`; for every other such template
it returns normally. A template whose last character is an unpaired percent
sign ends in the fatal path. When `total_edges_` is zero, a `%p` that is
reached divides by zero: this holds for every template `pre ++ "%p" ++ rest`
in which every percent sign of `pre` is paired with a known placeholder. -/
theorem C22_fatal_placeholder (p : StatusPrinter) (rt : RateTexts) (t s pre rest : List Nat)
    (time : Int) (h0 : ∀ c ∈ t, c ≠ 0)
    (hp : p.total_edges_ ≠ 0 ∨ 112 ∉ placeholders t)
    (hu : 117 ∈ placeholders t → INT_MIN ≤ p.total_edges_ - p.started_edges_ ∧
      p.total_edges_ - p.started_edges_ ≤ INT_MAX)
    (hm : 112 ∈ placeholders t → INT_MIN ≤ 100 * p.finished_edges_ ∧
      100 * p.finished_edges_ ≤ INT_MAX)
    (hs : ∀ c ∈ s, c ≠ 37 ∧ c ≠ 0) :
    ((StatusPrinter_FormatProgressStatus p rt t time).is_fatal = true
      ↔ ∃ c ∈ placeholders t, c ∉ known_placeholders) ∧
    ((∀ c ∈ placeholders t, c ∈ known_placeholders) →
      ∃ out, StatusPrinter_FormatProgressStatus p rt t time = .ok out) ∧
    (StatusPrinter_FormatProgressStatus p rt (s ++ [37]) time).is_fatal = true ∧
    (p.total_edges_ = 0 →
      (INT_MIN ≤ 100 * p.finished_edges_ ∧ 100 * p.finished_edges_ ≤ INT_MAX) →
      (∀ c ∈ pre, c ≠ 0) →
      (∀ c ∈ placeholders pre, c ∈ known_placeholders) →
      (117 ∈ placeholders pre → INT_MIN ≤ p.total_edges_ - p.started_edges_ ∧
        p.total_edges_ - p.started_edges_ ≤ INT_MAX) →
      StatusPrinter_FormatProgressStatus p rt (pre ++ 37 :: 112 :: rest) time
        = .division_by_zero) := by
  unfold StatusPrinter_FormatProgressStatus
  refine ⟨(loop_fatal_iff p rt t [] h0 hp hu hm).1, (loop_fatal_iff p rt t [] h0 hp hu hm).2,
    ?_, ?_⟩
  · rw [loop_literals p rt s [37] [] hs]
    rfl
  · intro hz hf hpre hk hpu
    exact loop_reaches_percentage p rt rest hz hf pre [] hpre hk hpu

/-- Witness of C22: the template "%f%z" in the state of a new `StatusPrinter`
ends in the fatal path, "[%f/%" does too, and "%s%p%f%z", where `%p` is
reached after `%s`, divides by zero. -/
theorem C22_fatal_placeholder_witness :
    ((StatusPrinter_FormatProgressStatus
        (StatusPrinter_new { verbosity := Verbosity.NORMAL, parallelism := 1 } true none)
        { overall := [], current := [], elapsed := [] } [37, 102, 37, 122] 0).is_fatal = true
      ↔ ∃ c ∈ placeholders [37, 102, 37, 122], c ∉ known_placeholders) ∧
    (StatusPrinter_FormatProgressStatus
        (StatusPrinter_new { verbosity := Verbosity.NORMAL, parallelism := 1 } true none)
        { overall := [], current := [], elapsed := [] } ([91, 102, 47] ++ [37]) 0).is_fatal
      = true ∧
    StatusPrinter_FormatProgressStatus
        (StatusPrinter_new { verbosity := Verbosity.NORMAL, parallelism := 1 } true none)
        { overall := [], current := [], elapsed := [] }
        ([37, 115] ++ 37 :: 112 :: [37, 102, 37, 122]) 0
      = .division_by_zero :=
  have h := C22_fatal_placeholder
    (StatusPrinter_new { verbosity := Verbosity.NORMAL, parallelism := 1 } true none)
    { overall := [], current := [], elapsed := [] } [37, 102, 37, 122] [91, 102, 47]
    [37, 115] [37, 102, 37, 122] 0
    (by decide) (Or.inr (by decide)) (fun hc => absurd hc (by decide))
    (fun hc => absurd hc (by decide)) (by decide)
  ⟨h.1, h.2.2.1, h.2.2.2 rfl (by decide) (by decide) (by decide)
    (fun hc => absurd hc (by decide))⟩

/-! ## The console lock -/

theorem PrintStatus_ok (rt : StatusPrinter → RateTexts) (p q : StatusPrinter) (edge : Edge)
    (t : Int) (h : StatusPrinter_PrintStatus rt p edge t = .ok q) : q = p := by
  unfold StatusPrinter_PrintStatus at h
  split_ifs at h
  · injection h with h
    exact h.symm
  · split at h
    · injection h with h
      exact h.symm
    · exact absurd h (by simp)
    · exact absurd h (by simp)
    · exact absurd h (by simp)

theorem BuildEdgeStarted_ok (rt : StatusPrinter → RateTexts) (p q : StatusPrinter) (edge : Edge)
    (t : Int) (h : StatusPrinter_BuildEdgeStarted rt p edge t = .ok q) :
    q.started_edges_ = p.started_edges_ + 1 ∧ q.running_edges_ = p.running_edges_ + 1 ∧
    q.finished_edges_ = p.finished_edges_ ∧ q.total_edges_ = p.total_edges_ ∧
    q.config_ = p.config_ ∧
    q.printer_.console_locked_ = (edge.use_console || p.printer_.console_locked_) := by
  unfold StatusPrinter_BuildEdgeStarted at h
  cases h1 : int_value (p.started_edges_ + 1) with
  | none =>
    rw [h1] at h
    exact absurd h (by simp)
  | some started =>
    rw [h1] at h
    dsimp only at h
    cases h2 : int_value (p.running_edges_ + 1) with
    | none =>
      rw [h2] at h
      exact absurd h (by simp)
    | some running =>
      rw [h2] at h
      dsimp only at h
      have e1 := (int_value_some _ _ h1).1
      have e2 := (int_value_some _ _ h2).1
      subst e1
      subst e2
      split at h
      · rename_i q1 hq
        injection h with h
        subst h
        split_ifs at hq with h1
        · have e1 := PrintStatus_ok rt _ _ _ _ hq
          subst e1
          by_cases hc : edge.use_console = true
          · simp [hc, StatusPrinter.SetConsoleLocked]
          · simp [hc]
        · injection hq with hq
          subst hq
          by_cases hc : edge.use_console = true
          · simp [hc, StatusPrinter.SetConsoleLocked]
          · simp [hc]
      · exact absurd h (by simp)
      · exact absurd h (by simp)
      · exact absurd h (by simp)

theorem BuildEdgeFinished_ok (rt : StatusPrinter → RateTexts) (p q : StatusPrinter) (edge : Edge)
    (t : Int) (result : CommandResult)
    (h : StatusPrinter_BuildEdgeFinished rt p edge t result = .ok q) :
    q.started_edges_ = p.started_edges_ ∧
    q.running_edges_
      = (if p.config_.verbosity = Verbosity.QUIET then p.running_edges_
          else p.running_edges_ - 1) ∧
    q.finished_edges_ = p.finished_edges_ + 1 ∧ q.total_edges_ = p.total_edges_ ∧
    q.config_ = p.config_ ∧
    q.printer_.console_locked_ = (!edge.use_console && p.printer_.console_locked_) := by
  unfold StatusPrinter_BuildEdgeFinished at h
  dsimp only at h
  cases h1 : int_value (p.finished_edges_ + 1) with
  | none =>
    rw [h1] at h
    exact absurd h (by simp)
  | some finished =>
    rw [h1] at h
    dsimp only at h
    have e1 := (int_value_some _ _ h1).1
    subst e1
    by_cases hc : edge.use_console = true
    · by_cases hv : p.config_.verbosity = Verbosity.QUIET
      · simp only [hc, if_true, StatusPrinter.SetConsoleLocked, hv] at h
        injection h with h
        subst h
        simp [hc, hv]
      · simp only [hc, if_true, StatusPrinter.SetConsoleLocked, hv, if_false, Bool.not_true,
          Bool.false_eq_true] at h
        cases h2 : int_value (p.running_edges_ - 1) with
        | none =>
          rw [h2] at h
          exact absurd h (by simp)
        | some running =>
          rw [h2] at h
          have e2 := (int_value_some _ _ h2).1
          subst e2
          injection h with h
          subst h
          simp [hc, hv]
    · by_cases hv : p.config_.verbosity = Verbosity.QUIET
      · simp only [hc, if_false, hv, if_true, Bool.false_eq_true] at h
        injection h with h
        subst h
        simp [hc, hv]
      · simp only [hc, if_false, hv, Bool.not_false, if_true, Bool.false_eq_true] at h
        split at h
        · rename_i q1 hq
          have e1 := PrintStatus_ok rt _ _ _ _ hq
          subst e1
          cases h2 : int_value (p.running_edges_ - 1) with
          | none =>
            simp only [h2] at h
            exact absurd h (by simp)
          | some running =>
            simp only [h2] at h
            have e2 := (int_value_some _ _ h2).1
            subst e2
            injection h with h
            subst h
            simp [hc, hv]
        · exact absurd h (by simp)
        · exact absurd h (by simp)
        · exact absurd h (by simp)

theorem call_keeps_lock (rt : StatusPrinter → RateTexts) (p q : StatusPrinter)
    (c : LifecycleCall) (hc : c.releases = false) (hl : p.printer_.console_locked_ = true)
    (h : StatusPrinter_call rt p c = .ok q) : q.printer_.console_locked_ = true := by
  cases c with
  | PlanHasTotalEdges total =>
    injection h with h
    subst h
    exact hl
  | BuildStarted =>
    injection h with h
    subst h
    exact hl
  | BuildEdgeStarted edge t =>
    rw [(BuildEdgeStarted_ok rt p q edge t h).2.2.2.2.2, hl]
    simp
  | BuildEdgeFinished edge t result =>
    have hu : edge.use_console = false := hc
    rw [(BuildEdgeFinished_ok rt p q edge t result h).2.2.2.2.2, hl, hu]
    rfl
  | BuildFinished => exact absurd hc (by decide)

theorem calls_keep_lock (rt : StatusPrinter → RateTexts) (cs : List LifecycleCall) :
    ∀ (p q : StatusPrinter), (∀ x ∈ cs, x.releases = false) →
      p.printer_.console_locked_ = true → StatusPrinter_calls rt p cs = .ok q →
      q.printer_.console_locked_ = true := by
  induction cs with
  | nil =>
    intro p q _ hl h
    injection h with h
    subst h
    exact hl
  | cons c cs ih =>
    intro p q hn hl h
    unfold StatusPrinter_calls at h
    split at h
    · rename_i p1 h1
      exact ih p1 q (fun x hx => hn x (List.mem_cons_of_mem _ hx))
        (call_keeps_lock rt p p1 c (hn c (List.mem_cons_self _ _)) hl h1) h
    · exact absurd h (by simp)
    · exact absurd h (by simp)
    · exact absurd h (by simp)

theorem call_releases_lock (rt : StatusPrinter → RateTexts) (p q : StatusPrinter)
    (c : LifecycleCall) (hc : c.releases = true)
    (h : StatusPrinter_call rt p c = .ok q) : q.printer_.console_locked_ = false := by
  cases c with
  | PlanHasTotalEdges total => exact absurd hc (by simp [LifecycleCall.releases])
  | BuildStarted => exact absurd hc (by decide)
  | BuildEdgeStarted edge t => exact absurd hc (by simp [LifecycleCall.releases])
  | BuildEdgeFinished edge t result =>
    have hu : edge.use_console = true := hc
    rw [(BuildEdgeFinished_ok rt p q edge t result h).2.2.2.2.2, hu]
    rfl
  | BuildFinished =>
    injection h with h
    subst h
    rfl

/-- C23 as stated fails: after `BuildStarted` and the start of an edge marked
`use_console` the console lock is set, and `BuildFinished`, made while that
edge is still running, releases it. -/
theorem C23_console_lock_counterexample :
    (StatusPrinter_calls (fun _ => { overall := [], current := [], elapsed := [] })
      (StatusPrinter_new { verbosity := Verbosity.NORMAL, parallelism := 1 } false none)
      [.BuildStarted,
        .BuildEdgeStarted
          { id_ := 1, inputs_ := [], outputs_ := [], description := [], command := [],
            use_console := true } 0]).returned.map
      (fun q => q.printer_.console_locked_) = some true ∧
    (StatusPrinter_calls (fun _ => { overall := [], current := [], elapsed := [] })
      (StatusPrinter_new { verbosity := Verbosity.NORMAL, parallelism := 1 } false none)
      [.BuildStarted,
        .BuildEdgeStarted
          { id_ := 1, inputs_ := [], outputs_ := [], description := [], command := [],
            use_console := true } 0,
        .BuildFinished]).returned.map
      (fun q => q.printer_.console_locked_) = some false := by
  decide

/-- C23, amended: the console lock is set when an edge marked `use_console`
starts; it stays set across every sequence of `PlanHasTotalEdges` and
`BuildStarted` calls, starts of edges, and finishes of edges not marked
`use_console`; and it is released by the `BuildEdgeFinished` call of an edge
marked `use_console` and by `BuildFinished`, whether or not an edge that set it
is still running. -/
theorem C23_console_lock (rt : StatusPrinter → RateTexts) (p p1 p2 p3 : StatusPrinter)
    (edge : Edge) (t : Int) (cs : List LifecycleCall) (c : LifecycleCall)
    (he : edge.use_console = true)
    (h1 : StatusPrinter_call rt p (.BuildEdgeStarted edge t) = .ok p1)
    (hn : ∀ x ∈ cs, x.releases = false)
    (h2 : StatusPrinter_calls rt p1 cs = .ok p2)
    (hc : c.releases = true)
    (h3 : StatusPrinter_call rt p2 c = .ok p3) :
    p1.printer_.console_locked_ = true ∧ p2.printer_.console_locked_ = true ∧
    p3.printer_.console_locked_ = false := by
  have l1 : p1.printer_.console_locked_ = true := by
    rw [(BuildEdgeStarted_ok rt p p1 edge t h1).2.2.2.2.2, he]
    rfl
  exact ⟨l1, calls_keep_lock rt cs p1 p2 hn l1 h2, call_releases_lock rt p2 p3 c hc h3⟩

/-- Witness of C23: the edge 1 marked `use_console` starts, the edge 2 not so
marked starts and finishes and the plan announces 3 edges, then
`BuildFinished` is called. -/
theorem C23_console_lock_witness :
    (StatusPrinter_call (fun _ => { overall := [], current := [], elapsed := [] })
        (StatusPrinter_new { verbosity := Verbosity.NORMAL, parallelism := 1 } false none)
        (.BuildEdgeStarted
          { id_ := 1, inputs_ := [], outputs_ := [], description := [], command := [],
            use_console := true } 0)
      = .ok
        { config_ := { verbosity := Verbosity.NORMAL, parallelism := 1 },
          started_edges_ := 1, finished_edges_ := 0, total_edges_ := 0,
          running_edges_ := 1, time_millis_ := 0,
          progress_status_format_ := [91, 37, 102, 47, 37, 116, 93, 32],
          printer_ := { smart_terminal_ := false, console_locked_ := true } }) ∧
    (StatusPrinter.printer_
        { config_ := { verbosity := Verbosity.NORMAL, parallelism := 1 },
          started_edges_ := 1, finished_edges_ := 0, total_edges_ := 0,
          running_edges_ := 1, time_millis_ := 0,
          progress_status_format_ := [91, 37, 102, 47, 37, 116, 93, 32],
          printer_ := { smart_terminal_ := false, console_locked_ := true } }).console_locked_ = true ∧
    (StatusPrinter.printer_
        { config_ := { verbosity := Verbosity.NORMAL, parallelism := 1 },
          started_edges_ := 2, finished_edges_ := 1, total_edges_ := 3,
          running_edges_ := 1, time_millis_ := 7,
          progress_status_format_ := [91, 37, 102, 47, 37, 116, 93, 32],
          printer_ := { smart_terminal_ := false, console_locked_ := true } }).console_locked_ = true ∧
    (StatusPrinter.printer_
        { config_ := { verbosity := Verbosity.NORMAL, parallelism := 1 },
          started_edges_ := 2, finished_edges_ := 1, total_edges_ := 3,
          running_edges_ := 1, time_millis_ := 7,
          progress_status_format_ := [91, 37, 102, 47, 37, 116, 93, 32],
          printer_ := { smart_terminal_ := false, console_locked_ := false } }).console_locked_ = false :=
  have h1 : StatusPrinter_call (fun _ => { overall := [], current := [], elapsed := [] })
        (StatusPrinter_new { verbosity := Verbosity.NORMAL, parallelism := 1 } false none)
        (.BuildEdgeStarted
          { id_ := 1, inputs_ := [], outputs_ := [], description := [], command := [],
            use_console := true } 0)
      = .ok
        { config_ := { verbosity := Verbosity.NORMAL, parallelism := 1 },
          started_edges_ := 1, finished_edges_ := 0, total_edges_ := 0,
          running_edges_ := 1, time_millis_ := 0,
          progress_status_format_ := [91, 37, 102, 47, 37, 116, 93, 32],
          printer_ := { smart_terminal_ := false, console_locked_ := true } } := by
    simp [StatusPrinter_calls, StatusPrinter_call, StatusPrinter_BuildEdgeStarted,
        StatusPrinter_BuildEdgeFinished, StatusPrinter_PlanHasTotalEdges,
        StatusPrinter_BuildFinished, StatusPrinter_new, StatusPrinter_PrintStatus,
        StatusPrinter_FormatProgressStatus, FormatProgressStatus_loop,
        StatusPrinter.SetConsoleLocked, int_value, INT_MIN, INT_MAX]
  ⟨h1,
    C23_console_lock (fun _ => { overall := [], current := [], elapsed := [] })
      (StatusPrinter_new { verbosity := Verbosity.NORMAL, parallelism := 1 } false none)
      { config_ := { verbosity := Verbosity.NORMAL, parallelism := 1 },
        started_edges_ := 1, finished_edges_ := 0, total_edges_ := 0,
        running_edges_ := 1, time_millis_ := 0,
        progress_status_format_ := [91, 37, 102, 47, 37, 116, 93, 32],
        printer_ := { smart_terminal_ := false, console_locked_ := true } }
      { config_ := { verbosity := Verbosity.NORMAL, parallelism := 1 },
        started_edges_ := 2, finished_edges_ := 1, total_edges_ := 3,
        running_edges_ := 1, time_millis_ := 7,
        progress_status_format_ := [91, 37, 102, 47, 37, 116, 93, 32],
        printer_ := { smart_terminal_ := false, console_locked_ := true } }
      { config_ := { verbosity := Verbosity.NORMAL, parallelism := 1 },
        started_edges_ := 2, finished_edges_ := 1, total_edges_ := 3,
        running_edges_ := 1, time_millis_ := 7,
        progress_status_format_ := [91, 37, 102, 47, 37, 116, 93, 32],
        printer_ := { smart_terminal_ := false, console_locked_ := false } }
      { id_ := 1, inputs_ := [], outputs_ := [], description := [], command := [],
        use_console := true }
      0
      [.BuildEdgeStarted
          { id_ := 2, inputs_ := [], outputs_ := [], description := [], command := [],
            use_console := false } 5,
        .BuildEdgeFinished
          { id_ := 2, inputs_ := [], outputs_ := [], description := [], command := [],
            use_console := false } 7
          { status := 0, output := [] },
        .PlanHasTotalEdges 3]
      .BuildFinished rfl h1 (by decide)
      (by
        simp [StatusPrinter_calls, StatusPrinter_call, StatusPrinter_BuildEdgeStarted,
        StatusPrinter_BuildEdgeFinished, StatusPrinter_PlanHasTotalEdges,
        StatusPrinter_BuildFinished, StatusPrinter_new, StatusPrinter_PrintStatus,
        StatusPrinter_FormatProgressStatus, FormatProgressStatus_loop,
        StatusPrinter.SetConsoleLocked, int_value, INT_MIN, INT_MAX])
      rfl
      (by
        simp [StatusPrinter_calls, StatusPrinter_call, StatusPrinter_BuildEdgeStarted,
        StatusPrinter_BuildEdgeFinished, StatusPrinter_PlanHasTotalEdges,
        StatusPrinter_BuildFinished, StatusPrinter_new, StatusPrinter_PrintStatus,
        StatusPrinter_FormatProgressStatus, FormatProgressStatus_loop,
        StatusPrinter.SetConsoleLocked, int_value, INT_MIN, INT_MAX])⟩

/-! ## The counters of the status printer -/

theorem finishes_started_take (cs : List LifecycleCall) :
    ∀ (running : List Int) (k : Nat), finishes_started running cs = true →
      finishes_started running (cs.take k) = true := by
  induction cs with
  | nil => intro running k h; simpa using h
  | cons c cs ih =>
    intro running k h
    cases k with
    | zero => rfl
    | succ k =>
      rw [List.take_succ_cons]
      cases c with
      | PlanHasTotalEdges total => exact ih running k h
      | BuildStarted => exact ih running k h
      | BuildEdgeStarted edge t => exact ih _ k h
      | BuildEdgeFinished edge t result =>
        simp only [finishes_started, Bool.and_eq_true] at h ⊢
        exact ⟨h.1, ih _ k h.2⟩
      | BuildFinished => exact ih running k h

theorem calls_counters (rt : StatusPrinter → RateTexts) (cs : List LifecycleCall) :
    ∀ (p q : StatusPrinter) (running : List Int),
      p.config_.verbosity ≠ Verbosity.QUIET →
      (∀ c ∈ cs, c.is_BuildStarted = false) →
      finishes_started running cs = true →
      p.running_edges_ = p.started_edges_ - p.finished_edges_ →
      0 ≤ p.finished_edges_ →
      p.running_edges_ = running.length →
      StatusPrinter_calls rt p cs = .ok q →
      q.running_edges_ = q.started_edges_ - q.finished_edges_ ∧ 0 ≤ q.finished_edges_ ∧
        0 ≤ q.running_edges_ := by
  induction cs with
  | nil =>
    intro p q running _ _ _ he hf hr h
    injection h with h
    subst h
    exact ⟨he, hf, by rw [hr]; exact Int.natCast_nonneg _⟩
  | cons c cs ih =>
    intro p q running hv hb hw he hf hr h
    have hb2 : ∀ c ∈ cs, c.is_BuildStarted = false :=
      fun x hx => hb x (List.mem_cons_of_mem _ hx)
    unfold StatusPrinter_calls at h
    split at h
    · rename_i p1 h1
      cases c with
      | PlanHasTotalEdges total =>
        injection h1 with h1
        subst h1
        exact ih (StatusPrinter_PlanHasTotalEdges p total) q running hv hb2 hw he hf hr h
      | BuildStarted => exact absurd (hb _ (List.mem_cons_self _ _)) (by decide)
      | BuildEdgeStarted edge t =>
        obtain ⟨e1, e2, e3, _, e5, _⟩ := BuildEdgeStarted_ok rt p p1 edge t h1
        refine ih p1 q (edge.id_ :: running) (by rw [e5]; exact hv) hb2 hw
          (by rw [e1, e2, e3]; omega) (by rw [e3]; exact hf) ?_ h
        rw [e2, hr, List.length_cons]
        push_cast
        rfl
      | BuildEdgeFinished edge t result =>
        obtain ⟨e1, e2, e3, _, e5, _⟩ := BuildEdgeFinished_ok rt p p1 edge t result h1
        rw [if_neg hv] at e2
        simp only [finishes_started, Bool.and_eq_true] at hw
        have hm : edge.id_ ∈ running := by
          have := hw.1
          simpa using this
        have hl := List.length_erase_of_mem hm
        have hpos : 0 < running.length := List.length_pos_of_mem hm
        refine ih p1 q (running.erase edge.id_) (by rw [e5]; exact hv) hb2 hw.2
          (by rw [e1, e2, e3]; omega) (by rw [e3]; omega) ?_ h
        rw [e2, hr, hl]
        omega
      | BuildFinished =>
        injection h1 with h1
        subst h1
        exact ih (StatusPrinter_BuildFinished p) q running hv hb2 hw he hf hr h
    · exact absurd h (by simp)
    · exact absurd h (by simp)
    · exact absurd h (by simp)

theorem PrintStatus_default (rt : StatusPrinter → RateTexts) (p : StatusPrinter) (edge : Edge)
    (t : Int) (hd : p.progress_status_format_ = [91, 37, 102, 47, 37, 116, 93, 32]) :
    StatusPrinter_PrintStatus rt p edge t = .ok p := by
  unfold StatusPrinter_PrintStatus
  split_ifs
  · rfl
  · rw [hd]
    rfl

theorem BuildEdgeStarted_default (rt : StatusPrinter → RateTexts) (p : StatusPrinter)
    (edge : Edge) (t : Int)
    (hd : p.progress_status_format_ = [91, 37, 102, 47, 37, 116, 93, 32])
    (hs : INT_MIN ≤ p.started_edges_ + 1 ∧ p.started_edges_ + 1 ≤ INT_MAX)
    (hr : INT_MIN ≤ p.running_edges_ + 1 ∧ p.running_edges_ + 1 ≤ INT_MAX) :
    ∃ q, StatusPrinter_BuildEdgeStarted rt p edge t = .ok q ∧
      q.progress_status_format_ = [91, 37, 102, 47, 37, 116, 93, 32] := by
  unfold StatusPrinter_BuildEdgeStarted
  rw [int_value_of_range _ hs]
  dsimp only
  rw [int_value_of_range _ hr]
  dsimp only
  rw [PrintStatus_default]
  · by_cases h1 : (edge.use_console || p.printer_.smart_terminal_) = true
    · rw [if_pos h1]
      by_cases h2 : edge.use_console = true
      · exact ⟨_, rfl, by rw [if_pos h2]; exact hd⟩
      · exact ⟨_, rfl, by rw [if_neg h2]; exact hd⟩
    · rw [if_neg h1]
      by_cases h2 : edge.use_console = true
      · exact ⟨_, rfl, by rw [if_pos h2]; exact hd⟩
      · exact ⟨_, rfl, by rw [if_neg h2]; exact hd⟩
  · exact hd

theorem BuildEdgeFinished_default (rt : StatusPrinter → RateTexts) (p : StatusPrinter)
    (edge : Edge) (t : Int) (result : CommandResult)
    (hd : p.progress_status_format_ = [91, 37, 102, 47, 37, 116, 93, 32])
    (hf : INT_MIN ≤ p.finished_edges_ + 1 ∧ p.finished_edges_ + 1 ≤ INT_MAX)
    (hr : INT_MIN ≤ p.running_edges_ - 1 ∧ p.running_edges_ - 1 ≤ INT_MAX) :
    ∃ q, StatusPrinter_BuildEdgeFinished rt p edge t result = .ok q ∧
      q.progress_status_format_ = [91, 37, 102, 47, 37, 116, 93, 32] := by
  unfold StatusPrinter_BuildEdgeFinished
  dsimp only
  rw [int_value_of_range _ hf]
  dsimp only
  by_cases h2 : edge.use_console = true
  · simp only [h2, if_true, Bool.not_true, Bool.false_eq_true, if_false]
    split_ifs
    · exact ⟨_, rfl, hd⟩
    · simp only [StatusPrinter.SetConsoleLocked]
      rw [int_value_of_range _ hr]
      exact ⟨_, rfl, hd⟩
  · simp only [h2, if_false, Bool.not_false, if_true, Bool.false_eq_true]
    rw [PrintStatus_default]
    · split_ifs
      · exact ⟨_, rfl, hd⟩
      · dsimp only
        rw [int_value_of_range _ hr]
        exact ⟨_, rfl, hd⟩
    · exact hd

theorem calls_return_default (rt : StatusPrinter → RateTexts) (cs : List LifecycleCall) :
    ∀ (p : StatusPrinter) (running : List Int),
      p.progress_status_format_ = [91, 37, 102, 47, 37, 116, 93, 32] →
      p.config_.verbosity ≠ Verbosity.QUIET →
      (∀ c ∈ cs, c.is_BuildStarted = false) →
      finishes_started running cs = true →
      p.running_edges_ = p.started_edges_ - p.finished_edges_ →
      0 ≤ p.finished_edges_ →
      p.running_edges_ = running.length →
      p.started_edges_ + ((cs.countP LifecycleCall.is_BuildEdgeStarted : Nat) : Int)
        ≤ INT_MAX →
      ∃ q, StatusPrinter_calls rt p cs = .ok q := by
  induction cs with
  | nil => intro p _ _ _ _ _ _ _ _ _; exact ⟨p, rfl⟩
  | cons c cs ih =>
    intro p running hd hv hb hw he hf hr hn
    have hb2 : ∀ c ∈ cs, c.is_BuildStarted = false :=
      fun x hx => hb x (List.mem_cons_of_mem _ hx)
    have hlen : (0 : Int) ≤ (running.length : Int) := Int.natCast_nonneg _
    cases c with
    | PlanHasTotalEdges total =>
      have hn2 : p.started_edges_
          + ((cs.countP LifecycleCall.is_BuildEdgeStarted : Nat) : Int) ≤ INT_MAX := by
        rw [List.countP_cons_of_neg _ _ (by simp [LifecycleCall.is_BuildEdgeStarted])] at hn
        exact hn
      obtain ⟨q, hq⟩ := ih (StatusPrinter_PlanHasTotalEdges p total) running hd hv hb2 hw he
        hf hr hn2
      exact ⟨q, hq⟩
    | BuildStarted => exact absurd (hb _ (List.mem_cons_self _ _)) (by decide)
    | BuildEdgeStarted edge t =>
      have hn1 : p.started_edges_
          + ((cs.countP LifecycleCall.is_BuildEdgeStarted : Nat) : Int) + 1 ≤ INT_MAX := by
        rw [List.countP_cons_of_pos _ _ (by simp [LifecycleCall.is_BuildEdgeStarted])] at hn
        push_cast at hn
        omega
      have hcnt : (0 : Int) ≤ ((cs.countP LifecycleCall.is_BuildEdgeStarted : Nat) : Int) :=
        Int.natCast_nonneg _
      have hs1 : INT_MIN ≤ p.started_edges_ + 1 ∧ p.started_edges_ + 1 ≤ INT_MAX := by
        simp only [INT_MIN, INT_MAX] at hn1 ⊢
        omega
      have hr1 : INT_MIN ≤ p.running_edges_ + 1 ∧ p.running_edges_ + 1 ≤ INT_MAX := by
        simp only [INT_MIN, INT_MAX] at hn1 ⊢
        omega
      obtain ⟨p1, h1, hd1⟩ := BuildEdgeStarted_default rt p edge t hd hs1 hr1
      obtain ⟨e1, e2, e3, _, e5, _⟩ := BuildEdgeStarted_ok rt p p1 edge t h1
      obtain ⟨q, hq⟩ := ih p1 (edge.id_ :: running) hd1 (by rw [e5]; exact hv) hb2 hw
        (by rw [e1, e2, e3]; omega) (by rw [e3]; exact hf)
        (by rw [e2, hr, List.length_cons]; push_cast; rfl)
        (by rw [e1]; omega)
      refine ⟨q, ?_⟩
      unfold StatusPrinter_calls
      have h1c : StatusPrinter_call rt p (.BuildEdgeStarted edge t) = .ok p1 := h1
      rw [h1c]
      exact hq
    | BuildEdgeFinished edge t result =>
      have hn2 : p.started_edges_
          + ((cs.countP LifecycleCall.is_BuildEdgeStarted : Nat) : Int) ≤ INT_MAX := by
        rw [List.countP_cons_of_neg _ _ (by simp [LifecycleCall.is_BuildEdgeStarted])] at hn
        exact hn
      have hcnt : (0 : Int) ≤ ((cs.countP LifecycleCall.is_BuildEdgeStarted : Nat) : Int) :=
        Int.natCast_nonneg _
      simp only [finishes_started, Bool.and_eq_true] at hw
      have hm : edge.id_ ∈ running := by
        have := hw.1
        simpa using this
      have hl := List.length_erase_of_mem hm
      have hpos : 0 < running.length := List.length_pos_of_mem hm
      have hf1 : INT_MIN ≤ p.finished_edges_ + 1 ∧ p.finished_edges_ + 1 ≤ INT_MAX := by
        simp only [INT_MIN, INT_MAX] at hn2 ⊢
        omega
      have hr1 : INT_MIN ≤ p.running_edges_ - 1 ∧ p.running_edges_ - 1 ≤ INT_MAX := by
        simp only [INT_MIN, INT_MAX] at hn2 ⊢
        omega
      obtain ⟨p1, h1, hd1⟩ := BuildEdgeFinished_default rt p edge t result hd hf1 hr1
      obtain ⟨e1, e2, e3, _, e5, _⟩ := BuildEdgeFinished_ok rt p p1 edge t result h1
      rw [if_neg hv] at e2
      obtain ⟨q, hq⟩ := ih p1 (running.erase edge.id_) hd1 (by rw [e5]; exact hv) hb2 hw.2
        (by rw [e1, e2, e3]; omega) (by rw [e3]; omega)
        (by rw [e2, hr, hl]; omega)
        (by rw [e1]; exact hn2)
      refine ⟨q, ?_⟩
      unfold StatusPrinter_calls
      have h1c : StatusPrinter_call rt p (.BuildEdgeFinished edge t result) = .ok p1 := h1
      rw [h1c]
      exact hq
    | BuildFinished =>
      have hn2 : p.started_edges_
          + ((cs.countP LifecycleCall.is_BuildEdgeStarted : Nat) : Int) ≤ INT_MAX := by
        rw [List.countP_cons_of_neg _ _ (by simp [LifecycleCall.is_BuildEdgeStarted])] at hn
        exact hn
      obtain ⟨q, hq⟩ := ih (StatusPrinter_BuildFinished p) running hd hv hb2 hw he hf hr hn2
      exact ⟨q, hq⟩

theorem BuildEdgeStarted_overflow (rt : StatusPrinter → RateTexts) (p : StatusPrinter)
    (edge : Edge) (t : Int)
    (h : ¬ (INT_MIN ≤ p.started_edges_ + 1 ∧ p.started_edges_ + 1 ≤ INT_MAX)) :
    StatusPrinter_BuildEdgeStarted rt p edge t = .overflow := by
  unfold StatusPrinter_BuildEdgeStarted
  rw [int_value_none _ h]

theorem BuildEdgeStarted_silent (rt : StatusPrinter → RateTexts) (p : StatusPrinter)
    (edge : Edge) (t : Int) (he : edge.use_console = false)
    (hs : p.printer_.smart_terminal_ = false)
    (h1 : INT_MIN ≤ p.started_edges_ + 1 ∧ p.started_edges_ + 1 ≤ INT_MAX)
    (h2 : INT_MIN ≤ p.running_edges_ + 1 ∧ p.running_edges_ + 1 ≤ INT_MAX) :
    ∃ q, StatusPrinter_BuildEdgeStarted rt p edge t = .ok q ∧
      q.printer_.smart_terminal_ = false ∧
      q.started_edges_ = p.started_edges_ + 1 ∧ q.running_edges_ = p.running_edges_ + 1 := by
  unfold StatusPrinter_BuildEdgeStarted
  rw [int_value_of_range _ h1]
  dsimp only
  rw [int_value_of_range _ h2]
  dsimp only
  rw [he, hs]
  exact ⟨_, rfl, hs, rfl, rfl⟩

theorem starts_overflow (rt : StatusPrinter → RateTexts) (edge : Edge) (t : Int)
    (he : edge.use_console = false) :
    ∀ (n : Nat) (p : StatusPrinter), p.printer_.smart_terminal_ = false →
      (n : Int) ≤ INT_MAX → p.started_edges_ = INT_MAX - n →
      p.running_edges_ = p.started_edges_ →
      StatusPrinter_calls rt p (List.replicate (n + 1) (.BuildEdgeStarted edge t))
        = .overflow := by
  intro n
  induction n with
  | zero =>
    intro p _ _ hs _
    have h : StatusPrinter_call rt p (.BuildEdgeStarted edge t) = .overflow := by
      apply BuildEdgeStarted_overflow
      rw [hs]
      simp [INT_MIN, INT_MAX]
    rw [List.replicate_succ]
    unfold StatusPrinter_calls
    rw [h]
  | succ n ih =>
    intro p hsm hn hs hr
    have hn0 : (0 : Int) ≤ (n : Int) := Int.natCast_nonneg _
    have h1 : INT_MIN ≤ p.started_edges_ + 1 ∧ p.started_edges_ + 1 ≤ INT_MAX := by
      rw [hs]
      simp only [INT_MIN, INT_MAX] at hn ⊢
      push_cast at hn ⊢
      omega
    obtain ⟨q, hq, q1, q2, q3⟩ := BuildEdgeStarted_silent rt p edge t he hsm h1
      (by rw [hr]; exact h1)
    have hc : StatusPrinter_call rt p (.BuildEdgeStarted edge t) = .ok q := hq
    rw [List.replicate_succ]
    unfold StatusPrinter_calls
    rw [hc]
    refine ih q q1 ?_ ?_ ?_
    · push_cast at hn
      omega
    · rw [q2, hs]
      push_cast
      omega
    · rw [q3, q2, hr]

theorem starts_overflow_after_BuildStarted (rt : StatusPrinter → RateTexts) (edge : Edge)
    (t : Int) (he : edge.use_console = false) (n N : Nat) (p : StatusPrinter)
    (hN : N = n + 1) (hsm : p.printer_.smart_terminal_ = false)
    (hn : (n : Int) = INT_MAX) :
    StatusPrinter_calls rt p (.BuildStarted :: List.replicate N (.BuildEdgeStarted edge t))
      = .overflow := by
  subst hN
  have h : StatusPrinter_calls rt p
        (.BuildStarted :: List.replicate (n + 1) (.BuildEdgeStarted edge t))
      = StatusPrinter_calls rt (StatusPrinter_BuildStarted p)
          (List.replicate (n + 1) (.BuildEdgeStarted edge t)) := rfl
  rw [h]
  exact starts_overflow rt edge t he n (StatusPrinter_BuildStarted p) hsm (le_of_eq hn)
    (by rw [hn]; exact (sub_self _).symm) rfl

theorem finishes_started_replicate (edge : Edge) (t : Int) :
    ∀ (n : Nat) (running : List Int),
      finishes_started running (List.replicate n (.BuildEdgeStarted edge t)) = true := by
  intro n
  induction n with
  | zero => intro running; rfl
  | succ n ih =>
    intro running
    rw [List.replicate_succ]
    exact ih _

/-- C25 as stated fails. With quiet verbosity, after `BuildStarted`, the start
and the finish of one edge, the counters are started 1, finished 1 and
running 1: `BuildEdgeFinished` returns before it decrements `running_edges_`.
With normal verbosity, a second `BuildStarted` while an edge is running resets
the counters, and the finish of that edge leaves running at -1. And the
counters are `int`: after `BuildStarted`, the last of 2^31 calls of
`BuildEdgeStarted` increments `started_edges_` beyond the values of `int`. -/
theorem C25_counters_counterexample :
    (finishes_started []
        [.BuildEdgeStarted
            { id_ := 1, inputs_ := [], outputs_ := [], description := [], command := [],
              use_console := false } 0,
          .BuildEdgeFinished
            { id_ := 1, inputs_ := [], outputs_ := [], description := [], command := [],
              use_console := false } 1 { status := 0, output := [] }] = true ∧
      (StatusPrinter_calls (fun _ => { overall := [], current := [], elapsed := [] })
        (StatusPrinter_new { verbosity := Verbosity.QUIET, parallelism := 1 } false none)
        [.BuildStarted,
          .BuildEdgeStarted
            { id_ := 1, inputs_ := [], outputs_ := [], description := [], command := [],
              use_console := false } 0,
          .BuildEdgeFinished
            { id_ := 1, inputs_ := [], outputs_ := [], description := [], command := [],
              use_console := false } 1 { status := 0, output := [] }]).returned.map
        (fun q => (q.started_edges_, q.finished_edges_, q.running_edges_))
        = some (1, 1, 1)) ∧
    (finishes_started []
        [.BuildEdgeStarted
            { id_ := 1, inputs_ := [], outputs_ := [], description := [], command := [],
              use_console := false } 0,
          .BuildStarted,
          .BuildEdgeFinished
            { id_ := 1, inputs_ := [], outputs_ := [], description := [], command := [],
              use_console := false } 1 { status := 0, output := [] }] = true ∧
      (StatusPrinter_calls (fun _ => { overall := [], current := [], elapsed := [] })
        (StatusPrinter_new { verbosity := Verbosity.NORMAL, parallelism := 1 } false none)
        [.BuildStarted,
          .BuildEdgeStarted
            { id_ := 1, inputs_ := [], outputs_ := [], description := [], command := [],
              use_console := false } 0,
          .BuildStarted,
          .BuildEdgeFinished
            { id_ := 1, inputs_ := [], outputs_ := [], description := [], command := [],
              use_console := false } 1 { status := 0, output := [] }]).returned.map
        (fun q => (q.started_edges_, q.finished_edges_, q.running_edges_))
        = some (0, 1, -1)) ∧
    (finishes_started []
        (List.replicate 2147483648 (.BuildEdgeStarted
          { id_ := 1, inputs_ := [], outputs_ := [], description := [], command := [],
            use_console := false } 0)) = true ∧
      StatusPrinter_calls (fun _ => { overall := [], current := [], elapsed := [] })
        (StatusPrinter_new { verbosity := Verbosity.NORMAL, parallelism := 1 } false none)
        (.BuildStarted :: List.replicate 2147483648 (.BuildEdgeStarted
          { id_ := 1, inputs_ := [], outputs_ := [], description := [], command := [],
            use_console := false } 0))
        = .overflow) :=
  ⟨by decide, by decide, finishes_started_replicate _ _ _ _,
    starts_overflow_after_BuildStarted _ _ _ rfl 2147483647 2147483648 _ (by decide) rfl
      (by decide)⟩

/-- C25, amended: with normal or verbose verbosity, for every sequence of
lifecycle calls that starts with `BuildStarted`, has no further `BuildStarted`,
has fewer than 2^31 calls of `BuildEdgeStarted`, and in which each
`BuildEdgeFinished` is for an edge previously started and not yet finished,
after each call (after the first `k` calls, for every `k`) that returned,
`running_edges_` equals `started_edges_` minus `finished_edges_` and all three
are non-negative. With the default template every call returns. -/
theorem C25_counters (rt : StatusPrinter → RateTexts) (p : StatusPrinter)
    (cs : List LifecycleCall) (k : Nat)
    (hv : p.config_.verbosity ≠ Verbosity.QUIET)
    (hb : ∀ c ∈ cs, c.is_BuildStarted = false)
    (hw : finishes_started [] cs = true)
    (hn : ((cs.countP LifecycleCall.is_BuildEdgeStarted : Nat) : Int) ≤ INT_MAX) :
    (∀ q, StatusPrinter_calls rt p (.BuildStarted :: cs.take k) = .ok q →
      q.running_edges_ = q.started_edges_ - q.finished_edges_ ∧ 0 ≤ q.started_edges_ ∧
        0 ≤ q.finished_edges_ ∧ 0 ≤ q.running_edges_) ∧
    (p.progress_status_format_ = [91, 37, 102, 47, 37, 116, 93, 32] →
      ∃ q, StatusPrinter_calls rt p (.BuildStarted :: cs.take k) = .ok q) := by
  constructor
  · intro q h
    have h2 : StatusPrinter_calls rt (StatusPrinter_BuildStarted p) (cs.take k) = .ok q := h
    have := calls_counters rt (cs.take k) (StatusPrinter_BuildStarted p) q [] hv
      (fun c hc => hb c (List.mem_of_mem_take hc)) (finishes_started_take cs [] k hw)
      rfl (le_refl _) rfl h2
    refine ⟨this.1, ?_, this.2.1, this.2.2⟩
    omega
  · intro hd
    have hle : (cs.take k).countP LifecycleCall.is_BuildEdgeStarted
        ≤ cs.countP LifecycleCall.is_BuildEdgeStarted :=
      (List.take_sublist k cs).countP_le _
    have hle2 : (((cs.take k).countP LifecycleCall.is_BuildEdgeStarted : Nat) : Int)
        ≤ ((cs.countP LifecycleCall.is_BuildEdgeStarted : Nat) : Int) := by
      exact_mod_cast hle
    exact calls_return_default rt (cs.take k) (StatusPrinter_BuildStarted p) [] hd hv
      (fun c hc => hb c (List.mem_of_mem_take hc)) (finishes_started_take cs [] k hw)
      rfl (le_refl _) rfl
      (by
        show (0 : Int) + _ ≤ INT_MAX
        omega)

/-- Witness of C25: with normal verbosity, `BuildStarted`, two edges started
and one of them finished leave started 2, finished 1 and running 1. -/
theorem C25_counters_witness :
    (∀ q, StatusPrinter_calls (fun _ => { overall := [], current := [], elapsed := [] })
        (StatusPrinter_new { verbosity := Verbosity.NORMAL, parallelism := 1 } false none)
        (.BuildStarted ::
          ([.BuildEdgeStarted
              { id_ := 1, inputs_ := [], outputs_ := [], description := [], command := [],
                use_console := false } 0,
            .BuildEdgeStarted
              { id_ := 2, inputs_ := [], outputs_ := [], description := [], command := [],
                use_console := true } 1,
            .BuildEdgeFinished
              { id_ := 1, inputs_ := [], outputs_ := [], description := [], command := [],
                use_console := false } 2 { status := 0, output := [] }] :
            List LifecycleCall).take 3) = .ok q →
      q.running_edges_ = q.started_edges_ - q.finished_edges_ ∧ 0 ≤ q.started_edges_ ∧
        0 ≤ q.finished_edges_ ∧ 0 ≤ q.running_edges_) ∧
    ∃ q, StatusPrinter_calls (fun _ => { overall := [], current := [], elapsed := [] })
        (StatusPrinter_new { verbosity := Verbosity.NORMAL, parallelism := 1 } false none)
        (.BuildStarted ::
          ([.BuildEdgeStarted
              { id_ := 1, inputs_ := [], outputs_ := [], description := [], command := [],
                use_console := false } 0,
            .BuildEdgeStarted
              { id_ := 2, inputs_ := [], outputs_ := [], description := [], command := [],
                use_console := true } 1,
            .BuildEdgeFinished
              { id_ := 1, inputs_ := [], outputs_ := [], description := [], command := [],
                use_console := false } 2 { status := 0, output := [] }] :
            List LifecycleCall).take 3) = .ok q :=
  have h := C25_counters (fun _ => { overall := [], current := [], elapsed := [] })
    (StatusPrinter_new { verbosity := Verbosity.NORMAL, parallelism := 1 } false none)
    [.BuildEdgeStarted
        { id_ := 1, inputs_ := [], outputs_ := [], description := [], command := [],
          use_console := false } 0,
      .BuildEdgeStarted
        { id_ := 2, inputs_ := [], outputs_ := [], description := [], command := [],
          use_console := true } 1,
      .BuildEdgeFinished
        { id_ := 1, inputs_ := [], outputs_ := [], description := [], command := [],
          use_console := false } 2 { status := 0, output := [] }]
    3 (by decide) (by decide) (by decide) (by decide)
  ⟨h.1, h.2 rfl⟩

/-! ## The divisor of the percentage -/

theorem loop_nul (p : StatusPrinter) (rt : RateTexts) (s out : List Nat) :
    FormatProgressStatus_loop p rt (0 :: s) out = .ok out := by
  cases s <;> rfl

theorem loop_no_division (p : StatusPrinter) (rt : RateTexts) (t : List Nat)
    (hz : p.total_edges_ ≠ 0) :
    ∀ out : List Nat, FormatProgressStatus_loop p rt t out ≠ .division_by_zero := by
  induction t using placeholders.induct with
  | case1 => intro out; simp [FormatProgressStatus_loop]
  | case2 => intro out; simp [FormatProgressStatus_loop]
  | case3 c hc =>
    intro out
    by_cases h0 : c = 0
    · subst h0
      rw [loop_nul]
      simp
    · rw [loop_literal p rt c [] out h0 hc]
      simp [FormatProgressStatus_loop]
  | case4 c2 s ih =>
    intro out
    by_cases hk : c2 ∈ known_placeholders
    · rcases loop_known_or_overflow p rt c2 s out hk hz with ⟨out2, e⟩ | e
      · rw [e]
        exact ih out2
      · rw [e]
        simp
    · rw [loop_unknown p rt c2 s out hk]
      simp
  | case5 c c2 s hc ih =>
    intro out
    by_cases h0 : c = 0
    · subst h0
      rw [loop_nul]
      simp
    · rw [loop_literal p rt c _ out h0 hc]
      exact ih _

theorem call_total (rt : StatusPrinter → RateTexts) (p q : StatusPrinter) (c : LifecycleCall)
    (h : StatusPrinter_call rt p c = .ok q) :
    q.total_edges_ = (last_total [c]).getD p.total_edges_ := by
  cases c with
  | PlanHasTotalEdges total =>
    injection h with h
    subst h
    rfl
  | BuildStarted =>
    injection h with h
    subst h
    rfl
  | BuildEdgeStarted edge t => exact (BuildEdgeStarted_ok rt p q edge t h).2.2.2.1
  | BuildEdgeFinished edge t result => exact (BuildEdgeFinished_ok rt p q edge t result h).2.2.2.1
  | BuildFinished =>
    injection h with h
    subst h
    rfl

theorem last_total_cons (c : LifecycleCall) (cs : List LifecycleCall) :
    last_total (c :: cs) = match last_total cs with
      | some t => some t
      | none => last_total [c] := by
  cases c <;> cases h : last_total cs <;> simp [last_total, h]

theorem calls_total (rt : StatusPrinter → RateTexts) (cs : List LifecycleCall) :
    ∀ (p q : StatusPrinter), StatusPrinter_calls rt p cs = .ok q →
      q.total_edges_ = (last_total cs).getD p.total_edges_ := by
  induction cs with
  | nil =>
    intro p q h
    injection h with h
    subst h
    rfl
  | cons c cs ih =>
    intro p q h
    unfold StatusPrinter_calls at h
    split at h
    · rename_i p1 h1
      rw [ih p1 q h, call_total rt p p1 c h1]
      have e := last_total_cons c cs
      cases hl : last_total cs with
      | none =>
        rw [hl] at e
        rw [e]
        rfl
      | some v =>
        rw [hl] at e
        rw [e]
        rfl
    · exact absurd h (by simp)
    · exact absurd h (by simp)
    · exact absurd h (by simp)

/-- C26 as stated fails: a new `StatusPrinter` has `total_edges_` 0, and
`PlanHasTotalEdges(0)` keeps it 0; with the template "%p" and a smart
terminal, the start of an edge then evaluates `FormatProgressStatus`, which
divides by zero. -/
theorem C26_total_edges_counterexample :
    (StatusPrinter_new { verbosity := Verbosity.NORMAL, parallelism := 1 } true
      (some [37, 112])).total_edges_ = 0 ∧
    StatusPrinter_calls (fun _ => { overall := [], current := [], elapsed := [] })
      (StatusPrinter_new { verbosity := Verbosity.NORMAL, parallelism := 1 } true
        (some [37, 112]))
      [.BuildStarted,
        .BuildEdgeStarted
          { id_ := 1, inputs_ := [], outputs_ := [], description := [], command := [],
            use_console := false } 0]
      = .division_by_zero ∧
    StatusPrinter_calls (fun _ => { overall := [], current := [], elapsed := [] })
      (StatusPrinter_new { verbosity := Verbosity.NORMAL, parallelism := 1 } true
        (some [37, 112]))
      [.PlanHasTotalEdges 0, .BuildStarted,
        .BuildEdgeStarted
          { id_ := 1, inputs_ := [], outputs_ := [], description := [], command := [],
            use_console := false } 0]
      = .division_by_zero :=
  ⟨rfl, rfl, rfl⟩

/-- C26, amended: `total_edges_` is the total of the last `PlanHasTotalEdges`
call, and what it was before when there is none (0 at construction). In every
state reached through lifecycle calls among which the last `PlanHasTotalEdges`
passed a non-zero total, `total_edges_` is non-zero and `FormatProgressStatus`
does not divide by zero on any template. -/
theorem C26_total_edges (rt : StatusPrinter → RateTexts) (p q : StatusPrinter)
    (cs : List LifecycleCall) (total : Int) (rt2 : RateTexts) (t : List Nat) (time : Int)
    (h : StatusPrinter_calls rt p cs = .ok q) (hl : last_total cs = some total)
    (hz : total ≠ 0) :
    q.total_edges_ = total ∧ q.total_edges_ ≠ 0 ∧
    StatusPrinter_FormatProgressStatus q rt2 t time ≠ .division_by_zero := by
  have e : q.total_edges_ = total := by
    rw [calls_total rt cs p q h, hl]
    rfl
  refine ⟨e, by rw [e]; exact hz, ?_⟩
  exact loop_no_division q rt2 t (by rw [e]; exact hz) []

/-- Witness of C26: with the template "%p" and a smart terminal, after
`PlanHasTotalEdges(10)`, `BuildStarted` and the start of an edge, the total is
10. -/
theorem C26_total_edges_witness :
    (StatusPrinter.total_edges_
        { config_ := { verbosity := Verbosity.NORMAL, parallelism := 1 },
          started_edges_ := 1, finished_edges_ := 0, total_edges_ := 10,
          running_edges_ := 1, time_millis_ := 0, progress_status_format_ := [37, 112],
          printer_ := { smart_terminal_ := true, console_locked_ := false } }) = 10 ∧
    (StatusPrinter.total_edges_
        { config_ := { verbosity := Verbosity.NORMAL, parallelism := 1 },
          started_edges_ := 1, finished_edges_ := 0, total_edges_ := 10,
          running_edges_ := 1, time_millis_ := 0, progress_status_format_ := [37, 112],
          printer_ := { smart_terminal_ := true, console_locked_ := false } }) ≠ 0 ∧
    StatusPrinter_FormatProgressStatus
        { config_ := { verbosity := Verbosity.NORMAL, parallelism := 1 },
          started_edges_ := 1, finished_edges_ := 0, total_edges_ := 10,
          running_edges_ := 1, time_millis_ := 0, progress_status_format_ := [37, 112],
          printer_ := { smart_terminal_ := true, console_locked_ := false } }
        { overall := [], current := [], elapsed := [] } [37, 112] 0
      ≠ .division_by_zero :=
  C26_total_edges (fun _ => { overall := [], current := [], elapsed := [] })
    (StatusPrinter_new { verbosity := Verbosity.NORMAL, parallelism := 1 } true
      (some [37, 112]))
    { config_ := { verbosity := Verbosity.NORMAL, parallelism := 1 },
      started_edges_ := 1, finished_edges_ := 0, total_edges_ := 10,
      running_edges_ := 1, time_millis_ := 0, progress_status_format_ := [37, 112],
      printer_ := { smart_terminal_ := true, console_locked_ := false } }
    [.PlanHasTotalEdges 10, .BuildStarted,
      .BuildEdgeStarted
        { id_ := 1, inputs_ := [], outputs_ := [], description := [], command := [],
          use_console := false } 0]
    10 { overall := [], current := [], elapsed := [] } [37, 112] 0
    (by
      simp [StatusPrinter_calls, StatusPrinter_call, StatusPrinter_BuildEdgeStarted,
        StatusPrinter_BuildStarted, StatusPrinter_PlanHasTotalEdges, StatusPrinter_new,
        StatusPrinter_PrintStatus, StatusPrinter_FormatProgressStatus,
        FormatProgressStatus_loop, int_value, INT_MIN, INT_MAX])
    rfl (by decide)

/-! ## The scanner on a content with a known rest -/

theorem is_plain_iff (c : Nat) : is_plain c = true ↔ yybm.getD c 0 &&& 128 ≠ 0 := by
  unfold is_plain
  simp

theorem castS_32_len (n : Nat) (h : (n : Int) ≤ INT_MAX) : castS 32 (n : Int) = n := by
  simp only [INT_MAX] at h
  rw [castS_32]
  split_ifs <;> omega

theorem castU_64_len (n : Nat) (h : (n : Int) ≤ INT_MAX) : castU 64 (n : Int) = n := by
  simp only [INT_MAX] at h
  rw [castU_natCast]
  exact Nat.mod_eq_of_lt (by norm_num; omega)

theorem yy6_eq (s : List Nat) : ∀ i : Nat, yy6 s i = i + 1 + (s.takeWhile is_plain).length := by
  induction s with
  | nil => intro i; rfl
  | cons c s ih =>
    intro i
    unfold yy6
    by_cases h : is_plain c = true
    · rw [if_pos ((is_plain_iff c).mp h), ih, List.takeWhile_cons_of_pos h, List.length_cons]
      omega
    · rw [if_neg (fun hc => h ((is_plain_iff c).mpr hc)), List.takeWhile_cons_of_neg h]
      rfl

theorem store_append (A B : List Nat) (x c : Nat) :
    store (A ++ x :: B) (A.length : Int) c = some (A ++ c :: B) := by
  unfold store
  rw [if_pos ⟨Int.natCast_nonneg _, by simp⟩]
  simp

theorem getD_append_junk (A J R : List Nat) (k : Nat) :
    (A ++ J ++ R).getD (A.length + J.length + k) 0 = R.getD k 0 := by
  rw [← List.length_append, List.getD_append_right _ _ _ _ (by omega)]
  congr 1
  omega

theorem drop_append_junk (A J R : List Nat) (k : Nat) :
    (A ++ J ++ R).drop (A.length + J.length + k) = R.drop k := by
  rw [← List.length_append, List.drop_append]

theorem memmove_junk (A J run R : List Nat) :
    memmove (A ++ J ++ (run ++ R)) (A.length : Int) (A.length + J.length) run.length
      = some (A ++ run ++ (J ++ run).drop run.length ++ R) := by
  unfold memmove
  rw [if_pos ⟨Int.natCast_nonneg _, by simp; omega, by simp; omega⟩]
  congr 1
  have e1 : (A ++ J ++ (run ++ R)).take (A.length : Int).toNat = A := by
    rw [Int.toNat_natCast, List.append_assoc, List.take_left']
    rfl
  have e2 : ((A ++ J ++ (run ++ R)).drop (A.length + J.length)).take run.length = run := by
    rw [← List.length_append, List.drop_left', List.take_left']
    · rfl
    · rfl
  have e3 : (A ++ J ++ (run ++ R)).drop ((A.length : Int).toNat + run.length)
      = (J ++ run).drop run.length ++ R := by
    rw [Int.toNat_natCast, List.append_assoc, ← List.drop_drop, List.drop_left',
      ← List.append_assoc, List.drop_append_of_le_length (by simp)]
    rfl
  rw [e1, e2, e3, List.append_assoc (A ++ run)]

theorem scan_in (A J R : List Nat) :
    (A ++ J ++ R).getD (A.length + J.length) 0 = R.getD 0 0 :=
  getD_append_junk A J R 0

theorem scan_nil (A J : List Nat) :
    Parse_scan (A ++ J ++ []) (A.length + J.length) (A.length : Int)
      = .step (A ++ J ++ []) (A.length + J.length + 1) (A.length : Int) false := by
  unfold Parse_scan
  dsimp only
  rw [scan_in]
  rfl

theorem scan_separator (A J s : List Nat) (c : Nat) (hp : is_plain c = false)
    (h36 : c ≠ 36) (h92 : c ≠ 92) :
    Parse_scan (A ++ J ++ c :: s) (A.length + J.length) (A.length : Int)
      = .step (A ++ J ++ c :: s) (A.length + J.length + 1) (A.length : Int) false := by
  unfold Parse_scan
  dsimp only
  rw [scan_in]
  have hn : ¬ (yybm.getD c 0 &&& 128 ≠ 0) := by
    intro h
    rw [(is_plain_iff c).mpr h] at hp
    exact absurd hp (by decide)
  simp only [List.getD_cons_zero]
  rw [if_neg hn]
  by_cases h1 : c ≤ 36
  · rw [if_pos h1]
    by_cases h2 : c ≤ 0
    · rw [if_pos h2]
    · rw [if_neg h2, if_pos (by omega)]
  · rw [if_neg h1, if_neg h92]

theorem scan_plain (A J s : List Nat) (c : Nat) (hp : is_plain c = true)
    (hb : ((A ++ J ++ c :: s).length : Int) ≤ INT_MAX) :
    Parse_scan (A ++ J ++ c :: s) (A.length + J.length) (A.length : Int)
      = .step
          ((A ++ (c :: s.takeWhile is_plain))
            ++ (J ++ (c :: s.takeWhile is_plain)).drop (c :: s.takeWhile is_plain).length
            ++ s.dropWhile is_plain)
          (A.length + J.length + (c :: s.takeWhile is_plain).length)
          ((A ++ (c :: s.takeWhile is_plain)).length : Int) true := by
  have hrun : (c :: s.takeWhile is_plain).length ≤ (A ++ J ++ c :: s).length := by
    have := (List.takeWhile_sublist is_plain (l := s)).length_le
    simp only [List.length_append, List.length_cons]
    omega
  have hlen : ((c :: s.takeWhile is_plain).length : Int) ≤ INT_MAX :=
    le_trans (by exact_mod_cast hrun) hb
  have hsplit : c :: s = (c :: s.takeWhile is_plain) ++ s.dropWhile is_plain := by
    rw [List.cons_append, List.takeWhile_append_dropWhile]
  unfold Parse_scan
  dsimp only
  rw [scan_in]
  simp only [List.getD_cons_zero]
  rw [if_pos ((is_plain_iff c).mp hp), drop_append_junk, yy6_eq]
  have ei : ((A.length + J.length + 1 + (s.takeWhile is_plain).length : Nat) : Int)
      - ((A.length + J.length : Nat) : Int) = ((c :: s.takeWhile is_plain).length : Nat) := by
    rw [List.length_cons]
    push_cast
    omega
  simp only [List.drop_one, List.tail_cons]
  rw [ei, castS_32_len _ hlen, castU_64_len _ hlen]
  by_cases hj : J = []
  · subst hj
    rw [if_neg (by simp)]
    simp only [List.append_nil, List.nil_append, List.drop_length, List.length_append,
      List.length_nil, Nat.add_zero, List.cons_append, List.takeWhile_append_dropWhile,
      List.length_cons, Nat.cast_add, Nat.cast_one]
    congr 1
    · have e : List.drop ((s.takeWhile is_plain).length + 1) (c :: s.takeWhile is_plain) = [] :=
        List.drop_eq_nil_of_le (by simp)
      rw [e, List.append_nil, List.append_assoc, List.cons_append,
        List.takeWhile_append_dropWhile]
    · omega
  · have hjl : 0 < J.length := List.length_pos.mpr hj
    rw [if_pos (by push_cast; omega)]
    conv_lhs => rw [hsplit]
    rw [memmove_junk]
    simp only [List.length_append, List.length_cons, Nat.cast_add, Nat.cast_one]
    congr 1
    omega

theorem store_junk (A X : List Nat) (c : Nat) (hX : X ≠ []) :
    store (A ++ X) (A.length : Int) c = some (A ++ c :: X.tail) := by
  obtain ⟨x, B, rfl⟩ := List.exists_cons_of_ne_nil hX
  exact store_append A B x c

theorem tail_append_of_ne_nil (X Y : List Nat) (hX : X ≠ []) : (X ++ Y).tail = X.tail ++ Y := by
  cases X with
  | nil => exact absurd rfl hX
  | cons x X => rfl

theorem scan_not_plain (A J s : List Nat) (c : Nat) (hp : is_plain c = false) :
    ¬ (yybm.getD ((A ++ J ++ c :: s).getD (A.length + J.length) 0) 0 &&& 128 ≠ 0) := by
  rw [scan_in]
  intro h
  rw [List.getD_cons_zero, ← is_plain_iff, hp] at h
  exact absurd h (by decide)

theorem scan_next (A J s : List Nat) (c : Nat) :
    (A ++ J ++ c :: s).getD (A.length + J.length + 1) 0 = s.getD 0 0 := by
  rw [getD_append_junk]
  rfl

theorem scan_dollar1 (A J s : List Nat) (h : s.getD 0 0 ≠ 36) :
    Parse_scan (A ++ J ++ 36 :: s) (A.length + J.length) (A.length : Int)
      = .step (A ++ J ++ 36 :: s) (A.length + J.length + 1) (A.length : Int) false := by
  unfold Parse_scan
  dsimp only
  rw [if_neg (scan_not_plain A J s 36 (by decide)), scan_in, scan_next]
  simp only [List.getD_cons_zero]
  rw [if_pos (by decide), if_neg (by decide), if_neg (by decide), if_neg h]

theorem scan_dollar2 (A J s : List Nat) :
    Parse_scan (A ++ J ++ 36 :: 36 :: s) (A.length + J.length) (A.length : Int)
      = .step ((A ++ [36]) ++ (J ++ [36, 36]).tail ++ s) (A.length + J.length + 2)
          ((A ++ [36]).length : Int) true := by
  unfold Parse_scan
  dsimp only
  rw [if_neg (scan_not_plain A J _ 36 (by decide)), scan_in, scan_next]
  simp only [List.getD_cons_zero]
  rw [if_pos (by decide), if_neg (by decide), if_neg (by decide), if_pos trivial]
  unfold yy15
  rw [List.append_assoc, store_junk A _ 36 (by simp)]
  dsimp only
  congr 1
  · have : J ++ 36 :: 36 :: s = (J ++ [36, 36]) ++ s := by simp
    rw [this, tail_append_of_ne_nil _ _ (by simp)]
    simp
  · simp

theorem scan_bs_break (A J s : List Nat)
    (h : s.getD 0 0 = 0 ∨ s.getD 0 0 = 10 ∨ s.getD 0 0 = 13) :
    Parse_scan (A ++ J ++ 92 :: s) (A.length + J.length) (A.length : Int)
      = .step (A ++ J ++ 92 :: s) (A.length + J.length + 1) (A.length : Int) false := by
  unfold Parse_scan
  dsimp only
  rw [if_neg (scan_not_plain A J s 92 (by decide)), scan_in]
  simp only [List.getD_cons_zero]
  rw [if_neg (by decide), if_pos trivial]
  unfold yy10
  dsimp only
  rw [scan_next]
  rcases h with h | h | h <;> rw [h] <;> rfl

theorem scan_bs_escape (A J s : List Nat) (c2 : Nat) (h : c2 ∈ escapes) :
    Parse_scan (A ++ J ++ 92 :: c2 :: s) (A.length + J.length) (A.length : Int)
      = .step ((A ++ [c2]) ++ (J ++ [92, c2]).tail ++ s) (A.length + J.length + 2)
          ((A ++ [c2]).length : Int) true := by
  have hy : yy10 (A ++ J ++ 92 :: c2 :: s) (A.length + J.length) (A.length : Int)
      = yy15 (A ++ J ++ 92 :: c2 :: s) (A.length + J.length + 1) (A.length : Int) c2 := by
    unfold yy10
    dsimp only
    rw [scan_next]
    simp only [List.getD_cons_zero]
    simp only [escapes, List.mem_cons, List.mem_singleton, List.not_mem_nil, or_false] at h
    rcases h with h | h | h | h | h | h <;> subst h <;> rfl
  unfold Parse_scan
  dsimp only
  rw [if_neg (scan_not_plain A J _ 92 (by decide)), scan_in]
  simp only [List.getD_cons_zero]
  rw [if_neg (by decide), if_pos trivial, hy]
  unfold yy15
  rw [List.append_assoc, store_junk A _ c2 (by simp)]
  dsimp only
  congr 1
  · have : J ++ 92 :: c2 :: s = (J ++ [92, c2]) ++ s := by simp
    rw [this, tail_append_of_ne_nil _ _ (by simp)]
    simp
  · simp

theorem scan_bs_verbatim (A J s : List Nat) (c2 : Nat) (h : c2 ∉ escapes)
    (h0 : c2 ≠ 0) (h10 : c2 ≠ 10) (h13 : c2 ≠ 13) :
    Parse_scan (A ++ J ++ 92 :: c2 :: s) (A.length + J.length) (A.length : Int)
      = .step ((A ++ [92, c2]) ++ (J ++ [92, c2]).drop 2 ++ s) (A.length + J.length + 2)
          ((A ++ [92, c2]).length : Int) true := by
  simp only [escapes, List.mem_cons, List.mem_singleton, List.not_mem_nil, or_false,
    not_or] at h
  have hy : yy10 (A ++ J ++ 92 :: c2 :: s) (A.length + J.length) (A.length : Int)
      = yy13 (A ++ J ++ 92 :: c2 :: s) (A.length + J.length + 1) (A.length : Int) c2 := by
    unfold yy10
    dsimp only
    rw [scan_next]
    simp only [List.getD_cons_zero]
    split_ifs <;> first | rfl | omega
  unfold Parse_scan
  dsimp only
  rw [if_neg (scan_not_plain A J _ 92 (by decide)), scan_in]
  simp only [List.getD_cons_zero]
  rw [if_neg (by decide), if_pos trivial, hy]
  unfold yy13
  rw [List.append_assoc, store_junk A _ 92 (by simp)]
  dsimp only
  have e1 : A ++ 92 :: (J ++ 92 :: c2 :: s).tail = (A ++ [92]) ++ (J ++ 92 :: c2 :: s).tail := by
    simp
  have e2 : ((A.length : Int) + 1) = ((A ++ [92]).length : Int) := by simp
  have hne : (J ++ 92 :: c2 :: s).tail ≠ [] := by
    cases J with
    | nil => simp
    | cons x J => simp
  rw [e1, e2, store_junk (A ++ [92]) _ c2 hne]
  dsimp only
  congr 1
  · cases J with
    | nil => simp
    | cons x J =>
      cases J with
      | nil => simp
      | cons y J => simp
  · simp

/-! ## The loop of one filename -/

theorem fs_plain (c : Nat) (s : List Nat) (h : is_plain c = true) :
    filename_span (c :: s) = (c :: (filename_span s).1, (filename_span s).2 + 1) := by
  rw [filename_span.eq_def]
  simp only [h, if_true]

theorem fs_separator (c : Nat) (s : List Nat) (h : is_plain c = false) (h36 : c ≠ 36)
    (h92 : c ≠ 92) : filename_span (c :: s) = ([], 1) := by
  rw [filename_span.eq_def]
  simp only [h, Bool.false_eq_true, if_false, if_neg h36, if_neg h92]

theorem fs_dollar1 (s : List Nat) (h : s.getD 0 0 ≠ 36) : filename_span (36 :: s) = ([], 1) := by
  rw [filename_span.eq_def]
  cases s with
  | nil => rfl
  | cons c2 s2 =>
    have h2 : c2 ≠ 36 := h
    simp only [if_neg h2]
    rfl

theorem fs_dollar2 (s : List Nat) :
    filename_span (36 :: 36 :: s) = (36 :: (filename_span s).1, (filename_span s).2 + 2) := by
  rw [filename_span.eq_def]
  rfl

theorem fs_bs_break (s : List Nat)
    (h : s.getD 0 0 = 0 ∨ s.getD 0 0 = 10 ∨ s.getD 0 0 = 13) :
    filename_span (92 :: s) = ([], 1) := by
  rw [filename_span.eq_def]
  cases s with
  | nil => rfl
  | cons c2 s2 =>
    have h2 : c2 = 0 ∨ c2 = 10 ∨ c2 = 13 := h
    simp only [if_pos h2]
    rfl

theorem fs_bs_escape (c2 : Nat) (s : List Nat) (h : c2 ∈ escapes) :
    filename_span (92 :: c2 :: s) = (c2 :: (filename_span s).1, (filename_span s).2 + 2) := by
  have h2 : ¬ (c2 = 0 ∨ c2 = 10 ∨ c2 = 13) := by
    simp only [escapes, List.mem_cons, List.mem_singleton, List.not_mem_nil, or_false] at h
    omega
  rw [filename_span.eq_def]
  simp only [if_neg h2, if_pos h]
  rfl

theorem fs_bs_verbatim (c2 : Nat) (s : List Nat) (h : c2 ∉ escapes) (h0 : c2 ≠ 0)
    (h10 : c2 ≠ 10) (h13 : c2 ≠ 13) :
    filename_span (92 :: c2 :: s)
      = (92 :: c2 :: (filename_span s).1, (filename_span s).2 + 2) := by
  have h2 : ¬ (c2 = 0 ∨ c2 = 10 ∨ c2 = 13) := by omega
  rw [filename_span.eq_def]
  simp only [if_neg h2, if_neg h]
  rfl

theorem filename_span_run (s : List Nat) :
    filename_span s
      = (s.takeWhile is_plain ++ (filename_span (s.dropWhile is_plain)).1,
          (s.takeWhile is_plain).length + (filename_span (s.dropWhile is_plain)).2) := by
  induction s with
  | nil => simp [filename_span]
  | cons c s ih =>
    by_cases h : is_plain c = true
    · rw [List.takeWhile_cons_of_pos h, List.dropWhile_cons_of_pos h]
      conv_lhs => rw [fs_plain c s h, ih]
      simp only [List.cons_append, List.length_cons]
      congr 1
      omega
    · rw [List.takeWhile_cons_of_neg h, List.dropWhile_cons_of_neg h]
      simp

theorem filename_continue (fuel : Nat) (C C1 : List Nat) (i i1 : Nat) (o o1 : Int)
    (h : Parse_scan C i o = .step C1 i1 o1 true) :
    Parse_filename (fuel + 1) C i o = Parse_filename fuel C1 i1 o1 := by
  rw [Parse_filename, h]

theorem filename_break (fuel : Nat) (C C1 : List Nat) (i i1 : Nat) (o o1 : Int)
    (h : Parse_scan C i o = .step C1 i1 o1 false) :
    Parse_filename (fuel + 1) C i o = some (.step C1 i1 o1 false) := by
  rw [Parse_filename, h]

theorem filename_refines_nil (A J : List Nat) (fuel : Nat) (hf : 1 ≤ fuel) :
    ∃ J', Parse_filename fuel (A ++ J ++ []) (A.length + J.length) (A.length : Int)
        = some (.step ((A ++ (filename_span []).1) ++ J' ++ [].drop (filename_span []).2)
            (A.length + J.length + (filename_span []).2)
            ((A ++ (filename_span []).1).length : Int) false) ∧
      J'.length + (filename_span []).1.length + (([] : List Nat).drop (filename_span []).2).length
        = J.length + ([] : List Nat).length := by
  obtain ⟨f, rfl⟩ : ∃ f, fuel = f + 1 := ⟨fuel - 1, by omega⟩
  refine ⟨J, ?_, ?_⟩
  · rw [filename_break f _ _ _ _ _ _ (scan_nil A J)]
    simp [filename_span]
  · simp [filename_span]

theorem drop_run (s : List Nat) (k : Nat) :
    s.drop ((s.takeWhile is_plain).length + k) = (s.dropWhile is_plain).drop k := by
  have h : (s.takeWhile is_plain ++ s.dropWhile is_plain).drop (s.takeWhile is_plain).length
      = s.dropWhile is_plain := List.drop_left' rfl
  rw [List.takeWhile_append_dropWhile] at h
  rw [← List.drop_drop, h]

theorem filename_refines_break (A J s : List Nat) (c : Nat) (fuel : Nat) (hf : 1 ≤ fuel)
    (hscan : Parse_scan (A ++ J ++ c :: s) (A.length + J.length) (A.length : Int)
      = .step (A ++ J ++ c :: s) (A.length + J.length + 1) (A.length : Int) false)
    (hfs : filename_span (c :: s) = ([], 1)) :
    ∃ J', Parse_filename fuel (A ++ J ++ c :: s) (A.length + J.length) (A.length : Int)
        = some (.step ((A ++ (filename_span (c :: s)).1) ++ J'
              ++ (c :: s).drop (filename_span (c :: s)).2)
            (A.length + J.length + (filename_span (c :: s)).2)
            ((A ++ (filename_span (c :: s)).1).length : Int) false) ∧
      J'.length + (filename_span (c :: s)).1.length
          + ((c :: s).drop (filename_span (c :: s)).2).length
        = J.length + (c :: s).length := by
  obtain ⟨f, rfl⟩ : ∃ f, fuel = f + 1 := ⟨fuel - 1, by omega⟩
  refine ⟨J ++ [c], ?_, ?_⟩
  · rw [filename_break f _ _ _ _ _ _ hscan, hfs]
    simp
  · rw [hfs]
    simp
    omega

theorem filename_refines_continue (A J J1 E s2 : List Nat) (t1 t2 : Nat) (f : Nat)
    (hscan : Parse_scan (A ++ J ++ t1 :: t2 :: s2) (A.length + J.length) (A.length : Int)
      = .step ((A ++ E) ++ J1 ++ s2) (A.length + J.length + 2) ((A ++ E).length : Int) true)
    (hJ1 : J1.length + E.length = J.length + 2)
    (hfs : filename_span (t1 :: t2 :: s2)
      = (E ++ (filename_span s2).1, (filename_span s2).2 + 2))
    (ih : ∃ J', Parse_filename f ((A ++ E) ++ J1 ++ s2) ((A ++ E).length + J1.length)
          ((A ++ E).length : Int)
        = some (.step (((A ++ E) ++ (filename_span s2).1) ++ J'
              ++ s2.drop (filename_span s2).2)
            ((A ++ E).length + J1.length + (filename_span s2).2)
            (((A ++ E) ++ (filename_span s2).1).length : Int) false) ∧
      J'.length + (filename_span s2).1.length + (s2.drop (filename_span s2).2).length
        = J1.length + s2.length) :
    ∃ J', Parse_filename (f + 1) (A ++ J ++ t1 :: t2 :: s2) (A.length + J.length)
          (A.length : Int)
        = some (.step ((A ++ (filename_span (t1 :: t2 :: s2)).1) ++ J'
              ++ (t1 :: t2 :: s2).drop (filename_span (t1 :: t2 :: s2)).2)
            (A.length + J.length + (filename_span (t1 :: t2 :: s2)).2)
            ((A ++ (filename_span (t1 :: t2 :: s2)).1).length : Int) false) ∧
      J'.length + (filename_span (t1 :: t2 :: s2)).1.length
          + ((t1 :: t2 :: s2).drop (filename_span (t1 :: t2 :: s2)).2).length
        = J.length + (t1 :: t2 :: s2).length := by
  obtain ⟨J', h1, h2⟩ := ih
  have hin : A.length + J.length + 2 = (A ++ E).length + J1.length := by
    rw [List.length_append]
    omega
  refine ⟨J', ?_, ?_⟩
  · rw [filename_continue f _ _ _ _ _ _ hscan, hin, h1, hfs]
    simp only [List.drop_succ_cons, List.append_assoc]
    congr 2
    rw [List.length_append]
    omega
  · rw [hfs]
    simp only [List.drop_succ_cons, List.length_append, List.length_cons]
    omega

theorem filename_refines (n : Nat) :
    ∀ (R : List Nat), R.length ≤ n → ∀ (A J : List Nat) (fuel : Nat), n + 1 ≤ fuel →
      ((A ++ J ++ R).length : Int) ≤ INT_MAX →
      ∃ J', Parse_filename fuel (A ++ J ++ R) (A.length + J.length) (A.length : Int)
          = some (.step ((A ++ (filename_span R).1) ++ J' ++ R.drop (filename_span R).2)
              (A.length + J.length + (filename_span R).2)
              ((A ++ (filename_span R).1).length : Int) false) ∧
        J'.length + (filename_span R).1.length + (R.drop (filename_span R).2).length
          = J.length + R.length := by
  induction n with
  | zero =>
    intro R hR A J fuel hf _
    have : R = [] := List.length_eq_zero.mp (by omega)
    subst this
    exact filename_refines_nil A J fuel (by omega)
  | succ n ih =>
    intro R hR A J fuel hf hb
    cases R with
    | nil => exact filename_refines_nil A J fuel (by omega)
    | cons c s =>
      obtain ⟨f, rfl⟩ : ∃ f, fuel = f + 1 := ⟨fuel - 1, by omega⟩
      have hs : s.length ≤ n := by
        rw [List.length_cons] at hR
        omega
      have hf2 : n + 1 ≤ f := by omega
      by_cases hp : is_plain c = true
      · have hscan := scan_plain A J s c hp hb
        rw [filename_continue f _ _ _ _ _ _ hscan]
        have hR1 : (s.dropWhile is_plain).length ≤ n :=
          le_trans (List.dropWhile_sublist is_plain (l := s)).length_le hs
        have hlen : (s.takeWhile is_plain).length + (s.dropWhile is_plain).length = s.length := by
          rw [← List.length_append, List.takeWhile_append_dropWhile]
        generalize hrun : (c :: s.takeWhile is_plain) = run
        have hrl : run.length = (s.takeWhile is_plain).length + 1 := by rw [← hrun]; rfl
        have hJ1 : ((J ++ run).drop run.length).length = J.length := by simp
        have hin : A.length + J.length + run.length
            = (A ++ run).length + ((J ++ run).drop run.length).length := by
          rw [hJ1, List.length_append]
          omega
        rw [hin]
        obtain ⟨J', h1, h2⟩ := ih (s.dropWhile is_plain) hR1 (A ++ run)
          ((J ++ run).drop run.length) f hf2
          (by
            refine le_trans ?_ hb
            rw [List.length_append, List.length_append, hJ1, List.length_append,
              List.length_append, List.length_append, List.length_cons]
            push_cast
            omega)
        have e1 : (filename_span (c :: s)).1
            = run ++ (filename_span (s.dropWhile is_plain)).1 := by
          rw [fs_plain c s hp, filename_span_run s, ← hrun]
          rfl
        have e2 : (filename_span (c :: s)).2
            = run.length + (filename_span (s.dropWhile is_plain)).2 := by
          rw [fs_plain c s hp, filename_span_run s, hrl]
          dsimp only
          omega
        have e3 : (c :: s).drop (filename_span (c :: s)).2
            = (s.dropWhile is_plain).drop (filename_span (s.dropWhile is_plain)).2 := by
          rw [e2, hrl, Nat.add_right_comm, List.drop_succ_cons, drop_run]
        refine ⟨J', ?_, ?_⟩
        · rw [h1, e1, e3, e2, hJ1, List.append_assoc A run]
          congr 2
          rw [List.length_append]
          omega
        · rw [e1, e3, List.length_append, List.length_cons]
          rw [hJ1] at h2
          omega
      · have hp2 : is_plain c = false := by
          cases h : is_plain c
          · rfl
          · exact absurd h hp
        by_cases h36 : c = 36
        · subst h36
          cases s with
          | nil =>
            exact filename_refines_break A J [] 36 (f + 1) (by omega)
              (scan_dollar1 A J [] (by decide)) (fs_dollar1 [] (by decide))
          | cons c2 s2 =>
            by_cases h2 : c2 = 36
            · subst h2
              have hs2 : s2.length ≤ n := by
                rw [List.length_cons] at hs
                omega
              have hj : ((J ++ [36, 36]).tail).length + [36].length = J.length + 2 := by simp
              exact filename_refines_continue A J _ [36] s2 36 36 f (scan_dollar2 A J s2) hj
                (fs_dollar2 s2)
                (ih s2 hs2 (A ++ [36]) _ f hf2 (by
                  refine le_trans ?_ hb
                  simp only [List.length_append, List.length_cons, List.length_tail,
                    List.length_nil]
                  push_cast
                  omega))
            · exact filename_refines_break A J (c2 :: s2) 36 (f + 1) (by omega)
                (scan_dollar1 A J (c2 :: s2) h2) (fs_dollar1 (c2 :: s2) h2)
        · by_cases h92 : c = 92
          · subst h92
            cases s with
            | nil =>
              exact filename_refines_break A J [] 92 (f + 1) (by omega)
                (scan_bs_break A J [] (Or.inl rfl)) (fs_bs_break [] (Or.inl rfl))
            | cons c2 s2 =>
              have hs2 : s2.length ≤ n := by
                rw [List.length_cons] at hs
                omega
              by_cases hb2 : c2 = 0 ∨ c2 = 10 ∨ c2 = 13
              · exact filename_refines_break A J (c2 :: s2) 92 (f + 1) (by omega)
                  (scan_bs_break A J (c2 :: s2) hb2) (fs_bs_break (c2 :: s2) hb2)
              · by_cases he : c2 ∈ escapes
                · have hj : ((J ++ [92, c2]).tail).length + [c2].length = J.length + 2 := by
                    simp
                  exact filename_refines_continue A J _ [c2] s2 92 c2 f
                    (scan_bs_escape A J s2 c2 he) hj (fs_bs_escape c2 s2 he)
                    (ih s2 hs2 (A ++ [c2]) _ f hf2 (by
                      refine le_trans ?_ hb
                      simp only [List.length_append, List.length_cons, List.length_tail,
                        List.length_nil]
                      push_cast
                      omega))
                · have hj : ((J ++ [92, c2]).drop 2).length + [92, c2].length = J.length + 2 := by
                    simp
                  exact filename_refines_continue A J _ [92, c2] s2 92 c2 f
                    (scan_bs_verbatim A J s2 c2 he (by omega) (by omega) (by omega)) hj
                    (fs_bs_verbatim c2 s2 he (by omega) (by omega) (by omega))
                    (ih s2 hs2 (A ++ [92, c2]) _ f hf2 (by
                      refine le_trans ?_ hb
                      simp only [List.length_append, List.length_cons, List.length_drop,
                        List.length_nil]
                      push_cast
                      omega))
          · exact filename_refines_break A J s c (f + 1) (by omega)
              (scan_separator A J s c hp2 h36 h92) (fs_separator c s hp2 h36 h92)

/-! ## The loop over the filenames -/

theorem StringPiece_holds_mono (P X : List Nat) (sp : StringPiece) (v : List Nat)
    (h : sp.holds P v) : sp.holds (P ++ X) v := by
  obtain ⟨ptr, h1, h2, h3⟩ := h
  refine ⟨ptr, h1, by rw [List.length_append]; omega, ?_⟩
  rw [List.drop_append_of_le_length (by omega), List.take_append_of_le_length, h3]
  rw [List.length_drop]
  omega

theorem StringPiece.holds_chars (P : List Nat) (sp : StringPiece) (v : List Nat)
    (h : sp.holds P v) : sp.chars P = v := by
  obtain ⟨ptr, h1, _, h3⟩ := h
  unfold StringPiece.chars
  rw [h1]
  exact h3

theorem DepfileParser_holds_mono (P X : List Nat) (parser : DepfileParser)
    (out : Option (List Nat)) (ins : List (List Nat)) (h : parser.holds P out ins) :
    parser.holds (P ++ X) out ins := by
  obtain ⟨h1, h2⟩ := h
  constructor
  · cases out with
    | none => exact h1
    | some o => exact StringPiece_holds_mono P X _ o h1
  · exact h2.imp (fun sp v hv => StringPiece_holds_mono P X sp v hv)

theorem fs_pos (R : List Nat) : 1 ≤ (filename_span R).2 := by
  rw [filename_span.eq_def]
  split
  · exact le_refl _
  · split_ifs
    · omega
    · split
      · exact le_refl _
      · split_ifs <;> omega
    · split
      · exact le_refl _
      · split_ifs <;> omega
    · exact le_refl _

theorem depfile_filenames_fuel (f1 : Nat) :
    ∀ (f2 : Nat) (s : List Nat), s.length ≤ f1 → s.length ≤ f2 →
      depfile_filenames f1 s = depfile_filenames f2 s := by
  induction f1 with
  | zero =>
    intro f2 s h1 _
    have : s = [] := List.length_eq_zero.mp (by omega)
    subst this
    cases f2 <;> simp [depfile_filenames]
  | succ f1 ih =>
    intro f2 s h1 h2
    cases f2 with
    | zero =>
      have : s = [] := List.length_eq_zero.mp (by omega)
      subst this
      simp [depfile_filenames]
    | succ f2 =>
      unfold depfile_filenames
      by_cases hs : s = []
      · rw [if_pos hs, if_pos hs]
      · rw [if_neg hs, if_neg hs]
        have hp := fs_pos s
        have hl : 0 < s.length := List.length_pos.mpr hs
        rw [ih f2 _ (by rw [List.length_drop]; omega) (by rw [List.length_drop]; omega)]

theorem loop_end (f : Nat) (content : List Nat) (in_ end_ : Nat) (pt : Bool)
    (parser : DepfileParser) (err : String) (h : end_ ≤ in_) :
    Parse_loop (f + 1) content in_ end_ pt parser err
      = if pt then .returned false content parser "expected ':' in depfile"
        else .returned true content parser err := by
  rw [Parse_loop, if_neg (by omega)]

theorem getD_last (P t X : List Nat) (ht : t ≠ []) :
    ((P ++ t) ++ X).getD ((P.length : Int) + ((t.length : Int) - 1)).toNat 0
      = t.getLast ht := by
  have hl : 0 < t.length := List.length_pos.mpr ht
  have e : ((P.length : Int) + ((t.length : Int) - 1)).toNat = P.length + (t.length - 1) := by
    omega
  rw [e, List.append_assoc, List.getD_append_right _ _ _ _ (by omega),
    Nat.add_sub_cancel_left, List.getD_append _ _ _ _ (by omega), List.getD_eq_getElem _ _ (by omega),
    List.getLast_eq_getElem]

theorem strip_eq (P t X : List Nat) :
    (decide ((t.length : Int) > 0)
        && (((P ++ t) ++ X).getD ((P.length : Int) + ((t.length : Int) - 1)).toNat 0 == 58))
      = (t.getLast? == some 58) := by
  by_cases ht : t = []
  · subst ht
    rfl
  · have hl : 0 < t.length := List.length_pos.mpr ht
    rw [getD_last P t X ht, List.getLast?_eq_getLast _ ht]
    have : decide ((t.length : Int) > 0) = true := by
      rw [decide_eq_true_iff]
      omega
    rw [this, Bool.true_and]
    by_cases h : t.getLast ht = 58
    · rw [h]
      rfl
    · have h1 : (t.getLast ht == 58) = false := by
        rw [beq_eq_false_iff_ne]
        exact h
      have h2 : (some (t.getLast ht) == some 58) = false := by
        rw [beq_eq_false_iff_ne]
        exact fun e => h (Option.some.inj e)
      rw [h1, h2]

theorem loop_step (f : Nat) (P R t X : List Nat) (i1 : Nat) (pt : Bool)
    (parser : DepfileParser) (err : String) (hR : R ≠ []) (ht : (t.length : Int) ≤ INT_MAX)
    (htok : Parse_filename ((P ++ R).length + 2) (P ++ R) P.length (P.length : Int)
      = some (.step ((P ++ t) ++ X) i1 ((P ++ t).length : Int) false)) :
    Parse_loop (f + 1) (P ++ R) P.length (P ++ R).length pt parser err
      = if (if (t.getLast? == some 58) then t.dropLast else t) = [] then
          Parse_loop f ((P ++ t) ++ X) i1 (P ++ R).length
            (if (t.getLast? == some 58) then false else pt) parser err
        else if !pt then
          Parse_loop f ((P ++ t) ++ X) i1 (P ++ R).length
            (if (t.getLast? == some 58) then false else pt)
            { parser with
              ins_ := parser.ins_ ++ [StringPiece.mk (some P.length)
                (if (t.getLast? == some 58) then t.dropLast else t).length] } err
        else if parser.out_.str_ = none then
          Parse_loop f ((P ++ t) ++ X) i1 (P ++ R).length
            (if (t.getLast? == some 58) then false else pt)
            { parser with
              out_ := StringPiece.mk (some P.length)
                (if (t.getLast? == some 58) then t.dropLast else t).length } err
        else if parser.out_.chars ((P ++ t) ++ X)
            ≠ StringPiece.chars ((P ++ t) ++ X) (StringPiece.mk (some P.length)
                (if (t.getLast? == some 58) then t.dropLast else t).length) then
          .returned false ((P ++ t) ++ X) parser "depfile has multiple output paths"
        else
          Parse_loop f ((P ++ t) ++ X) i1 (P ++ R).length
            (if (t.getLast? == some 58) then false else pt) parser err := by
  have hRl : 0 < R.length := List.length_pos.mpr hR
  have hlen : castS 32 ((((P ++ t).length : Nat) : Int) - ((P.length : Nat) : Int))
      = (t.length : Int) := by
    rw [List.length_append]
    push_cast
    rw [add_sub_cancel_left]
    exact castS_32_len _ ht
  rw [Parse_loop, if_pos (by rw [List.length_append]; omega)]
  dsimp only
  rw [htok]
  dsimp only
  rw [hlen, strip_eq]
  by_cases hs : (t.getLast? == some 58) = true
  · have hne : t ≠ [] := by
      intro e
      rw [e] at hs
      exact absurd hs (by decide)
    have hl : 0 < t.length := List.length_pos.mpr hne
    have hd : (t.length : Int) - 1 = (t.dropLast.length : Int) := by
      rw [List.length_dropLast]
      omega
    simp only [hs, if_true]
    rw [hd, castU_64_len _ (le_trans (by rw [List.length_dropLast]; omega) ht)]
    simp only [Nat.cast_eq_zero, List.length_eq_zero]
  · have hs2 : (t.getLast? == some 58) = false := by
      cases h : (t.getLast? == some 58)
      · rfl
      · exact absurd h hs
    simp only [hs2, Bool.false_eq_true, if_false]
    rw [castU_64_len _ ht]
    simp only [Nat.cast_eq_zero, List.length_eq_zero]

theorem piece_new (P t X name : List Nat) (h : name <+: t) :
    StringPiece.holds ((P ++ t) ++ X) (StringPiece.mk (some P.length) name.length) name := by
  obtain ⟨r, rfl⟩ := h
  refine ⟨P.length, rfl, ?_, ?_⟩
  · simp only [List.length_append]
    omega
  · simp only [List.append_assoc, List.drop_left, List.take_left]

theorem name_prefix (t : List Nat) (b : Bool) : (if b then t.dropLast else t) <+: t := by
  cases b
  · exact List.prefix_refl t
  · exact List.dropLast_prefix t

theorem Parse_filenames_cons (t : List Nat) (ts : List (List Nat)) (pt : Bool)
    (out : Option (List Nat)) (ins : List (List Nat)) :
    Parse_filenames (t :: ts) pt out ins
      = if (if (t.getLast? == some 58) then t.dropLast else t) = [] then
          Parse_filenames ts (if (t.getLast? == some 58) then false else pt) out ins
        else if !pt then
          Parse_filenames ts (if (t.getLast? == some 58) then false else pt) out
            (ins ++ [if (t.getLast? == some 58) then t.dropLast else t])
        else
          match out with
          | none =>
            Parse_filenames ts (if (t.getLast? == some 58) then false else pt)
              (some (if (t.getLast? == some 58) then t.dropLast else t)) ins
          | some o =>
            if o ≠ (if (t.getLast? == some 58) then t.dropLast else t) then
              (false, out, ins, some "depfile has multiple output paths")
            else Parse_filenames ts (if (t.getLast? == some 58) then false else pt) out ins := by
  cases out <;> rfl

theorem depfile_filenames_cons (c : Nat) (s : List Nat) :
    depfile_filenames (c :: s).length (c :: s)
      = (filename_span (c :: s)).1
        :: depfile_filenames ((c :: s).drop (filename_span (c :: s)).2).length
            ((c :: s).drop (filename_span (c :: s)).2) := by
  have hp := fs_pos (c :: s)
  rw [List.length_cons, depfile_filenames, if_neg (by simp)]
  congr 1
  apply depfile_filenames_fuel
  · rw [List.length_drop, List.length_cons]
    omega
  · exact le_refl _

theorem loop_refines (n : Nat) :
    ∀ (R : List Nat), R.length ≤ n → ∀ (P : List Nat) (fuel : Nat) (pt : Bool)
      (parser : DepfileParser) (err : String) (out : Option (List Nat))
      (ins : List (List Nat)),
      n + 1 ≤ fuel → ((P ++ R).length : Int) ≤ INT_MAX → parser.holds P out ins →
      ∃ content' parser',
        Parse_loop fuel (P ++ R) P.length (P ++ R).length pt parser err
          = .returned (Parse_filenames (depfile_filenames R.length R) pt out ins).1 content'
              parser' ((Parse_filenames (depfile_filenames R.length R) pt out ins).2.2.2.getD err)
          ∧ content'.length = (P ++ R).length
          ∧ parser'.holds content' (Parse_filenames (depfile_filenames R.length R) pt out ins).2.1
              (Parse_filenames (depfile_filenames R.length R) pt out ins).2.2.1 := by
  have base : ∀ (P : List Nat) (f : Nat) (i : Nat) (pt : Bool) (parser : DepfileParser)
      (err : String) (out : Option (List Nat)) (ins : List (List Nat)),
      P.length ≤ i → parser.holds P out ins →
      ∃ content' parser',
        Parse_loop (f + 1) P i P.length pt parser err
          = .returned (Parse_filenames [] pt out ins).1 content'
              parser' ((Parse_filenames [] pt out ins).2.2.2.getD err)
          ∧ content'.length = P.length
          ∧ parser'.holds content' (Parse_filenames [] pt out ins).2.1
              (Parse_filenames [] pt out ins).2.2.1 := by
    intro P f i pt parser err out ins hi hh
    refine ⟨P, parser, ?_, rfl, ?_⟩
    · rw [loop_end f P i P.length pt parser err hi]
      cases pt <;> rfl
    · cases pt <;> exact hh
  induction n with
  | zero =>
    intro R hR P fuel pt parser err out ins hf hb hh
    have : R = [] := List.length_eq_zero.mp (by omega)
    subst this
    obtain ⟨f, rfl⟩ : ∃ f, fuel = f + 1 := ⟨fuel - 1, by omega⟩
    rw [List.append_nil]
    exact base P f P.length pt parser err out ins (le_refl _) hh
  | succ n ih =>
    intro R hR P fuel pt parser err out ins hf hb hh
    obtain ⟨f, rfl⟩ : ∃ f, fuel = f + 1 := ⟨fuel - 1, by omega⟩
    cases R with
    | nil =>
      rw [List.append_nil]
      exact base P f P.length pt parser err out ins (le_refl _) hh
    | cons c s =>
      have hk := fs_pos (c :: s)
      obtain ⟨J', htok, hlen⟩ := filename_refines (c :: s).length (c :: s) (le_refl _) P []
        ((P ++ c :: s).length + 2) (by rw [List.length_append]; omega)
        (by rw [List.append_nil]; exact hb)
      simp only [List.append_nil, List.length_nil, Nat.add_zero, Nat.zero_add] at htok hlen
      generalize ht : (filename_span (c :: s)).1 = t at htok hlen
      generalize hkk : (filename_span (c :: s)).2 = k at htok hlen hk
      generalize hR1 : (c :: s).drop k = R1 at htok hlen
      have hR1l : R1.length = (c :: s).length - k := by rw [← hR1, List.length_drop]
      have htl : (t.length : Int) ≤ INT_MAX := by
        refine le_trans ?_ hb
        rw [List.length_append]
        push_cast
        omega
      rw [List.append_assoc (P ++ t)] at htok
      have hstep := loop_step f P (c :: s) t (J' ++ R1) (P.length + k) pt parser err
        (by simp) htl htok
      rw [hstep, depfile_filenames_cons, ht, hkk, hR1, Parse_filenames_cons]
      have hP1 : (P ++ t) ++ (J' ++ R1) = ((P ++ t) ++ J') ++ R1 := by
        rw [List.append_assoc (P ++ t)]
      have hcl : (((P ++ t) ++ J') ++ R1).length = (P ++ c :: s).length := by
        simp only [List.length_append] at hlen ⊢
        omega
      have cont : ∀ (pt2 : Bool) (parser2 : DepfileParser) (out2 : Option (List Nat))
          (ins2 : List (List Nat)), parser2.holds ((P ++ t) ++ J') out2 ins2 →
          ∃ content' parser',
            Parse_loop f ((P ++ t) ++ (J' ++ R1)) (P.length + k) (P ++ c :: s).length pt2
                parser2 err
              = .returned (Parse_filenames (depfile_filenames R1.length R1) pt2 out2 ins2).1
                  content' parser'
                  ((Parse_filenames (depfile_filenames R1.length R1) pt2 out2 ins2).2.2.2.getD
                    err)
              ∧ content'.length = (P ++ c :: s).length
              ∧ parser'.holds content'
                  (Parse_filenames (depfile_filenames R1.length R1) pt2 out2 ins2).2.1
                  (Parse_filenames (depfile_filenames R1.length R1) pt2 out2 ins2).2.2.1 := by
        intro pt2 parser2 out2 ins2 hh2
        rw [hP1]
        by_cases hR1e : R1 = []
        · subst hR1e
          have hkl : (c :: s).length ≤ k := by
            have := hR1l
            rw [List.length_nil] at this
            omega
          obtain ⟨f2, rfl⟩ : ∃ f2, f = f2 + 1 := ⟨f - 1, by omega⟩
          rw [List.append_nil] at hcl ⊢
          rw [← hcl]
          have := base ((P ++ t) ++ J') f2 (P.length + k) pt2 parser2 err out2 ins2
            (by
              rw [hcl, List.length_append]
              omega) hh2
          simpa [depfile_filenames] using this
        · have hR1p : 0 < R1.length := List.length_pos.mpr hR1e
          have hin : P.length + k = ((P ++ t) ++ J').length := by
            simp only [List.length_append] at hlen ⊢
            omega
          rw [hin, ← hcl]
          refine ih R1 (by omega) ((P ++ t) ++ J') f pt2 parser2
            err out2 ins2 (by omega) (by rw [hcl]; exact hb) hh2
      have hmono : parser.holds ((P ++ t) ++ J') out ins := by
        have := DepfileParser_holds_mono P (t ++ J') parser out ins hh
        rwa [← List.append_assoc] at this
      have hpre := name_prefix t (t.getLast? == some 58)
      generalize (if (t.getLast? == some 58) = true then t.dropLast else t) = name at hpre ⊢
      generalize (if (t.getLast? == some 58) = true then false else pt) = pt1
      have hnew := piece_new P t J' name hpre
      have hnewc : StringPiece.chars ((P ++ t) ++ (J' ++ R1))
          (StringPiece.mk (some P.length) name.length) = name :=
        StringPiece.holds_chars _ _ _ (piece_new P t (J' ++ R1) name hpre)
      by_cases h1 : name = []
      · rw [if_pos h1, if_pos h1]
        exact cont pt1 parser out ins hmono
      · rw [if_neg h1, if_neg h1]
        by_cases h2 : (!pt) = true
        · rw [if_pos h2, if_pos h2]
          refine cont pt1 _ out (ins ++ [name]) ⟨hmono.1, ?_⟩
          exact List.rel_append hmono.2 (List.Forall₂.cons hnew List.Forall₂.nil)
        · rw [if_neg h2, if_neg h2]
          cases out with
          | none =>
            have hs : parser.out_.str_ = none := hh.1
            rw [if_pos hs]
            exact cont pt1 _ (some name) ins ⟨hnew, hmono.2⟩
          | some o =>
            have ho : parser.out_.holds P o := hh.1
            have hs : ¬ parser.out_.str_ = none := by
              obtain ⟨ptr, hp, _⟩ := ho
              rw [hp]
              exact fun e => absurd e (by simp)
            have hoc : parser.out_.chars ((P ++ t) ++ (J' ++ R1)) = o := by
              have := StringPiece.holds_chars _ _ _
                (StringPiece_holds_mono P (t ++ (J' ++ R1)) _ o ho)
              rwa [← List.append_assoc] at this
            rw [if_neg hs, hoc, hnewc]
            dsimp only
            by_cases h3 : o ≠ name
            · rw [if_pos h3, if_pos h3]
              refine ⟨(P ++ t) ++ (J' ++ R1), parser, rfl, ?_, ?_⟩
              · rw [hP1]
                exact hcl
              · have := DepfileParser_holds_mono P (t ++ (J' ++ R1)) parser (some o) ins hh
                rwa [← List.append_assoc] at this
            · rw [if_neg h3, if_neg h3]
              exact cont pt1 parser (some o) ins hmono

theorem Parse_refines (content : List Nat) (err : String)
    (hb : (content.length : Int) ≤ INT_MAX) :
    ∃ content' parser',
      DepfileParser_Parse DepfileParser.fresh content err
        = .returned (Parse_filenames (depfile_filenames content.length content) true none []).1
            content' parser'
            ((Parse_filenames (depfile_filenames content.length content) true none
              []).2.2.2.getD err)
        ∧ content'.length = content.length
        ∧ parser'.holds content'
            (Parse_filenames (depfile_filenames content.length content) true none []).2.1
            (Parse_filenames (depfile_filenames content.length content) true none []).2.2.1 := by
  have h := loop_refines content.length content (le_refl _) [] (content.length + 1) true
    DepfileParser.fresh err none [] (le_refl _) (by rw [List.nil_append]; exact hb)
    ⟨rfl, List.Forall₂.nil⟩
  simp only [List.nil_append, List.length_nil] at h
  exact h

/-! ## Depfiles without a separator -/

theorem fs_mem (s : List Nat) : ∀ x ∈ (filename_span s).1, x ∈ s := by
  induction s using filename_span.induct with
  | case1 => intro x hx; simp [filename_span] at hx
  | case2 c s hp ih =>
    intro x hx
    rw [fs_plain c s hp] at hx
    rcases List.mem_cons.mp hx with e | e
    · rw [e]; exact List.mem_cons_self _ _
    · exact List.mem_cons_of_mem _ (ih x e)
  | case3 _ => intro x hx; rw [fs_dollar1 [] (by decide)] at hx; simp at hx
  | case4 s _ ih =>
    intro x hx
    rw [fs_dollar2] at hx
    rcases List.mem_cons.mp hx with e | e
    · rw [e]; exact List.mem_cons_self _ _
    · exact List.mem_cons_of_mem _ (List.mem_cons_of_mem _ (ih x e))
  | case5 c2 s h _ => intro x hx; rw [fs_dollar1 (c2 :: s) h] at hx; simp at hx
  | case6 _ _ => intro x hx; rw [fs_bs_break [] (Or.inl rfl)] at hx; simp at hx
  | case7 c2 s h _ _ => intro x hx; rw [fs_bs_break (c2 :: s) h] at hx; simp at hx
  | case8 c2 s _ he _ _ ih =>
    intro x hx
    rw [fs_bs_escape c2 s he] at hx
    rcases List.mem_cons.mp hx with e | e
    · rw [e]; exact List.mem_cons_of_mem _ (List.mem_cons_self _ _)
    · exact List.mem_cons_of_mem _ (List.mem_cons_of_mem _ (ih x e))
  | case9 c2 s hb he _ _ ih =>
    intro x hx
    rw [fs_bs_verbatim c2 s he (by omega) (by omega) (by omega)] at hx
    rcases List.mem_cons.mp hx with e | e
    · rw [e]; exact List.mem_cons_self _ _
    · rcases List.mem_cons.mp e with e | e
      · rw [e]; exact List.mem_cons_of_mem _ (List.mem_cons_self _ _)
      · exact List.mem_cons_of_mem _ (List.mem_cons_of_mem _ (ih x e))
  | case10 c s hp h36 h92 =>
    intro x hx
    have hp2 : is_plain c = false := by
      cases h : is_plain c
      · rfl
      · exact absurd h hp
    rw [fs_separator c s hp2 h36 h92] at hx
    simp at hx

theorem depfile_filenames_mem (fuel : Nat) :
    ∀ (s : List Nat), ∀ t ∈ depfile_filenames fuel s, ∀ x ∈ t, x ∈ s := by
  induction fuel with
  | zero => intro s t ht; simp [depfile_filenames] at ht
  | succ fuel ih =>
    intro s t ht x hx
    unfold depfile_filenames at ht
    split_ifs at ht with hs
    · simp at ht
    · rcases List.mem_cons.mp ht with e | e
      · rw [e] at hx
        exact fs_mem s x hx
      · exact List.mem_of_mem_drop (ih _ t e x hx)

theorem Parse_filenames_targets (ts : List (List Nat)) :
    ∀ (out : Option (List Nat)) (ins : List (List Nat)),
      (∀ t ∈ ts, t.getLast? ≠ some 58) →
      (Parse_filenames ts true out ins).1 = false ∧
      ((Parse_filenames ts true out ins).2.2.2 = some "expected ':' in depfile" ∨
        (Parse_filenames ts true out ins).2.2.2 = some "depfile has multiple output paths") ∧
      (∀ w, (out = none ∨ out = some w) → (∀ t ∈ ts, t ≠ [] → t = w) →
        (Parse_filenames ts true out ins).2.2.2 = some "expected ':' in depfile") := by
  induction ts with
  | nil =>
    intro out ins _
    exact ⟨rfl, Or.inl rfl, fun _ _ _ => rfl⟩
  | cons t ts ih =>
    intro out ins h
    have ht : (t.getLast? == some 58) = false := by
      rw [beq_eq_false_iff_ne]
      exact h t (List.mem_cons_self _ _)
    have h2 : ∀ t ∈ ts, t.getLast? ≠ some 58 := fun x hx => h x (List.mem_cons_of_mem _ hx)
    rw [Parse_filenames_cons]
    simp only [ht, Bool.false_eq_true, if_false, Bool.not_true]
    by_cases h1 : t = []
    · rw [if_pos h1]
      obtain ⟨a, b, c⟩ := ih out ins h2
      exact ⟨a, b, fun w ho hw => c w ho (fun x hx => hw x (List.mem_cons_of_mem _ hx))⟩
    · rw [if_neg h1]
      cases out with
      | none =>
        dsimp only
        obtain ⟨a, b, c⟩ := ih (some t) ins h2
        refine ⟨a, b, fun w _ hw => c w (Or.inr ?_)
          (fun x hx => hw x (List.mem_cons_of_mem _ hx))⟩
        rw [hw t (List.mem_cons_self _ _) h1]
      | some o =>
        dsimp only
        by_cases h3 : o ≠ t
        · rw [if_pos h3]
          refine ⟨rfl, Or.inr rfl, fun w ho hw => ?_⟩
          rcases ho with e | e
          · exact absurd e (by simp)
          · have e1 : o = w := Option.some.inj e
            have e2 := hw t (List.mem_cons_self _ _) h1
            exact absurd (e1.trans e2.symm) h3
        · rw [if_neg h3]
          obtain ⟨a, b, c⟩ := ih (some o) ins h2
          exact ⟨a, b, fun w ho hw => c w ho (fun x hx => hw x (List.mem_cons_of_mem _ hx))⟩

/-- C28, amended: `DepfileParser::Parse` succeeds only when a target separator
was seen. For every content shorter than 2^31 bytes that contains no colon
(the empty content included), `Parse` on a fresh parser returns false and sets
a non-empty error message, which is "expected ':' in depfile" whenever the
content holds at most one distinct filename. -/
theorem C28_no_separator (content : List Nat) (err : String)
    (hb : (content.length : Int) ≤ INT_MAX) (hc : 58 ∉ content) :
    ∃ content' parser' e,
      DepfileParser_Parse DepfileParser.fresh content err
        = .returned false content' parser' e ∧
      e ≠ "" ∧
      ((∀ t1 ∈ depfile_filenames content.length content,
          ∀ t2 ∈ depfile_filenames content.length content, t1 ≠ [] → t2 ≠ [] → t1 = t2) →
        e = "expected ':' in depfile") := by
  obtain ⟨content', parser', h, _, _⟩ := Parse_refines content err hb
  have hts : ∀ t ∈ depfile_filenames content.length content, t.getLast? ≠ some 58 := by
    intro t ht hl
    have hm : (58 : Nat) ∈ t := List.mem_of_mem_getLast? hl
    exact hc (depfile_filenames_mem _ content t ht 58 hm)
  obtain ⟨r1, r2, r3⟩ := Parse_filenames_targets (depfile_filenames content.length content)
    none [] hts
  rw [r1] at h
  refine ⟨content', parser', _, h, ?_, ?_⟩
  · rcases r2 with e | e
    · rw [e]
      show "expected ':' in depfile" ≠ ""
      decide
    · rw [e]
      show "depfile has multiple output paths" ≠ ""
      decide
  · intro hone
    have hw : ∃ w, ∀ t ∈ depfile_filenames content.length content, t ≠ [] → t = w := by
      by_cases hex : ∃ t ∈ depfile_filenames content.length content, t ≠ []
      · obtain ⟨w, hw1, hw2⟩ := hex
        exact ⟨w, fun t ht hne => hone t ht w hw1 hne hw2⟩
      · refine ⟨[], fun t ht hne => ?_⟩
        exact absurd ⟨t, ht, hne⟩ hex
    obtain ⟨w, hw⟩ := hw
    rw [r3 w (Or.inl rfl) hw]
    rfl

/-- Witness of C28: the content "abc abc", two copies of one filename and no
colon. -/
theorem C28_no_separator_witness :
    ∃ content' parser' e,
      DepfileParser_Parse DepfileParser.fresh [97, 98, 99, 32, 97, 98, 99] ""
        = .returned false content' parser' e ∧
      e ≠ "" ∧
      ((∀ t1 ∈ depfile_filenames ([97, 98, 99, 32, 97, 98, 99] : List Nat).length
            [97, 98, 99, 32, 97, 98, 99],
          ∀ t2 ∈ depfile_filenames ([97, 98, 99, 32, 97, 98, 99] : List Nat).length
            [97, 98, 99, 32, 97, 98, 99], t1 ≠ [] → t2 ≠ [] → t1 = t2) →
        e = "expected ':' in depfile") :=
  C28_no_separator [97, 98, 99, 32, 97, 98, 99] "" (by decide) (by decide)

/-! ## Paths and their escapes -/

set_option maxRecDepth 100000 in
theorem plain_filename_byte_iff : ∀ c < 256, plain_filename_byte c = is_plain c := by
  decide

theorem plain_filename_byte_lt (c : Nat) (h : plain_filename_byte c = true) : c < 256 := by
  unfold plain_filename_byte at h
  simp only [Bool.or_eq_true, Bool.and_eq_true, decide_eq_true_eq, List.contains_eq_any_beq,
    List.any_cons, List.any_nil, Bool.or_false, beq_iff_eq] at h
  omega

theorem is_plain_of_byte (c : Nat) (h : plain_filename_byte c = true) : is_plain c = true := by
  rw [← plain_filename_byte_iff c (plain_filename_byte_lt c h)]
  exact h

theorem fs_path (es : List PathChar) (hv : ∀ e ∈ es, e.valid = true) :
    filename_span (es.flatMap PathChar.text)
      = (es.flatMap PathChar.value, (es.flatMap PathChar.text).length + 1) := by
  induction es with
  | nil => rfl
  | cons e es ih =>
    have h1 := hv e (List.mem_cons_self _ _)
    have ih2 := ih (fun x hx => hv x (List.mem_cons_of_mem _ hx))
    rw [List.flatMap_cons, List.flatMap_cons]
    cases e with
    | plain c =>
      simp only [PathChar.text, PathChar.value, List.singleton_append, List.length_cons]
      rw [fs_plain c _ (is_plain_of_byte c h1), ih2]
    | escaped c =>
      have he : c ∈ escapes := by
        simpa [PathChar.valid] using h1
      simp only [PathChar.text, PathChar.value, List.cons_append, List.nil_append,
        List.length_cons]
      rw [fs_bs_escape c _ he, ih2]
    | dollar =>
      simp only [PathChar.text, PathChar.value, List.cons_append, List.nil_append,
        List.length_cons]
      rw [fs_dollar2, ih2]
    | verbatim c =>
      have hh : c ∉ escapes ∧ c ≠ 0 ∧ c ≠ 10 ∧ c ≠ 13 := by
        simpa [PathChar.valid, and_assoc] using h1
      simp only [PathChar.text, PathChar.value, List.cons_append, List.nil_append,
        List.length_cons]
      rw [fs_bs_verbatim c _ hh.1 hh.2.1 hh.2.2.1 hh.2.2.2, ih2]

theorem fs_out (text : List Nat) :
    filename_span (111 :: 117 :: 116 :: 58 :: 32 :: text) = ([111, 117, 116, 58], 5) := by
  rw [fs_plain 111 _ (by decide), fs_plain 117 _ (by decide), fs_plain 116 _ (by decide),
    fs_plain 58 _ (by decide), fs_separator 32 _ (by decide) (by decide) (by decide)]

theorem filenames_out (text value : List Nat)
    (hfs : filename_span text = (value, text.length + 1)) (hne : text ≠ []) :
    depfile_filenames ([111, 117, 116, 58, 32] ++ text).length ([111, 117, 116, 58, 32] ++ text)
      = [[111, 117, 116, 58], value] := by
  have e : [111, 117, 116, 58, 32] ++ text = 111 :: 117 :: 116 :: 58 :: 32 :: text := rfl
  rw [e, depfile_filenames_cons, fs_out]
  simp only [List.drop_succ_cons, List.drop_zero]
  obtain ⟨c, s, rfl⟩ := List.exists_cons_of_ne_nil hne
  rw [depfile_filenames_cons, hfs]
  rw [List.drop_eq_nil_of_le (by simp)]
  rfl

theorem Parse_filenames_out (value : List Nat) (hne : value ≠ [])
    (hl : value.getLast? ≠ some 58) :
    Parse_filenames [[111, 117, 116, 58], value] true none []
      = (true, some [111, 117, 116], [value], none) := by
  have hl2 : (value.getLast? == some 58) = false := by
    rw [beq_eq_false_iff_ne]
    exact hl
  rw [Parse_filenames_cons]
  simp only [List.getLast?_cons_cons, List.getLast?_singleton, beq_self_eq_true, if_true,
    List.dropLast_cons₂, List.dropLast_single, Bool.not_true, Bool.false_eq_true, if_false]
  rw [if_neg (by simp)]
  rw [Parse_filenames_cons]
  simp only [hl2, Bool.false_eq_true, if_false, Bool.not_false, if_true]
  rw [if_neg hne]
  rfl

/-! ## Parsing one escaped path -/

theorem Parse_out (text value : List Nat) (err : String)
    (hfs : filename_span text = (value, text.length + 1)) (htne : text ≠ [])
    (hvne : value ≠ []) (hl : value.getLast? ≠ some 58)
    (hb : ((([111, 117, 116, 58, 32] ++ text).length : Nat) : Int) ≤ INT_MAX) :
    ∃ content' parser',
      DepfileParser_Parse DepfileParser.fresh ([111, 117, 116, 58, 32] ++ text) err
        = .returned true content' parser' err ∧
      parser'.out_.chars content' = [111, 117, 116] ∧
      parser'.ins_.map (StringPiece.chars content') = [value] := by
  obtain ⟨content', parser', h, _, hh⟩ := Parse_refines ([111, 117, 116, 58, 32] ++ text) err hb
  rw [filenames_out text value hfs htne, Parse_filenames_out value hvne hl] at h hh
  refine ⟨content', parser', h, StringPiece.holds_chars _ _ _ hh.1, ?_⟩
  have h2 : List.Forall₂ (StringPiece.holds content') parser'.ins_ [value] := hh.2
  generalize parser'.ins_ = ins at h2
  cases h2 with
  | cons ha hb2 =>
    cases hb2
    rw [List.map_cons, List.map_nil, StringPiece.holds_chars _ _ _ ha]

theorem flatMap_text_ne_nil (es : List PathChar) (h : es ≠ []) :
    es.flatMap PathChar.text ≠ [] := by
  obtain ⟨e, es, rfl⟩ := List.exists_cons_of_ne_nil h
  rw [List.flatMap_cons]
  cases e <;> simp [PathChar.text]

theorem flatMap_value_ne_nil (es : List PathChar) (h : es ≠ []) :
    es.flatMap PathChar.value ≠ [] := by
  obtain ⟨e, es, rfl⟩ := List.exists_cons_of_ne_nil h
  rw [List.flatMap_cons]
  cases e <;> simp [PathChar.value]

theorem escape_path_text (p : List Nat) :
    (p.map (fun c => if escapes.contains c then PathChar.escaped c else PathChar.plain c)).flatMap
      PathChar.text = escape_path p := by
  unfold escape_path
  induction p with
  | nil => rfl
  | cons c p ih =>
    rw [List.map_cons, List.flatMap_cons, List.flatMap_cons, ih]
    by_cases h : escapes.contains c = true
    · simp only [h, if_true, PathChar.text]
    · simp only [h, if_false, PathChar.text, Bool.false_eq_true]

theorem escape_path_value (p : List Nat) :
    (p.map (fun c => if escapes.contains c then PathChar.escaped c else PathChar.plain c)).flatMap
      PathChar.value = p := by
  induction p with
  | nil => rfl
  | cons c p ih =>
    rw [List.map_cons, List.flatMap_cons, ih]
    by_cases h : escapes.contains c = true
    · simp only [h, if_true, PathChar.value, List.singleton_append]
    · simp only [h, if_false, PathChar.value, Bool.false_eq_true, List.singleton_append]

theorem escape_path_valid (p : List Nat)
    (hp : ∀ c ∈ p, plain_filename_byte c = true ∨ c ∈ escapes) :
    ∀ e ∈ p.map (fun c => if escapes.contains c then PathChar.escaped c else PathChar.plain c),
      e.valid = true := by
  intro e he
  rw [List.mem_map] at he
  obtain ⟨c, hc, rfl⟩ := he
  by_cases h : escapes.contains c = true
  · simp only [h, if_true, PathChar.valid]
  · simp only [h, if_false, PathChar.valid, Bool.false_eq_true]
    rcases hp c hc with h1 | h1
    · exact h1
    · exact absurd (List.elem_eq_true_of_mem h1) h

/-! ## The scanner without a bound on the length -/

theorem scan_plain_raw (A s : List Nat) (c : Nat) (o : Int) (hp : is_plain c = true) :
    Parse_scan (A ++ c :: s) A.length o
      = match (if o < (A.length : Int) then
            memmove (A ++ c :: s) o A.length
              (castU 64 (castS 32 (((s.takeWhile is_plain).length + 1 : Nat) : Int)))
          else some (A ++ c :: s)) with
        | none => .undefined
        | some content =>
          .step content (A.length + 1 + (s.takeWhile is_plain).length)
            (o + castS 32 (((s.takeWhile is_plain).length + 1 : Nat) : Int)) true := by
  have hg : (A ++ c :: s).getD A.length 0 = c := by
    rw [List.getD_append_right _ _ _ _ (le_refl _), Nat.sub_self]
    rfl
  have hd : (A ++ c :: s).drop (A.length + 1) = s := by
    rw [List.drop_append]
    rfl
  have ei : ((A.length + 1 + (s.takeWhile is_plain).length : Nat) : Int) - (A.length : Int)
      = (((s.takeWhile is_plain).length + 1 : Nat) : Int) := by
    push_cast
    omega
  unfold Parse_scan
  dsimp only
  rw [hg, if_pos ((is_plain_iff c).mp hp), hd, yy6_eq, ei]

theorem scan_end (C : List Nat) (o : Int) :
    Parse_scan C C.length o = .step C (C.length + 1) o false := by
  have hg : C.getD C.length 0 = 0 := by
    rw [List.getD_eq_default _ _ (le_refl _)]
  unfold Parse_scan
  dsimp only
  rw [hg]
  rfl

theorem filename_undefined (fuel : Nat) (C : List Nat) (i : Nat) (o : Int)
    (h : Parse_scan C i o = .undefined) :
    Parse_filename (fuel + 1) C i o = some .undefined := by
  rw [Parse_filename, h]

theorem takeWhile_all (R : List Nat) (hR : ∀ x ∈ R, is_plain x = true) :
    R.takeWhile is_plain = R :=
  List.takeWhile_eq_self_iff.mpr hR

/-! ## Spans of 2^31 characters and more -/

theorem Parse_long_span (R : List Nat) (hR : ∀ x ∈ R, is_plain x = true)
    (hlen : R.length = 2147483647) (err : String) :
    DepfileParser_Parse DepfileParser.fresh (92 :: 32 :: 97 :: R) err = .undefined := by
  have h1 : Parse_scan (92 :: 32 :: 97 :: R) 0 ((0 : Nat) : Int)
      = .step (32 :: 32 :: 97 :: R) 2 ((1 : Nat) : Int) true :=
    scan_bs_escape [] [] (97 :: R) 32 (by decide)
  have c1 : castS 32 (((R.takeWhile is_plain).length + 1 : Nat) : Int) = -2147483648 := by
    rw [takeWhile_all R hR, hlen, castS_32]
    norm_num
  have c2 : castU 64 (-2147483648) = 18446744071562067968 := by
    unfold castU
    norm_num
    rfl
  have h2 : Parse_scan (32 :: 32 :: 97 :: R) 2 ((1 : Nat) : Int) = .undefined := by
    have h := scan_plain_raw [32, 32] R 97 ((1 : Nat) : Int) (by decide)
    rw [c1, c2, if_pos (by decide)] at h
    have hm : memmove ([32, 32] ++ 97 :: R) ((1 : Nat) : Int) ([32, 32] : List Nat).length
        18446744071562067968 = none := by
      unfold memmove
      rw [if_neg]
      intro hc
      have := hc.2.2
      simp only [List.length_append, List.length_cons, List.length_nil, hlen] at this
      omega
    rw [hm] at h
    exact h
  have htok : Parse_filename ((92 :: 32 :: 97 :: R).length + 2) (92 :: 32 :: 97 :: R) 0
      ((0 : Nat) : Int) = some .undefined :=
    (filename_continue ((92 :: 32 :: 97 :: R).length + 1) _ _ _ _ _ _ h1).trans
      (filename_undefined _ _ _ _ h2)
  unfold DepfileParser_Parse
  rw [Parse_loop, if_pos (by simp)]
  dsimp only
  rw [htok]

theorem Parse_long_name_loop (f : Nat) (R : List Nat) (hR : ∀ x ∈ R, is_plain x = true)
    (hlen : R.length = 4294967296) (err : String) :
    Parse_loop (f + 3) (111 :: 117 :: 116 :: 58 :: 32 :: 97 :: R) 0
        (111 :: 117 :: 116 :: 58 :: 32 :: 97 :: R).length true DepfileParser.fresh err
      = .returned true (111 :: 117 :: 116 :: 58 :: 32 :: 97 :: R)
          (DepfileParser.mk (StringPiece.mk (some 0) 3) [StringPiece.mk (some 5) 1]) err := by
  generalize hC : (111 :: 117 :: 116 :: 58 :: 32 :: 97 :: R) = C
  have hCl : C.length = R.length + 6 := by
    rw [← hC]
    rfl
  have h1 : Parse_scan C 0 ((0 : Nat) : Int) = .step C 4 4 true := by
    have h := scan_plain_raw [] (117 :: 116 :: 58 :: 32 :: 97 :: R) 111 ((0 : Nat) : Int)
      (by decide)
    have tw : (117 :: 116 :: 58 :: 32 :: 97 :: R).takeWhile is_plain = [117, 116, 58] := rfl
    have c4 : castS 32 ((([117, 116, 58] : List Nat).length + 1 : Nat) : Int) = 4 :=
      castS_32_len 4 (by decide)
    rw [tw, if_neg (by decide), c4] at h
    rw [← hC]
    exact h
  have h2 : Parse_scan C 4 4 = .step C 5 4 false := by
    rw [← hC]
    exact scan_separator [111, 117, 116, 58] [] (97 :: R) 32 (by decide) (by decide) (by decide)
  have htok1 : Parse_filename (C.length + 2) C 0 ((0 : Nat) : Int)
      = some (.step C 5 4 false) :=
    (filename_continue (C.length + 1) _ _ _ _ _ _ h1).trans
      (filename_break _ _ _ _ _ _ _ h2)
  have c1 : castS 32 (((R.takeWhile is_plain).length + 1 : Nat) : Int) = 1 := by
    rw [takeWhile_all R hR, hlen, castS_32]
    norm_num
  have h3 : Parse_scan C 5 ((5 : Nat) : Int) = .step C C.length 6 true := by
    have h := scan_plain_raw [111, 117, 116, 58, 32] R 97 ((5 : Nat) : Int) (by decide)
    rw [c1, if_neg (by decide), takeWhile_all R hR] at h
    have e : ([111, 117, 116, 58, 32] : List Nat).length + 1 + R.length = C.length := by
      rw [hCl]
      simp only [List.length_cons, List.length_nil]
      omega
    rw [e] at h
    rw [← hC]
    rw [← hC] at h
    exact h
  have h4 : Parse_scan C C.length 6 = .step C (C.length + 1) 6 false := scan_end C 6
  have htok2 : Parse_filename (C.length + 2) C 5 ((5 : Nat) : Int)
      = some (.step C (C.length + 1) 6 false) :=
    (filename_continue (C.length + 1) _ _ _ _ _ _ h3).trans
      (filename_break _ _ _ _ _ _ _ h4)
  have e1 : castS 32 ((4 : Int) - ((0 : Nat) : Int)) = 4 := by
    rw [castS_32]
    norm_num
  have e2 : C.getD (((0 : Nat) : Int) + ((4 : Int) - 1)).toNat 0 = 58 := by
    rw [← hC]
    rfl
  have e3 : castU 64 ((4 : Int) - 1) = 3 := by
    unfold castU
    norm_num
    rfl
  rw [Parse_loop, if_pos (by omega)]
  dsimp only
  rw [htok1]
  dsimp only
  rw [e1, e2]
  simp only [gt_iff_lt, Nat.ofNat_pos, decide_True, beq_self_eq_true, Bool.and_self, if_true,
    Bool.not_true, Bool.false_eq_true, if_false]
  rw [if_neg (by norm_num : ¬ ((4 : Int) - 1 = 0)),
    if_pos (show DepfileParser.fresh.out_.str_ = none from rfl), e3]
  have e4 : castS 32 ((6 : Int) - ((5 : Nat) : Int)) = 1 := by
    rw [castS_32]
    norm_num
  have e5 : C.getD (((5 : Nat) : Int) + ((1 : Int) - 1)).toNat 0 = 97 := by
    rw [← hC]
    rfl
  have e6 : castU 64 (1 : Int) = 1 := by
    unfold castU
    norm_num
  have e7 : (decide ((1 : Int) > 0) && (97 : Nat) == 58) = false := rfl
  rw [Parse_loop, if_pos (by omega)]
  dsimp only
  rw [htok2]
  dsimp only
  rw [e4, e5, e7]
  simp only [Bool.false_eq_true, if_false, Bool.not_false, if_true]
  rw [if_neg (by norm_num : ¬ ((1 : Int) = 0)), e6, loop_end _ _ _ _ _ _ _ (by omega)]
  rfl

theorem Parse_long_name (R : List Nat) (hR : ∀ x ∈ R, is_plain x = true)
    (hlen : R.length = 4294967296) (err : String) :
    DepfileParser_Parse DepfileParser.fresh (111 :: 117 :: 116 :: 58 :: 32 :: 97 :: R) err
      = .returned true (111 :: 117 :: 116 :: 58 :: 32 :: 97 :: R)
          (DepfileParser.mk (StringPiece.mk (some 0) 3) [StringPiece.mk (some 5) 1]) err :=
  Parse_long_name_loop (R.length + 4) R hR hlen err

/-! ## De-escaping of paths -/

theorem escape_path_plain (p : List Nat) (h : ∀ c ∈ p, escapes.contains c = false) :
    escape_path p = p := by
  unfold escape_path
  induction p with
  | nil => rfl
  | cons c p ih =>
    rw [List.flatMap_cons, ih (fun x hx => h x (List.mem_cons_of_mem _ hx)),
      h c (List.mem_cons_self _ _)]
    rfl

theorem chars_long_name (R : List Nat) :
    [StringPiece.mk (some 5) 1].map
        (StringPiece.chars (111 :: 117 :: 116 :: 58 :: 32 :: 97 :: R)) = [[97]] :=
  rfl

/-- C28, counterexample: the content is backslash, space and 2^31 letters `a`,
with no colon in it. The backslash is dropped, so the letters have to move one
place down; their number, converted to `int`, is -2^31, and `memmove` is called
with that number converted to `size_t`: `Parse` does not return false, its
behaviour is undefined. -/
theorem C28_no_separator_counterexample :
    58 ∉ (92 :: 32 :: 97 :: List.replicate 2147483647 97) ∧
    DepfileParser_Parse DepfileParser.fresh (92 :: 32 :: 97 :: List.replicate 2147483647 97) ""
      = Parsed.undefined :=
  ⟨by
    intro h
    rcases List.mem_cons.mp h with e | h
    · exact absurd e (by decide)
    rcases List.mem_cons.mp h with e | h
    · exact absurd e (by decide)
    rcases List.mem_cons.mp h with e | h
    · exact absurd e (by decide)
    exact absurd (List.eq_of_mem_replicate h) (by decide),
  Parse_long_span (List.replicate 2147483647 97)
    (fun x hx => by rw [List.eq_of_mem_replicate hx]; rfl) (List.length_replicate _ _) ""⟩

/-- C29, counterexample: the path is 2^32 + 1 letters `a`, where nothing is
escaped. `Parse` of "out: " followed by it succeeds with the output "out", but
the length of the path, converted to `int`, is 1, and the one input is "a", not
the path. -/
theorem C29_de_escape_counterexample :
    (∀ c ∈ (97 :: List.replicate 4294967296 97), plain_filename_byte c = true) ∧
    DepfileParser_Parse DepfileParser.fresh
        ([111, 117, 116, 58, 32] ++ escape_path (97 :: List.replicate 4294967296 97)) ""
      = Parsed.returned true (111 :: 117 :: 116 :: 58 :: 32 :: 97 :: List.replicate 4294967296 97)
          (DepfileParser.mk (StringPiece.mk (some 0) 3) [StringPiece.mk (some 5) 1]) "" ∧
    [StringPiece.mk (some 5) 1].map
        (StringPiece.chars (111 :: 117 :: 116 :: 58 :: 32 :: 97 :: List.replicate 4294967296 97))
      = [[97]] ∧
    [[97]] ≠ [97 :: List.replicate 4294967296 97] := by
  have hall : ∀ c ∈ (97 :: List.replicate 4294967296 97), c = 97 := by
    intro c hc
    rcases List.mem_cons.mp hc with e | h
    · exact e
    · exact List.eq_of_mem_replicate h
  refine ⟨fun c hc => by rw [hall c hc]; rfl, ?_, chars_long_name _, ?_⟩
  · rw [escape_path_plain _ (fun c hc => by rw [hall c hc]; rfl)]
    exact Parse_long_name (List.replicate 4294967296 97)
      (fun x hx => by rw [List.eq_of_mem_replicate hx]; rfl) (List.length_replicate _ _) ""
  · intro h
    have h3 : ([] : List Nat) = List.replicate 4294967296 97 :=
      (List.cons.inj (List.cons.inj h).1).2
    have h2 := congrArg List.length h3
    rw [List.length_replicate, List.length_nil] at h2
    exact absurd h2 (by decide)

/-- C29, amended: `DepfileParser::Parse` de-escapes paths as its header comment
documents, when the content is shorter than 2^31 bytes. For every non-empty
path `p` made of plain filename bytes and escapable characters, not ending in a
colon, parsing "out: " followed by `p` with a backslash before each escapable
character succeeds with output "out" and exactly one input equal to `p`. More
generally, for every non-empty path written as elements `es` (plain bytes,
escaped characters, `$$`, and a backslash before a character that is neither
escapable nor NUL, newline or carriage return), parsing "out: " followed by the
text of `es` succeeds with output "out" and exactly one input, the value of `es`,
in which `$$` stands as one `$` and the other backslashes are kept with their
characters. -/
theorem C29_de_escape (p : List Nat) (es : List PathChar) (err : String)
    (hp : ∀ c ∈ p, plain_filename_byte c = true ∨ c ∈ escapes)
    (hpne : p ≠ []) (hpl : p.getLast? ≠ some 58)
    (hpb : ((([111, 117, 116, 58, 32] ++ escape_path p).length : Nat) : Int) ≤ INT_MAX)
    (hv : ∀ e ∈ es, e.valid = true)
    (hne : es ≠ []) (hl : (es.flatMap PathChar.value).getLast? ≠ some 58)
    (hb : ((([111, 117, 116, 58, 32] ++ es.flatMap PathChar.text).length : Nat) : Int)
      ≤ INT_MAX) :
    (∃ content' parser',
      DepfileParser_Parse DepfileParser.fresh ([111, 117, 116, 58, 32] ++ escape_path p) err
        = .returned true content' parser' err ∧
      parser'.out_.chars content' = [111, 117, 116] ∧
      parser'.ins_.map (StringPiece.chars content') = [p]) ∧
    (∃ content' parser',
      DepfileParser_Parse DepfileParser.fresh
          ([111, 117, 116, 58, 32] ++ es.flatMap PathChar.text) err
        = .returned true content' parser' err ∧
      parser'.out_.chars content' = [111, 117, 116] ∧
      parser'.ins_.map (StringPiece.chars content') = [es.flatMap PathChar.value]) := by
  constructor
  · have hq : p.map (fun c => if escapes.contains c then PathChar.escaped c
        else PathChar.plain c) ≠ [] := by
      intro h
      exact hpne (List.map_eq_nil_iff.mp h)
    have h := Parse_out _ _ err (fs_path _ (escape_path_valid p hp))
      (flatMap_text_ne_nil _ hq) (flatMap_value_ne_nil _ hq)
    rw [escape_path_text, escape_path_value] at h
    exact h hpl hpb
  · exact Parse_out _ _ err (fs_path es hv) (flatMap_text_ne_nil es hne)
      (flatMap_value_ne_nil es hne) hl hb

/-- Witness of C29: the path "a b#c" written as "a\ b\#c", and the path written
as "a$$\a\ b", whose value is "a$\a b". -/
theorem C29_de_escape_witness :
    (∃ content' parser',
      DepfileParser_Parse DepfileParser.fresh
          ([111, 117, 116, 58, 32] ++ escape_path [97, 32, 98, 35, 99]) ""
        = .returned true content' parser' "" ∧
      parser'.out_.chars content' = [111, 117, 116] ∧
      parser'.ins_.map (StringPiece.chars content') = [[97, 32, 98, 35, 99]]) ∧
    (∃ content' parser',
      DepfileParser_Parse DepfileParser.fresh
          ([111, 117, 116, 58, 32] ++ [PathChar.plain 97, PathChar.dollar, PathChar.verbatim 97,
            PathChar.escaped 32, PathChar.plain 98].flatMap PathChar.text) ""
        = .returned true content' parser' "" ∧
      parser'.out_.chars content' = [111, 117, 116] ∧
      parser'.ins_.map (StringPiece.chars content')
        = [[PathChar.plain 97, PathChar.dollar, PathChar.verbatim 97,
            PathChar.escaped 32, PathChar.plain 98].flatMap PathChar.value]) :=
  C29_de_escape [97, 32, 98, 35, 99]
    [PathChar.plain 97, PathChar.dollar, PathChar.verbatim 97, PathChar.escaped 32,
      PathChar.plain 98] "" (by decide) (by decide) (by decide) (by decide) (by decide)
    (List.cons_ne_nil _ _) (by decide) (by decide)

